import Mathlib

/-!
# Attic logic of the 3DWorld building generator (`src/building_attic.cpp`)

A shallow embedding of the attic routines together with theorems about them, followed by
the bone index bookkeeping of the scene reader (`src/assimp_wrap.cpp`).

Conventions of the embedding

* C++ `float` values are idealised as exact rationals (`ℚ`): the statements are about the
  arithmetic the source writes down, without rounding. The exception is the second model of
  `add_attic_access_door` (the definitions with suffix `_flt`), where every store into a
  `float` goes through a rounding function `rnd`; the claims whose truth depends on a
  comparison or an equality of rounded values (the part size boundary, the room filter, the
  room choice, the centring of the hatch) are stated on that model, for every `rnd` that is
  accurate to `2^-24`, and are evaluated with the binary32 rounding `round_float`.
* `cube_t` stores `d[3][2]` as the six fields `x1 x2 y1 y2 z1 z2`; a dimension index is a
  `Nat` (`0` is x, `1` is y, anything else is z) and a side index is a `Bool`
  (`false` is the low side `d[dim][0]`, `true` the high side `d[dim][1]`).
* helpers that the translation unit only includes from headers (`3DWorld.h`, `buildings.h`)
  are either small geometric utilities, modelled here from their description, or fields of
  the record `services`, over which every theorem is universally quantified.
* an `assert` that fails, or an out-of-range `parts[...]` access, is the result `none`.
* a float division by zero whose result would go into an emitted box has no rational value;
  it is the result `none` as well (`fdiv`).
* `add_attic_objects` carries a ghost record `emitted` of the objects it adds, each with the
  exclusion set at that moment; `add_attic_woodwork` returns the boxes it hands to
  `add_cube_to_verts`, before any rotation of the vertices.
* in the scene reader a value stored in an `unsigned` is taken modulo `2^32`
  (`unsigned_mod`), container sizes are natural numbers, and the `std::map` from bone names
  to indices is a list of pairs in the order of insertion.
-/

namespace Attic

/-! ## Points and cubes -/

/-- Modelled from the spec: the `point` / `vector3d` type of `3DWorld.h`, three coordinates. -/
structure point where
  x : ℚ
  y : ℚ
  z : ℚ
deriving DecidableEq

/-- Modelled from the spec: the default constructed point (all coordinates zero). -/
def point.zero : point := ⟨0, 0, 0⟩

/-- Modelled from the spec: `pt[dim]`, read access by dimension index. -/
def point.get (p : point) (dim : Nat) : ℚ :=
  match dim with
  | 0 => p.x
  | 1 => p.y
  | _ => p.z

/-- Modelled from the spec: `pt[dim] = v`, write access by dimension index. -/
def point.set (p : point) (dim : Nat) (v : ℚ) : point :=
  match dim with
  | 0 => { p with x := v }
  | 1 => { p with y := v }
  | _ => { p with z := v }

/-- Modelled from the spec: unary minus on `vector3d`. -/
def point.neg (p : point) : point := ⟨-p.x, -p.y, -p.z⟩

/-- Modelled from the spec: the axis-aligned box `cube_t` of `3DWorld.h` (`d[3][2]`). -/
structure cube_t where
  x1 : ℚ
  x2 : ℚ
  y1 : ℚ
  y2 : ℚ
  z1 : ℚ
  z2 : ℚ
deriving DecidableEq

namespace cube_t

/-- Modelled from the spec: the default constructed cube (all zeros). -/
def zero : cube_t := ⟨0, 0, 0, 0, 0, 0⟩

/-- Modelled from the spec: `d[dim][dir]`. -/
def d (c : cube_t) (dim : Nat) (dir : Bool) : ℚ :=
  match dim, dir with
  | 0, false => c.x1
  | 0, true => c.x2
  | 1, false => c.y1
  | 1, true => c.y2
  | _, false => c.z1
  | _, true => c.z2

/-- Modelled from the spec: the assignment `d[dim][dir] = v`. -/
def set_d (c : cube_t) (dim : Nat) (dir : Bool) (v : ℚ) : cube_t :=
  match dim, dir with
  | 0, false => { c with x1 := v }
  | 0, true => { c with x2 := v }
  | 1, false => { c with y1 := v }
  | 1, true => { c with y2 := v }
  | _, false => { c with z1 := v }
  | _, true => { c with z2 := v }

/-- Modelled from the spec: `dx()`, the x extent. -/
def dx (c : cube_t) : ℚ := c.x2 - c.x1

/-- Modelled from the spec: `dy()`, the y extent. -/
def dy (c : cube_t) : ℚ := c.y2 - c.y1

/-- Modelled from the spec: `dz()`, the z extent. -/
def dz (c : cube_t) : ℚ := c.z2 - c.z1

/-- Modelled from the spec: `get_sz_dim(dim)`, the extent along one dimension. -/
def get_sz_dim (c : cube_t) (dim : Nat) : ℚ := c.d dim true - c.d dim false

/-- Modelled from the spec: `get_center_dim(dim)`, the centre along one dimension. -/
def get_center_dim (c : cube_t) (dim : Nat) : ℚ := 0.5 * (c.d dim false + c.d dim true)

/-- Modelled from the spec: `xc()`, the x centre. -/
def xc (c : cube_t) : ℚ := 0.5 * (c.x1 + c.x2)

/-- Modelled from the spec: `yc()`, the y centre. -/
def yc (c : cube_t) : ℚ := 0.5 * (c.y1 + c.y2)

/-- Modelled from the spec: `zc()`, the z centre. -/
def zc (c : cube_t) : ℚ := 0.5 * (c.z1 + c.z2)

/-- Modelled from the spec: `get_cube_center()`. -/
def get_cube_center (c : cube_t) : point := ⟨c.xc, c.yc, c.zc⟩

/-- Modelled from the spec: `is_all_zeros()`, all six bounds are zero. -/
def is_all_zeros (c : cube_t) : Bool :=
  decide (c.x1 = 0 ∧ c.x2 = 0 ∧ c.y1 = 0 ∧ c.y2 = 0 ∧ c.z1 = 0 ∧ c.z2 = 0)

/-- Modelled from the spec: `is_strictly_normalized()`, "all dimension extents strictly
positive". -/
def is_strictly_normalized (c : cube_t) : Bool :=
  decide (c.x1 < c.x2 ∧ c.y1 < c.y2 ∧ c.z1 < c.z2)

/-- Modelled from the spec: `expand_in_dim(dim, val)`, both sides of one dimension move
outward by `val`. -/
def expand_in_dim (c : cube_t) (dim : Nat) (val : ℚ) : cube_t :=
  (c.set_d dim false (c.d dim false - val)).set_d dim true (c.d dim true + val)

/-- Modelled from the spec: `expand_by_xy(val)`, all four horizontal sides move outward. -/
def expand_by_xy (c : cube_t) (val : ℚ) : cube_t :=
  { c with x1 := c.x1 - val, x2 := c.x2 + val, y1 := c.y1 - val, y2 := c.y2 + val }

/-- Modelled from the spec: `set_from_point(p)`, the degenerate cube at a point. -/
def set_from_point (p : point) : cube_t := ⟨p.x, p.x, p.y, p.y, p.z, p.z⟩

/-- Modelled from the spec: `set_from_sphere(p, r)`, the bounding cube of a sphere. -/
def set_from_sphere (p : point) (r : ℚ) : cube_t :=
  ⟨p.x - r, p.x + r, p.y - r, p.y + r, p.z - r, p.z + r⟩

/-- Modelled from the spec: `clamp_pt_xy(pt)`, x and y of the point are clipped into the
cube's range, z is left alone. -/
def clamp_pt_xy (c : cube_t) (p : point) : point :=
  { p with x := max c.x1 (min c.x2 p.x), y := max c.y1 (min c.y2 p.y) }

/-- Modelled from the spec: `contains_pt_xy(pt)`, strict containment in the footprint. -/
def contains_pt_xy (c : cube_t) (p : point) : Bool :=
  decide (p.x > c.x1 ∧ p.x < c.x2 ∧ p.y > c.y1 ∧ p.y < c.y2)

/-- Modelled from the spec: `contains_pt_xy_inclusive(pt)`, containment in the footprint,
"inclusive boundary test". -/
def contains_pt_xy_inclusive (c : cube_t) (p : point) : Bool :=
  decide (p.x ≥ c.x1 ∧ p.x ≤ c.x2 ∧ p.y ≥ c.y1 ∧ p.y ≤ c.y2)

/-- Modelled from the spec: `contains_cube(o)`, the other cube lies inside this one in all
three dimensions (boundaries may touch). -/
def contains_cube (c o : cube_t) : Bool :=
  decide (c.x1 ≤ o.x1 ∧ o.x2 ≤ c.x2 ∧ c.y1 ≤ o.y1 ∧ o.y2 ≤ c.y2 ∧ c.z1 ≤ o.z1 ∧ o.z2 ≤ c.z2)

/-- Modelled from the spec: `intersects_xy(o)`, the footprints overlap with positive area. -/
def intersects_xy (c o : cube_t) : Bool :=
  decide (o.x1 < c.x2 ∧ o.x2 > c.x1 ∧ o.y1 < c.y2 ∧ o.y2 > c.y1)

/-- Modelled from the spec: `intersects(o)`, the cubes overlap with positive volume. -/
def intersects (c o : cube_t) : Bool :=
  decide (o.x1 < c.x2 ∧ o.x2 > c.x1 ∧ o.y1 < c.y2 ∧ o.y2 > c.y1 ∧ o.z1 < c.z2 ∧ o.z2 > c.z1)

end cube_t

/-- Modelled from the spec: `set_cube_zvals(c, z1, z2)`. -/
def set_cube_zvals (c : cube_t) (z1 z2 : ℚ) : cube_t := { c with z1 := z1, z2 := z2 }

/-- Modelled from the spec: `set_wall_width(c, pos, half_thick, dim)`, the cube spans
`pos ± half_thick` in `dim`. -/
def set_wall_width (c : cube_t) (pos half_thick : ℚ) (dim : Nat) : cube_t :=
  (c.set_d dim false (pos - half_thick)).set_d dim true (pos + half_thick)

/-- Modelled from the spec: `has_bcube_int(c, cubes)`, some cube of the list intersects `c`. -/
def has_bcube_int (c : cube_t) (cubes : List cube_t) : Bool :=
  cubes.any fun o => c.intersects o

/-- Modelled from the spec: `cube_with_ix_t`, a cube with an index ("AtticAccess: an
axis-aligned box with an orientation index"). -/
structure cube_with_ix_t where
  cube : cube_t
  ix : Nat
deriving DecidableEq

/-! ## Rooms, roof surfaces, buildings -/

/-- Modelled from the spec: `room_t` of `buildings.h`, a cube with the part it belongs to,
the hallway flag and the per-floor stairs mask read by `has_stairs_on_floor`. -/
structure room_t where
  cube : cube_t
  part_id : Nat
  is_hallway : Bool
  has_stairs : Nat
deriving DecidableEq

/-- Modelled from the spec: the default constructed room (`room_t best_room;`). -/
def room_t.zero : room_t := ⟨cube_t.zero, 0, false, 0⟩

/-- Modelled from the spec: the type tag of a roof surface, "{ROOF, WALL, OTHER}". -/
inductive tquad_type where
  | TYPE_ROOF
  | TYPE_WALL
  | TYPE_OTHER
deriving DecidableEq

/-- Modelled from the spec: `tquad_with_ix_t`, "ordered list of 3-4 3D points (planar), a
type tag"; `pts` is the array `point pts[4]`, of which the first `npts` are used. -/
structure tquad_with_ix_t where
  p0 : point
  p1 : point
  p2 : point
  p3 : point
  npts : Nat
  type : tquad_type
deriving DecidableEq

/-- Modelled from the spec: `tq.pts[n]`. -/
def tquad_with_ix_t.pts (tq : tquad_with_ix_t) (n : Nat) : point :=
  match n with
  | 0 => tq.p0
  | 1 => tq.p1
  | 2 => tq.p2
  | _ => tq.p3

/-- Modelled from the spec: the first `npts` points of the surface, as a list. -/
def tquad_with_ix_t.pts_list (tq : tquad_with_ix_t) : List point :=
  [tq.p0, tq.p1, tq.p2, tq.p3].take tq.npts

/-- Modelled from the spec: `get_bcube()`, the "axis-aligned bounding box" of the used
points (the first point alone when `npts` is zero). -/
def tquad_with_ix_t.get_bcube (tq : tquad_with_ix_t) : cube_t :=
  (tq.pts_list.drop 1).foldl
    (fun c p => ⟨min c.x1 p.x, max c.x2 p.x, min c.y1 p.y, max c.y2 p.y, min c.z1 p.z, max c.z2 p.z⟩)
    (cube_t.set_from_point tq.p0)

/-- Modelled from the spec: `dot_product_ptv(v, p1, p2)`, the dot product of `v` with
`p1 - p2` ("the signed distance from pos to the surface using the outward normal"). -/
def dot_product_ptv (v p1 p2 : point) : ℚ :=
  v.x * (p1.x - p2.x) + v.y * (p1.y - p2.y) + v.z * (p1.z - p2.z)

/-- Modelled from the spec: the kinds of placed object, "(kind: DOOR, LIGHT, CHIMNEY,
COLLIDER, FURNACE, BOX, LAMP)". -/
inductive room_object where
  | TYPE_ATTIC_DOOR
  | TYPE_LIGHT
  | TYPE_CHIMNEY
  | TYPE_COLLIDER
  | TYPE_FURNACE
  | TYPE_BOX
  | TYPE_LAMP
deriving DecidableEq

/-- Modelled from the spec: the object flags this file sets ("flag bitset"). -/
inductive ro_flag where
  | RO_FLAG_INTERIOR
  | RO_FLAG_IN_ATTIC
  | RO_FLAG_IN_HALLWAY
  | RO_FLAG_LIT
  | RO_FLAG_EMISSIVE
  | RO_FLAG_NOCOLL
  | RO_FLAG_INVIS
  | RO_FLAG_IS_HOUSE
  | RO_FLAG_OPEN
deriving DecidableEq

/-- Modelled from the spec: the shape tag of a placed object. -/
inductive room_obj_shape where
  | SHAPE_CUBE
  | SHAPE_SPHERE
deriving DecidableEq

/-- Modelled from the spec: `room_object_t`, "a typed record with a bounding box,
orientation, room id, and flag bitset"; the colour argument is left out. -/
structure room_object_t where
  cube : cube_t
  type : room_object
  room_id : Int
  dim : Bool
  dir : Bool
  flags : List ro_flag
  light_amt : ℚ
  shape : room_obj_shape
deriving DecidableEq

/-- Modelled from the spec: the "explicit, copyable state" of the random generator
`rand_gen_t` (two seed words). -/
structure rand_gen_t where
  rseed1 : Nat
  rseed2 : Nat
deriving DecidableEq

/-- Modelled from the spec: the part of `building_interior_t` the attic code touches
(`rooms`, `attic_access`, `room_geom->objs`). -/
structure building_interior_t where
  rooms : List room_t
  attic_access : cube_with_ix_t
  objs : List room_object_t
deriving DecidableEq

/-- Modelled from the spec: the part of `building_t` the attic code touches. -/
structure building_t where
  parts : List cube_t
  real_num_parts : Nat
  roof_dims : Nat
  roof_tquads : List tquad_with_ix_t
  interior : building_interior_t
  interior_z2 : ℚ
  has_chimney : Nat
  is_house : Bool
deriving DecidableEq

/-- The result of one furnace candidate draw: `gen_furnace_cand` returns a flag and writes
`furnace`, `dim`, `dir` and the generator. -/
structure furnace_cand where
  ok : Bool
  furnace : cube_t
  dim : Bool
  dir : Bool
  rgen : rand_gen_t

/-- The functions this translation unit calls but does not define: member functions of
`building_t`, `room_t` and `room_object_t` declared in `buildings.h`, the random generator,
the polygon and vector utilities (`get_norm`, `point_in_polygon_2d`, the vector length
`mag`, the rounding `round_fp`) and `gen_furnace_cand`. Every theorem holds for all values
of these fields. -/
structure services where
  get_window_vspace : building_t → ℚ
  get_floor_thickness : building_t → ℚ
  get_attic_beam_depth : building_t → ℚ
  has_attic : building_t → Bool
  has_basement : building_t → Bool
  get_attic_part : building_t → cube_t
  get_chimney : building_t → cube_t
  get_room_containing_pt : building_t → point → Int
  has_stairs_on_floor : room_t → Nat → Bool
  rand_bool : rand_gen_t → Bool × rand_gen_t
  rand : rand_gen_t → Nat × rand_gen_t
  get_norm : tquad_with_ix_t → point
  point_in_polygon_2d : ℚ → ℚ → tquad_with_ix_t → Bool
  gen_furnace_cand : cube_t → ℚ → Bool → rand_gen_t → furnace_cand
  add_boxes_to_space : room_object_t → List room_object_t → cube_t → List cube_t → rand_gen_t →
    Nat → ℚ → ℚ → ℚ → Bool → List ro_flag → List room_object_t × List cube_t × rand_gen_t
  try_add_lamp : cube_t → ℚ → Int → List ro_flag → ℚ → List cube_t → List room_object_t →
    rand_gen_t → List cube_t × List room_object_t × rand_gen_t
  mag : point → ℚ
  round_fp : ℚ → Int
  is_open : room_object_t → Bool

/-- Modelled from the spec: `get_part_for_room(room)`, the part `parts[room.part_id]`
(asserted to exist). -/
def get_part_for_room (b : building_t) (room : room_t) : Option cube_t :=
  b.parts[room.part_id]?

/-- Modelled from the spec: `get_room(room_id)`, the room `interior->rooms[room_id]`
(asserted to exist). -/
def get_room (b : building_t) (room_id : Int) : Option room_t :=
  if room_id < 0 then none else b.interior.rooms[room_id.toNat]?

/-! ## Access hatch placement -/

/-- The three variables the room loop of `add_attic_access_door` updates. -/
structure room_scan where
  best_room : room_t
  best_area : ℚ
  in_hallway : Bool
deriving DecidableEq

/-- The `for` loop over rooms in `add_attic_access_door` (lines 78-87), run over the rooms
from index `rooms_start` on; `floor` is the value of `num_floors-1`. -/
def scan_rooms (sv : services) (part_ix floor : Nat) (half_len half_wid : ℚ) :
    List room_t → room_scan → room_scan
  | [], st => st
  | room :: rest, st =>
    if room.part_id ≠ part_ix then scan_rooms sv part_ix floor half_len half_wid rest st
    else if sv.has_stairs_on_floor room floor then
      scan_rooms sv part_ix floor half_len half_wid rest st
    else if max room.cube.dx room.cube.dy < 2.5 * half_len
        ∨ min room.cube.dx room.cube.dy < 2.5 * half_wid then
      scan_rooms sv part_ix floor half_len half_wid rest st
    else if room.is_hallway then { best_room := room, best_area := st.best_area, in_hallway := true }
    else
      let area := room.cube.dx * room.cube.dy
      if area > st.best_area then
        scan_rooms sv part_ix floor half_len half_wid rest
          { best_room := room, best_area := area, in_hallway := st.in_hallway }
      else scan_rooms sv part_ix floor half_len half_wid rest st

/-- The value of the unsigned expression `num_floors-1` (32 bit wrap-around). -/
def top_floor_ix (num_floors : Nat) : Nat := (num_floors + 4294967295) % 4294967296

/-- The state of the room loop of `add_attic_access_door` when it exits: `best_room`,
`best_area` and `in_hallway` (lines 73-87). -/
def select_room (sv : services) (b : building_t) (part_ix num_floors rooms_start : Nat) :
    room_scan :=
  let floor_spacing := sv.get_window_vspace b
  let half_len := 0.24 * floor_spacing
  let half_wid := 0.16 * floor_spacing
  scan_rooms sv part_ix (top_floor_ix num_floors) half_len half_wid
    (b.interior.rooms.drop rooms_start) ⟨room_t.zero, 0.0, false⟩

/-- The value returned by `add_attic_access_door` together with the two pieces of state it
has by reference: the building and the caller's random generator. -/
structure door_result where
  ret : Bool
  bldg : building_t
  rgen : rand_gen_t
deriving DecidableEq

/-- The local `valid_area` of `add_attic_access_door` (lines 90-92): the room shrunk by
`1.2*half_len` in the long dimension and by `1.2*half_wid` in the other one. -/
def hatch_valid_area (best_room : cube_t) (long_dim : Bool) (half_len half_wid : ℚ) : cube_t :=
  (best_room.expand_in_dim long_dim.toNat (-1.2 * half_len)).expand_in_dim
    (!long_dim).toNat (-1.2 * half_wid)

/-- The hallway branch of `add_attic_access_door` (lines 98-100): the room centre moved off
centre by two draws from `rgen2`; the generator after the draws is returned as well. -/
def hallway_access_pos (sv : services) (best_room : cube_t) (long_dim : Bool)
    (rgen2 : rand_gen_t) : point × rand_gen_t :=
  let pos0 := best_room.get_cube_center
  let r1 := sv.rand_bool rgen2
  let pos1 := pos0.set long_dim.toNat (pos0.get long_dim.toNat
    + (if r1.1 then -1.0 else 1.0) * 0.1 * best_room.get_sz_dim long_dim.toNat)
  let r2 := sv.rand_bool r1.2
  (pos1.set (!long_dim).toNat (pos1.get (!long_dim).toNat
    + (if r2.1 then -1.0 else 1.0) * 0.2 * best_room.get_sz_dim (!long_dim).toNat), r2.2)

/-- The non-hallway branch of `add_attic_access_door` (lines 103-108); `part` is
`get_part_for_room(best_room)`. The z value of `access_pos` is never assigned in this
branch (it is overwritten by `set_cube_zvals` later) and is taken to be zero. -/
def room_access_pos (best_room part : cube_t) : point :=
  let span_x : Bool := decide (best_room.x1 = part.x1 ∧ best_room.x2 = part.x2)
  let span_y : Bool := decide (best_room.y1 = part.y1 ∧ best_room.y2 = part.y2)
  let xd : Bool := decide (best_room.xc < part.xc)
  let yd : Bool := decide (best_room.yc < part.yc)
  { point.zero with
    x := if span_x then best_room.xc else 0.7 * best_room.d 0 xd + 0.3 * best_room.d 0 (!xd),
    y := if span_y then best_room.yc else 0.7 * best_room.d 1 yd + 0.3 * best_room.d 1 (!yd) }

/-- The tail of `add_attic_access_door` (lines 110-116): clamp the position into the
valid area, build the hatch box around it and compute the orientation index. -/
def make_attic_access (best_room valid_area ceiling : cube_t) (long_dim : Bool)
    (half_len half_wid : ℚ) (access_pos : point) : cube_with_ix_t :=
  let access_pos := valid_area.clamp_pt_xy access_pos
  let hatch := ((cube_t.set_from_point access_pos).expand_in_dim long_dim.toNat
    half_len).expand_in_dim (!long_dim).toNat half_wid
  let hatch := set_cube_zvals hatch ceiling.z1 ceiling.z2
  let dir : Bool :=
    decide (best_room.get_center_dim long_dim.toNat < hatch.get_center_dim long_dim.toNat)
  ⟨hatch, 2 * long_dim.toNat + dir.toNat⟩

/-- The function `building_t::add_attic_access_door` (lines 66-118). The result is `none`
when `parts[part_ix]` or `get_part_for_room` is out of range. -/
def add_attic_access_door (sv : services) (b : building_t) (ceiling : cube_t)
    (part_ix num_floors rooms_start : Nat) (rgen : rand_gen_t) : Option door_result :=
  let floor_spacing := sv.get_window_vspace b
  match b.parts[part_ix]? with
  | none => none
  | some part =>
    if min part.dx part.dy < 2.75 * floor_spacing then some ⟨false, b, rgen⟩
    else
      let half_len := 0.24 * floor_spacing
      let half_wid := 0.16 * floor_spacing
      let sel := select_room sv b part_ix num_floors rooms_start
      let best_room := sel.best_room
      let in_hallway := sel.in_hallway
      if best_room.cube.is_all_zeros then some ⟨false, b, rgen⟩
      else
        let long_dim : Bool := decide (best_room.cube.dx < best_room.cube.dy)
        let valid_area := hatch_valid_area best_room.cube long_dim half_len half_wid
        if !valid_area.is_strictly_normalized then some ⟨false, b, rgen⟩
        else
          let rgen2 := rgen
          let access_pos : Option point :=
            if in_hallway then some (hallway_access_pos sv best_room.cube long_dim rgen2).1
            else (get_part_for_room b best_room).map fun part =>
              room_access_pos best_room.cube part
          match access_pos with
          | none => none
          | some access_pos =>
            some ⟨true, { b with interior := { b.interior with
              attic_access := make_attic_access best_room.cube valid_area ceiling long_dim
                half_len half_wid access_pos } }, rgen⟩

/-- The function `building_t::get_attic_access_door_avoid` (lines 120-129); `none` when
`assert(has_attic())` fails. -/
def get_attic_access_door_avoid (sv : services) (b : building_t) : Option cube_t :=
  if !sv.has_attic b then none else
  let floor_spacing := sv.get_window_vspace b
  let avoid := b.interior.attic_access
  let dim : Bool := decide (avoid.ix >>> 1 ≠ 0)
  let dir : Bool := decide (avoid.ix &&& 1 ≠ 0)
  let c := avoid.cube.expand_by_xy (0.25 * floor_spacing)
  let c := c.set_d dim.toNat dir (c.d dim.toNat dir + (if dir then 1.0 else -1.0) * 0.5 * floor_spacing)
  let c := { c with z2 := c.z2 + 0.5 * floor_spacing }
  some c

/-! ## Roof surface classifier -/

/-- The function `building_t::is_attic_roof` (lines 338-344). -/
def is_attic_roof (sv : services) (b : building_t) (tq : tquad_with_ix_t)
    (type_roof_only : Bool) : Bool :=
  if !sv.has_attic b then false
  else if tq.type ≠ tquad_type.TYPE_ROOF ∧ (type_roof_only = true ∨ tq.type ≠ tquad_type.TYPE_WALL)
  then false
  else
    let tq_bcube := tq.get_bcube
    if tq_bcube.z1 < b.interior.attic_access.cube.z1 then false
    else (sv.get_attic_part b).contains_pt_xy_inclusive tq_bcube.get_cube_center

/-- The loop of `building_t::point_under_attic_roof` (lines 22-30) over the remaining roof
surfaces; `cnorm` is the current value behind the pointer `cnorm`, the result is the
returned flag and the final value behind the pointer. -/
def point_under_attic_roof_loop (sv : services) (b : building_t) (pos : point) :
    List tquad_with_ix_t → point → Bool × point
  | [], cnorm => (false, cnorm)
  | tq :: rest, cnorm =>
    if !is_attic_roof sv b tq true then point_under_attic_roof_loop sv b pos rest cnorm
    else if !sv.point_in_polygon_2d pos.x pos.y tq then
      point_under_attic_roof_loop sv b pos rest cnorm
    else
      let normal := sv.get_norm tq
      if normal.z = 0.0 then point_under_attic_roof_loop sv b pos rest cnorm
      else
        let cnorm := normal.neg
        if dot_product_ptv normal pos (tq.pts 0) < 0.0 then (true, cnorm)
        else point_under_attic_roof_loop sv b pos rest cnorm

/-- The function `building_t::point_under_attic_roof` (lines 19-31), called with a non-null
`cnorm` whose target holds `cnorm` on entry. The returned flag does not depend on `cnorm`,
so the first component is also the result of the call with a null pointer. -/
def point_under_attic_roof (sv : services) (b : building_t) (pos : point) (cnorm : point) :
    Bool × point :=
  if !(sv.get_attic_part b).contains_pt_xy pos then (false, cnorm)
  else point_under_attic_roof_loop sv b pos b.roof_tquads cnorm

/-- The function `building_t::point_in_attic` (lines 32-35), with a null `cnorm`. -/
def point_in_attic (sv : services) (b : building_t) (pos : point) : Bool :=
  if !sv.has_attic b ∨ pos.z < b.interior.attic_access.cube.z2 ∨ pos.z > b.interior_z2 then false
  else (point_under_attic_roof sv b pos point.zero).1

/-- The function `building_t::cube_in_attic` (lines 36-42). -/
def cube_in_attic (sv : services) (b : building_t) (c : cube_t) : Bool :=
  if !sv.has_attic b ∨ c.z2 < b.interior.attic_access.cube.z2 ∨ c.z1 > b.interior_z2 then false
  else
    let z2 := c.z2 + 2.5 * sv.get_attic_beam_depth b
    (point_under_attic_roof sv b ⟨c.x1, c.y1, z2⟩ point.zero).1
      || (point_under_attic_roof sv b ⟨c.x1, c.y2, z2⟩ point.zero).1
      || (point_under_attic_roof sv b ⟨c.x2, c.y2, z2⟩ point.zero).1
      || (point_under_attic_roof sv b ⟨c.x2, c.y1, z2⟩ point.zero).1

/-- The function `building_t::get_attic_roof_tquads` (lines 44-51). -/
def get_attic_roof_tquads (sv : services) (b : building_t) : List tquad_with_ix_t :=
  if !sv.has_attic b then [] else b.roof_tquads.filter fun tq => is_attic_roof sv b tq true

/-! ## Object population -/

/-- The function `find_roofline_beam_span` (lines 131-139): the span of the roof peak
points in the dimension other than `dim`, starting from the swapped (denormalized) range. -/
def find_roofline_beam_span (beam : cube_t) (roof_z2 : ℚ) (tq : tquad_with_ix_t)
    (dim : Bool) : cube_t :=
  let nd := (!dim).toNat
  let beam0 := (beam.set_d nd false (beam.d nd true)).set_d nd true (beam.d nd false)
  (List.range 4).foldl
    (fun bm n =>
      if (tq.pts n).z ≠ roof_z2 then bm
      else
        let bm1 := bm.set_d nd false (min (bm.d nd false) ((tq.pts n).get nd))
        bm1.set_d nd true (max (bm1.d nd true) ((tq.pts n).get nd)))
    beam0

/-- One iteration of the loop of `create_attic_posts` (lines 145-149): the post at end `d`
of the beam, `none` when `assert(post.is_strictly_normalized())` fails, and otherwise the
new value of `posts[d]` (left all zeros when the post is too close to the hatch). -/
def create_attic_post (attic_access_z2 : ℚ) (avoid beam : cube_t) (dim d : Bool) :
    Option cube_t :=
  let nd := (!dim).toNat
  let post := set_cube_zvals beam attic_access_z2 beam.z1
  let post := post.set_d nd (!d) (post.d nd d + (if d then -1.0 else 1.0) * beam.dz)
  if !post.is_strictly_normalized then none
  else if !post.intersects_xy avoid then some post
  else some cube_t.zero

/-- The function `create_attic_posts` (lines 140-151); `none` when one of the assertions
fails, otherwise the array `posts[2]`. -/
def create_attic_posts (sv : services) (b : building_t) (beam : cube_t) (dim : Bool) :
    Option (cube_t × cube_t) :=
  if !beam.is_strictly_normalized then none
  else
    match get_attic_access_door_avoid sv b with
    | none => none
    | some avoid =>
      match create_attic_post b.interior.attic_access.cube.z2 avoid beam dim false,
        create_attic_post b.interior.attic_access.cube.z2 avoid beam dim true with
      | some p0, some p1 => some (p0, p1)
      | _, _ => none

/-- The state of one placement pass of `add_attic_objects`: the object list
`interior->room_geom->objs`, the exclusion set `avoid_cubes`, the generator, and a ghost
record `emitted` that pairs every object emitted by this file with the exclusion set at
the moment of its emission. -/
structure attic_pass where
  objs : List room_object_t
  avoid_cubes : List cube_t
  rgen : rand_gen_t
  emitted : List (room_object_t × List cube_t)

/-- The statement `objs.emplace_back(...)`, recorded in the ghost list as well. -/
def attic_pass.emit (st : attic_pass) (o : room_object_t) : attic_pass :=
  { st with objs := st.objs ++ [o], emitted := st.emitted ++ [(o, st.avoid_cubes)] }

/-- The statement `avoid_cubes.push_back(c)`. -/
def attic_pass.avoid (st : attic_pass) (c : cube_t) : attic_pass :=
  { st with avoid_cubes := st.avoid_cubes ++ [c] }

/-- The value of `obj_flags` in `add_attic_objects`. -/
def attic_obj_flags : List ro_flag := [ro_flag.RO_FLAG_INTERIOR, ro_flag.RO_FLAG_IN_ATTIC]

/-- The light positions computed by `add_attic_objects` (lines 173-198): the radius and the
first `num_lights` entries of `light_pos`. -/
def attic_light_positions (sv : services) (b : building_t) (part : cube_t) (adoor_z2 : ℚ) :
    ℚ × List point :=
  let long_dim : Bool := decide (part.dx < part.dy)
  let beam_depth := sv.get_attic_beam_depth b
  let sep_dist := part.get_sz_dim long_dim.toNat - part.get_sz_dim (!long_dim).toNat
  let attic_height := b.interior_z2 - adoor_z2
  let light_radius := 0.03 * attic_height
  let light_center : point := ⟨part.xc, part.yc, b.interior_z2 - 1.2 * light_radius - beam_depth⟩
  if sep_dist > 0.25 * attic_height then
    let move_dist := 0.5 * sep_dist - light_radius - beam_depth
    let test_pt (d : Bool) : point :=
      let p := { light_center with z := light_center.z + light_radius }
      let p := p.set long_dim.toNat
        (p.get long_dim.toNat + (if d then -1.0 else 1.0) * (move_dist + light_radius))
      p.set (!long_dim).toNat (p.get (!long_dim).toNat + 0.01 * sep_dist)
    let valid : Bool := point_in_attic sv b (test_pt false) && point_in_attic sv b (test_pt true)
    if valid then
      (light_radius,
        [light_center.set long_dim.toNat (light_center.get long_dim.toNat - move_dist),
         light_center.set long_dim.toNat (light_center.get long_dim.toNat + move_dist)])
    else (light_radius, [light_center])
  else (light_radius, [light_center])

/-- The chimney box of `add_attic_objects` after `max_eq(chimney.z1(), adoor.z2())` and
`min_eq(chimney.z2(), interior_z2)` (lines 207-208). -/
def clip_chimney (chimney : cube_t) (adoor_z2 interior_z2 : ℚ) : cube_t :=
  { chimney with z1 := max chimney.z1 adoor_z2, z2 := min chimney.z2 interior_z2 }

/-- The chimney box of `add_attic_objects` after the shrink of line 210. -/
def shrink_chimney (chimney : cube_t) : cube_t :=
  chimney.expand_by_xy (-0.05 * min chimney.dx chimney.dy)

/-- The chimney block of `add_attic_objects` (lines 205-216); `none` when
`assert(chimney.z1() < chimney.z2())` fails. -/
def add_attic_chimney (sv : services) (b : building_t) (adoor_z2 : ℚ) (avoid : cube_t)
    (room_id : Int) (light_amt : ℚ) (st : attic_pass) : Option attic_pass :=
  if b.has_chimney = 1 then
    if (clip_chimney (sv.get_chimney b) adoor_z2 b.interior_z2).z1
        < (clip_chimney (sv.get_chimney b) adoor_z2 b.interior_z2).z2 then
      if !(shrink_chimney (clip_chimney (sv.get_chimney b) adoor_z2 b.interior_z2)).intersects
          avoid then
        some ((st.emit ⟨shrink_chimney (clip_chimney (sv.get_chimney b) adoor_z2 b.interior_z2),
          room_object.TYPE_CHIMNEY, room_id, false, false, attic_obj_flags,
          light_amt, room_obj_shape.SHAPE_CUBE⟩).avoid
            (shrink_chimney (clip_chimney (sv.get_chimney b) adoor_z2 b.interior_z2)))
      else some st
    else none
  else some st

/-- The inner loop over `posts[d]` of `add_attic_objects` (lines 234-239) for one post. -/
def add_attic_post (post : cube_t) (room_id : Int) (dim : Bool) (beam_width : ℚ)
    (st : attic_pass) : attic_pass :=
  if post.is_all_zeros then st
  else
    (st.emit ⟨post, room_object.TYPE_COLLIDER, room_id, dim, false,
      ro_flag.RO_FLAG_INVIS :: attic_obj_flags, 1.0, room_obj_shape.SHAPE_CUBE⟩).avoid
      (post.expand_by_xy beam_width)

/-- The body of the loop over roof surfaces of `add_attic_objects` (lines 219-239) for one
surface; `none` when an assertion of `create_attic_posts` fails. -/
def add_attic_posts_tquad (sv : services) (b : building_t) (room_id : Int)
    (tq : tquad_with_ix_t) (st : attic_pass) : Option attic_pass :=
  let beam_depth := sv.get_attic_beam_depth b
  if tq.npts = 3 ∨ is_attic_roof sv b tq true = false then some st
  else
    let normal := sv.get_norm tq
    let dim : Bool := decide (|normal.x| < |normal.y|)
    let dir : Bool := decide (normal.get dim.toNat > 0.0)
    if dir = true then some st
    else
      let beam_width := 0.5 * beam_depth
      let bcube := tq.get_bcube
      let beam := { bcube with z1 := bcube.z2 - beam_depth }
      let beam := set_wall_width beam (bcube.d dim.toNat (!dir)) (0.5 * beam_width) dim.toNat
      let beam := find_roofline_beam_span beam bcube.z2 tq dim
      if beam.d (!dim).toNat false = bcube.d (!dim).toNat false then some st
      else if beam.get_sz_dim (!dim).toNat ≤ beam_depth then some st
      else
        match create_attic_posts sv b beam dim with
        | none => none
        | some posts =>
          some (add_attic_post posts.2 room_id dim beam_width
            (add_attic_post posts.1 room_id dim beam_width st))

/-- The loop over `roof_tquads` of `add_attic_objects` (lines 218-240). -/
def add_attic_posts (sv : services) (b : building_t) (room_id : Int) :
    List tquad_with_ix_t → attic_pass → Option attic_pass
  | [], st => some st
  | tq :: rest, st =>
    match add_attic_posts_tquad sv b room_id tq st with
    | none => none
    | some st1 => add_attic_posts sv b room_id rest st1

/-- The furnace loop of `add_attic_objects` (lines 246-255), with `tries` iterations left. -/
def add_attic_furnace (sv : services) (b : building_t) (place_area : cube_t)
    (floor_spacing : ℚ) (room_id : Int) (light_amt : ℚ) : Nat → attic_pass → attic_pass
  | 0, st => st
  | tries + 1, st =>
    let cand := sv.gen_furnace_cand place_area floor_spacing false st.rgen
    let st := { st with rgen := cand.rgen }
    if !cand.ok then st
    else if has_bcube_int cand.furnace st.avoid_cubes || !cube_in_attic sv b cand.furnace then
      add_attic_furnace sv b place_area floor_spacing room_id light_amt tries st
    else
      let flags := (if b.is_house then [ro_flag.RO_FLAG_IS_HOUSE] else [])
        ++ [ro_flag.RO_FLAG_INTERIOR]
      (st.emit ⟨cand.furnace, room_object.TYPE_FURNACE, room_id, cand.dim, cand.dir, flags,
        light_amt, room_obj_shape.SHAPE_CUBE⟩).avoid cand.furnace

/-- The lamp loop of `add_attic_objects` (lines 265-267). -/
def add_attic_lamps (sv : services) (place_area : cube_t) (floor_spacing : ℚ) (room_id : Int)
    (light_amt : ℚ) : Nat → attic_pass → attic_pass
  | 0, st => st
  | n + 1, st =>
    let r := sv.try_add_lamp place_area floor_spacing room_id attic_obj_flags light_amt
      st.avoid_cubes st.objs st.rgen
    add_attic_lamps sv place_area floor_spacing room_id light_amt n
      { st with avoid_cubes := r.1, objs := r.2.1, rgen := r.2.2 }

/-- The function `building_t::add_attic_objects` (lines 153-270). The result is the final
object list, exclusion set and generator of the pass (with the ghost record of emissions);
it is `none` when an assertion fails or a looked-up room, part or object does not exist. -/
def add_attic_objects (sv : services) (b : building_t) (rgen : rand_gen_t) :
    Option attic_pass :=
  let adoor := b.interior.attic_access
  if !adoor.cube.is_strictly_normalized then none
  else
    let adoor : cube_with_ix_t := ⟨adoor.cube.expand_in_dim 2 (-0.2 * adoor.cube.dz), adoor.ix⟩
    let room_id := sv.get_room_containing_pt b
      ⟨adoor.cube.xc, adoor.cube.yc, adoor.cube.z1 - sv.get_floor_thickness b⟩
    if ¬ room_id ≥ 0 then none
    else
      match get_room b room_id with
      | none => none
      | some room =>
        let ddim : Bool := decide (adoor.ix >>> 1 ≠ 0)
        let ddir : Bool := decide (adoor.ix &&& 1 ≠ 0)
        let acc_flags := if room.is_hallway then [ro_flag.RO_FLAG_IN_HALLWAY] else []
        let attic_door_ix := b.interior.objs.length
        let light_amt : ℚ := 1.0
        let st : attic_pass := ⟨b.interior.objs, [], rgen, []⟩
        let st := st.emit ⟨adoor.cube, room_object.TYPE_ATTIC_DOOR, room_id, ddim, ddir,
          acc_flags, light_amt, room_obj_shape.SHAPE_CUBE⟩
        match get_attic_access_door_avoid sv b with
        | none => none
        | some avoid =>
          let st := st.avoid avoid
          match get_part_for_room b room with
          | none => none
          | some part =>
            let floor_spacing := sv.get_window_vspace b
            let lights := attic_light_positions sv b part adoor.cube.z2
            let light_flags := [ro_flag.RO_FLAG_LIT, ro_flag.RO_FLAG_EMISSIVE,
              ro_flag.RO_FLAG_NOCOLL] ++ attic_obj_flags
            let st := lights.2.foldl
              (fun st pos => st.emit ⟨cube_t.set_from_sphere pos lights.1,
                room_object.TYPE_LIGHT, room_id, false, false, light_flags, light_amt,
                room_obj_shape.SHAPE_SPHERE⟩) st
            match add_attic_chimney sv b adoor.cube.z2 avoid room_id light_amt st with
            | none => none
            | some st =>
              match add_attic_posts sv b room_id b.roof_tquads st with
              | none => none
              | some st =>
                let place_area :=
                  ({ part with z1 := b.interior.attic_access.cube.z2,
                               z2 := b.interior.attic_access.cube.z2 }).expand_by_xy
                    (-0.75 * floor_spacing)
                let st := if !sv.has_basement b then
                    add_attic_furnace sv b place_area floor_spacing room_id light_amt 100 st
                  else st
                let r := sv.rand st.rgen
                let num_boxes := r.1 % 25
                let box_sz := 0.18 * floor_spacing
                match st.objs[attic_door_ix]? with
                | none => none
                | some door_obj =>
                  let bx := sv.add_boxes_to_space door_obj st.objs place_area st.avoid_cubes
                    r.2 num_boxes box_sz (0.5 * box_sz) (1.5 * box_sz) true attic_obj_flags
                  let st := { st with objs := bx.1, avoid_cubes := bx.2.1, rgen := bx.2.2 }
                  let r := sv.rand st.rgen
                  let num_lamps := r.1 % 3
                  some (add_attic_lamps sv place_area floor_spacing room_id light_amt num_lamps
                    { st with rgen := r.2 })

/-! ## Attic door visual builder -/

/-- Modelled from the spec: `union_with_cube(o)`, the bounding cube of both cubes. -/
def cube_t.union_with_cube (c o : cube_t) : cube_t :=
  ⟨min c.x1 o.x1, max c.x2 o.x2, min c.y1 o.y1, max c.y2 o.y2, min c.z1 o.z1, max c.z2 o.z2⟩

/-- The function `get_ladder_bcube_from_open_attic_door` (lines 281-289). -/
def get_ladder_bcube_from_open_attic_door (c : room_object_t) (door : cube_t) : cube_t :=
  let door_len := c.cube.get_sz_dim c.dim.toNat
  let door_width := c.cube.get_sz_dim (!c.dim).toNat
  let door_inside_edge := door.d c.dim.toNat (!c.dir)
  let ladder := door.expand_in_dim (!c.dim).toNat (-0.05 * door_width)
  let ladder := ladder.set_d c.dim.toNat c.dir door_inside_edge
  let ladder := ladder.set_d c.dim.toNat (!c.dir)
    (door_inside_edge + (if c.dir then -1.0 else 1.0) * 2.0 * c.cube.dz)
  { ladder with z1 := door.z2 - 0.95 * (door_len / 0.44) }

/-- The function `get_attic_access_door_cube` (lines 272-280). -/
def get_attic_access_door_cube (sv : services) (c : room_object_t) (inc_ladder : Bool) :
    cube_t :=
  if !sv.is_open c then c.cube
  else
    let len := c.cube.get_sz_dim c.dim.toNat
    let thickness := c.cube.dz
    let delta := len - thickness
    let door := { c.cube with z1 := c.cube.z1 - delta }
    let door := door.set_d c.dim.toNat (!c.dir)
      (door.d c.dim.toNat (!c.dir) - (if c.dir then -1.0 else 1.0) * delta)
    if inc_ladder then door.union_with_cube (get_ladder_bcube_from_open_attic_door c door)
    else door

/-! ## Attic door geometry

The boxes that `add_attic_door` hands to `add_cube_to_verts`, before the rotation of the
vertices. -/

/-- The kinds of boxes `add_attic_door` passes to `add_cube_to_verts`: the door (lines 298
and 333), the two sides of the ladder (line 318) and its steps (line 328). -/
inductive door_part
  | DOOR
  | LADDER_SIDE
  | LADDER_STEP
deriving DecidableEq

/-- One side of the ladder in `add_attic_door` (lines 316-317); `n` is the loop counter. -/
def ladder_side (c : room_object_t) (ladder : cube_t) (ladder_width side_width_factor : ℚ)
    (n : Bool) : cube_t :=
  ladder.set_d (!c.dim).toNat (!n)
    (ladder.d (!c.dim).toNat (!n)
      - (if n then -1.0 else 1.0) * (1.0 - side_width_factor) * ladder_width)

/-- The loop that adds the steps of the ladder in `add_attic_door` (lines 326-330), over
the step numbers `n`; `step` is the box the loop keeps overwriting. -/
def ladder_steps (ladder : cube_t) (step_spacing step_thickness : ℚ) :
    List Nat → cube_t → List cube_t
  | [], _ => []
  | n :: rest, step =>
    let step := { step with z1 := ladder.z1 + ((n + 1 : Nat) : ℚ) * step_spacing }
    let step := { step with z2 := step.z1 + step_thickness }
    step :: ladder_steps ladder step_spacing step_thickness rest step

/-- The function `building_room_geom_t::add_attic_door` (lines 291-336): the boxes it adds,
in order. The call `get_attic_access_door_cube(c)` of line 297 leaves `inc_ladder` to the
default argument of the declaration, which is not part of this file; it is the parameter
`inc_ladder` here. -/
def add_attic_door (sv : services) (c : room_object_t) (inc_ladder : Bool) :
    List (door_part × cube_t) :=
  if sv.is_open c then
    let door := get_attic_access_door_cube sv c inc_ladder
    let ladder := get_ladder_bcube_from_open_attic_door c door
    let ladder_width := ladder.get_sz_dim (!c.dim).toNat
    let side_width_factor : ℚ := 0.05
    let num_steps : Nat := 10
    let step_spacing := ladder.dz / ((num_steps + 1 : Nat) : ℚ)
    let step_thickness := 0.1 * step_spacing
    let step := ladder.expand_in_dim (!c.dim).toNat (-side_width_factor * ladder_width)
    (door_part.DOOR, door)
      :: ([false, true].map (fun n =>
          (door_part.LADDER_SIDE, ladder_side c ladder ladder_width side_width_factor n))
        ++ (ladder_steps ladder step_spacing step_thickness (List.range num_steps) step).map
          (fun s => (door_part.LADDER_STEP, s)))
  else [(door_part.DOOR, c.cube)]

/-- Step `k` of the ladder as C29 words it: it spans the ladder along the door's long axis,
leaves 5% of the ladder width free at both lateral edges, starts at
`ladder.z1 + k*dz/11` and is `0.1*dz/11` thick. -/
def ladder_step_box (ladder : cube_t) (dim : Bool) (k : Nat) : cube_t :=
  ((ladder.set_d (!dim).toNat false
      (ladder.d (!dim).toNat false + 0.05 * ladder.get_sz_dim (!dim).toNat)).set_d
    (!dim).toNat true
      (ladder.d (!dim).toNat true - 0.05 * ladder.get_sz_dim (!dim).toNat)).set_d 2 false
        (ladder.z1 + k * (ladder.dz / 11)) |>.set_d 2 true
          (ladder.z1 + k * (ladder.dz / 11) + 0.1 * (ladder.dz / 11))

/-! ## Attic woodwork

The boxes that `add_attic_woodwork` hands to `add_cube_to_verts`, in the order of the calls.
Materials, colours, face masks and the rotation of the emitted vertices are not part of the
model. -/

/-- Modelled from the spec: `a - b` on points, the vector from `b` to `a`. -/
def point.sub (a b : point) : point := ⟨a.x - b.x, a.y - b.y, a.z - b.z⟩

/-- The kinds of boxes `add_attic_woodwork` passes to `add_cube_to_verts`: vertical beams
(line 415), diagonal edge beams of trapezoids (line 440), the roofline beam (line 463), its
end posts (line 470) and the A-frame cross braces (line 485). -/
inductive wood_kind
  | VERT_BEAM
  | DIAG_BEAM
  | RIDGE_BEAM
  | END_POST
  | CROSS_BRACE
deriving DecidableEq

/-- The struct `edge_t` (lines 347-354): the end points `p[0]` and `p[1]`. -/
structure edge_t where
  p0 : point
  p1 : point
deriving DecidableEq

/-- The constructor `edge_t(A, B, cmp_dim)` (lines 350-353): the points are swapped when `B`
is less than `A` in `cmp_dim`. -/
def edge_t.make (A B : point) (cmp_dim : Nat) : edge_t :=
  if B.get cmp_dim < A.get cmp_dim then ⟨B, A⟩ else ⟨A, B⟩

/-- Division of two floats whose result goes into an emitted box. With a zero divisor the
result is no rational number; such a run is outside this model and ends as `none`. -/
def fdiv (a b : ℚ) : Option ℚ := if b = 0 then none else some (a / b)

/-- The copy `tq` of a roof surface in `add_attic_woodwork` after its used points have been
shifted down by `delta_z` (lines 368-369). -/
def wood_tq (sv : services) (b : building_t) (tq : tquad_with_ix_t) : tquad_with_ix_t :=
  let delta_z := 0.1 * sv.get_floor_thickness b
  { tq with
    p0 := if 0 < tq.npts then { tq.p0 with z := tq.p0.z - delta_z } else tq.p0
    p1 := if 1 < tq.npts then { tq.p1 with z := tq.p1.z - delta_z } else tq.p1
    p2 := if 2 < tq.npts then { tq.p2 with z := tq.p2.z - delta_z } else tq.p2
    p3 := if 3 < tq.npts then { tq.p3 with z := tq.p3.z - delta_z } else tq.p3 }

/-- The value of `bcube` in `add_attic_woodwork` (line 370). -/
def wood_bcube (sv : services) (b : building_t) (tq : tquad_with_ix_t) : cube_t :=
  (wood_tq sv b tq).get_bcube

/-- The value of `dim` in `add_attic_woodwork` (line 372): the dimension the surface is
facing. -/
def wood_dim (sv : services) (b : building_t) (tq : tquad_with_ix_t) : Bool :=
  decide (|(sv.get_norm (wood_tq sv b tq)).x| < |(sv.get_norm (wood_tq sv b tq)).y|)

/-- The value of `dir` in `add_attic_woodwork` (line 372). -/
def wood_dir (sv : services) (b : building_t) (tq : tquad_with_ix_t) : Bool :=
  decide ((sv.get_norm (wood_tq sv b tq)).get (wood_dim sv b tq).toNat > 0.0)

/-- The loop of `add_attic_woodwork` that collects the non-base edge segments
(lines 386-391). -/
def wood_edges (tq : tquad_with_ix_t) (bcube_z1 : ℚ) (dim : Bool) : List edge_t :=
  (List.range tq.npts).filterMap (fun n =>
    if (tq.pts n).z = bcube_z1 ∧ (tq.pts ((n + 1) % tq.npts)).z = bcube_z1 then none
    else if (tq.pts n).get (!dim).toNat = (tq.pts ((n + 1) % tq.npts)).get (!dim).toNat then none
    else some (edge_t.make (tq.pts n) (tq.pts ((n + 1) % tq.npts)) (!dim).toNat))

/-- The local variables of one iteration of the loop over roof surfaces in
`add_attic_woodwork` that the beam loops read (lines 368-393). -/
structure wood_vars where
  tq : tquad_with_ix_t
  bcube : cube_t
  dim : Bool
  dir : Bool
  beam_hwidth : ℚ
  beam_depth : ℚ
  epsilon : ℚ
  num_beams : Nat
  beam_spacing : ℚ
  beam_pos_start : ℚ
  height_scale : ℚ
  beam_shorten : ℚ
  edges : List edge_t

/-- The value of `run_len` (line 373). -/
def wood_vars.run_len (v : wood_vars) : ℚ := v.bcube.get_sz_dim v.dim.toNat

/-- The value of `height` (line 373). -/
def wood_vars.height (v : wood_vars) : ℚ := v.bcube.dz

/-- The value of `dir_sign` (line 375). -/
def wood_vars.dir_sign (v : wood_vars) : ℚ := if v.dir then -1.0 else 1.0

/-- The loop over the edges inside the vertical beam loop (lines 402-411): it sets `z2` of
the beam from the edge that contains `roof_pos`; `none` when `assert(!found)` fails. -/
def wood_beam_top (v : wood_vars) (roof_pos : ℚ) :
    List edge_t → cube_t → Bool → Option (cube_t × Bool)
  | [], beam, found => some (beam, found)
  | E :: rest, beam, found =>
    if roof_pos < E.p0.get (!v.dim).toNat ∨ roof_pos ≥ E.p1.get (!v.dim).toNat then
      wood_beam_top v roof_pos rest beam found
    else
      let beam : cube_t :=
        if E.p0.z = E.p1.z then { beam with z2 := E.p0.z }
        else { beam with z2 := E.p0.z
          + ((roof_pos - E.p0.get (!v.dim).toNat)
              / (E.p1.get (!v.dim).toNat - E.p0.get (!v.dim).toNat)) * (E.p1.z - E.p0.z) }
      let beam := { beam with z2 := beam.z2 + (v.height_scale - 1.0) * (beam.z2 - v.bcube.z1) }
      let beam := { beam with z2 := beam.z2 - v.beam_shorten }
      if found then none
      else wood_beam_top v roof_pos rest beam true

/-- The vertical beam loop of `add_attic_woodwork` (lines 396-416) over the beam numbers
`n`; `none` when one of its assertions fails. -/
def wood_vert_beams (v : wood_vars) : List Nat → cube_t → Option (List (wood_kind × cube_t))
  | [], _ => some []
  | n :: rest, beam =>
    let roof_pos := v.beam_pos_start + n * v.beam_spacing
    let beam := set_wall_width beam roof_pos v.beam_hwidth (!v.dim).toNat
    let beam := beam.set_d v.dim.toNat (!v.dir)
      (beam.d v.dim.toNat v.dir + v.dir_sign * v.beam_depth)
    match wood_beam_top v roof_pos v.edges beam false with
    | none => none
    | some r =>
      if !r.2 then none
      else if r.1.dz < 4.0 * v.beam_depth then wood_vert_beams v rest r.1
      else if !r.1.is_strictly_normalized then none
      else
        match wood_vert_beams v rest r.1 with
        | none => none
        | some out => some ((wood_kind.VERT_BEAM, r.1) :: out)

/-- The low end point `lo` of an angled edge (lines 430-431): `p[1]` when that point is at
the base height `bcube.z1()`, else `p[0]`. -/
def wood_edge_lo (bcube_z1 : ℚ) (E : edge_t) : point :=
  if E.p1.z = bcube_z1 then E.p1 else E.p0

/-- The high end point `hi` of an angled edge (lines 430-431): the other end point. -/
def wood_edge_hi (bcube_z1 : ℚ) (E : edge_t) : point :=
  if E.p1.z = bcube_z1 then E.p0 else E.p1

/-- The box of the diagonal beam along an angled edge of a trapezoid (lines 432-439), with
`z1_shift` the value of `beam_depth*run_len/height`. -/
def wood_diag_beam (sv : services) (v : wood_vars) (z1_shift : ℚ) (E : edge_t) : cube_t :=
  let edge_len := sv.mag ((wood_edge_hi v.bcube.z1 E).sub (wood_edge_lo v.bcube.z1 E))
  let beam := cube_t.set_from_point (wood_edge_lo v.bcube.z1 E)
  let beam := { beam with z1 := beam.z1 + z1_shift }
  let beam := { beam with z2 := beam.z2 + edge_len }
  let beam := beam.expand_in_dim (!v.dim).toNat v.beam_hwidth
  beam.set_d v.dim.toNat (!v.dir) (beam.d v.dim.toNat v.dir + v.dir_sign * v.beam_depth)

/-- The loop over the edges of a trapezoid that adds the diagonal beams (lines 426-449). -/
def wood_diag_beams (sv : services) (v : wood_vars) :
    List edge_t → Option (List (wood_kind × cube_t))
  | [] => some []
  | E :: rest =>
    if E.p0.z = E.p1.z then wood_diag_beams sv v rest
    else
      match fdiv (v.beam_depth * v.run_len) v.height, wood_diag_beams sv v rest with
      | some z1_shift, some out =>
        some ((wood_kind.DIAG_BEAM, wood_diag_beam sv v z1_shift E) :: out)
      | _, _ => none

/-- The loop that adds the A-frame cross braces (lines 481-485) over the beam numbers `n`. -/
def wood_cross_braces (v : wood_vars) : List Nat → cube_t → List (wood_kind × cube_t)
  | [], _ => []
  | n :: rest, beam =>
    let roof_pos := v.beam_pos_start + n * v.beam_spacing
    let beam := set_wall_width beam roof_pos (0.9 * v.beam_hwidth) (!v.dim).toNat
    (wood_kind.CROSS_BRACE, beam) :: wood_cross_braces v rest beam

/-- The part of the roofline block of `add_attic_woodwork` after
`assert(beam.is_strictly_normalized())` (lines 460-487), for the value `beam` has there: the
roofline beam if it is long enough, its end posts for a trapezoid, and the cross braces for
a tilted rectangle. -/
def wood_roofline_boxes (sv : services) (b : building_t) (v : wood_vars) (centerline : ℚ)
    (beam : cube_t) : Option (List (wood_kind × cube_t)) :=
  let beam := beam.expand_in_dim (!v.dim).toNat (-v.epsilon)
  let ridge : Option (List (wood_kind × cube_t)) :=
    if beam.get_sz_dim (!v.dim).toNat > v.beam_depth then
      if v.edges.length = 3 then
        match create_attic_posts sv b beam v.dim with
        | none => none
        | some posts => some ((wood_kind.RIDGE_BEAM, beam)
            :: ([posts.1, posts.2].filter (fun p => !p.is_all_zeros)).map
              (fun p => (wood_kind.END_POST, p)))
      else some [(wood_kind.RIDGE_BEAM, beam)]
    else some []
  match ridge with
  | none => none
  | some out =>
    if v.edges.length = 1 then
      let beam := { beam with z2 := beam.z2 - 3.0 * v.beam_depth }
      let beam := { beam with z1 := beam.z2 - 0.8 * v.beam_depth }
      match fdiv (v.bcube.z2 - beam.z2) v.bcube.dz with
      | none => none
      | some fr =>
        let beam_hlen := fr * v.run_len
        let beam := set_wall_width beam centerline beam_hlen v.dim.toNat
        some (out ++ wood_cross_braces v ((List.range (v.num_beams - 1)).drop 1) beam)
    else some out

/-- The block of `add_attic_woodwork` for a quad with `dir == 0` (lines 451-488): the
roofline beam, its end posts for a trapezoid, and the cross braces for a tilted rectangle;
`none` when an assertion fails. -/
def wood_roofline (sv : services) (b : building_t) (v : wood_vars) :
    Option (List (wood_kind × cube_t)) :=
  let centerline := v.bcube.d v.dim.toNat (!v.dir)
  match fdiv (v.beam_hwidth * v.height) v.run_len with
  | none => none
  | some sh =>
    let beam := { v.bcube with z2 := v.bcube.z2 - sh }
    let beam := { beam with z1 := beam.z2 - v.beam_depth }
    let beam := set_wall_width beam centerline v.beam_hwidth v.dim.toNat
    let beam := if v.edges.length = 3 then find_roofline_beam_span beam v.bcube.z2 v.tq v.dim
      else beam
    if !beam.is_strictly_normalized then none
    else wood_roofline_boxes sv b v centerline beam

/-- The value of `beam` before the vertical beam loop (lines 380-381): the bounding box,
with `z1` raised by `beam_depth*run_len/height` for a roof surface. -/
def wood_first_beam (is_roof : Bool) (bcube : cube_t) (beam_depth run_len height : ℚ) :
    Option cube_t :=
  if is_roof then
    (fdiv (beam_depth * run_len) height).map (fun s => { bcube with z1 := bcube.z1 + s })
  else some bcube

/-- The part of one iteration of `add_attic_woodwork` that is run for sloped roof surfaces
only (lines 417-488): the diagonal beams of a trapezoid, then the roofline block of a quad
with `dir == 0`. -/
def wood_roof_boxes (sv : services) (b : building_t) (v : wood_vars) :
    Option (List (wood_kind × cube_t)) :=
  match (if v.edges.length = 3 then wood_diag_beams sv v v.edges else some []),
    (if v.tq.npts = 4 ∧ v.dir = false then wood_roofline sv b v else some []) with
  | some diags, some roof => some (diags ++ roof)
  | _, _ => none

/-- One iteration of the loop over `roof_tquads` in `add_attic_woodwork` (lines 365-489):
the boxes added for one roof surface; `none` when an assertion fails. -/
def add_attic_woodwork_tquad (sv : services) (b : building_t) (tq0 : tquad_with_ix_t) :
    Option (List (wood_kind × cube_t)) :=
  if !is_attic_roof sv b tq0 false then some []
  else
    let floor_spacing := sv.get_window_vspace b
    let is_roof : Bool := decide (tq0.type = tquad_type.TYPE_ROOF)
    let tq := wood_tq sv b tq0
    let bcube := wood_bcube sv b tq0
    let normal := sv.get_norm tq
    let dim := wood_dim sv b tq0
    let dir := wood_dir sv b tq0
    let base_width := bcube.get_sz_dim (!dim).toNat
    let run_len := bcube.get_sz_dim dim.toNat
    let height := bcube.dz
    let beam_width := 0.04 * floor_spacing
    let beam_hwidth := 0.5 * beam_width
    let beam_depth := 2.0 * beam_width
    let epsilon := 0.02 * beam_hwidth
    let beam_edge_gap := beam_hwidth + epsilon
    let dir_sign : ℚ := if dir then -1.0 else 1.0
    match fdiv 1.0 |normal.get dim.toNat|, fdiv (3.0 * base_width) floor_spacing with
    | some height_scale, some nb =>
      let num_beams : Nat := (max 2 (sv.round_fp nb)).toNat
      let beam_spacing := (base_width - 2.0 * beam_edge_gap) / ((num_beams - 1 : Nat) : ℚ)
      let beam_pos_start := bcube.d (!dim).toNat false + beam_edge_gap + dir_sign * 0.5 * epsilon
      let edges := wood_edges tq bcube.z1 dim
      if edges.length = 0 ∨ edges.length > 3 then none
      else
        match wood_first_beam is_roof bcube beam_depth run_len height,
          fdiv ((if is_roof then 2.0 else 1.0) * beam_hwidth * height) (0.5 * base_width) with
        | some beam, some beam_shorten =>
          let v : wood_vars := ⟨tq, bcube, dim, dir, beam_hwidth, beam_depth, epsilon, num_beams,
            beam_spacing, beam_pos_start, height_scale, beam_shorten, edges⟩
          match wood_vert_beams v (List.range num_beams) beam with
          | none => none
          | some verts =>
            if !is_roof then some verts
            else
              match wood_roof_boxes sv b v with
              | none => none
              | some roof => some (verts ++ roof)
        | _, _ => none
    | _, _ => none

/-- The z range of a diagonal beam box of the roof surface `tq`: for one of the edges of
the surface, it starts at the low end point raised by `beam_depth*run_len/height` and ends
at the low end point raised by the length of the edge. -/
def wood_diag_z_range (sv : services) (b : building_t) (tq : tquad_with_ix_t)
    (box : cube_t) : Prop :=
  ∃ E ∈ wood_edges (wood_tq sv b tq) (wood_bcube sv b tq).z1 (wood_dim sv b tq), ∃ s,
    fdiv (2.0 * (0.04 * sv.get_window_vspace b)
        * (wood_bcube sv b tq).get_sz_dim (wood_dim sv b tq).toNat) (wood_bcube sv b tq).dz
      = some s ∧
    box.z1 = (wood_edge_lo (wood_bcube sv b tq).z1 E).z + s ∧
    box.z2 = (wood_edge_lo (wood_bcube sv b tq).z1 E).z
      + sv.mag ((wood_edge_hi (wood_bcube sv b tq).z1 E).sub
          (wood_edge_lo (wood_bcube sv b tq).z1 E))

/-- The loop over `roof_tquads` in `add_attic_woodwork` (line 364). -/
def add_attic_woodwork_loop (sv : services) (b : building_t) :
    List tquad_with_ix_t → Option (List (wood_kind × cube_t))
  | [] => some []
  | tq :: rest =>
    match add_attic_woodwork_tquad sv b tq, add_attic_woodwork_loop sv b rest with
    | some out, some outs => some (out ++ outs)
    | _, _ => none

/-- The function `building_room_geom_t::add_attic_woodwork` (lines 355-490): the boxes it
adds, in order; `none` when an assertion fails. -/
def add_attic_woodwork (sv : services) (b : building_t) : Option (List (wood_kind × cube_t)) :=
  if !sv.has_attic b then some []
  else add_attic_woodwork_loop sv b b.roof_tquads

/-! ## The claims' vocabulary: hatch avoid zone and attic objects -/

/-- The avoid zone as C16 words it: the hatch box moved outward by `0.25*s` on all four
horizontal sides and by a further `0.5*s` on side `side` of axis `axis`, with `z2` raised by
`0.5*s` and `z1` unchanged. -/
def hatch_avoid_zone (hatch : cube_t) (axis side : Nat) (s : ℚ) : cube_t :=
  ⟨hatch.x1 - 0.25 * s - (if axis = 0 ∧ side = 0 then 0.5 * s else 0),
   hatch.x2 + 0.25 * s + (if axis = 0 ∧ side = 1 then 0.5 * s else 0),
   hatch.y1 - 0.25 * s - (if axis = 1 ∧ side = 0 then 0.5 * s else 0),
   hatch.y2 + 0.25 * s + (if axis = 1 ∧ side = 1 then 0.5 * s else 0),
   hatch.z1, hatch.z2 + 0.5 * s⟩

/-- The door box `adoor` of `add_attic_objects` after its shrink in z (lines 157-159). -/
def attic_door_box (b : building_t) : cube_t :=
  b.interior.attic_access.cube.expand_in_dim 2 (-0.2 * b.interior.attic_access.cube.dz)

/-- The value of `room_id` in `add_attic_objects` (line 160). -/
def attic_door_room_id (sv : services) (b : building_t) : Int :=
  sv.get_room_containing_pt b
    ⟨(attic_door_box b).xc, (attic_door_box b).yc,
      (attic_door_box b).z1 - sv.get_floor_thickness b⟩

/-- The door object emitted by `add_attic_objects` (line 167). -/
def attic_door_object (sv : services) (b : building_t) (room : room_t) : room_object_t :=
  ⟨attic_door_box b, room_object.TYPE_ATTIC_DOOR, attic_door_room_id sv b,
    decide (b.interior.attic_access.ix >>> 1 ≠ 0), decide (b.interior.attic_access.ix &&& 1 ≠ 0),
    if room.is_hallway then [ro_flag.RO_FLAG_IN_HALLWAY] else [], 1.0,
    room_obj_shape.SHAPE_CUBE⟩

/-- A light object emitted by `add_attic_objects` (lines 200-203). -/
def attic_light_object (sv : services) (b : building_t) (radius : ℚ) (pos : point) :
    room_object_t :=
  ⟨cube_t.set_from_sphere pos radius, room_object.TYPE_LIGHT, attic_door_room_id sv b, false,
    false, [ro_flag.RO_FLAG_LIT, ro_flag.RO_FLAG_EMISSIVE, ro_flag.RO_FLAG_NOCOLL]
      ++ attic_obj_flags, 1.0, room_obj_shape.SHAPE_SPHERE⟩

/-- The chimney object emitted by `add_attic_objects` (line 213). -/
def attic_chimney_object (sv : services) (b : building_t) : room_object_t :=
  ⟨shrink_chimney (clip_chimney (sv.get_chimney b) (attic_door_box b).z2 b.interior_z2),
    room_object.TYPE_CHIMNEY, attic_door_room_id sv b, false, false, attic_obj_flags, 1.0,
    room_obj_shape.SHAPE_CUBE⟩

/-- The furnace object emitted by `add_attic_objects` for an accepted candidate (line 252). -/
def attic_furnace_object (sv : services) (b : building_t) (cand : furnace_cand) :
    room_object_t :=
  ⟨cand.furnace, room_object.TYPE_FURNACE, attic_door_room_id sv b, cand.dim, cand.dir,
    (if b.is_house then [ro_flag.RO_FLAG_IS_HOUSE] else []) ++ [ro_flag.RO_FLAG_INTERIOR], 1.0,
    room_obj_shape.SHAPE_CUBE⟩

/-- The state of `add_attic_objects` after the door and the lights have been emitted
(line 204). -/
def attic_pass_lights (sv : services) (b : building_t) (rgen : rand_gen_t) (room : room_t)
    (part avoid : cube_t) : attic_pass :=
  (attic_light_positions sv b part (attic_door_box b).z2).2.foldl
    (fun st pos => st.emit
      (attic_light_object sv b (attic_light_positions sv b part (attic_door_box b).z2).1 pos))
    ((attic_pass.emit ⟨b.interior.objs, [], rgen, []⟩ (attic_door_object sv b room)).avoid avoid)

/-- The value of `place_area` in `add_attic_objects` (lines 241-243). -/
def attic_place_area (sv : services) (b : building_t) (part : cube_t) : cube_t :=
  ({ part with z1 := b.interior.attic_access.cube.z2,
               z2 := b.interior.attic_access.cube.z2 }).expand_by_xy
    (-0.75 * sv.get_window_vspace b)

/-- The furnace candidates that up to `n` draws of `gen_furnace_cand` produce from a
generator state: the draws stop at the first one that fails. -/
def furnace_draws (sv : services) (place_area : cube_t) (floor_spacing : ℚ) :
    Nat → rand_gen_t → List furnace_cand
  | 0, _ => []
  | n + 1, rgen =>
    if (sv.gen_furnace_cand place_area floor_spacing false rgen).ok then
      sv.gen_furnace_cand place_area floor_spacing false rgen
        :: furnace_draws sv place_area floor_spacing n
          (sv.gen_furnace_cand place_area floor_spacing false rgen).rgen
    else []

/-- The generator state after `k` draws of `gen_furnace_cand`. -/
def furnace_rgen_after (sv : services) (place_area : cube_t) (floor_spacing : ℚ) :
    Nat → rand_gen_t → rand_gen_t
  | 0, rgen => rgen
  | k + 1, rgen => furnace_rgen_after sv place_area floor_spacing k
      (sv.gen_furnace_cand place_area floor_spacing false rgen).rgen

/-- A furnace candidate is accepted when it intersects no box of the exclusion set and
satisfies `cube_in_attic`. -/
def furnace_accepted (sv : services) (b : building_t) (avoid_cubes : List cube_t)
    (cand : furnace_cand) : Bool :=
  !has_bcube_int cand.furnace avoid_cubes && cube_in_attic sv b cand.furnace

/-- The emissions of the furnace block of `add_attic_objects` as C12 words them: none when
the building has a basement, otherwise the first accepted candidate among up to 100 draws,
if there is one. -/
def attic_furnace_entries (sv : services) (b : building_t) (part : cube_t) (st : attic_pass) :
    List (room_object_t × List cube_t) :=
  if sv.has_basement b then []
  else
    match (furnace_draws sv (attic_place_area sv b part) (sv.get_window_vspace b) 100 st.rgen).find?
      (furnace_accepted sv b st.avoid_cubes) with
    | some cand => [(attic_furnace_object sv b cand, st.avoid_cubes)]
    | none => []

/-- The value of `attic_height` in `add_attic_objects` (line 176): from the top of the
shrunk door box to `interior_z2`. -/
def attic_height (b : building_t) : ℚ := b.interior_z2 - (attic_door_box b).z2

/-- The value of `sep_dist` in `add_attic_objects` (line 176): the long part dimension
minus the short one. -/
def attic_sep_dist (part : cube_t) : ℚ :=
  part.get_sz_dim (decide (part.dx < part.dy)).toNat
    - part.get_sz_dim (!decide (part.dx < part.dy)).toNat

/-- The value of `light_radius` in `add_attic_objects` (line 176). -/
def attic_light_radius (b : building_t) : ℚ := 0.03 * attic_height b

/-- The value of `light_center` in `add_attic_objects` (line 177). -/
def attic_light_center (sv : services) (b : building_t) (part : cube_t) : point :=
  ⟨part.xc, part.yc, b.interior_z2 - 1.2 * attic_light_radius b - sv.get_attic_beam_depth b⟩

/-- The value of `move_dist` in `add_attic_objects` (line 183). -/
def attic_move_dist (sv : services) (b : building_t) (part : cube_t) : ℚ :=
  0.5 * attic_sep_dist part - attic_light_radius b - sv.get_attic_beam_depth b

/-- The probe point `test_pt` of `add_attic_objects` for `d` (lines 187-190): the light
centre raised by the radius, moved along the long axis by `move_dist + light_radius` (in
the positive direction for `d = 0`, the negative one for `d = 1`) and nudged sideways by
`0.01*sep_dist`. -/
def attic_light_probe (sv : services) (b : building_t) (part : cube_t) (d : Bool) : point :=
  let long_dim : Bool := decide (part.dx < part.dy)
  let p := { attic_light_center sv b part with
    z := (attic_light_center sv b part).z + attic_light_radius b }
  let p := p.set long_dim.toNat (p.get long_dim.toNat
    + (if d then -1.0 else 1.0) * (attic_move_dist sv b part + attic_light_radius b))
  p.set (!long_dim).toNat (p.get (!long_dim).toNat + 0.01 * attic_sep_dist part)

/-- The lights of a run of `add_attic_objects`: the emitted objects of type light. -/
def emitted_lights (st : attic_pass) : List room_object_t :=
  (st.emitted.map (fun e => e.1)).filter (fun o => decide (o.type = room_object.TYPE_LIGHT))

/-! ## The claims' vocabulary -/

/-- The rooms the loop of `add_attic_access_door` does not skip: they belong to the part,
have no stairs on the given floor, their longer side is at least `2.5*half_len` and their
shorter side at least `2.5*half_wid`. -/
def room_eligible (sv : services) (part_ix floor : Nat) (half_len half_wid : ℚ)
    (room : room_t) : Bool :=
  decide (room.part_id = part_ix) && !sv.has_stairs_on_floor room floor
    && decide (max room.cube.dx room.cube.dy ≥ 2.5 * half_len)
    && decide (min room.cube.dx room.cube.dy ≥ 2.5 * half_wid)

/-- The floor area `dx*dy` of a room. -/
def room_area (room : room_t) : ℚ := room.cube.dx * room.cube.dy

/-- The eligible rooms of a call of `add_attic_access_door`, in list order: the rooms at
index `rooms_start` or later that pass `room_eligible` for floor `num_floors-1`. -/
def eligible_rooms (sv : services) (b : building_t) (part_ix num_floors rooms_start : Nat) :
    List room_t :=
  (b.interior.rooms.drop rooms_start).filter
    (room_eligible sv part_ix (top_floor_ix num_floors) (0.24 * sv.get_window_vspace b)
      (0.16 * sv.get_window_vspace b))

/-! ## Example inputs

Concrete services and buildings at which the theorems are instantiated. -/

/-- Integer square root by Newton iteration with `fuel` steps, starting from `x`. -/
def ex_sqrt_iter (n : Nat) : Nat → Nat → Nat
  | 0, x => x
  | fuel + 1, x => if x = 0 then 0 else ex_sqrt_iter n fuel (min x ((x + n / x) / 2))

/-- The square root of a rational whose numerator and denominator are squares. -/
def ex_sqrt (q : ℚ) : ℚ :=
  (ex_sqrt_iter q.num.toNat 200 q.num.toNat : ℚ) / (ex_sqrt_iter q.den 200 q.den : ℚ)

/-- Example `get_norm`: the cross product of the first two edges, scaled to unit length
(exact whenever the length is rational, as it is for the example surfaces). -/
def ex_get_norm (tq : tquad_with_ix_t) : point :=
  let ux := tq.p1.x - tq.p0.x
  let uy := tq.p1.y - tq.p0.y
  let uz := tq.p1.z - tq.p0.z
  let vx := tq.p2.x - tq.p1.x
  let vy := tq.p2.y - tq.p1.y
  let vz := tq.p2.z - tq.p1.z
  let cx := uy * vz - uz * vy
  let cy := uz * vx - ux * vz
  let cz := ux * vy - uy * vx
  let mag := ex_sqrt (cx * cx + cy * cy + cz * cz)
  ⟨cx / mag, cy / mag, cz / mag⟩

/-- Example `point_in_polygon_2d` for convex surfaces: the point is on the same side of
every edge of the projected polygon (boundary included). -/
def ex_point_in_polygon_2d (x y : ℚ) (tq : tquad_with_ix_t) : Bool :=
  let side (n : Nat) : ℚ :=
    let a := tq.pts n
    let c := tq.pts ((n + 1) % tq.npts)
    (c.x - a.x) * (y - a.y) - (c.y - a.y) * (x - a.x)
  (List.range tq.npts).all (fun n => decide (0 ≤ side n))
    || (List.range tq.npts).all (fun n => decide (side n ≤ 0))

/-- Example `get_room_containing_pt`: the index of the first room whose box holds the
point, or `-1`. -/
def ex_get_room_containing_pt (b : building_t) (p : point) : Int :=
  match b.interior.rooms.findIdx? (fun r => decide (r.cube.x1 ≤ p.x ∧ p.x ≤ r.cube.x2
      ∧ r.cube.y1 ≤ p.y ∧ p.y ≤ r.cube.y2 ∧ r.cube.z1 ≤ p.z ∧ p.z ≤ r.cube.z2)) with
  | some i => (i : Int)
  | none => -1

/-- Example services for a building with floor spacing `fs`: the attic is the first part,
the beam depth is `0.08*fs`, no furnace candidate is ever produced, the external box and
lamp placement routines add nothing, vector lengths are exact square roots, `round_fp`
rounds half away from zero, and an object is open when it carries `RO_FLAG_OPEN`. -/
def ex_services (fs : ℚ) : services where
  get_window_vspace := fun _ => fs
  get_floor_thickness := fun _ => 0.1 * fs
  get_attic_beam_depth := fun _ => 0.08 * fs
  has_attic := fun b => !b.interior.attic_access.cube.is_all_zeros
  has_basement := fun _ => false
  get_attic_part := fun b => b.parts.headD cube_t.zero
  get_chimney := fun _ => cube_t.zero
  get_room_containing_pt := ex_get_room_containing_pt
  has_stairs_on_floor := fun room floor => room.has_stairs.testBit (min floor 7)
  rand_bool := fun r => (decide (r.rseed1 % 2 = 1), ⟨r.rseed2, r.rseed1 + r.rseed2 + 1⟩)
  rand := fun r => (r.rseed1, ⟨r.rseed2, r.rseed1 + r.rseed2 + 1⟩)
  get_norm := ex_get_norm
  point_in_polygon_2d := ex_point_in_polygon_2d
  gen_furnace_cand := fun _ _ _ r => ⟨false, cube_t.zero, false, false, r⟩
  add_boxes_to_space := fun _ objs _ cubes r _ _ _ _ _ _ => (objs, cubes, r)
  try_add_lamp := fun _ _ _ _ _ cubes objs r => (cubes, objs, r)
  mag := fun v => ex_sqrt (v.x * v.x + v.y * v.y + v.z * v.z)
  round_fp := fun q => if 0 ≤ q then Int.floor (q + 0.5) else Int.ceil (q - 0.5)
  is_open := fun c => c.flags.contains ro_flag.RO_FLAG_OPEN

/-- Example house before hatch placement: one part of 10 x 8, floor spacing 1, with a
bedroom, a hallway and a bathroom side by side. -/
def ex_house : building_t where
  parts := [⟨0, 10, 0, 8, 0, 3⟩]
  real_num_parts := 1
  roof_dims := 0
  roof_tquads := []
  interior := ⟨[⟨⟨0, 6, 0, 8, 2, 3⟩, 0, false, 0⟩, ⟨⟨6, 7.5, 0, 8, 2, 3⟩, 0, true, 0⟩,
    ⟨⟨7.5, 10, 0, 8, 2, 3⟩, 0, false, 0⟩], ⟨cube_t.zero, 0⟩, []⟩
  interior_z2 := 6
  has_chimney := 0
  is_house := true

/-- Example ceiling of the top floor of `ex_house`. -/
def ex_ceiling : cube_t := ⟨0, 10, 0, 8, 2.9, 3⟩

/-- Example generator state. -/
def ex_rgen : rand_gen_t := ⟨1, 2⟩

/-- Example: the hatch that `add_attic_access_door` places in the hallway of `ex_house`. -/
def ex_house_hatch : cube_with_ix_t := ⟨⟨6.89, 7.21, 2.96, 3.44, 2.9, 3⟩, 2⟩

/-- Example: `ex_house` after hatch placement. -/
def ex_house_with_hatch : building_t :=
  { ex_house with interior := { ex_house.interior with attic_access := ex_house_hatch } }

/-- Example cabin: one part whose smaller horizontal dimension is exactly 2.75 (floor
spacing 1), with a single non-hallway room filling it. -/
def ex_cabin : building_t where
  parts := [⟨0, 2.75, 0, 4, 0, 1⟩]
  real_num_parts := 1
  roof_dims := 0
  roof_tquads := []
  interior := ⟨[⟨⟨0, 2.75, 0, 4, 0, 1⟩, 0, false, 0⟩], ⟨cube_t.zero, 0⟩, []⟩
  interior_z2 := 3
  has_chimney := 0
  is_house := true

/-- Example ceiling of `ex_cabin`. -/
def ex_cabin_ceiling : cube_t := ⟨0, 2.75, 0, 4, 0.9, 1⟩

/-- Example gable roof, south face: it rises from z = 3 at y = 0 to the ridge (z = 6) at
y = 4 and overhangs the part by 0.5 at both gable ends. -/
def ex_roof_south : tquad_with_ix_t :=
  ⟨⟨-0.5, 0, 3⟩, ⟨10.5, 0, 3⟩, ⟨10.5, 4, 6⟩, ⟨-0.5, 4, 6⟩, 4, tquad_type.TYPE_ROOF⟩

/-- Example gable roof, north face. -/
def ex_roof_north : tquad_with_ix_t :=
  ⟨⟨10.5, 8, 3⟩, ⟨-0.5, 8, 3⟩, ⟨-0.5, 4, 6⟩, ⟨10.5, 4, 6⟩, 4, tquad_type.TYPE_ROOF⟩

/-- Example gable end wall triangle on the west side. -/
def ex_wall_west : tquad_with_ix_t :=
  ⟨⟨0, 8, 3⟩, ⟨0, 0, 3⟩, ⟨0, 4, 6⟩, ⟨0, 4, 6⟩, 3, tquad_type.TYPE_WALL⟩

/-- Example gable end wall triangle on the east side. -/
def ex_wall_east : tquad_with_ix_t :=
  ⟨⟨10, 0, 3⟩, ⟨10, 8, 3⟩, ⟨10, 4, 6⟩, ⟨10, 4, 6⟩, 3, tquad_type.TYPE_WALL⟩

/-- Example: `ex_house_with_hatch` under a gable roof. -/
def ex_gable_house : building_t :=
  { ex_house_with_hatch with
    roof_tquads := [ex_roof_south, ex_roof_north, ex_wall_west, ex_wall_east] }

/-- Example: a roof surface like `ex_roof_south` without overhang whose base lies at
z = 2.95, between the bottom (2.9) and the top (3) of the hatch of `ex_gable_house`. -/
def ex_roof_low : tquad_with_ix_t :=
  ⟨⟨0, 0, 2.95⟩, ⟨10, 0, 2.95⟩, ⟨10, 4, 5.95⟩, ⟨0, 4, 5.95⟩, 4, tquad_type.TYPE_ROOF⟩

/-- Example: a box on the attic floor of `ex_gable_house` close to the south eave; with the
beam margin its top is at z = 4, above the roof at its south corners (y = 0.5, roof height
3.375) and below it at its north corners (y = 3, roof height 5.25). -/
def ex_eave_box : cube_t := ⟨1, 2, 0.5, 3, 3, 3.8⟩

/-- Example hip roof over a part of 12.16 x 12 (floor spacing 1): south trapezoid. Its
ridge runs from x = 6 to x = 6.16 at y = 6, z = 7.5. -/
def ex_hip_south : tquad_with_ix_t :=
  ⟨⟨0, 0, 3⟩, ⟨12.16, 0, 3⟩, ⟨6.16, 6, 7.5⟩, ⟨6, 6, 7.5⟩, 4, tquad_type.TYPE_ROOF⟩

/-- Example hip roof: north trapezoid. -/
def ex_hip_north : tquad_with_ix_t :=
  ⟨⟨12.16, 12, 3⟩, ⟨0, 12, 3⟩, ⟨6, 6, 7.5⟩, ⟨6.16, 6, 7.5⟩, 4, tquad_type.TYPE_ROOF⟩

/-- Example hip roof: west triangle. -/
def ex_hip_west : tquad_with_ix_t :=
  ⟨⟨0, 12, 3⟩, ⟨0, 0, 3⟩, ⟨6, 6, 7.5⟩, ⟨6, 6, 7.5⟩, 3, tquad_type.TYPE_ROOF⟩

/-- Example hip roof: east triangle. -/
def ex_hip_east : tquad_with_ix_t :=
  ⟨⟨12.16, 0, 3⟩, ⟨12.16, 12, 3⟩, ⟨6.16, 6, 7.5⟩, ⟨6.16, 6, 7.5⟩, 3, tquad_type.TYPE_ROOF⟩

/-- Example house with a hip roof whose ridge (length 0.16) is twice the beam depth (0.08):
one room under the attic, the hatch near its west side. -/
def ex_hip_house : building_t where
  parts := [⟨0, 12.16, 0, 12, 0, 3⟩]
  real_num_parts := 1
  roof_dims := 0
  roof_tquads := [ex_hip_south, ex_hip_north, ex_hip_west, ex_hip_east]
  interior := ⟨[⟨⟨0, 12.16, 0, 12, 2, 3⟩, 0, false, 0⟩], ⟨⟨2, 2.48, 5.84, 6.16, 2.9, 3⟩, 0⟩, []⟩
  interior_z2 := 7.5
  has_chimney := 0
  is_house := true

/-- Example: `ex_hip_house` with an interior chimney. -/
def ex_hip_house_chimney : building_t := { ex_hip_house with has_chimney := 1 }

/-- Example services like `ex_services`, with a chimney box and a generator of furnace
candidates that hands out the boxes of a list, one per draw (indexed by the first seed
word). -/
def ex_services_full (fs : ℚ) (chimney : cube_t) (cands : List cube_t) : services :=
  { ex_services fs with
    get_chimney := fun _ => chimney
    gen_furnace_cand := fun _ _ _ r =>
      match cands[r.rseed1]? with
      | some c => ⟨true, c, false, false, ⟨r.rseed1 + 1, r.rseed2⟩⟩
      | none => ⟨false, cube_t.zero, false, false, ⟨r.rseed1 + 1, r.rseed2⟩⟩ }

/-- Example chimney box of `ex_hip_house_chimney`. -/
def ex_chimney : cube_t := ⟨11, 11.8, 5.6, 6.4, 1, 9⟩

/-- Example furnace candidates: the first one overlaps the chimney, the second one is
free. -/
def ex_furnace_cands : List cube_t := [⟨10.9, 11.3, 5.8, 6.2, 3, 3.7⟩, ⟨5.8, 6.3, 7, 7.5, 3, 3.7⟩]

/-- The property of one emission of `add_attic_objects` that C10 (amended) is about: a
chimney or post does not intersect the hatch avoid zone, and a furnace intersects no box
that was in the exclusion set when it was emitted. -/
def emission_ok (avoid : cube_t) (e : room_object_t × List cube_t) : Prop :=
  ((e.1.type = room_object.TYPE_CHIMNEY ∨ e.1.type = room_object.TYPE_COLLIDER) →
    e.1.cube.intersects avoid = false) ∧
  (e.1.type = room_object.TYPE_FURNACE → ∀ c ∈ e.2, e.1.cube.intersects c = false)

/-- Example: the hatch avoid zone of `ex_hip_house`. -/
def ex_hip_avoid : cube_t := ⟨1.25, 2.73, 5.59, 6.41, 2.9, 3.5⟩

/-- Example: the first ridge post of `ex_hip_house` with the padding it gets in the
exclusion set (`beam_width = 0.04` on each horizontal side). -/
def ex_hip_post0_padded : cube_t := ⟨5.96, 6.12, 5.94, 6.06, 3, 7.42⟩

/-- Example: the second ridge post of `ex_hip_house`, as emitted. -/
def ex_hip_post1 : room_object_t :=
  ⟨⟨6.08, 6.16, 5.98, 6.02, 3, 7.42⟩, room_object.TYPE_COLLIDER, 0, true, false,
    [ro_flag.RO_FLAG_INVIS, ro_flag.RO_FLAG_INTERIOR, ro_flag.RO_FLAG_IN_ATTIC], 1.0,
    room_obj_shape.SHAPE_CUBE⟩

/-- Example: the hatch door of `ex_house_with_hatch` as an open door object (long axis y,
hinge side low). -/
def ex_open_door : room_object_t :=
  ⟨⟨6.89, 7.21, 2.96, 3.44, 2.92, 2.98⟩, room_object.TYPE_ATTIC_DOOR, 1, true, false,
    [ro_flag.RO_FLAG_IN_HALLWAY, ro_flag.RO_FLAG_OPEN], 1.0, room_obj_shape.SHAPE_CUBE⟩

/-- Example low hip roof over a part of 2 x 1.344: south trapezoid. The roof is 0.104 high,
the trapezoid runs 0.672 to the ridge and its angled edges are 0.697 long. -/
def ex_low_south : tquad_with_ix_t :=
  ⟨⟨0, 0, 1.6⟩, ⟨2, 0, 1.6⟩, ⟨1.847, 0.672, 1.704⟩, ⟨0.153, 0.672, 1.704⟩, 4,
    tquad_type.TYPE_ROOF⟩

/-- Example low hip roof: north trapezoid. -/
def ex_low_north : tquad_with_ix_t :=
  ⟨⟨2, 1.344, 1.6⟩, ⟨0, 1.344, 1.6⟩, ⟨0.153, 0.672, 1.704⟩, ⟨1.847, 0.672, 1.704⟩,
    4, tquad_type.TYPE_ROOF⟩

/-- Example low hip roof: west triangle. -/
def ex_low_west : tquad_with_ix_t :=
  ⟨⟨0, 1.344, 1.6⟩, ⟨0, 0, 1.6⟩, ⟨0.153, 0.672, 1.704⟩, ⟨0.153, 0.672, 1.704⟩, 3,
    tquad_type.TYPE_ROOF⟩

/-- Example low hip roof: east triangle. -/
def ex_low_east : tquad_with_ix_t :=
  ⟨⟨2, 0, 1.6⟩, ⟨2, 1.344, 1.6⟩, ⟨1.847, 0.672, 1.704⟩, ⟨1.847, 0.672, 1.704⟩, 3,
    tquad_type.TYPE_ROOF⟩

/-- Example shed (floor spacing 1.625, beam depth 0.13) under the low hip roof, which is lower
than the beam depth; the hatch top lies 0.06 below the roof base. -/
def ex_low_hip_shed : building_t where
  parts := [⟨0, 2, 0, 1.344, 0, 1.6⟩]
  real_num_parts := 1
  roof_dims := 0
  roof_tquads := [ex_low_south, ex_low_north, ex_low_west, ex_low_east]
  interior := ⟨[⟨⟨0, 2, 0, 1.344, 0, 1.6⟩, 0, false, 0⟩],
    ⟨⟨0.8, 1.2, 0.3, 0.6, 1.44, 1.54⟩, 0⟩, []⟩
  interior_z2 := 1.704
  has_chimney := 0
  is_house := true

/-- The test a roof surface has to pass in the loop of `point_under_attic_roof` for the
function to return true at it (lines 23-28): an attic roof surface (`type_roof_only=1`) whose
2D polygon contains the point, with a normal that is not horizontal, and with the point at
negative signed distance. -/
def roof_qualifies (sv : services) (b : building_t) (pos : point) (tq : tquad_with_ix_t) : Bool :=
  is_attic_roof sv b tq true && sv.point_in_polygon_2d pos.x pos.y tq
    && decide ((sv.get_norm tq).z ≠ 0)
    && decide (dot_product_ptv (sv.get_norm tq) pos (tq.pts 0) < 0)

/-! ## Attic woodwork: the beam positions -/

/-- The value of `base_width` in `add_attic_woodwork` (line 373): the extent of the bounding
box along the axis the beams are spaced along. -/
def wood_base_width (sv : services) (b : building_t) (tq : tquad_with_ix_t) : ℚ :=
  (wood_bcube sv b tq).get_sz_dim (!wood_dim sv b tq).toNat

/-- The value of `beam_hwidth` in `add_attic_woodwork` (line 374). -/
def wood_beam_hwidth (sv : services) (b : building_t) : ℚ :=
  0.5 * (0.04 * sv.get_window_vspace b)

/-- The value of `epsilon` in `add_attic_woodwork` (line 375). -/
def wood_epsilon (sv : services) (b : building_t) : ℚ := 0.02 * wood_beam_hwidth sv b

/-- The value of `beam_edge_gap` in `add_attic_woodwork` (line 375), the edge clearance. -/
def wood_beam_edge_gap (sv : services) (b : building_t) : ℚ :=
  wood_beam_hwidth sv b + wood_epsilon sv b

/-- The value of `num_beams` in `add_attic_woodwork` (line 376) for the quotient
`nb = 3*base_width/floor_spacing`. -/
def wood_num_beams (sv : services) (nb : ℚ) : Nat := (max 2 (sv.round_fp nb)).toNat

/-- The value of `roof_pos` for beam `n` in `add_attic_woodwork` (lines 377-379 and 397) when
there are `num_beams` beams. -/
def wood_beam_pos (sv : services) (b : building_t) (tq : tquad_with_ix_t)
    (num_beams n : Nat) : ℚ :=
  (wood_bcube sv b tq).d (!wood_dim sv b tq).toNat false + wood_beam_edge_gap sv b
    + (if wood_dir sv b tq then -1.0 else 1.0) * 0.5 * wood_epsilon sv b
    + n * ((wood_base_width sv b tq - 2.0 * wood_beam_edge_gap sv b)
        / ((num_beams - 1 : Nat) : ℚ))

/-- The local variables of the iteration of `add_attic_woodwork` for the surface `tq0`, for
given values of the three quotients `height_scale`, `3*base_width/floor_spacing` and
`beam_shorten`. -/
def wood_vars_of (sv : services) (b : building_t) (tq0 : tquad_with_ix_t)
    (height_scale nb beam_shorten : ℚ) : wood_vars :=
  ⟨wood_tq sv b tq0, wood_bcube sv b tq0, wood_dim sv b tq0, wood_dir sv b tq0,
    0.5 * (0.04 * sv.get_window_vspace b), 2.0 * (0.04 * sv.get_window_vspace b),
    0.02 * (0.5 * (0.04 * sv.get_window_vspace b)), (max 2 (sv.round_fp nb)).toNat,
    ((wood_bcube sv b tq0).get_sz_dim (!wood_dim sv b tq0).toNat
        - 2.0 * (0.5 * (0.04 * sv.get_window_vspace b)
          + 0.02 * (0.5 * (0.04 * sv.get_window_vspace b))))
      / (((max 2 (sv.round_fp nb)).toNat - 1 : Nat) : ℚ),
    (wood_bcube sv b tq0).d (!wood_dim sv b tq0).toNat false
      + (0.5 * (0.04 * sv.get_window_vspace b)
        + 0.02 * (0.5 * (0.04 * sv.get_window_vspace b)))
      + (if wood_dir sv b tq0 then -1.0 else 1.0) * 0.5
        * (0.02 * (0.5 * (0.04 * sv.get_window_vspace b))),
    height_scale, beam_shorten,
    wood_edges (wood_tq sv b tq0) (wood_bcube sv b tq0).z1 (wood_dim sv b tq0)⟩

/-- The z value an edge gives to the top of a beam at `roof_pos` before the rescaling
(lines 405-406): the linear interpolation of the z values of the end points. -/
def wood_edge_top (E : edge_t) (nd : Nat) (roof_pos : ℚ) : ℚ :=
  E.p0.z + ((roof_pos - E.p0.get nd) / (E.p1.get nd - E.p0.get nd)) * (E.p1.z - E.p0.z)

/-- The half-open span of an edge along the beam-spacing axis contains `x`. -/
def wood_edge_spans (E : edge_t) (nd : Nat) (x : ℚ) : Bool :=
  decide (E.p0.get nd ≤ x ∧ x < E.p1.get nd)

/-- Example: a roof surface only 0.02 wide, narrower than the edge clearance 0.0204 of floor
spacing 1. -/
def ex_roof_strip : tquad_with_ix_t :=
  ⟨⟨5, 0, 3⟩, ⟨5.02, 0, 3⟩, ⟨5.02, 4, 6⟩, ⟨5, 4, 6⟩, 4, tquad_type.TYPE_ROOF⟩

/-- Example: `ex_house_with_hatch` with `ex_roof_strip` as its only roof surface. -/
def ex_strip_house : building_t :=
  { ex_house_with_hatch with roof_tquads := [ex_roof_strip] }

/-! ## The scene reader: bone indices (`src/assimp_wrap.cpp`) -/

/-- The number of values of the C++ type `unsigned` (32 bits): a value stored in an `unsigned`
is taken modulo `2^32`. -/
def unsigned_mod : Nat := 2 ^ 32

/-- Modelled from the library: `aiMatrix4x4`, a 4 x 4 matrix stored row by row
(`a1 a2 a3 a4 b1 ...`). -/
abbrev aiMatrix4x4 : Type := Matrix (Fin 4) (Fin 4) ℚ

/-- Modelled from the library: `xform_matrix`, a `glm::mat4` (stored column by column). -/
abbrev xform_matrix : Type := Matrix (Fin 4) (Fin 4) ℚ

/-- Modelled from the library: `glm::make_mat4(&m.a1)` reads the 16 stored values as the
columns of the result, so the rows of `m` become columns. -/
def make_mat4 (m : aiMatrix4x4) : xform_matrix := m.transpose

/-- The function `aiMatrix4x4_to_xform_matrix` (line 23). -/
def aiMatrix4x4_to_xform_matrix (m : aiMatrix4x4) : xform_matrix := (make_mat4 m).transpose

/-- Modelled from the library: `aiVertexWeight`, a vertex index and the weight of the bone on
that vertex. -/
structure aiVertexWeight where
  mVertexId : Nat
  mWeight : ℚ

/-- Modelled from the library: `aiBone`; `mNumWeights` is the length of `mWeights`. -/
structure aiBone where
  mName : String
  mOffsetMatrix : aiMatrix4x4
  mWeights : List aiVertexWeight

/-- Modelled from the library: `aiNode`, a node of the scene hierarchy; `mNumChildren` is the
length of `mChildren`. -/
inductive aiNode where
  | mk (mName : String) (mTransformation : aiMatrix4x4) (mChildren : List aiNode)

/-- The struct `bone_info_t` (lines 39-42). -/
structure bone_info_t where
  offset_matrix : xform_matrix
  final_transform : xform_matrix

/-- The constructor `bone_info_t(offset)` (line 41): `final_transform` starts as all zeros. -/
def bone_info_t.make (offset : xform_matrix) : bone_info_t := ⟨offset, 0⟩

/-- The member `mesh_bone_data_t::vertex_to_bones` (`model3d.h`), for a type `V` of per-vertex
records. -/
structure mesh_bone_data_t (V : Type) where
  vertex_to_bones : List V

/-- The method `add(bone_id, weight, had_vertex_error)` of the per-vertex records of
`vertex_to_bones` (`model3d.h`): it returns the new record and the new value of the error
flag, which it takes by reference. -/
structure bone_services (V : Type) where
  add : V → Nat → ℚ → Bool → V × Bool

/-- The loader state of the class `file_reader_assimp` that the bone routines use
(lines 36-43). The `std::map` from bone names to indices is a list of (name, index) pairs
with distinct names, kept in the order of insertion; `find`, `operator[]` and `size` do not
depend on the order. -/
structure file_reader_assimp where
  had_vertex_error : Bool
  bone_name_to_index_map : List (String × Nat)
  bone_info : List bone_info_t

/-- The loader state of a new reader: no bone names, no bones. -/
def file_reader_assimp.empty : file_reader_assimp := ⟨false, [], []⟩

/-- Modelled from the library: `m[key] = value` on a `std::map`, the value of an existing key
is replaced and a new key is inserted. -/
def map_assign (m : List (String × Nat)) (key : String) (value : Nat) : List (String × Nat) :=
  if (m.lookup key).isSome then m.map (fun e => if e.1 = key then (key, value) else e)
  else m ++ [(key, value)]

/-- The function `file_reader_assimp::get_bone_id` (lines 77-84): the bone id and the new
state. The `unsigned` local `bone_id` holds the size of the map modulo `2^32`. -/
def get_bone_id (r : file_reader_assimp) (bone : aiBone) : Nat × file_reader_assimp :=
  match r.bone_name_to_index_map.lookup bone.mName with
  | some second => (second, r)
  | none =>
    let bone_id := r.bone_name_to_index_map.length % unsigned_mod
    (bone_id, ⟨r.had_vertex_error, map_assign r.bone_name_to_index_map bone.mName bone_id,
      r.bone_info⟩)

/-- The loop over the weights in `parse_single_bone` (lines 90-95): `none` when the
assertion on `vertex_id` fails. -/
def parse_bone_weights {V : Type} (sv : bone_services V) (bone_id first_vertex_offset : Nat) :
    List aiVertexWeight → mesh_bone_data_t V → Bool → Option (mesh_bone_data_t V × Bool)
  | [], bone_data, had_vertex_error => some (bone_data, had_vertex_error)
  | vw :: rest, bone_data, had_vertex_error =>
    let vertex_id := (first_vertex_offset + vw.mVertexId) % unsigned_mod
    if h : vertex_id < bone_data.vertex_to_bones.length then
      let res := sv.add bone_data.vertex_to_bones[vertex_id] bone_id vw.mWeight had_vertex_error
      parse_bone_weights sv bone_id first_vertex_offset rest
        ⟨bone_data.vertex_to_bones.set vertex_id res.1⟩ res.2
    else none

/-- The function `file_reader_assimp::parse_single_bone` (lines 85-96): the new loader state
and the new bone data; `none` when an assertion fails. The parameter `bone_index` is not
used. -/
def parse_single_bone {V : Type} (sv : bone_services V) (r : file_reader_assimp)
    (_bone_index : Int) (pBone : aiBone) (bone_data : mesh_bone_data_t V)
    (first_vertex_offset : Nat) : Option (file_reader_assimp × mesh_bone_data_t V) :=
  let bone_id := (get_bone_id r pBone).1
  let r := (get_bone_id r pBone).2
  let r := if bone_id = r.bone_info.length then
      ⟨r.had_vertex_error, r.bone_name_to_index_map, r.bone_info
        ++ [bone_info_t.make (aiMatrix4x4_to_xform_matrix pBone.mOffsetMatrix)]⟩
    else r
  match parse_bone_weights sv bone_id first_vertex_offset pBone.mWeights bone_data
      r.had_vertex_error with
  | none => none
  | some res => some ({ r with had_vertex_error := res.2 }, res.1)

mutual
/-- The function `file_reader_assimp::read_node_hierarchy_recur` (lines 58-69): the new
value of `bone_info`; `none` when the assertion on `bone_index` fails. -/
def read_node_hierarchy_recur (bone_name_to_index_map : List (String × Nat)) :
    aiNode → xform_matrix → List bone_info_t → Option (List bone_info_t)
  | aiNode.mk node_name mTransformation mChildren, parent_transform, bone_info =>
    let global_transform := parent_transform * aiMatrix4x4_to_xform_matrix mTransformation
    match bone_name_to_index_map.lookup node_name with
    | some bone_index =>
      if h : bone_index < bone_info.length then
        read_node_hierarchy_children bone_name_to_index_map mChildren global_transform
          (bone_info.set bone_index ⟨bone_info[bone_index].offset_matrix,
            global_transform * bone_info[bone_index].offset_matrix⟩)
      else none
    | none =>
      read_node_hierarchy_children bone_name_to_index_map mChildren global_transform bone_info
/-- The loop over the children in `read_node_hierarchy_recur` (line 68). -/
def read_node_hierarchy_children (bone_name_to_index_map : List (String × Nat)) :
    List aiNode → xform_matrix → List bone_info_t → Option (List bone_info_t)
  | [], _, bone_info => some bone_info
  | child :: rest, global_transform, bone_info =>
    match read_node_hierarchy_recur bone_name_to_index_map child global_transform
        bone_info with
    | none => none
    | some bone_info =>
      read_node_hierarchy_children bone_name_to_index_map rest global_transform bone_info
end

/-- The arguments of one call of `parse_single_bone`. -/
structure bone_call (V : Type) where
  bone_index : Int
  pBone : aiBone
  bone_data : mesh_bone_data_t V
  first_vertex_offset : Nat

/-- A sequence of calls of `parse_single_bone`, each with its own arguments: the loader state
after the last call; `none` when an assertion fails in one of the calls. -/
def parse_bone_calls {V : Type} (sv : bone_services V) :
    file_reader_assimp → List (bone_call V) → Option file_reader_assimp
  | r, [] => some r
  | r, c :: rest =>
    match parse_single_bone sv r c.bone_index c.pBone c.bone_data c.first_vertex_offset with
    | none => none
    | some res => parse_bone_calls sv res.1 rest

/-- The distinct names of a list in the order of their first appearance. -/
def first_appearances (names : List String) : List String :=
  names.foldl (fun acc name => if name ∈ acc then acc else acc ++ [name]) []

/-- The bone names of a sequence of calls, in the order of the calls. -/
def bone_call_names {V : Type} (calls : List (bone_call V)) : List String :=
  calls.map (fun c => c.pBone.mName)

/-- Example services: the per-vertex record is the list of (bone id, weight) pairs added so
far, and the error flag is set when a fifth pair is added. -/
def ex_bone_services : bone_services (List (Nat × ℚ)) :=
  ⟨fun v bone_id weight err => (v ++ [(bone_id, weight)], err || decide (4 ≤ v.length))⟩

/-- Example call: a bone with the given name, the identity as offset matrix and weight 1 on
vertex 0 of a mesh of two vertices. -/
def ex_bone_call (name : String) : bone_call (List (Nat × ℚ)) :=
  ⟨0, ⟨name, 1, [⟨0, 1⟩]⟩, ⟨[[], []]⟩, 0⟩

/-- Example calls: the bones "hip", "knee", "hip", "foot", "knee" in this order. -/
def ex_bone_calls : List (bone_call (List (Nat × ℚ))) :=
  [ex_bone_call "hip", ex_bone_call "knee", ex_bone_call "hip", ex_bone_call "foot",
    ex_bone_call "knee"]

/-- Example hierarchy: a root that is no bone, with the chain "hip", "knee", "foot" and a node
"cap" that is no bone. -/
def ex_scene_root : aiNode :=
  aiNode.mk "root" 1 [aiNode.mk "hip" 1 [aiNode.mk "knee" 1 [aiNode.mk "foot" 1 []]],
    aiNode.mk "cap" 1 []]

/-- Example name: the letter b followed by the binary digits of `n`, lowest digit first. -/
def ex_bone_name (n : Nat) : String :=
  String.mk ('b' :: (Nat.digits 2 n).map (fun d => if d = 0 then '0' else '1'))

/-- The number whose binary digits follow the first letter of a name. -/
def ex_bone_number (name : String) : Nat :=
  Nat.ofDigits 2 (name.data.tail.map (fun c => if c = '0' then 0 else 1))

/-- Example call: a bone without weights with the name `ex_bone_name n`. -/
def ex_numbered_call (n : Nat) : bone_call (List (Nat × ℚ)) :=
  ⟨0, ⟨ex_bone_name n, 1, []⟩, ⟨[]⟩, 0⟩

/-- Example calls: `n` bones with distinct names, none with weights. -/
def ex_numbered_calls (n : Nat) : List (bone_call (List (Nat × ℚ))) :=
  (List.range n).map ex_numbered_call

/-- The (name, index) pairs that give the names `ds` the values `s, s+1, ...` of an `unsigned`
counter, in this order. -/
def bone_map_from : Nat → List String → List (String × Nat)
  | _, [] => []
  | s, name :: rest => (name, s % unsigned_mod) :: bone_map_from (s + 1) rest

/-! ## The claims' vocabulary: the objects a run places -/

/-- The tail of `add_attic_objects` (lines 257-267) from the state after the furnace block:
the external routines `add_boxes_to_space` and `try_add_lamp` get the object list and
return the new one; `none` when `objs[attic_door_ix]` does not exist. -/
def add_attic_objects_fill (sv : services) (b : building_t) (part : cube_t) (room_id : Int)
    (attic_door_ix : Nat) (st : attic_pass) : Option attic_pass :=
  let floor_spacing := sv.get_window_vspace b
  let place_area :=
    ({ part with z1 := b.interior.attic_access.cube.z2,
                 z2 := b.interior.attic_access.cube.z2 }).expand_by_xy (-0.75 * floor_spacing)
  let light_amt : ℚ := 1.0
  let r := sv.rand st.rgen
  let num_boxes := r.1 % 25
  let box_sz := 0.18 * floor_spacing
  match st.objs[attic_door_ix]? with
  | none => none
  | some door_obj =>
    let bx := sv.add_boxes_to_space door_obj st.objs place_area st.avoid_cubes
      r.2 num_boxes box_sz (0.5 * box_sz) (1.5 * box_sz) true attic_obj_flags
    let st := { st with objs := bx.1, avoid_cubes := bx.2.1, rgen := bx.2.2 }
    let r := sv.rand st.rgen
    let num_lamps := r.1 % 3
    some (add_attic_lamps sv place_area floor_spacing room_id light_amt num_lamps
      { st with rgen := r.2 })

/-- The state of `add_attic_objects` after the furnace block (line 256), from the state
`st_p` after the post loop. -/
def attic_pass_furnace (sv : services) (b : building_t) (part : cube_t) (st_p : attic_pass) :
    attic_pass :=
  if !sv.has_basement b then
    add_attic_furnace sv b (attic_place_area sv b part) (sv.get_window_vspace b)
      (attic_door_room_id sv b) 1.0 100 st_p
  else st_p

/-- The objects that the `emplace_back` calls of `add_attic_objects` have appended to the
object list `objs` of a state: the entries after those the building had before the run. -/
def placed_objects (b : building_t) (st : attic_pass) : List room_object_t :=
  st.objs.drop b.interior.objs.length

/-- The furnaces among the placed objects. -/
def placed_furnaces (b : building_t) (st : attic_pass) : List room_object_t :=
  (placed_objects b st).filter (fun o => decide (o.type = room_object.TYPE_FURNACE))

/-! ## Attic woodwork: the list of vertical beams -/

/-- Example hip roof 0.146 high over a part of 8.7239 x 10.656, with a ridge 0.2 long: south
trapezoid. It runs 5.328 to the ridge, and its angled edges are 6.82445 long. -/
def ex_flat_south : tquad_with_ix_t :=
  ⟨⟨0, 0, 3⟩, ⟨8.7239, 0, 3⟩, ⟨4.46195, 5.328, 3.146⟩, ⟨4.26195, 5.328, 3.146⟩, 4,
    tquad_type.TYPE_ROOF⟩

/-- Example hip roof 0.146 high: north trapezoid. -/
def ex_flat_north : tquad_with_ix_t :=
  ⟨⟨8.7239, 10.656, 3⟩, ⟨0, 10.656, 3⟩, ⟨4.26195, 5.328, 3.146⟩, ⟨4.46195, 5.328, 3.146⟩,
    4, tquad_type.TYPE_ROOF⟩

/-- Example hip roof 0.146 high: west triangle. -/
def ex_flat_west : tquad_with_ix_t :=
  ⟨⟨0, 10.656, 3⟩, ⟨0, 0, 3⟩, ⟨4.26195, 5.328, 3.146⟩, ⟨4.26195, 5.328, 3.146⟩, 3,
    tquad_type.TYPE_ROOF⟩

/-- Example hip roof 0.146 high: east triangle. -/
def ex_flat_east : tquad_with_ix_t :=
  ⟨⟨8.7239, 0, 3⟩, ⟨8.7239, 10.656, 3⟩, ⟨4.46195, 5.328, 3.146⟩, ⟨4.46195, 5.328, 3.146⟩,
    3, tquad_type.TYPE_ROOF⟩

/-- Example house before hatch placement (floor spacing 3, beam depth 0.24): one part of
8.7239 x 10.656, one floor with a single room, under the hip roof of height 0.146. The part
is more than 2.75 floor spacings (8.25) wide in both directions. -/
def ex_flat_hip_house0 : building_t where
  parts := [⟨0, 8.7239, 0, 10.656, 0, 3⟩]
  real_num_parts := 1
  roof_dims := 0
  roof_tquads := [ex_flat_south, ex_flat_north, ex_flat_west, ex_flat_east]
  interior := ⟨[⟨⟨0, 8.7239, 0, 10.656, 0, 3⟩, 0, false, 0⟩], ⟨cube_t.zero, 0⟩, []⟩
  interior_z2 := 3.146
  has_chimney := 0
  is_house := true

/-- Example ceiling of `ex_flat_hip_house0`. -/
def ex_flat_ceiling : cube_t := ⟨0, 8.7239, 0, 10.656, 2.7, 3⟩

/-- Example: `ex_flat_hip_house0` with the hatch that `add_attic_access_door` places in its
room. -/
def ex_flat_hip_house : building_t :=
  { ex_flat_hip_house0 with interior := { ex_flat_hip_house0.interior with
    attic_access := ⟨⟨3.88195, 4.84195, 4.608, 6.048, 2.7, 3⟩, 2⟩ } }

/-! ## Single precision rounding

The claims on the room filter, the room choice and the centring of the hatch compare
quantities that the source stores in `float` variables. For them `add_attic_access_door` is
modelled a second time (section "Access hatch placement in single precision") with every
store into a `float` and every `float` operation passed through a rounding function `rnd`;
expressions the source evaluates in `double` are taken at their exact value. -/

/-- The power of two `2^k` for an integer exponent. -/
def pow2 (k : ℤ) : ℚ :=
  if 0 ≤ k then ((2 ^ k.toNat : ℕ) : ℚ) else 1 / ((2 ^ (-k).toNat : ℕ) : ℚ)

/-- Rounding to the nearest integer, a tie going to the even neighbour. -/
def round_half_even (x : ℚ) : ℤ :=
  if x - ⌊x⌋ < 1 / 2 then ⌊x⌋
  else if 1 / 2 < x - ⌊x⌋ then ⌊x⌋ + 1
  else if ⌊x⌋ % 2 = 0 then ⌊x⌋ else ⌊x⌋ + 1

/-- The loop behind `nat_log2`: halve `n` until it is below 2, at most `fuel` times. -/
def nat_log2_loop : Nat → Nat → Nat
  | 0, _ => 0
  | fuel + 1, n => if n < 2 then 0 else nat_log2_loop fuel (n / 2) + 1

/-- The position of the leading bit of a natural number: `2^k ≤ n < 2^(k+1)` for `n > 0`. -/
def nat_log2 (n : Nat) : Nat := nat_log2_loop n n

/-- The binary exponent `e` of a nonzero number: `2^e ≤ |x| < 2^(e+1)`. -/
def float_exponent (x : ℚ) : ℤ :=
  let e : ℤ := (nat_log2 x.num.natAbs : ℤ) - (nat_log2 x.den : ℤ)
  if pow2 e ≤ |x| then e else e - 1

/-- The value a `float` holds after `x` is stored in it: IEEE 754 binary32 conversion,
round to nearest with ties to even on a 24 bit significand. The exponent range (overflow,
subnormal numbers) is not modelled. -/
def round_float (x : ℚ) : ℚ :=
  if x = 0 then 0
  else round_half_even (x / pow2 (float_exponent x - 23)) * pow2 (float_exponent x - 23)

/-- The accuracy of a rounding function that the proofs rely on: the relative error of one
rounding is at most `2^-24` (half a unit in the last place of a 24 bit significand). -/
def float_accurate (rnd : ℚ → ℚ) : Prop := ∀ x : ℚ, |rnd x - x| ≤ |x| / 16777216

/-! ## Access hatch placement in single precision

The function `add_attic_access_door` once more, now with the `float` arithmetic of the
source made explicit: `rnd` is applied wherever the source stores into a `float` or
combines two `float`s. With `rnd := id` this is the model of section "Access hatch
placement" (theorem `add_attic_access_door_flt_id`). -/

/-- Modelled from the spec: `dx()` in `float` arithmetic, the rounded difference
`d[0][1] - d[0][0]`. -/
def dx_flt (rnd : ℚ → ℚ) (c : cube_t) : ℚ := rnd (c.x2 - c.x1)

/-- Modelled from the spec: `dy()` in `float` arithmetic. -/
def dy_flt (rnd : ℚ → ℚ) (c : cube_t) : ℚ := rnd (c.y2 - c.y1)

/-- Modelled from the spec: `get_sz_dim(dim)` in `float` arithmetic. -/
def get_sz_dim_flt (rnd : ℚ → ℚ) (c : cube_t) (dim : Nat) : ℚ :=
  rnd (c.d dim true - c.d dim false)

/-- Modelled from the spec: `get_center_dim(dim)` in `float` arithmetic,
`0.5f*(d[dim][0] + d[dim][1])`: the sum is rounded, then the product. -/
def get_center_dim_flt (rnd : ℚ → ℚ) (c : cube_t) (dim : Nat) : ℚ :=
  rnd (0.5 * rnd (c.d dim false + c.d dim true))

/-- Modelled from the spec: `xc()` in `float` arithmetic. -/
def xc_flt (rnd : ℚ → ℚ) (c : cube_t) : ℚ := rnd (0.5 * rnd (c.x1 + c.x2))

/-- Modelled from the spec: `yc()` in `float` arithmetic. -/
def yc_flt (rnd : ℚ → ℚ) (c : cube_t) : ℚ := rnd (0.5 * rnd (c.y1 + c.y2))

/-- Modelled from the spec: `zc()` in `float` arithmetic. -/
def zc_flt (rnd : ℚ → ℚ) (c : cube_t) : ℚ := rnd (0.5 * rnd (c.z1 + c.z2))

/-- Modelled from the spec: `get_cube_center()` in `float` arithmetic. -/
def get_cube_center_flt (rnd : ℚ → ℚ) (c : cube_t) : point :=
  ⟨xc_flt rnd c, yc_flt rnd c, zc_flt rnd c⟩

/-- Modelled from the spec: `expand_in_dim(dim, val)` in `float` arithmetic,
`d[dim][0] -= val; d[dim][1] += val;` with both results rounded. -/
def expand_in_dim_flt (rnd : ℚ → ℚ) (c : cube_t) (dim : Nat) (val : ℚ) : cube_t :=
  (c.set_d dim false (rnd (c.d dim false - val))).set_d dim true (rnd (c.d dim true + val))

/-- The `for` loop over rooms in `add_attic_access_door` (lines 78-87) in `float`
arithmetic: the room sizes are the rounded differences, `area` is the rounded product
stored in a `float`; the thresholds `2.5*half_len` and `2.5*half_wid` are `double`
products of the `float`s `half_len` and `half_wid`. -/
def scan_rooms_flt (rnd : ℚ → ℚ) (sv : services) (part_ix floor : Nat) (half_len half_wid : ℚ) :
    List room_t → room_scan → room_scan
  | [], st => st
  | room :: rest, st =>
    if room.part_id ≠ part_ix then scan_rooms_flt rnd sv part_ix floor half_len half_wid rest st
    else if sv.has_stairs_on_floor room floor then
      scan_rooms_flt rnd sv part_ix floor half_len half_wid rest st
    else if max (dx_flt rnd room.cube) (dy_flt rnd room.cube) < 2.5 * half_len
        ∨ min (dx_flt rnd room.cube) (dy_flt rnd room.cube) < 2.5 * half_wid then
      scan_rooms_flt rnd sv part_ix floor half_len half_wid rest st
    else if room.is_hallway then { best_room := room, best_area := st.best_area, in_hallway := true }
    else
      let area := rnd (dx_flt rnd room.cube * dy_flt rnd room.cube)
      if area > st.best_area then
        scan_rooms_flt rnd sv part_ix floor half_len half_wid rest
          { best_room := room, best_area := area, in_hallway := st.in_hallway }
      else scan_rooms_flt rnd sv part_ix floor half_len half_wid rest st

/-- The state of the room loop when it exits, in `float` arithmetic: `half_len` and
`half_wid` are the `float`s initialised from `0.24*floor_spacing` and
`0.16*floor_spacing` (line 73). -/
def select_room_flt (rnd : ℚ → ℚ) (sv : services) (b : building_t)
    (part_ix num_floors rooms_start : Nat) : room_scan :=
  let floor_spacing := sv.get_window_vspace b
  let half_len := rnd (0.24 * floor_spacing)
  let half_wid := rnd (0.16 * floor_spacing)
  scan_rooms_flt rnd sv part_ix (top_floor_ix num_floors) half_len half_wid
    (b.interior.rooms.drop rooms_start) ⟨room_t.zero, 0.0, false⟩

/-- The local `valid_area` (lines 90-92) in `float` arithmetic: the arguments
`-1.2*half_len` and `-1.2*half_wid` are rounded when they are passed as `float`, and so is
each moved side. -/
def hatch_valid_area_flt (rnd : ℚ → ℚ) (best_room : cube_t) (long_dim : Bool)
    (half_len half_wid : ℚ) : cube_t :=
  expand_in_dim_flt rnd (expand_in_dim_flt rnd best_room long_dim.toNat (rnd (-1.2 * half_len)))
    (!long_dim).toNat (rnd (-1.2 * half_wid))

/-- The hallway branch (lines 98-100) in `float` arithmetic: each `+=` adds a `double`
offset to a `float` coordinate and stores the sum as `float`. -/
def hallway_access_pos_flt (rnd : ℚ → ℚ) (sv : services) (best_room : cube_t) (long_dim : Bool)
    (rgen2 : rand_gen_t) : point × rand_gen_t :=
  let pos0 := get_cube_center_flt rnd best_room
  let r1 := sv.rand_bool rgen2
  let pos1 := pos0.set long_dim.toNat (rnd (pos0.get long_dim.toNat
    + (if r1.1 then -1.0 else 1.0) * 0.1 * get_sz_dim_flt rnd best_room long_dim.toNat))
  let r2 := sv.rand_bool r1.2
  (pos1.set (!long_dim).toNat (rnd (pos1.get (!long_dim).toNat
    + (if r2.1 then -1.0 else 1.0) * 0.2 * get_sz_dim_flt rnd best_room (!long_dim).toNat)), r2.2)

/-- The non-hallway branch (lines 103-108) in `float` arithmetic: the centres are `float`
centres, the blend `0.7*near + 0.3*far` is a `double` stored as `float`. -/
def room_access_pos_flt (rnd : ℚ → ℚ) (best_room part : cube_t) : point :=
  let span_x : Bool := decide (best_room.x1 = part.x1 ∧ best_room.x2 = part.x2)
  let span_y : Bool := decide (best_room.y1 = part.y1 ∧ best_room.y2 = part.y2)
  let xd : Bool := decide (xc_flt rnd best_room < xc_flt rnd part)
  let yd : Bool := decide (yc_flt rnd best_room < yc_flt rnd part)
  { point.zero with
    x := if span_x then xc_flt rnd best_room
      else rnd (0.7 * best_room.d 0 xd + 0.3 * best_room.d 0 (!xd)),
    y := if span_y then yc_flt rnd best_room
      else rnd (0.7 * best_room.d 1 yd + 0.3 * best_room.d 1 (!yd)) }

/-- The tail of `add_attic_access_door` (lines 110-116) in `float` arithmetic: the hatch
sides are the clamped position minus and plus the half size, each rounded, and `dir`
compares two `float` centres. -/
def make_attic_access_flt (rnd : ℚ → ℚ) (best_room valid_area ceiling : cube_t)
    (long_dim : Bool) (half_len half_wid : ℚ) (access_pos : point) : cube_with_ix_t :=
  let access_pos := valid_area.clamp_pt_xy access_pos
  let hatch := expand_in_dim_flt rnd (expand_in_dim_flt rnd (cube_t.set_from_point access_pos)
    long_dim.toNat half_len) (!long_dim).toNat half_wid
  let hatch := set_cube_zvals hatch ceiling.z1 ceiling.z2
  let dir : Bool := decide (get_center_dim_flt rnd best_room long_dim.toNat
    < get_center_dim_flt rnd hatch long_dim.toNat)
  ⟨hatch, 2 * long_dim.toNat + dir.toNat⟩

/-- The function `building_t::add_attic_access_door` (lines 66-118) in `float` arithmetic.
The result is `none` when `parts[part_ix]` or `get_part_for_room` is out of range. -/
def add_attic_access_door_flt (rnd : ℚ → ℚ) (sv : services) (b : building_t) (ceiling : cube_t)
    (part_ix num_floors rooms_start : Nat) (rgen : rand_gen_t) : Option door_result :=
  let floor_spacing := sv.get_window_vspace b
  match b.parts[part_ix]? with
  | none => none
  | some part =>
    if min (dx_flt rnd part) (dy_flt rnd part) < 2.75 * floor_spacing then some ⟨false, b, rgen⟩
    else
      let half_len := rnd (0.24 * floor_spacing)
      let half_wid := rnd (0.16 * floor_spacing)
      let sel := select_room_flt rnd sv b part_ix num_floors rooms_start
      let best_room := sel.best_room
      let in_hallway := sel.in_hallway
      if best_room.cube.is_all_zeros then some ⟨false, b, rgen⟩
      else
        let long_dim : Bool := decide (dx_flt rnd best_room.cube < dy_flt rnd best_room.cube)
        let valid_area := hatch_valid_area_flt rnd best_room.cube long_dim half_len half_wid
        if !valid_area.is_strictly_normalized then some ⟨false, b, rgen⟩
        else
          let rgen2 := rgen
          let access_pos : Option point :=
            if in_hallway then
              some (hallway_access_pos_flt rnd sv best_room.cube long_dim rgen2).1
            else (get_part_for_room b best_room).map fun part =>
              room_access_pos_flt rnd best_room.cube part
          match access_pos with
          | none => none
          | some access_pos =>
            some ⟨true, { b with interior := { b.interior with
              attic_access := make_attic_access_flt rnd best_room.cube valid_area ceiling
                long_dim half_len half_wid access_pos } }, rgen⟩

/-- The rooms the loop does not skip, in `float` arithmetic: they belong to the part, have
no stairs on the given floor, their longer side (as the `float` `dx()` or `dy()`) is at
least `2.5*half_len` and their shorter side at least `2.5*half_wid`. -/
def room_eligible_flt (rnd : ℚ → ℚ) (sv : services) (part_ix floor : Nat)
    (half_len half_wid : ℚ) (room : room_t) : Bool :=
  decide (room.part_id = part_ix) && !sv.has_stairs_on_floor room floor
    && decide (max (dx_flt rnd room.cube) (dy_flt rnd room.cube) ≥ 2.5 * half_len)
    && decide (min (dx_flt rnd room.cube) (dy_flt rnd room.cube) ≥ 2.5 * half_wid)

/-- The floor area of a room as the loop computes it: the `float` product of the `float`
sides. -/
def room_area_flt (rnd : ℚ → ℚ) (room : room_t) : ℚ :=
  rnd (dx_flt rnd room.cube * dy_flt rnd room.cube)

/-- The eligible rooms of a call in `float` arithmetic, in list order: the rooms at index
`rooms_start` or later that pass `room_eligible_flt` for floor `num_floors-1` with the
`float`s `half_len` and `half_wid` of the call. -/
def eligible_rooms_flt (rnd : ℚ → ℚ) (sv : services) (b : building_t)
    (part_ix num_floors rooms_start : Nat) : List room_t :=
  (b.interior.rooms.drop rooms_start).filter
    (room_eligible_flt rnd sv part_ix (top_floor_ix num_floors)
      (rnd (0.24 * sv.get_window_vspace b)) (rnd (0.16 * sv.get_window_vspace b)))

/-- The horizontal coordinates of a cube are at most 10000 floor spacings from the
origin. -/
def cube_in_range (fs : ℚ) (c : cube_t) : Bool :=
  decide (|c.x1| ≤ 10000 * fs ∧ |c.x2| ≤ 10000 * fs ∧ |c.y1| ≤ 10000 * fs ∧ |c.y2| ≤ 10000 * fs)

/-- A house whose single room spans the part from x = 5 to x = 26.1 (as `float`,
13683917/524288) and from y = 0 to y = 10; used with floor spacing 2. -/
def ex_wide_house : building_t where
  parts := [⟨5, 13683917 / 524288, 0, 10, 0, 4⟩]
  real_num_parts := 1
  roof_dims := 0
  roof_tquads := []
  interior := ⟨[⟨⟨5, 13683917 / 524288, 0, 10, 2, 4⟩, 0, false, 0⟩], ⟨cube_t.zero, 0⟩, []⟩
  interior_z2 := 8
  has_chimney := 0
  is_house := true

/-- The ceiling of the top floor of `ex_wide_house`. -/
def ex_wide_ceiling : cube_t := ⟨5, 13683917 / 524288, 0, 10, 3.8, 4⟩

/-- The local `long_dim` of a call of `add_attic_access_door` (line 89) in `float`
arithmetic: the chosen room is longer in y than in x. -/
def door_long_dim_flt (rnd : ℚ → ℚ) (sv : services) (b : building_t)
    (part_ix num_floors rooms_start : Nat) : Bool :=
  decide (dx_flt rnd (select_room_flt rnd sv b part_ix num_floors rooms_start).best_room.cube
    < dy_flt rnd (select_room_flt rnd sv b part_ix num_floors rooms_start).best_room.cube)

/-- The local `valid_area` of a call of `add_attic_access_door` (lines 90-92) in `float`
arithmetic: the chosen room after the two shrinks. -/
def door_valid_area_flt (rnd : ℚ → ℚ) (sv : services) (b : building_t)
    (part_ix num_floors rooms_start : Nat) : cube_t :=
  hatch_valid_area_flt rnd (select_room_flt rnd sv b part_ix num_floors rooms_start).best_room.cube
    (door_long_dim_flt rnd sv b part_ix num_floors rooms_start)
    (rnd (0.24 * sv.get_window_vspace b)) (rnd (0.16 * sv.get_window_vspace b))

/-- A house at floor spacing 5 whose part is exactly 2.75 floor spacings (13.75) wide, with a
single square room of the given side in a corner of the top floor. -/
def ex_boundary_house (side : ℚ) : building_t where
  parts := [⟨0, 13.75, 0, 14, 0, 10⟩]
  real_num_parts := 1
  roof_dims := 0
  roof_tquads := []
  interior := ⟨[⟨⟨0, side, 0, side, 5, 10⟩, 0, false, 0⟩], ⟨cube_t.zero, 0⟩, []⟩
  interior_z2 := 15
  has_chimney := 0
  is_house := true

/-- The ceiling of the top floor of `ex_boundary_house`. -/
def ex_boundary_ceiling : cube_t := ⟨0, 13.75, 0, 14, 9.5, 10⟩

/-- A house at floor spacing 1 with two rooms whose `float` areas are both 3: the first is
1 x 3, the second (1 + 2^-23) x (3 - 2^-22), whose exact area is larger than 3. -/
def ex_tie_house : building_t where
  parts := [⟨0, 3, 0, 3, 0, 2⟩]
  real_num_parts := 1
  roof_dims := 0
  roof_tquads := []
  interior := ⟨[⟨⟨2, 3, 0, 3, 1, 2⟩, 0, false, 0⟩,
    ⟨⟨0, 8388609 / 8388608, 0, 12582911 / 4194304, 1, 2⟩, 0, false, 0⟩], ⟨cube_t.zero, 0⟩, []⟩
  interior_z2 := 4
  has_chimney := 0
  is_house := true

/-- The ceiling of the top floor of `ex_tie_house`. -/
def ex_tie_ceiling : cube_t := ⟨0, 3, 0, 3, 1.9, 2⟩

/-! # Theorems -/

/-! ## Lemmas on the room loop -/

section scan
variable (sv : services) (part_ix floor : Nat) (hl hw : ℚ)

/-- A room that is not eligible is skipped by the loop. -/
theorem scan_rooms_skip (room : room_t) (rest : List room_t) (st : room_scan)
    (h : room_eligible sv part_ix floor hl hw room = false) :
    scan_rooms sv part_ix floor hl hw (room :: rest) st
      = scan_rooms sv part_ix floor hl hw rest st := by
  rw [scan_rooms]
  simp only [room_eligible, Bool.and_eq_false_iff, decide_eq_false_iff_not, Bool.not_eq_false',
    ge_iff_le, not_le] at h
  split_ifs <;> first | rfl | (exfalso; tauto)

/-- An eligible hallway ends the loop and becomes the chosen room. -/
theorem scan_rooms_hallway (room : room_t) (rest : List room_t) (st : room_scan)
    (h : room_eligible sv part_ix floor hl hw room = true) (hh : room.is_hallway = true) :
    scan_rooms sv part_ix floor hl hw (room :: rest) st = ⟨room, st.best_area, true⟩ := by
  rw [scan_rooms]
  simp only [room_eligible, Bool.and_eq_true, decide_eq_true_eq, Bool.not_eq_true',
    ge_iff_le] at h
  obtain ⟨⟨⟨h1, h2⟩, h3⟩, h4⟩ := h
  rw [if_neg (by simpa using h1), if_neg (by simp [h2]),
    if_neg (by rw [not_or, not_lt, not_lt]; exact ⟨h3, h4⟩), if_pos hh]

/-- An eligible room that is not a hallway replaces the best room exactly when its area
is larger than the best area so far. -/
theorem scan_rooms_room (room : room_t) (rest : List room_t) (st : room_scan)
    (h : room_eligible sv part_ix floor hl hw room = true) (hh : room.is_hallway = false) :
    scan_rooms sv part_ix floor hl hw (room :: rest) st
      = if room_area room > st.best_area then
          scan_rooms sv part_ix floor hl hw rest ⟨room, room_area room, st.in_hallway⟩
        else scan_rooms sv part_ix floor hl hw rest st := by
  rw [scan_rooms]
  simp only [room_eligible, Bool.and_eq_true, decide_eq_true_eq, Bool.not_eq_true',
    ge_iff_le] at h
  obtain ⟨⟨⟨h1, h2⟩, h3⟩, h4⟩ := h
  rw [if_neg (by simpa using h1), if_neg (by simp [h2]),
    if_neg (by rw [not_or, not_lt, not_lt]; exact ⟨h3, h4⟩), if_neg (by simp [hh])]
  rfl

/-- Without eligible rooms the loop leaves its state unchanged. -/
theorem scan_rooms_none (rooms : List room_t) (st : room_scan)
    (h : rooms.filter (room_eligible sv part_ix floor hl hw) = []) :
    scan_rooms sv part_ix floor hl hw rooms st = st := by
  induction rooms with
  | nil => rfl
  | cons room rest ih =>
    have hr : room_eligible sv part_ix floor hl hw room = false := by
      by_contra hc
      rw [List.filter_cons_of_pos (by simpa using hc)] at h
      exact List.cons_ne_nil _ _ h
    rw [List.filter_cons_of_neg (by simp [hr])] at h
    rw [scan_rooms_skip sv part_ix floor hl hw room rest st hr, ih h]

/-- If the eligible rooms hold a hallway, the loop ends with the first one of them. -/
theorem scan_rooms_first_hallway (rooms : List room_t) (st : room_scan) (hall : room_t)
    (h : (rooms.filter (room_eligible sv part_ix floor hl hw)).find? (fun r => r.is_hallway)
      = some hall) :
    (scan_rooms sv part_ix floor hl hw rooms st).best_room = hall ∧
    (scan_rooms sv part_ix floor hl hw rooms st).in_hallway = true := by
  induction rooms generalizing st with
  | nil => simp at h
  | cons room rest ih =>
    cases hr : room_eligible sv part_ix floor hl hw room with
    | false =>
      rw [List.filter_cons_of_neg (by simp [hr])] at h
      rw [scan_rooms_skip sv part_ix floor hl hw room rest st hr]
      exact ih st h
    | true =>
      rw [List.filter_cons_of_pos hr] at h
      cases hh : room.is_hallway with
      | true =>
        rw [List.find?_cons_of_pos _ hh] at h
        rw [scan_rooms_hallway sv part_ix floor hl hw room rest st hr hh]
        exact ⟨Option.some.inj h, rfl⟩
      | false =>
        rw [List.find?_cons_of_neg _ (by simp [hh])] at h
        rw [scan_rooms_room sv part_ix floor hl hw room rest st hr hh]
        split_ifs
        · exact ih _ h
        · exact ih _ h

/-- Without an eligible hallway the loop either keeps its state (no eligible room is larger
than the best area it started with) or ends with the first eligible room of maximum area. -/
theorem scan_rooms_largest (rooms : List room_t) (st : room_scan)
    (hno : (rooms.filter (room_eligible sv part_ix floor hl hw)).find? (fun r => r.is_hallway)
      = none) :
    (scan_rooms sv part_ix floor hl hw rooms st).in_hallway = st.in_hallway ∧
    ((scan_rooms sv part_ix floor hl hw rooms st = st ∧
        ∀ r ∈ rooms.filter (room_eligible sv part_ix floor hl hw), room_area r ≤ st.best_area) ∨
      ∃ pre post, rooms.filter (room_eligible sv part_ix floor hl hw)
          = pre ++ (scan_rooms sv part_ix floor hl hw rooms st).best_room :: post ∧
        (∀ r ∈ pre, room_area r < room_area (scan_rooms sv part_ix floor hl hw rooms st).best_room) ∧
        (∀ r ∈ post, room_area r ≤ room_area (scan_rooms sv part_ix floor hl hw rooms st).best_room) ∧
        st.best_area < room_area (scan_rooms sv part_ix floor hl hw rooms st).best_room ∧
        (scan_rooms sv part_ix floor hl hw rooms st).best_area
          = room_area (scan_rooms sv part_ix floor hl hw rooms st).best_room) := by
  induction rooms generalizing st with
  | nil => exact ⟨rfl, Or.inl ⟨rfl, by simp⟩⟩
  | cons room rest ih =>
    cases hr : room_eligible sv part_ix floor hl hw room with
    | false =>
      rw [List.filter_cons_of_neg (by simp [hr])] at hno ⊢
      rw [scan_rooms_skip sv part_ix floor hl hw room rest st hr]
      exact ih st hno
    | true =>
      rw [List.filter_cons_of_pos hr] at hno ⊢
      have hh : room.is_hallway = false := by
        by_contra hc
        rw [List.find?_cons_of_pos _ (by simpa using hc)] at hno
        exact Option.some_ne_none _ hno
      rw [List.find?_cons_of_neg _ (by simp [hh])] at hno
      rw [scan_rooms_room sv part_ix floor hl hw room rest st hr hh]
      by_cases hgt : room_area room > st.best_area
      · rw [if_pos hgt]
        obtain ⟨h1, h2⟩ := ih ⟨room, room_area room, st.in_hallway⟩ hno
        refine ⟨h1, Or.inr ?_⟩
        rcases h2 with ⟨heq, hle⟩ | ⟨pre, post, hsplit, hpre, hpost, hlt, hbest⟩
        · rw [heq]
          exact ⟨[], _, rfl, by simp, hle, hgt, rfl⟩
        · refine ⟨room :: pre, post, by rw [hsplit]; rfl, ?_, hpost, lt_trans hgt hlt, hbest⟩
          intro r hrm
          rcases List.mem_cons.mp hrm with rfl | hrm
          · exact hlt
          · exact hpre r hrm
      · rw [if_neg hgt]
        obtain ⟨h1, h2⟩ := ih st hno
        refine ⟨h1, ?_⟩
        rcases h2 with ⟨heq, hle⟩ | ⟨pre, post, hsplit, hpre, hpost, hlt, hbest⟩
        · left
          refine ⟨heq, ?_⟩
          intro r hrm
          rcases List.mem_cons.mp hrm with rfl | hrm
          · exact not_lt.mp hgt
          · exact hle r hrm
        · right
          refine ⟨room :: pre, post, by rw [hsplit]; rfl, ?_, hpost, hlt, hbest⟩
          intro r hrm
          rcases List.mem_cons.mp hrm with rfl | hrm
          · exact lt_of_le_of_lt (not_lt.mp hgt) hlt
          · exact hpre r hrm

/-- The chosen room is the initial one or an eligible room of the list. -/
theorem scan_rooms_best_mem (rooms : List room_t) (st : room_scan) :
    (scan_rooms sv part_ix floor hl hw rooms st).best_room = st.best_room ∨
    (scan_rooms sv part_ix floor hl hw rooms st).best_room
      ∈ rooms.filter (room_eligible sv part_ix floor hl hw) := by
  induction rooms generalizing st with
  | nil => exact Or.inl rfl
  | cons room rest ih =>
    cases hr : room_eligible sv part_ix floor hl hw room with
    | false =>
      rw [List.filter_cons_of_neg (by simp [hr]),
        scan_rooms_skip sv part_ix floor hl hw room rest st hr]
      exact ih st
    | true =>
      rw [List.filter_cons_of_pos hr]
      cases hh : room.is_hallway with
      | true =>
        rw [scan_rooms_hallway sv part_ix floor hl hw room rest st hr hh]
        exact Or.inr (List.mem_cons_self _ _)
      | false =>
        rw [scan_rooms_room sv part_ix floor hl hw room rest st hr hh]
        split_ifs
        · rcases ih ⟨room, room_area room, st.in_hallway⟩ with h | h
          · exact Or.inr (by rw [h]; exact List.mem_cons_self _ _)
          · exact Or.inr (List.mem_cons_of_mem _ h)
        · rcases ih st with h | h
          · exact Or.inl h
          · exact Or.inr (List.mem_cons_of_mem _ h)

end scan

/-! ## Lemmas on hatch placement -/

/-- What a successful call of `add_attic_access_door` has established. -/
theorem add_attic_access_door_true (sv : services) (b : building_t) (ceiling : cube_t)
    (part_ix num_floors rooms_start : Nat) (rgen : rand_gen_t) (r : door_result)
    (h : add_attic_access_door sv b ceiling part_ix num_floors rooms_start rgen = some r)
    (hret : r.ret = true) :
    ∃ part pos,
      b.parts[part_ix]? = some part ∧
      ¬ (min part.dx part.dy < 2.75 * sv.get_window_vspace b) ∧
      (select_room sv b part_ix num_floors rooms_start).best_room.cube.is_all_zeros = false ∧
      (hatch_valid_area (select_room sv b part_ix num_floors rooms_start).best_room.cube
        (decide ((select_room sv b part_ix num_floors rooms_start).best_room.cube.dx
          < (select_room sv b part_ix num_floors rooms_start).best_room.cube.dy))
        (0.24 * sv.get_window_vspace b) (0.16 * sv.get_window_vspace b)).is_strictly_normalized
          = true ∧
      ((select_room sv b part_ix num_floors rooms_start).in_hallway = true →
        pos = (hallway_access_pos sv (select_room sv b part_ix num_floors rooms_start).best_room.cube
          (decide ((select_room sv b part_ix num_floors rooms_start).best_room.cube.dx
          < (select_room sv b part_ix num_floors rooms_start).best_room.cube.dy)) rgen).1) ∧
      ((select_room sv b part_ix num_floors rooms_start).in_hallway = false →
        ∃ part2, get_part_for_room b (select_room sv b part_ix num_floors rooms_start).best_room
            = some part2 ∧
          pos = room_access_pos (select_room sv b part_ix num_floors rooms_start).best_room.cube part2) ∧
      r.bldg = { b with interior := { b.interior with
        attic_access := make_attic_access
          (select_room sv b part_ix num_floors rooms_start).best_room.cube
          (hatch_valid_area (select_room sv b part_ix num_floors rooms_start).best_room.cube
            (decide ((select_room sv b part_ix num_floors rooms_start).best_room.cube.dx
              < (select_room sv b part_ix num_floors rooms_start).best_room.cube.dy))
            (0.24 * sv.get_window_vspace b) (0.16 * sv.get_window_vspace b))
          ceiling
          (decide ((select_room sv b part_ix num_floors rooms_start).best_room.cube.dx
              < (select_room sv b part_ix num_floors rooms_start).best_room.cube.dy))
          (0.24 * sv.get_window_vspace b) (0.16 * sv.get_window_vspace b) pos } } := by
  unfold add_attic_access_door at h
  simp only at h
  split at h
  · exact absurd h (by simp)
  · rename_i part hpart
    split at h
    · cases h; exact absurd hret (by simp)
    · rename_i hsz
      split at h
      · cases h; exact absurd hret (by simp)
      · rename_i hz
        split at h
        · cases h; exact absurd hret (by simp)
        · rename_i hva
          split at h
          · exact absurd h (by simp)
          · rename_i pos hpos
            cases h
            refine ⟨part, pos, hpart, hsz, by simpa using hz, by simpa using hva, ?_, ?_, rfl⟩
            · intro hh
              rw [if_pos hh] at hpos
              exact (Option.some.inj hpos).symm
            · intro hh
              rw [if_neg (by simp [hh])] at hpos
              rcases Option.map_eq_some'.mp hpos with ⟨p2, hp2, hp3⟩
              exact ⟨p2, hp2, hp3.symm⟩

/-- A call of `add_attic_access_door` returns (no out-of-range access) whenever
`parts[part_ix]` exists. -/
theorem add_attic_access_door_returns (sv : services) (b : building_t) (ceiling : cube_t)
    (part_ix num_floors rooms_start : Nat) (rgen : rand_gen_t)
    (hpart : part_ix < b.parts.length) :
    ∃ r, add_attic_access_door sv b ceiling part_ix num_floors rooms_start rgen = some r := by
  unfold add_attic_access_door
  simp only
  rw [List.getElem?_eq_getElem hpart]
  simp only
  split_ifs with h1 h2 h3 h4
  · exact ⟨_, rfl⟩
  · exact ⟨_, rfl⟩
  · exact ⟨_, rfl⟩
  · exact ⟨_, rfl⟩
  · have hp : ∃ part2, get_part_for_room b
        (select_room sv b part_ix num_floors rooms_start).best_room = some part2 := by
      rcases scan_rooms_best_mem sv part_ix (top_floor_ix num_floors)
        (0.24 * sv.get_window_vspace b) (0.16 * sv.get_window_vspace b)
        (b.interior.rooms.drop rooms_start) ⟨room_t.zero, 0.0, false⟩ with hz | hm
      · exfalso
        apply h2
        unfold select_room
        simp only
        rw [hz]
        decide
      · have hel := (List.mem_filter.mp hm).2
        simp only [room_eligible, Bool.and_eq_true, decide_eq_true_eq] at hel
        have hid := hel.1.1.1
        unfold get_part_for_room select_room
        simp only
        rw [hid, List.getElem?_eq_getElem hpart]
        exact ⟨_, rfl⟩
    obtain ⟨part2, hp2⟩ := hp
    rw [hp2]
    exact ⟨_, rfl⟩

/-- What a call of `add_attic_access_door` that returns false leaves behind. -/
theorem add_attic_access_door_false (sv : services) (b : building_t) (ceiling : cube_t)
    (part_ix num_floors rooms_start : Nat) (rgen : rand_gen_t) (r : door_result)
    (h : add_attic_access_door sv b ceiling part_ix num_floors rooms_start rgen = some r)
    (hret : r.ret = false) : r.bldg = b := by
  unfold add_attic_access_door at h
  simp only at h
  split at h
  · exact absurd h (by simp)
  · split at h
    · cases h; rfl
    · split at h
      · cases h; rfl
      · split at h
        · cases h; rfl
        · split at h
          · exact absurd h (by simp)
          · cases h; exact absurd hret (by simp)

/-- The caller's generator is returned unchanged by `add_attic_access_door`. -/
theorem add_attic_access_door_rgen (sv : services) (b : building_t) (ceiling : cube_t)
    (part_ix num_floors rooms_start : Nat) (rgen : rand_gen_t) (r : door_result)
    (h : add_attic_access_door sv b ceiling part_ix num_floors rooms_start rgen = some r) :
    r.rgen = rgen := by
  unfold add_attic_access_door at h
  simp only at h
  split at h
  · exact absurd h (by simp)
  · split at h
    · cases h; rfl
    · split at h
      · cases h; rfl
      · split at h
        · cases h; rfl
        · split at h
          · exact absurd h (by simp)
          · cases h; rfl

/-! ## Access hatch placement: the claims -/

/-- C2: for a building with an attic and non-negative floor spacing, the box returned by
`get_attic_access_door_avoid` contains the hatch box `interior->attic_access` in x, y
and z. -/
theorem C2_avoid_contains_hatch (sv : services) (b : building_t)
    (hattic : sv.has_attic b = true) (hfs : 0 ≤ sv.get_window_vspace b) :
    ∃ avoid, get_attic_access_door_avoid sv b = some avoid ∧
      avoid.x1 ≤ b.interior.attic_access.cube.x1 ∧ b.interior.attic_access.cube.x2 ≤ avoid.x2 ∧
      avoid.y1 ≤ b.interior.attic_access.cube.y1 ∧ b.interior.attic_access.cube.y2 ≤ avoid.y2 ∧
      avoid.z1 ≤ b.interior.attic_access.cube.z1 ∧ b.interior.attic_access.cube.z2 ≤ avoid.z2 ∧
      avoid.contains_cube b.interior.attic_access.cube = true := by
  unfold get_attic_access_door_avoid
  rw [if_neg (by simp [hattic])]
  refine ⟨_, rfl, ?_⟩
  have key : ∀ c : cube_t,
      c.x1 ≤ b.interior.attic_access.cube.x1 ∧ b.interior.attic_access.cube.x2 ≤ c.x2 ∧
      c.y1 ≤ b.interior.attic_access.cube.y1 ∧ b.interior.attic_access.cube.y2 ≤ c.y2 ∧
      c.z1 ≤ b.interior.attic_access.cube.z1 ∧ b.interior.attic_access.cube.z2 ≤ c.z2 →
      c.x1 ≤ b.interior.attic_access.cube.x1 ∧ b.interior.attic_access.cube.x2 ≤ c.x2 ∧
      c.y1 ≤ b.interior.attic_access.cube.y1 ∧ b.interior.attic_access.cube.y2 ≤ c.y2 ∧
      c.z1 ≤ b.interior.attic_access.cube.z1 ∧ b.interior.attic_access.cube.z2 ≤ c.z2 ∧
      c.contains_cube b.interior.attic_access.cube = true := by
    intro c hc
    obtain ⟨h1, h2, h3, h4, h5, h6⟩ := hc
    refine ⟨h1, h2, h3, h4, h5, h6, ?_⟩
    simp only [cube_t.contains_cube, decide_eq_true_eq]
    exact ⟨h1, h2, h3, h4, h5, h6⟩
  apply key
  simp only
  cases decide (b.interior.attic_access.ix >>> 1 ≠ 0) <;>
  cases decide (b.interior.attic_access.ix &&& 1 ≠ 0) <;>
  · simp only [cube_t.expand_by_xy, cube_t.set_d, cube_t.d, Bool.toNat_false, Bool.toNat_true,
      if_true, if_false, Bool.false_eq_true]
    refine ⟨?_, ?_, ?_, ?_, ?_, ?_⟩ <;> norm_num <;> linarith

/-- C2 at a concrete input: the hatch of `ex_house_with_hatch`, floor spacing 1. -/
theorem C2_witness :
    (ex_services 1).has_attic ex_house_with_hatch = true ∧
    0 ≤ (ex_services 1).get_window_vspace ex_house_with_hatch ∧
    ∃ avoid, get_attic_access_door_avoid (ex_services 1) ex_house_with_hatch = some avoid ∧
      avoid.x1 ≤ ex_house_with_hatch.interior.attic_access.cube.x1 ∧
      ex_house_with_hatch.interior.attic_access.cube.x2 ≤ avoid.x2 ∧
      avoid.y1 ≤ ex_house_with_hatch.interior.attic_access.cube.y1 ∧
      ex_house_with_hatch.interior.attic_access.cube.y2 ≤ avoid.y2 ∧
      avoid.z1 ≤ ex_house_with_hatch.interior.attic_access.cube.z1 ∧
      ex_house_with_hatch.interior.attic_access.cube.z2 ≤ avoid.z2 ∧
      avoid.contains_cube ex_house_with_hatch.interior.attic_access.cube = true :=
  ⟨by decide!, by decide!,
    C2_avoid_contains_hatch (ex_services 1) ex_house_with_hatch (by decide!) (by decide!)⟩

/-- An eligible room has positive extent in x and y when the floor spacing is positive. -/
theorem room_eligible_pos (sv : services) (part_ix floor : Nat) (fs : ℚ) (room : room_t)
    (hfs : 0 < fs)
    (h : room_eligible sv part_ix floor (0.24 * fs) (0.16 * fs) room = true) :
    0 < room.cube.dx ∧ 0 < room.cube.dy ∧ room.part_id = part_ix ∧
    2.5 * (0.24 * fs) ≤ max room.cube.dx room.cube.dy ∧
    2.5 * (0.16 * fs) ≤ min room.cube.dx room.cube.dy := by
  simp only [room_eligible, Bool.and_eq_true, decide_eq_true_eq, ge_iff_le] at h
  obtain ⟨⟨⟨h1, _⟩, h3⟩, h4⟩ := h
  have hw : 0 < 2.5 * (0.16 * fs) := by norm_num; exact hfs
  have hx := lt_of_lt_of_le hw (le_trans h4 (min_le_left _ _))
  have hy := lt_of_lt_of_le hw (le_trans h4 (min_le_right _ _))
  exact ⟨hx, hy, h1, h3, h4⟩

/-- The shrunk valid area of a room that passes the size filter and has positive height is
strictly normalized (positive floor spacing). -/
theorem hatch_valid_area_normalized (room : cube_t) (fs : ℚ) (hfs : 0 < fs)
    (hmax : 2.5 * (0.24 * fs) ≤ max room.dx room.dy)
    (hmin : 2.5 * (0.16 * fs) ≤ min room.dx room.dy) (hz : room.z1 < room.z2) :
    (hatch_valid_area room (decide (room.dx < room.dy)) (0.24 * fs)
      (0.16 * fs)).is_strictly_normalized = true := by
  by_cases hlt : room.dx < room.dy
  · rw [decide_eq_true hlt]
    rw [max_eq_right hlt.le] at hmax
    rw [min_eq_left hlt.le] at hmin
    simp only [hatch_valid_area, cube_t.is_strictly_normalized, cube_t.expand_in_dim,
      cube_t.set_d, cube_t.d, Bool.toNat_false, Bool.toNat_true, Bool.not_true,
      decide_eq_true_eq, cube_t.dx, cube_t.dy] at hmax hmin ⊢
    refine ⟨?_, ?_, hz⟩ <;> norm_num at hmax hmin ⊢ <;> linarith
  · rw [decide_eq_false hlt]
    rw [max_eq_left (not_lt.mp hlt)] at hmax
    rw [min_eq_right (not_lt.mp hlt)] at hmin
    simp only [hatch_valid_area, cube_t.is_strictly_normalized, cube_t.expand_in_dim,
      cube_t.set_d, cube_t.d, Bool.toNat_false, Bool.toNat_true, Bool.not_false,
      decide_eq_true_eq, cube_t.dx, cube_t.dy] at hmax hmin ⊢
    refine ⟨?_, ?_, hz⟩ <;> norm_num at hmax hmin ⊢ <;> linarith

/-- With positive floor spacing and at least one eligible room, the selected room is an
eligible room. -/
theorem select_room_of_eligible (sv : services) (b : building_t)
    (part_ix num_floors rooms_start : Nat) (hfs : 0 < sv.get_window_vspace b)
    (hne : eligible_rooms sv b part_ix num_floors rooms_start ≠ []) :
    (select_room sv b part_ix num_floors rooms_start).best_room
      ∈ eligible_rooms sv b part_ix num_floors rooms_start := by
  unfold eligible_rooms at hne ⊢
  unfold select_room
  simp only
  cases hf : ((b.interior.rooms.drop rooms_start).filter
      (room_eligible sv part_ix (top_floor_ix num_floors) (0.24 * sv.get_window_vspace b)
        (0.16 * sv.get_window_vspace b))).find? (fun r => r.is_hallway) with
  | some hall =>
    rw [(scan_rooms_first_hallway sv part_ix _ _ _ _ _ hall hf).1]
    exact List.mem_of_find?_eq_some hf
  | none =>
    rcases (scan_rooms_largest sv part_ix _ _ _ _ ⟨room_t.zero, 0.0, false⟩ hf).2 with
      ⟨_, hle⟩ | ⟨pre, post, hsplit, _⟩
    · exfalso
      obtain ⟨r0, hr0⟩ := List.exists_mem_of_ne_nil _ hne
      have h1 := hle r0 hr0
      obtain ⟨hx, hy, _⟩ := room_eligible_pos sv part_ix _ _ r0 hfs (List.mem_filter.mp hr0).2
      have h2 : 0 < room_area r0 := mul_pos hx hy
      norm_num at h1
      linarith
    · rw [hsplit]
      exact List.mem_append_right _ (List.mem_cons_self _ _)

/-- C5: whenever `add_attic_access_door` returns false, no hatch is created:
`interior->attic_access` (box and orientation index) is what it was before the call, and
so is the rest of the building. -/
theorem C5_no_hatch_on_failure (sv : services) (b : building_t) (ceiling : cube_t)
    (part_ix num_floors rooms_start : Nat) (rgen : rand_gen_t) (r : door_result)
    (h : add_attic_access_door sv b ceiling part_ix num_floors rooms_start rgen = some r)
    (hret : r.ret = false) :
    r.bldg.interior.attic_access.cube = b.interior.attic_access.cube ∧
    r.bldg.interior.attic_access.ix = b.interior.attic_access.ix ∧ r.bldg = b := by
  have hb := add_attic_access_door_false sv b ceiling part_ix num_floors rooms_start rgen r h hret
  rw [hb]
  exact ⟨rfl, rfl, rfl⟩

/-- C5 at a concrete input: `ex_house` with floor spacing 4 is too small for a hatch. -/
theorem C5_witness :
    add_attic_access_door (ex_services 4) ex_house ex_ceiling 0 1 0 ex_rgen
      = some ⟨false, ex_house, ex_rgen⟩ ∧
    ex_house.interior.attic_access.cube = ex_house.interior.attic_access.cube ∧
    ex_house.interior.attic_access.ix = ex_house.interior.attic_access.ix ∧
    ex_house = ex_house :=
  ⟨by decide!, C5_no_hatch_on_failure (ex_services 4) ex_house ex_ceiling 0 1 0 ex_rgen
    ⟨false, ex_house, ex_rgen⟩ (by decide!) rfl⟩

/-- C6: on every return path `add_attic_access_door` leaves the caller's generator `rgen`
as it was before the call (the hallway jitter draws from the copy `rgen2`), and the call
does return whenever `parts[part_ix]` exists. -/
theorem C6_rgen_unchanged (sv : services) (b : building_t) (ceiling : cube_t)
    (part_ix num_floors rooms_start : Nat) (rgen : rand_gen_t) :
    (∀ r, add_attic_access_door sv b ceiling part_ix num_floors rooms_start rgen = some r →
      r.rgen = rgen) ∧
    (part_ix < b.parts.length →
      ∃ r, add_attic_access_door sv b ceiling part_ix num_floors rooms_start rgen = some r ∧
        r.rgen = rgen) := by
  refine ⟨fun r h => add_attic_access_door_rgen sv b ceiling part_ix num_floors rooms_start
    rgen r h, fun hlen => ?_⟩
  obtain ⟨r, hr⟩ := add_attic_access_door_returns sv b ceiling part_ix num_floors rooms_start
    rgen hlen
  exact ⟨r, hr, add_attic_access_door_rgen sv b ceiling part_ix num_floors rooms_start rgen r hr⟩

/-- C6 at a concrete input: for the hallway of `ex_house` the two jitter draws advance the
copy of the generator, and the caller's generator is returned unchanged. -/
theorem C6_witness :
    (select_room (ex_services 1) ex_house 0 1 0).in_hallway = true ∧
    (hallway_access_pos (ex_services 1) ⟨6, 7.5, 0, 8, 2, 3⟩ true ex_rgen).2 ≠ ex_rgen ∧
    ∃ r, add_attic_access_door (ex_services 1) ex_house ex_ceiling 0 1 0 ex_rgen = some r ∧
      r.rgen = ex_rgen :=
  ⟨by decide!, by decide!,
    (C6_rgen_unchanged (ex_services 1) ex_house ex_ceiling 0 1 0 ex_rgen).2 (by decide!)⟩

/-! ## Roof surface classifier: the claims -/

/-- The loop of `point_under_attic_roof` succeeds when a surface of the list qualifies, and
then reports the negated normal of a qualifying surface. -/
theorem point_under_attic_roof_loop_true (sv : services) (b : building_t) (P : point)
    (S : tquad_with_ix_t) (tqs : List tquad_with_ix_t) (n0 : point) (hS : S ∈ tqs)
    (hroof : is_attic_roof sv b S true = true) (hnv : (sv.get_norm S).z ≠ 0)
    (hin : sv.point_in_polygon_2d P.x P.y S = true)
    (hbelow : dot_product_ptv (sv.get_norm S) P (S.pts 0) < 0) :
    (point_under_attic_roof_loop sv b P tqs n0).1 = true ∧
    ∃ T ∈ tqs, is_attic_roof sv b T true = true ∧ sv.point_in_polygon_2d P.x P.y T = true ∧
      (sv.get_norm T).z ≠ 0 ∧ dot_product_ptv (sv.get_norm T) P (T.pts 0) < 0 ∧
      (point_under_attic_roof_loop sv b P tqs n0).2 = (sv.get_norm T).neg := by
  induction tqs generalizing n0 with
  | nil => exact absurd hS (List.not_mem_nil _)
  | cons tq rest ih =>
    have lift : ∀ n1, S ∈ rest →
        (point_under_attic_roof_loop sv b P rest n1).1 = true ∧
        ∃ T ∈ tq :: rest, is_attic_roof sv b T true = true ∧
          sv.point_in_polygon_2d P.x P.y T = true ∧ (sv.get_norm T).z ≠ 0 ∧
          dot_product_ptv (sv.get_norm T) P (T.pts 0) < 0 ∧
          (point_under_attic_roof_loop sv b P rest n1).2 = (sv.get_norm T).neg := by
      intro n1 hm
      obtain ⟨h1, T, hT, h2⟩ := ih n1 hm
      exact ⟨h1, T, List.mem_cons_of_mem _ hT, h2⟩
    have z0 : (0.0 : ℚ) = 0 := by norm_num
    rw [point_under_attic_roof_loop]
    simp only [z0]
    by_cases c1 : is_attic_roof sv b tq true = true
    · rw [if_neg (by simp [c1])]
      by_cases c2 : sv.point_in_polygon_2d P.x P.y tq = true
      · rw [if_neg (by simp [c2])]
        by_cases c3 : (sv.get_norm tq).z = 0
        · rw [if_pos c3]
          rcases List.mem_cons.mp hS with rfl | hm
          · exact absurd c3 hnv
          · exact lift _ hm
        · rw [if_neg c3]
          by_cases c4 : dot_product_ptv (sv.get_norm tq) P (tq.pts 0) < 0
          · rw [if_pos c4]
            exact ⟨rfl, tq, List.mem_cons_self _ _, c1, c2, c3, c4, rfl⟩
          · rw [if_neg c4]
            rcases List.mem_cons.mp hS with rfl | hm
            · exact absurd hbelow c4
            · exact lift _ hm
      · rw [if_pos (by simp [c2])]
        rcases List.mem_cons.mp hS with rfl | hm
        · exact absurd hin c2
        · exact lift _ hm
    · rw [if_pos (by simp [c1])]
      rcases List.mem_cons.mp hS with rfl | hm
      · exact absurd hroof c1
      · exact lift _ hm

/-- C7 (amended): for every roof surface `S` of the building for which
`is_attic_roof(S, roofOnly=true)` holds (so the building has an attic) and whose normal is
not vertical-sided (`normal.z != 0`), and every point `P` that lies strictly inside the
attic part's footprint, inside `S`'s 2D polygon and below `S`'s plane,
`point_under_attic_roof(P, &n)` returns true and the normal `n` it writes is the negation
of the outward normal of a roof surface that `P` lies beneath. -/
theorem C7_point_under_attic_roof (sv : services) (b : building_t) (S : tquad_with_ix_t)
    (P n0 : point) (hS : S ∈ b.roof_tquads) (hroof : is_attic_roof sv b S true = true)
    (hnv : (sv.get_norm S).z ≠ 0) (hin : sv.point_in_polygon_2d P.x P.y S = true)
    (hbelow : dot_product_ptv (sv.get_norm S) P (S.pts 0) < 0)
    (hpart : (sv.get_attic_part b).contains_pt_xy P = true) :
    (point_under_attic_roof sv b P n0).1 = true ∧
    ∃ T ∈ b.roof_tquads, is_attic_roof sv b T true = true ∧
      sv.point_in_polygon_2d P.x P.y T = true ∧ (sv.get_norm T).z ≠ 0 ∧
      dot_product_ptv (sv.get_norm T) P (T.pts 0) < 0 ∧
      (point_under_attic_roof sv b P n0).2 = (sv.get_norm T).neg := by
  unfold point_under_attic_roof
  rw [if_neg (by simp [hpart])]
  exact point_under_attic_roof_loop_true sv b P S b.roof_tquads n0 hS hroof hnv hin hbelow

/-- C7 (amended) at a concrete input: a point under the south face of `ex_gable_house`. -/
theorem C7_witness :
    (point_under_attic_roof (ex_services 1) ex_gable_house ⟨5, 2, 4⟩ point.zero).1 = true ∧
    ∃ T ∈ ex_gable_house.roof_tquads, is_attic_roof (ex_services 1) ex_gable_house T true = true ∧
      (ex_services 1).point_in_polygon_2d 5 2 T = true ∧ ((ex_services 1).get_norm T).z ≠ 0 ∧
      dot_product_ptv ((ex_services 1).get_norm T) ⟨5, 2, 4⟩ (T.pts 0) < 0 ∧
      (point_under_attic_roof (ex_services 1) ex_gable_house ⟨5, 2, 4⟩ point.zero).2
        = ((ex_services 1).get_norm T).neg :=
  C7_point_under_attic_roof (ex_services 1) ex_gable_house ex_roof_south ⟨5, 2, 4⟩ point.zero
    (by decide!) (by decide!) (by decide!) (by decide!) (by decide!) (by decide!)

/-- C7 as stated fails: `ex_gable_house` has an attic, its south roof face is an attic roof
surface that is not vertical, and the point (-0.25, 2, 3.5) lies inside the face's 2D
polygon (under the gable overhang) and below its plane, yet `point_under_attic_roof`
returns false, because the point is outside the attic part's footprint. -/
theorem C7_counterexample :
    (ex_services 1).has_attic ex_gable_house = true ∧
    ex_roof_south ∈ ex_gable_house.roof_tquads ∧
    is_attic_roof (ex_services 1) ex_gable_house ex_roof_south true = true ∧
    ((ex_services 1).get_norm ex_roof_south).z ≠ 0 ∧
    (ex_services 1).point_in_polygon_2d (-0.25) 2 ex_roof_south = true ∧
    dot_product_ptv ((ex_services 1).get_norm ex_roof_south) ⟨-0.25, 2, 3.5⟩
      (ex_roof_south.pts 0) < 0 ∧
    (point_under_attic_roof (ex_services 1) ex_gable_house ⟨-0.25, 2, 3.5⟩ point.zero).1
      = false := by
  decide!

/-- C8 (amended): for a building with an attic and every roof quad `q`,
`is_attic_roof(q, roofOnly)` is true if and only if `q`'s type matches (ROOF, or WALL when
`roofOnly` is false), the lowest z of `q` is not below the hatch's bottom z
(`interior->attic_access.z1()`), and the horizontal centre of `q`'s bounding box lies within
the attic part's footprint, boundary included. -/
theorem C8_is_attic_roof_iff (sv : services) (b : building_t) (q : tquad_with_ix_t)
    (roofOnly : Bool) (hattic : sv.has_attic b = true) :
    is_attic_roof sv b q roofOnly = true ↔
      (q.type = tquad_type.TYPE_ROOF ∨ (q.type = tquad_type.TYPE_WALL ∧ roofOnly = false)) ∧
      b.interior.attic_access.cube.z1 ≤ q.get_bcube.z1 ∧
      (sv.get_attic_part b).contains_pt_xy_inclusive q.get_bcube.get_cube_center = true := by
  unfold is_attic_roof
  rw [if_neg (by simp [hattic])]
  by_cases ht : q.type ≠ tquad_type.TYPE_ROOF
      ∧ (roofOnly = true ∨ q.type ≠ tquad_type.TYPE_WALL)
  · rw [if_pos ht]
    constructor
    · intro h
      exact absurd h Bool.false_ne_true
    · rintro ⟨h1, _, _⟩
      exfalso
      rcases h1 with h1 | ⟨h1, h2⟩
      · exact ht.1 h1
      · rcases ht.2 with h3 | h3
        · rw [h2] at h3
          exact Bool.false_ne_true h3
        · exact h3 h1
  · rw [if_neg ht]
    have hty : q.type = tquad_type.TYPE_ROOF
        ∨ (q.type = tquad_type.TYPE_WALL ∧ roofOnly = false) := by
      by_contra hc
      apply ht
      rw [not_or] at hc
      refine ⟨hc.1, ?_⟩
      by_contra hc2
      rw [not_or] at hc2
      exact hc.2 ⟨not_not.mp hc2.2, by simpa using hc2.1⟩
    simp only
    by_cases hz : q.get_bcube.z1 < b.interior.attic_access.cube.z1
    · rw [if_pos hz]
      constructor
      · intro h
        exact absurd h Bool.false_ne_true
      · rintro ⟨_, h2, _⟩
        exact absurd hz (not_lt.mpr h2)
    · rw [if_neg hz]
      exact ⟨fun h => ⟨hty, not_lt.mp hz, h⟩, fun h => h.2.2⟩

/-- C8 (amended) at a concrete input: the south roof face of `ex_gable_house`. -/
theorem C8_witness :
    (ex_services 1).has_attic ex_gable_house = true ∧
    (is_attic_roof (ex_services 1) ex_gable_house ex_roof_south true = true ↔
      (ex_roof_south.type = tquad_type.TYPE_ROOF
        ∨ (ex_roof_south.type = tquad_type.TYPE_WALL ∧ true = false)) ∧
      ex_gable_house.interior.attic_access.cube.z1 ≤ ex_roof_south.get_bcube.z1 ∧
      ((ex_services 1).get_attic_part ex_gable_house).contains_pt_xy_inclusive
        ex_roof_south.get_bcube.get_cube_center = true) :=
  ⟨by decide!, C8_is_attic_roof_iff (ex_services 1) ex_gable_house ex_roof_south true
    (by decide!)⟩

/-- C8 as stated fails: for the building `ex_gable_house` (with an attic, hatch from
z = 2.9 to z = 3) the ROOF quad `ex_roof_low` has its lowest z (2.95) below the hatch's
top z, yet `is_attic_roof` is true for it. -/
theorem C8_counterexample :
    (ex_services 1).has_attic ex_gable_house = true ∧
    ex_roof_low.get_bcube.z1 < ex_gable_house.interior.attic_access.cube.z2 ∧
    is_attic_roof (ex_services 1) ex_gable_house ex_roof_low true = true := by
  decide!

/-- C9 at the failing input: `cube_in_attic` accepts `ex_eave_box` in `ex_gable_house`
although two of its four top corners, taken at height `c.z2 + 2.5*beam_depth`, are not under
the attic roof. -/
theorem C9_cube_in_attic_any_corner :
    cube_in_attic (ex_services 1) ex_gable_house ex_eave_box = true ∧
    (point_under_attic_roof (ex_services 1) ex_gable_house
      ⟨ex_eave_box.x1, ex_eave_box.y1,
        ex_eave_box.z2 + 2.5 * (ex_services 1).get_attic_beam_depth ex_gable_house⟩
      point.zero).1 = false ∧
    (point_under_attic_roof (ex_services 1) ex_gable_house
      ⟨ex_eave_box.x2, ex_eave_box.y1,
        ex_eave_box.z2 + 2.5 * (ex_services 1).get_attic_beam_depth ex_gable_house⟩
      point.zero).1 = false := by
  decide!

/-! ## Object population: the exclusion set -/

/-- Cubes whose footprints do not overlap do not intersect. -/
theorem intersects_of_not_intersects_xy (c o : cube_t) (h : c.intersects_xy o = false) :
    c.intersects o = false := by
  simp only [cube_t.intersects_xy, cube_t.intersects, decide_eq_false_iff_not] at h ⊢
  rintro ⟨h1, h2, h3, h4, _, _⟩
  exact h ⟨h1, h2, h3, h4⟩

/-- Emitting an object that satisfies `emission_ok` for the current exclusion set keeps
`emission_ok` for all emissions. -/
theorem emit_emission_ok (avoid : cube_t) (st : attic_pass) (o : room_object_t)
    (hst : ∀ e ∈ st.emitted, emission_ok avoid e) (ho : emission_ok avoid (o, st.avoid_cubes)) :
    ∀ e ∈ (st.emit o).emitted, emission_ok avoid e := by
  intro e he
  simp only [attic_pass.emit, List.mem_append, List.mem_singleton] at he
  rcases he with he | rfl
  · exact hst e he
  · exact ho

/-- Emitting lights keeps `emission_ok` for all emissions. -/
theorem lights_emission_ok (avoid : cube_t) (mk : point → room_object_t)
    (hmk : ∀ p, (mk p).type = room_object.TYPE_LIGHT) (ps : List point) (st : attic_pass)
    (hst : ∀ e ∈ st.emitted, emission_ok avoid e) :
    ∀ e ∈ (ps.foldl (fun st pos => st.emit (mk pos)) st).emitted, emission_ok avoid e := by
  induction ps generalizing st with
  | nil => exact hst
  | cons p rest ih =>
    rw [List.foldl_cons]
    apply ih
    apply emit_emission_ok avoid st (mk p) hst
    constructor
    · intro h
      rw [hmk p] at h
      rcases h with h | h <;> cases h
    · intro h
      rw [hmk p] at h
      cases h

/-- The chimney block keeps `emission_ok` for all emissions. -/
theorem add_attic_chimney_emission_ok (sv : services) (b : building_t) (adoor_z2 : ℚ)
    (avoid : cube_t) (room_id : Int) (light_amt : ℚ) (st st1 : attic_pass)
    (h : add_attic_chimney sv b adoor_z2 avoid room_id light_amt st = some st1)
    (hst : ∀ e ∈ st.emitted, emission_ok avoid e) :
    ∀ e ∈ st1.emitted, emission_ok avoid e := by
  unfold add_attic_chimney at h
  split_ifs at h with h1 h2 h3
  · cases h
    simp only [attic_pass.avoid]
    apply emit_emission_ok avoid st _ hst
    exact ⟨fun _ => by simpa using h3, fun h => by cases h⟩
  · cases h
    exact hst
  · cases h
    exact hst

/-- A post returned by `create_attic_post` is all zeros or does not intersect the avoid zone. -/
theorem create_attic_post_ok (z2 : ℚ) (avoid beam : cube_t) (dim d : Bool) (post : cube_t)
    (h : create_attic_post z2 avoid beam dim d = some post) :
    post.is_all_zeros = true ∨ post.intersects avoid = false := by
  unfold create_attic_post at h
  cases d <;>
  · simp only [Bool.false_eq_true, if_false, if_true] at h
    split_ifs at h with h1 h2
    · cases h
      exact Or.inr (intersects_of_not_intersects_xy _ _ (by simpa using h2))
    · cases h
      exact Or.inl (by decide)

/-- Emitting a post of `create_attic_posts` keeps `emission_ok` for all emissions. -/
theorem add_attic_post_emission_ok (avoid post : cube_t) (room_id : Int) (dim : Bool)
    (beam_width : ℚ) (st : attic_pass)
    (hpost : post.is_all_zeros = true ∨ post.intersects avoid = false)
    (hst : ∀ e ∈ st.emitted, emission_ok avoid e) :
    ∀ e ∈ (add_attic_post post room_id dim beam_width st).emitted, emission_ok avoid e := by
  unfold add_attic_post
  split_ifs with hz
  · exact hst
  · simp only [attic_pass.avoid]
    apply emit_emission_ok avoid st _ hst
    rcases hpost with h | h
    · exact absurd h hz
    · exact ⟨fun _ => h, fun h => by cases h⟩

/-- The posts of one roof surface keep `emission_ok` for all emissions. -/
theorem add_attic_posts_tquad_emission_ok (sv : services) (b : building_t) (room_id : Int)
    (avoid : cube_t) (havoid : get_attic_access_door_avoid sv b = some avoid)
    (tq : tquad_with_ix_t) (st st1 : attic_pass)
    (h : add_attic_posts_tquad sv b room_id tq st = some st1)
    (hst : ∀ e ∈ st.emitted, emission_ok avoid e) :
    ∀ e ∈ st1.emitted, emission_ok avoid e := by
  unfold add_attic_posts_tquad at h
  simp only at h
  split_ifs at h with h1 h2 h3 h4
  · cases h; exact hst
  · cases h; exact hst
  · cases h; exact hst
  · cases h; exact hst
  · split at h
    · exact absurd h (by simp)
    · rename_i posts hposts
      cases h
      unfold create_attic_posts at hposts
      rw [havoid] at hposts
      simp only at hposts
      split_ifs at hposts
      split at hposts
      · rename_i p0 p1 hp0 hp1
        cases hposts
        exact add_attic_post_emission_ok avoid p1 room_id _ _ _
          (create_attic_post_ok _ _ _ _ _ _ hp1)
          (add_attic_post_emission_ok avoid p0 room_id _ _ _
            (create_attic_post_ok _ _ _ _ _ _ hp0) hst)
      · exact absurd hposts (by simp)

/-- The loop over the roof surfaces keeps `emission_ok` for all emissions. -/
theorem add_attic_posts_emission_ok (sv : services) (b : building_t) (room_id : Int)
    (avoid : cube_t) (havoid : get_attic_access_door_avoid sv b = some avoid)
    (tqs : List tquad_with_ix_t) (st st1 : attic_pass)
    (h : add_attic_posts sv b room_id tqs st = some st1)
    (hst : ∀ e ∈ st.emitted, emission_ok avoid e) :
    ∀ e ∈ st1.emitted, emission_ok avoid e := by
  induction tqs generalizing st with
  | nil =>
    rw [add_attic_posts] at h
    cases h
    exact hst
  | cons tq rest ih =>
    rw [add_attic_posts] at h
    split at h
    · exact absurd h (by simp)
    · rename_i st2 hst2
      exact ih st2 h (add_attic_posts_tquad_emission_ok sv b room_id avoid havoid tq st st2
        hst2 hst)

/-- The furnace loop keeps `emission_ok` for all emissions. -/
theorem add_attic_furnace_emission_ok (sv : services) (b : building_t) (place_area : cube_t)
    (floor_spacing : ℚ) (room_id : Int) (light_amt : ℚ) (avoid : cube_t) (tries : Nat)
    (st : attic_pass) (hst : ∀ e ∈ st.emitted, emission_ok avoid e) :
    ∀ e ∈ (add_attic_furnace sv b place_area floor_spacing room_id light_amt tries
      st).emitted, emission_ok avoid e := by
  induction tries generalizing st with
  | zero => exact hst
  | succ n ih =>
    rw [add_attic_furnace]
    simp only
    split_ifs with h1 h2 h3
    · exact hst
    · exact ih _ hst
    all_goals
      simp only [attic_pass.avoid]
      apply emit_emission_ok avoid _ _ hst
      refine ⟨fun h => ?_, fun _ c hc => ?_⟩
      · rcases h with h | h <;> cases h
      · simp only [Bool.or_eq_true, not_or, Bool.not_eq_true] at h2
        have h4 := h2.1
        simp only [has_bcube_int, List.any_eq_false] at h4
        simpa using h4 c hc

/-- The lamp loop emits nothing through this file. -/
theorem add_attic_lamps_emitted (sv : services) (place_area : cube_t) (floor_spacing : ℚ)
    (room_id : Int) (light_amt : ℚ) (n : Nat) (st : attic_pass) :
    (add_attic_lamps sv place_area floor_spacing room_id light_amt n st).emitted
      = st.emitted := by
  induction n generalizing st with
  | zero => rfl
  | succ n ih =>
    rw [add_attic_lamps]
    exact ih _

/-- C10 (amended): in a run of `add_attic_objects`, no chimney and no structural post that
is emitted as an object intersects the hatch avoid zone, and the furnace that is emitted
intersects no box that is in the exclusion set `avoid_cubes` at the moment it is emitted. -/
theorem C10_emitted_boxes_avoid (sv : services) (b : building_t) (rgen : rand_gen_t)
    (st : attic_pass) (h : add_attic_objects sv b rgen = some st) :
    ∃ avoid, get_attic_access_door_avoid sv b = some avoid ∧
      ∀ e ∈ st.emitted,
        ((e.1.type = room_object.TYPE_CHIMNEY ∨ e.1.type = room_object.TYPE_COLLIDER) →
          e.1.cube.intersects avoid = false) ∧
        (e.1.type = room_object.TYPE_FURNACE → ∀ c ∈ e.2, e.1.cube.intersects c = false) := by
  unfold add_attic_objects at h
  simp only at h
  split at h
  · exact absurd h (by simp)
  split at h
  · exact absurd h (by simp)
  split at h
  · exact absurd h (by simp)
  · rename_i room hroom
    split at h
    · exact absurd h (by simp)
    · rename_i avoid havoid
      refine ⟨avoid, havoid, ?_⟩
      split at h
      · exact absurd h (by simp)
      · rename_i part hpart
        split at h
        · exact absurd h (by simp)
        · rename_i st1 hst1
          split at h
          · exact absurd h (by simp)
          · rename_i st2 hst2
            split at h
            · exact absurd h (by simp)
            · rename_i door_obj hdoor
              cases h
              rw [add_attic_lamps_emitted]
              simp only
              have e1 : ∀ e ∈ st1.emitted, emission_ok avoid e := by
                apply add_attic_chimney_emission_ok sv b _ avoid _ _ _ st1 hst1
                apply lights_emission_ok avoid _ (fun _ => rfl)
                simp only [attic_pass.avoid]
                apply emit_emission_ok avoid _ _ (fun e he => absurd he (List.not_mem_nil _))
                exact ⟨fun h => (by rcases h with h | h <;> cases h), fun h => (by cases h)⟩
              have e2 : ∀ e ∈ st2.emitted, emission_ok avoid e :=
                add_attic_posts_emission_ok sv b _ avoid havoid _ st1 st2 hst2 e1
              split_ifs
              · exact add_attic_furnace_emission_ok sv b _ _ _ _ avoid 100 st2 e2
              · exact e2

/-- C10 (amended) at a concrete input: `ex_hip_house_chimney` gets a chimney, two ridge posts
and a furnace (the second candidate; the first one overlaps the chimney). -/
theorem C10_witness :
    ∃ st, add_attic_objects (ex_services_full 1 ex_chimney ex_furnace_cands)
        ex_hip_house_chimney ⟨0, 0⟩ = some st ∧
      st.emitted.map (fun e => e.1.type) = [room_object.TYPE_ATTIC_DOOR,
        room_object.TYPE_LIGHT, room_object.TYPE_CHIMNEY, room_object.TYPE_COLLIDER,
        room_object.TYPE_COLLIDER, room_object.TYPE_FURNACE] ∧
      ∃ avoid, get_attic_access_door_avoid (ex_services_full 1 ex_chimney ex_furnace_cands)
          ex_hip_house_chimney = some avoid ∧
        ∀ e ∈ st.emitted,
          ((e.1.type = room_object.TYPE_CHIMNEY ∨ e.1.type = room_object.TYPE_COLLIDER) →
            e.1.cube.intersects avoid = false) ∧
          (e.1.type = room_object.TYPE_FURNACE →
            ∀ c ∈ e.2, e.1.cube.intersects c = false) := by
  have hs : (add_attic_objects (ex_services_full 1 ex_chimney ex_furnace_cands)
      ex_hip_house_chimney ⟨0, 0⟩).isSome = true := by decide!
  obtain ⟨st, hst⟩ := Option.isSome_iff_exists.mp hs
  have ht : (add_attic_objects (ex_services_full 1 ex_chimney ex_furnace_cands)
      ex_hip_house_chimney ⟨0, 0⟩).map (fun st => st.emitted.map (fun e => e.1.type))
      = some [room_object.TYPE_ATTIC_DOOR, room_object.TYPE_LIGHT, room_object.TYPE_CHIMNEY,
        room_object.TYPE_COLLIDER, room_object.TYPE_COLLIDER, room_object.TYPE_FURNACE] := by
    decide!
  rw [hst] at ht
  exact ⟨st, hst, Option.some.inj ht, C10_emitted_boxes_avoid _ _ _ st hst⟩

/-- C10 as stated fails: in `ex_hip_house` the ridge is twice the beam depth long, and the
second ridge post is emitted as an object when the exclusion set holds the hatch avoid zone
and the padded first post, which it intersects (posts are only tested against the hatch
avoid zone). -/
theorem C10_counterexample :
    ∃ st, add_attic_objects (ex_services 1) ex_hip_house ex_rgen = some st ∧
      (ex_hip_post1, [ex_hip_avoid, ex_hip_post0_padded]) ∈ st.emitted ∧
      ex_hip_post1.cube.intersects ex_hip_post0_padded = true := by
  have hs : (add_attic_objects (ex_services 1) ex_hip_house ex_rgen).isSome = true := by decide!
  obtain ⟨st, hst⟩ := Option.isSome_iff_exists.mp hs
  have hm : (add_attic_objects (ex_services 1) ex_hip_house ex_rgen).map
      (fun st => decide ((ex_hip_post1, [ex_hip_avoid, ex_hip_post0_padded]) ∈ st.emitted))
      = some true := by decide!
  rw [hst] at hm
  exact ⟨st, hst, of_decide_eq_true (Option.some.inj hm), by decide!⟩

/-! ## Hatch orientation and avoid zone: the claims -/

/-- The avoid zone in terms of the two decoded bits of the orientation index. -/
theorem get_attic_access_door_avoid_bits (sv : services) (b : building_t)
    (hattic : sv.has_attic b = true) (dim dir : Bool)
    (hdim : decide (b.interior.attic_access.ix >>> 1 ≠ 0) = dim)
    (hdir : decide (b.interior.attic_access.ix &&& 1 ≠ 0) = dir) :
    get_attic_access_door_avoid sv b
      = some (hatch_avoid_zone b.interior.attic_access.cube dim.toNat dir.toNat
          (sv.get_window_vspace b)) := by
  unfold get_attic_access_door_avoid
  rw [if_neg (by simp [hattic])]
  simp only
  rw [hdim, hdir]
  cases dim <;> cases dir <;>
    simp only [hatch_avoid_zone, cube_t.expand_by_xy, cube_t.set_d, cube_t.d, Bool.toNat_false,
      Bool.toNat_true] <;> norm_num <;> ring

/-- C16: for a building with an attic whose hatch has orientation index `ix` in
`{0,1,2,3}` and floor spacing `s`, `get_attic_access_door_avoid` returns the hatch box
moved outward by `0.25*s` on all four horizontal sides, moved outward by a further `0.5*s`
on exactly one side (side `ix&1` of axis `ix>>1`), with `z2` raised by `0.5*s` and `z1`
unchanged. -/
theorem C16_avoid_zone_shape (sv : services) (b : building_t)
    (hattic : sv.has_attic b = true) (hix : b.interior.attic_access.ix < 4) :
    get_attic_access_door_avoid sv b
      = some (hatch_avoid_zone b.interior.attic_access.cube (b.interior.attic_access.ix >>> 1)
          (b.interior.attic_access.ix &&& 1) (sv.get_window_vspace b)) := by
  have hd : b.interior.attic_access.ix >>> 1
      = (decide (b.interior.attic_access.ix >>> 1 ≠ 0)).toNat := by
    generalize b.interior.attic_access.ix = ix at hix
    interval_cases ix <;> decide
  have hs : b.interior.attic_access.ix &&& 1
      = (decide (b.interior.attic_access.ix &&& 1 ≠ 0)).toNat := by
    generalize b.interior.attic_access.ix = ix at hix
    interval_cases ix <;> decide
  conv_rhs => rw [hd, hs]
  exact get_attic_access_door_avoid_bits sv b hattic _ _ rfl rfl

/-- C16 at a concrete input: the hatch of `ex_house_with_hatch` (index 2, floor spacing 1). -/
theorem C16_witness :
    (ex_services 1).has_attic ex_house_with_hatch = true ∧
    ex_house_with_hatch.interior.attic_access.ix < 4 ∧
    get_attic_access_door_avoid (ex_services 1) ex_house_with_hatch
      = some (hatch_avoid_zone ex_house_with_hatch.interior.attic_access.cube
          (ex_house_with_hatch.interior.attic_access.ix >>> 1)
          (ex_house_with_hatch.interior.attic_access.ix &&& 1)
          ((ex_services 1).get_window_vspace ex_house_with_hatch)) :=
  ⟨by decide!, by decide!,
    C16_avoid_zone_shape (ex_services 1) ex_house_with_hatch (by decide!) (by decide!)⟩

/-- The flag returned by the loop of `point_under_attic_roof` does not depend on the value
behind `cnorm` on entry. -/
theorem point_under_attic_roof_loop_fst (sv : services) (b : building_t) (P : point)
    (tqs : List tquad_with_ix_t) (n m : point) :
    (point_under_attic_roof_loop sv b P tqs n).1
      = (point_under_attic_roof_loop sv b P tqs m).1 := by
  induction tqs generalizing n m with
  | nil => rfl
  | cons tq rest ih =>
    rw [point_under_attic_roof_loop, point_under_attic_roof_loop]
    simp only
    split_ifs
    · exact ih n m
    · exact ih n m
    · exact ih n m
    · rfl
    · exact ih _ _

/-- The flag returned by `point_under_attic_roof` does not depend on the value behind
`cnorm` on entry. -/
theorem point_under_attic_roof_fst (sv : services) (b : building_t) (P n m : point) :
    (point_under_attic_roof sv b P n).1 = (point_under_attic_roof sv b P m).1 := by
  unfold point_under_attic_roof
  split_ifs
  · rfl
  · exact point_under_attic_roof_loop_fst sv b P b.roof_tquads n m

/-- C18: for every point `P`, `point_in_attic(P)` is true if and only if the building has an
attic, `P.z` lies in the closed range from the hatch top z (`interior->attic_access.z2()`)
to `interior_z2`, and `point_under_attic_roof(P)` is true (whatever `cnorm` points to). -/
theorem C18_point_in_attic_iff (sv : services) (b : building_t) (P n : point) :
    point_in_attic sv b P = true ↔
      sv.has_attic b = true ∧ b.interior.attic_access.cube.z2 ≤ P.z ∧ P.z ≤ b.interior_z2 ∧
      (point_under_attic_roof sv b P n).1 = true := by
  unfold point_in_attic
  rw [point_under_attic_roof_fst sv b P n point.zero]
  by_cases hc : (!sv.has_attic b) = true ∨ P.z < b.interior.attic_access.cube.z2
      ∨ P.z > b.interior_z2
  · rw [if_pos hc]
    constructor
    · intro hf
      exact absurd hf Bool.false_ne_true
    · rintro ⟨h1, h2, h3, _⟩
      exfalso
      rcases hc with hc | hc | hc
      · simp [h1] at hc
      · exact absurd hc (not_lt.mpr h2)
      · exact absurd hc (not_lt.mpr h3)
  · rw [if_neg hc]
    rw [not_or, not_or] at hc
    obtain ⟨h1, h2, h3⟩ := hc
    exact ⟨fun hp => ⟨by simpa using h1, not_lt.mp h2, not_lt.mp h3, hp⟩, fun hp => hp.2.2.2⟩

/-- C18 at a concrete input: a point under the south roof face of `ex_gable_house`. -/
theorem C18_witness :
    point_in_attic (ex_services 1) ex_gable_house ⟨5, 2, 4⟩ = true ∧
    ((ex_services 1).has_attic ex_gable_house = true ∧
      ex_gable_house.interior.attic_access.cube.z2 ≤ (4 : ℚ) ∧
      (4 : ℚ) ≤ ex_gable_house.interior_z2 ∧
      (point_under_attic_roof (ex_services 1) ex_gable_house ⟨5, 2, 4⟩ point.zero).1 = true) :=
  ⟨by decide!,
    (C18_point_in_attic_iff (ex_services 1) ex_gable_house ⟨5, 2, 4⟩ point.zero).mp
      (by decide!)⟩

/-- C20: for every door object `c` with length `len` along `c.dim` and thickness
`t = c.dz()`, `get_attic_access_door_cube(c, inc_ladder=false)` returns `c`'s own box when
`c` is closed; when `c` is open it returns a box with the same `z2`, `z1` lowered by
`len - t`, the edge on side `c.dir` of axis `c.dim` unchanged and the opposite edge moved
so that the extent along `c.dim` is exactly `t`, and the extent along the other horizontal
axis unchanged (so the opened door is `len` tall and `t` thick). -/
theorem C20_open_door_cube (sv : services) (c : room_object_t) :
    (sv.is_open c = false → get_attic_access_door_cube sv c false = c.cube) ∧
    (sv.is_open c = true →
      (get_attic_access_door_cube sv c false).z2 = c.cube.z2 ∧
      (get_attic_access_door_cube sv c false).z1
        = c.cube.z1 - (c.cube.get_sz_dim c.dim.toNat - c.cube.dz) ∧
      (get_attic_access_door_cube sv c false).d c.dim.toNat c.dir
        = c.cube.d c.dim.toNat c.dir ∧
      (get_attic_access_door_cube sv c false).get_sz_dim c.dim.toNat = c.cube.dz ∧
      (get_attic_access_door_cube sv c false).d (!c.dim).toNat false
        = c.cube.d (!c.dim).toNat false ∧
      (get_attic_access_door_cube sv c false).d (!c.dim).toNat true
        = c.cube.d (!c.dim).toNat true ∧
      (get_attic_access_door_cube sv c false).dz = c.cube.get_sz_dim c.dim.toNat) := by
  constructor
  · intro hc
    unfold get_attic_access_door_cube
    rw [if_pos (by simp [hc])]
  · intro ho
    unfold get_attic_access_door_cube
    rw [if_neg (by simp [ho])]
    simp only [Bool.false_eq_true, if_false]
    cases c.dim <;> cases c.dir <;>
      simp only [cube_t.set_d, cube_t.d, cube_t.get_sz_dim, cube_t.dz, Bool.toNat_false,
        Bool.toNat_true, Bool.not_false, Bool.not_true, Bool.false_eq_true, if_false,
        if_true] <;>
      refine ⟨?_, ?_, ?_, ?_, ?_, ?_, ?_⟩ <;> norm_num <;> ring

/-- C20 at a concrete input: an open hatch door of length 0.48 along y and thickness 0.06
opens into a box 0.48 tall and 0.06 thick. -/
theorem C20_witness :
    (ex_services 1).is_open ex_open_door = true ∧
    get_attic_access_door_cube (ex_services 1) ex_open_door false
      = ⟨6.89, 7.21, 2.96, 3.02, 2.5, 2.98⟩ ∧
    (get_attic_access_door_cube (ex_services 1) ex_open_door false).get_sz_dim
      ex_open_door.dim.toNat = ex_open_door.cube.dz :=
  ⟨by decide!, by decide!,
    ((C20_open_door_cube (ex_services 1) ex_open_door).2 (by decide!)).2.2.2.1⟩

/-! ## Object population: what a run emits -/

/-- Emitting a list of objects appends them to the record, each with the unchanged
exclusion set. -/
theorem foldl_emit (mk : point → room_object_t) (ps : List point) (st : attic_pass) :
    (ps.foldl (fun st pos => st.emit (mk pos)) st).emitted
      = st.emitted ++ ps.map (fun pos => (mk pos, st.avoid_cubes)) ∧
    (ps.foldl (fun st pos => st.emit (mk pos)) st).avoid_cubes = st.avoid_cubes ∧
    (ps.foldl (fun st pos => st.emit (mk pos)) st).rgen = st.rgen := by
  induction ps generalizing st with
  | nil => simp
  | cons p rest ih =>
    rw [List.foldl_cons]
    obtain ⟨h1, h2, h3⟩ := ih (st.emit (mk p))
    rw [h1, h2, h3]
    simp [attic_pass.emit]

/-- The record after the door and the lights: the door, then one light per position, each
emitted when the exclusion set held the hatch avoid zone only. -/
theorem attic_pass_lights_emitted (sv : services) (b : building_t) (rgen : rand_gen_t)
    (room : room_t) (part avoid : cube_t) :
    (attic_pass_lights sv b rgen room part avoid).emitted
      = (attic_door_object sv b room, [])
        :: (attic_light_positions sv b part (attic_door_box b).z2).2.map
          (fun pos => (attic_light_object sv b
            (attic_light_positions sv b part (attic_door_box b).z2).1 pos, [avoid])) ∧
    (attic_pass_lights sv b rgen room part avoid).avoid_cubes = [avoid] ∧
    (attic_pass_lights sv b rgen room part avoid).rgen = rgen := by
  unfold attic_pass_lights
  obtain ⟨h1, h2, h3⟩ := foldl_emit
    (attic_light_object sv b (attic_light_positions sv b part (attic_door_box b).z2).1)
    (attic_light_positions sv b part (attic_door_box b).z2).2
    ((attic_pass.emit ⟨b.interior.objs, [], rgen, []⟩ (attic_door_object sv b room)).avoid avoid)
  rw [h1, h2, h3]
  simp [attic_pass.emit, attic_pass.avoid]

/-- The chimney block emits nothing, or the clipped and shrunk chimney box, which then does
not intersect the avoid zone; it does not draw from the generator. -/
theorem add_attic_chimney_emitted (sv : services) (b : building_t) (adoor_z2 : ℚ)
    (avoid : cube_t) (room_id : Int) (light_amt : ℚ) (st st1 : attic_pass)
    (h : add_attic_chimney sv b adoor_z2 avoid room_id light_amt st = some st1) :
    st1.rgen = st.rgen ∧
    (st1.emitted = st.emitted ∨
      (b.has_chimney = 1 ∧
        (clip_chimney (sv.get_chimney b) adoor_z2 b.interior_z2).z1
          < (clip_chimney (sv.get_chimney b) adoor_z2 b.interior_z2).z2 ∧
        (shrink_chimney (clip_chimney (sv.get_chimney b) adoor_z2 b.interior_z2)).intersects
          avoid = false ∧
        st1.emitted = st.emitted
          ++ [(⟨shrink_chimney (clip_chimney (sv.get_chimney b) adoor_z2 b.interior_z2),
            room_object.TYPE_CHIMNEY, room_id, false, false, attic_obj_flags, light_amt,
            room_obj_shape.SHAPE_CUBE⟩, st.avoid_cubes)])) := by
  unfold add_attic_chimney at h
  split_ifs at h with h1 h2 h3
  · cases h
    exact ⟨rfl, Or.inr ⟨h1, h2, by simpa using h3, rfl⟩⟩
  · cases h
    exact ⟨rfl, Or.inl rfl⟩
  · cases h
    exact ⟨rfl, Or.inl rfl⟩

/-- A post returned by `create_attic_post` is all zeros or strictly normalized. -/
theorem create_attic_post_normalized (z2 : ℚ) (avoid beam : cube_t) (dim d : Bool)
    (post : cube_t) (h : create_attic_post z2 avoid beam dim d = some post) :
    post.is_all_zeros = true ∨ post.is_strictly_normalized = true := by
  unfold create_attic_post at h
  cases d <;>
  · simp only [Bool.false_eq_true, if_false, if_true] at h
    split_ifs at h with h1 h2
    · cases h
      exact Or.inr (by simpa using h1)
    · cases h
      exact Or.inl (by decide)

/-- The posts of `create_attic_posts` are all zeros or strictly normalized. -/
theorem create_attic_posts_normalized (sv : services) (b : building_t) (beam : cube_t)
    (dim : Bool) (posts : cube_t × cube_t) (h : create_attic_posts sv b beam dim = some posts) :
    (posts.1.is_all_zeros = true ∨ posts.1.is_strictly_normalized = true) ∧
    (posts.2.is_all_zeros = true ∨ posts.2.is_strictly_normalized = true) := by
  unfold create_attic_posts at h
  split_ifs at h
  split at h
  · exact absurd h (by simp)
  · split at h
    · rename_i p0 p1 hp0 hp1
      cases h
      exact ⟨create_attic_post_normalized _ _ _ _ _ _ hp0,
        create_attic_post_normalized _ _ _ _ _ _ hp1⟩
    · exact absurd h (by simp)

/-- Emitting one post appends at most one collider, which is strictly normalized. -/
theorem add_attic_post_emitted (post : cube_t) (room_id : Int) (dim : Bool) (beam_width : ℚ)
    (st : attic_pass) (hpost : post.is_all_zeros = true ∨ post.is_strictly_normalized = true) :
    (add_attic_post post room_id dim beam_width st).rgen = st.rgen ∧
    ∃ ps, (add_attic_post post room_id dim beam_width st).emitted = st.emitted ++ ps ∧
      ∀ e ∈ ps, e.1.type = room_object.TYPE_COLLIDER ∧
        e.1.cube.is_strictly_normalized = true := by
  unfold add_attic_post
  split_ifs with hz
  · exact ⟨rfl, [], by simp, fun e he => absurd he (List.not_mem_nil _)⟩
  · refine ⟨rfl, [_], rfl, ?_⟩
    intro e he
    rw [List.mem_singleton] at he
    subst he
    rcases hpost with hp | hp
    · exact absurd hp hz
    · exact ⟨rfl, hp⟩

/-- The posts of one roof surface: only strictly normalized colliders are appended. -/
theorem add_attic_posts_tquad_emitted (sv : services) (b : building_t) (room_id : Int)
    (tq : tquad_with_ix_t) (st st1 : attic_pass)
    (h : add_attic_posts_tquad sv b room_id tq st = some st1) :
    st1.rgen = st.rgen ∧
    ∃ ps, st1.emitted = st.emitted ++ ps ∧
      ∀ e ∈ ps, e.1.type = room_object.TYPE_COLLIDER ∧
        e.1.cube.is_strictly_normalized = true := by
  have hnil : st.rgen = st.rgen ∧ ∃ ps, st.emitted = st.emitted ++ ps ∧
      ∀ e ∈ ps, e.1.type = room_object.TYPE_COLLIDER ∧
        e.1.cube.is_strictly_normalized = true :=
    ⟨rfl, [], by simp, fun e he => absurd he (List.not_mem_nil _)⟩
  unfold add_attic_posts_tquad at h
  simp only at h
  split_ifs at h with h1 h2 h3 h4
  · cases h; exact hnil
  · cases h; exact hnil
  · cases h; exact hnil
  · cases h; exact hnil
  · split at h
    · exact absurd h (by simp)
    · rename_i posts hposts
      cases h
      obtain ⟨n0, n1⟩ := create_attic_posts_normalized sv b _ _ posts hposts
      obtain ⟨r0, ps0, e0, q0⟩ := add_attic_post_emitted posts.1 room_id
        (decide (|(sv.get_norm tq).x| < |(sv.get_norm tq).y|))
        (0.5 * sv.get_attic_beam_depth b) st n0
      obtain ⟨r1, ps1, e1, q1⟩ := add_attic_post_emitted posts.2 room_id
        (decide (|(sv.get_norm tq).x| < |(sv.get_norm tq).y|))
        (0.5 * sv.get_attic_beam_depth b)
        (add_attic_post posts.1 room_id (decide (|(sv.get_norm tq).x| < |(sv.get_norm tq).y|))
          (0.5 * sv.get_attic_beam_depth b) st) n1
      refine ⟨by rw [r1, r0], ps0 ++ ps1, by rw [e1, e0, List.append_assoc], ?_⟩
      intro e he
      rcases List.mem_append.mp he with he | he
      · exact q0 e he
      · exact q1 e he

/-- The loop over the roof surfaces: only strictly normalized colliders are appended, and
the generator is not drawn from. -/
theorem add_attic_posts_emitted (sv : services) (b : building_t) (room_id : Int)
    (tqs : List tquad_with_ix_t) (st st1 : attic_pass)
    (h : add_attic_posts sv b room_id tqs st = some st1) :
    st1.rgen = st.rgen ∧
    ∃ ps, st1.emitted = st.emitted ++ ps ∧
      ∀ e ∈ ps, e.1.type = room_object.TYPE_COLLIDER ∧
        e.1.cube.is_strictly_normalized = true := by
  induction tqs generalizing st with
  | nil =>
    rw [add_attic_posts] at h
    cases h
    exact ⟨rfl, [], by simp, fun e he => absurd he (List.not_mem_nil _)⟩
  | cons tq rest ih =>
    rw [add_attic_posts] at h
    split at h
    · exact absurd h (by simp)
    · rename_i st2 hst2
      obtain ⟨r0, ps0, e0, q0⟩ := add_attic_posts_tquad_emitted sv b room_id tq st st2 hst2
      obtain ⟨r1, ps1, e1, q1⟩ := ih st2 h
      refine ⟨by rw [r1, r0], ps0 ++ ps1, by rw [e1, e0, List.append_assoc], ?_⟩
      intro e he
      rcases List.mem_append.mp he with he | he
      · exact q0 e he
      · exact q1 e he
/-- The furnace loop emits the first accepted candidate of its draws, if any, with the
exclusion set it started from, and draws at most `n` candidates. -/
theorem add_attic_furnace_emitted (sv : services) (b : building_t) (place_area : cube_t)
    (floor_spacing : ℚ) (room_id : Int) (light_amt : ℚ) (n : Nat) (st : attic_pass) :
    (add_attic_furnace sv b place_area floor_spacing room_id light_amt n st).emitted
      = st.emitted ++
        (match (furnace_draws sv place_area floor_spacing n st.rgen).find?
            (furnace_accepted sv b st.avoid_cubes) with
          | some cand => [(⟨cand.furnace, room_object.TYPE_FURNACE, room_id, cand.dim, cand.dir,
              (if b.is_house then [ro_flag.RO_FLAG_IS_HOUSE] else [])
                ++ [ro_flag.RO_FLAG_INTERIOR], light_amt, room_obj_shape.SHAPE_CUBE⟩,
              st.avoid_cubes)]
          | none => []) ∧
    ∃ k, k ≤ n ∧
      (add_attic_furnace sv b place_area floor_spacing room_id light_amt n st).rgen
        = furnace_rgen_after sv place_area floor_spacing k st.rgen := by
  induction n generalizing st with
  | zero =>
    rw [add_attic_furnace, furnace_draws]
    exact ⟨by simp, 0, le_refl _, rfl⟩
  | succ n ih =>
    rw [add_attic_furnace, furnace_draws]
    simp only
    by_cases hok : (sv.gen_furnace_cand place_area floor_spacing false st.rgen).ok = true
    · rw [if_neg (by simp [hok]), if_pos hok, List.find?_cons]
      by_cases hacc : furnace_accepted sv b st.avoid_cubes
          (sv.gen_furnace_cand place_area floor_spacing false st.rgen) = true
      · have hacc2 := hacc
        simp only [furnace_accepted, Bool.and_eq_true, Bool.not_eq_true_eq_eq_false] at hacc2
        rw [if_neg (by simp [hacc2.1, hacc2.2]), hacc]
        exact ⟨rfl, 1, Nat.succ_le_succ (Nat.zero_le _), rfl⟩
      · have hacc2 := hacc
        simp only [furnace_accepted, Bool.and_eq_true, Bool.not_eq_true_eq_eq_false,
          not_and, Bool.not_eq_true] at hacc2
        have hcond : (has_bcube_int
            (sv.gen_furnace_cand place_area floor_spacing false st.rgen).furnace st.avoid_cubes
            || !cube_in_attic sv b
              (sv.gen_furnace_cand place_area floor_spacing false st.rgen).furnace) = true := by
          cases hb : has_bcube_int
            (sv.gen_furnace_cand place_area floor_spacing false st.rgen).furnace st.avoid_cubes
          · simp [hacc2 hb]
          · simp
        rw [if_pos hcond]
        rw [Bool.not_eq_true] at hacc
        rw [hacc]
        obtain ⟨e1, k, hk, e2⟩ := ih
          { st with rgen := (sv.gen_furnace_cand place_area floor_spacing false st.rgen).rgen }
        exact ⟨e1, k + 1, Nat.succ_le_succ hk, e2⟩
    · rw [if_pos (by simp [hok]), if_neg hok]
      exact ⟨by simp, 1, Nat.succ_le_succ (Nat.zero_le _), rfl⟩

/-- The emissions of a run of `add_attic_objects`, in order: the door, the lights, the
chimney if it is added, the collider posts, the furnace if one is placed. Nothing before
the furnace block draws from the generator. -/
theorem add_attic_objects_emitted (sv : services) (b : building_t) (rgen : rand_gen_t)
    (st : attic_pass) (h : add_attic_objects sv b rgen = some st) :
    ∃ (room : room_t) (avoid part : cube_t) (ch ps : List (room_object_t × List cube_t))
      (st_p : attic_pass),
      b.interior.attic_access.cube.is_strictly_normalized = true ∧
      get_room b (attic_door_room_id sv b) = some room ∧
      get_attic_access_door_avoid sv b = some avoid ∧
      get_part_for_room b room = some part ∧
      st_p.rgen = rgen ∧
      st.emitted = (attic_door_object sv b room, [])
        :: (attic_light_positions sv b part (attic_door_box b).z2).2.map
          (fun pos => (attic_light_object sv b
            (attic_light_positions sv b part (attic_door_box b).z2).1 pos, [avoid]))
        ++ ch ++ ps ++ attic_furnace_entries sv b part st_p ∧
      (ch = [] ∨
        (b.has_chimney = 1 ∧
          (clip_chimney (sv.get_chimney b) (attic_door_box b).z2 b.interior_z2).z1
            < (clip_chimney (sv.get_chimney b) (attic_door_box b).z2 b.interior_z2).z2 ∧
          (attic_chimney_object sv b).cube.intersects avoid = false ∧
          ch = [(attic_chimney_object sv b, [avoid])])) ∧
      (∀ e ∈ ps, e.1.type = room_object.TYPE_COLLIDER ∧
        e.1.cube.is_strictly_normalized = true) ∧
      (∃ st_c, add_attic_chimney sv b (attic_door_box b).z2 avoid (attic_door_room_id sv b) 1.0
          (attic_pass_lights sv b rgen room part avoid) = some st_c ∧
        add_attic_posts sv b (attic_door_room_id sv b) b.roof_tquads st_c = some st_p) := by
  unfold add_attic_objects at h
  simp only at h
  split at h
  · exact absurd h (by simp)
  rename_i hnorm
  split at h
  · exact absurd h (by simp)
  split at h
  · exact absurd h (by simp)
  · rename_i room hroom
    split at h
    · exact absurd h (by simp)
    · rename_i avoid havoid
      split at h
      · exact absurd h (by simp)
      · rename_i part hpart
        split at h
        · exact absurd h (by simp)
        · rename_i st1 hst1
          split at h
          · exact absurd h (by simp)
          · rename_i st2 hst2
            split at h
            · exact absurd h (by simp)
            · rename_i door_obj hdoor
              cases h
              rw [add_attic_lamps_emitted]
              simp only
              have hst1b : add_attic_chimney sv b (attic_door_box b).z2 avoid
                  (attic_door_room_id sv b) 1.0 (attic_pass_lights sv b rgen room part avoid)
                  = some st1 := hst1
              obtain ⟨l1, l2, l3⟩ := attic_pass_lights_emitted sv b rgen room part avoid
              obtain ⟨c1, c2⟩ := add_attic_chimney_emitted sv b _ avoid _ _ _ st1 hst1b
              obtain ⟨p1, ps, p2, p3⟩ := add_attic_posts_emitted sv b _ _ st1 st2 hst2
              have hch : ∃ ch, st1.emitted
                  = (attic_pass_lights sv b rgen room part avoid).emitted ++ ch ∧
                  (ch = [] ∨
                    (b.has_chimney = 1 ∧
                    (clip_chimney (sv.get_chimney b) (attic_door_box b).z2 b.interior_z2).z1
                      < (clip_chimney (sv.get_chimney b) (attic_door_box b).z2
                          b.interior_z2).z2 ∧
                    (attic_chimney_object sv b).cube.intersects avoid = false ∧
                    ch = [(attic_chimney_object sv b, [avoid])])) := by
                rcases c2 with c2 | ⟨c3, c4, c5, c6⟩
                · exact ⟨[], by rw [c2, List.append_nil], Or.inl rfl⟩
                · refine ⟨[(attic_chimney_object sv b, [avoid])], ?_, Or.inr ⟨c3, c4, c5, rfl⟩⟩
                  rw [c6, l2]
                  rfl
              obtain ⟨ch, hch1, hch2⟩ := hch
              refine ⟨room, avoid, part, ch, ps, st2, by simpa using hnorm, hroom, havoid, hpart,
                by rw [p1, c1, l3], ?_, hch2, p3, st1, hst1b, hst2⟩
              have hfin : ∀ x : attic_pass, x.emitted = st2.emitted
                  ++ attic_furnace_entries sv b part st2 →
                  x.emitted = (attic_door_object sv b room, [])
                    :: (attic_light_positions sv b part (attic_door_box b).z2).2.map
                      (fun pos => (attic_light_object sv b
                        (attic_light_positions sv b part (attic_door_box b).z2).1 pos, [avoid]))
                    ++ ch ++ ps ++ attic_furnace_entries sv b part st2 := by
                intro x hx
                rw [hx, p2, hch1, l1]
              unfold attic_furnace_entries
              by_cases hb : sv.has_basement b = true
              · rw [if_neg (by simp [hb]), if_pos hb]
                simp only [List.append_nil]
                have := hfin st2 (by unfold attic_furnace_entries; rw [if_pos hb]; simp)
                unfold attic_furnace_entries at this
                rw [if_pos hb] at this
                simpa using this
              · rw [if_pos (by simp [hb]), if_neg hb]
                have := hfin (add_attic_furnace sv b (attic_place_area sv b part)
                  (sv.get_window_vspace b) (attic_door_room_id sv b) 1.0 100 st2)
                  (by
                    unfold attic_furnace_entries
                    rw [if_neg hb]
                    exact (add_attic_furnace_emitted sv b _ _ _ _ 100 st2).1)
                unfold attic_furnace_entries at this
                rw [if_neg hb] at this
                exact this

/-! ## Lights and furnace: the claims -/

/-- The light positions of `add_attic_objects` in the claims' vocabulary: two positions
exactly when the separation test and both probes succeed, else the centre alone. -/
theorem attic_light_positions_eq (sv : services) (b : building_t) (part : cube_t) :
    attic_light_positions sv b part (attic_door_box b).z2
      = (attic_light_radius b,
          if attic_sep_dist part > 0.25 * attic_height b
              ∧ point_in_attic sv b (attic_light_probe sv b part false) = true
              ∧ point_in_attic sv b (attic_light_probe sv b part true) = true then
            [(attic_light_center sv b part).set (decide (part.dx < part.dy)).toNat
              ((attic_light_center sv b part).get (decide (part.dx < part.dy)).toNat
                - attic_move_dist sv b part),
             (attic_light_center sv b part).set (decide (part.dx < part.dy)).toNat
              ((attic_light_center sv b part).get (decide (part.dx < part.dy)).toNat
                + attic_move_dist sv b part)]
          else [attic_light_center sv b part]) := by
  unfold attic_light_positions
  simp only
  by_cases h1 : attic_sep_dist part > 0.25 * attic_height b
  · have h1b : part.get_sz_dim (decide (part.dx < part.dy)).toNat
        - part.get_sz_dim (!decide (part.dx < part.dy)).toNat
        > 0.25 * (b.interior_z2 - (attic_door_box b).z2) := h1
    rw [if_pos h1b]
    by_cases h2 : point_in_attic sv b (attic_light_probe sv b part false) = true
        ∧ point_in_attic sv b (attic_light_probe sv b part true) = true
    · have h12 : attic_sep_dist part > 0.25 * attic_height b
          ∧ point_in_attic sv b (attic_light_probe sv b part false) = true
          ∧ point_in_attic sv b (attic_light_probe sv b part true) = true := ⟨h1, h2⟩
      have h2b : (point_in_attic sv b (attic_light_probe sv b part false)
          && point_in_attic sv b (attic_light_probe sv b part true)) = true := by
        rw [h2.1, h2.2]; rfl
      exact (if_pos h2b).trans (congrArg (Prod.mk (attic_light_radius b)) (if_pos h12).symm)
    · have h12 : ¬ (attic_sep_dist part > 0.25 * attic_height b
          ∧ point_in_attic sv b (attic_light_probe sv b part false) = true
          ∧ point_in_attic sv b (attic_light_probe sv b part true) = true) := fun h => h2 h.2
      have h2b : ¬ (point_in_attic sv b (attic_light_probe sv b part false)
          && point_in_attic sv b (attic_light_probe sv b part true)) = true := by
        intro h
        rw [Bool.and_eq_true] at h
        exact h2 h
      exact (if_neg h2b).trans (congrArg (Prod.mk (attic_light_radius b)) (if_neg h12).symm)
  · have h1b : ¬ part.get_sz_dim (decide (part.dx < part.dy)).toNat
        - part.get_sz_dim (!decide (part.dx < part.dy)).toNat
        > 0.25 * (b.interior_z2 - (attic_door_box b).z2) := h1
    have h12 : ¬ (attic_sep_dist part > 0.25 * attic_height b
        ∧ point_in_attic sv b (attic_light_probe sv b part false) = true
        ∧ point_in_attic sv b (attic_light_probe sv b part true) = true) := fun h => h1 h.1
    exact (if_neg h1b).trans (congrArg (Prod.mk (attic_light_radius b)) (if_neg h12).symm)

/-- Every entry of the furnace block is a furnace. -/
theorem attic_furnace_entries_type (sv : services) (b : building_t) (part : cube_t)
    (st : attic_pass) :
    ∀ e ∈ attic_furnace_entries sv b part st, e.1.type = room_object.TYPE_FURNACE := by
  intro e he
  unfold attic_furnace_entries at he
  split_ifs at he
  · exact absurd he (List.not_mem_nil _)
  · split at he
    · rw [List.mem_singleton] at he
      subst he
      rfl
    · exact absurd he (List.not_mem_nil _)

/-- The lights of a run are the light objects at the positions of
`attic_light_positions`, in order. -/
theorem emitted_lights_eq (sv : services) (b : building_t) (rgen : rand_gen_t)
    (st : attic_pass) (h : add_attic_objects sv b rgen = some st) :
    ∃ room part, get_room b (attic_door_room_id sv b) = some room ∧
      get_part_for_room b room = some part ∧
      emitted_lights st = (attic_light_positions sv b part (attic_door_box b).z2).2.map
        (attic_light_object sv b (attic_light_positions sv b part (attic_door_box b).z2).1) := by
  obtain ⟨room, avoid, part, ch, ps, st_p, -, hroom, -, hpart, -, hem, hch, hps, -⟩ :=
    add_attic_objects_emitted sv b rgen st h
  refine ⟨room, part, hroom, hpart, ?_⟩
  unfold emitted_lights
  rw [hem]
  simp only [List.map_cons, List.map_append, List.map_map, List.filter_cons, List.filter_append]
  have hd : decide ((attic_door_object sv b room).type = room_object.TYPE_LIGHT) = false := by
    simp [attic_door_object]
  have hch2 : (ch.map (fun e => e.1)).filter
      (fun o => decide (o.type = room_object.TYPE_LIGHT)) = [] := by
    rcases hch with hch | ⟨-, -, -, hch⟩
    · rw [hch]; rfl
    · rw [hch]; simp [attic_chimney_object]
  have hps2 : (ps.map (fun e => e.1)).filter
      (fun o => decide (o.type = room_object.TYPE_LIGHT)) = [] := by
    rw [List.filter_eq_nil_iff]
    intro o ho
    obtain ⟨e, he, rfl⟩ := List.mem_map.mp ho
    simp [(hps e he).1]
  have hfs2 : ((attic_furnace_entries sv b part st_p).map (fun e => e.1)).filter
      (fun o => decide (o.type = room_object.TYPE_LIGHT)) = [] := by
    rw [List.filter_eq_nil_iff]
    intro o ho
    obtain ⟨e, he, rfl⟩ := List.mem_map.mp ho
    simp [attic_furnace_entries_type sv b part st_p e he]
  rw [hd, hch2, hps2, hfs2]
  simp only [List.append_nil, Bool.false_eq_true, if_false]
  rw [List.filter_eq_self.mpr]
  · rfl
  · intro o ho
    obtain ⟨p, -, rfl⟩ := List.mem_map.mp ho
    simp [attic_light_object]

/-- The furnaces of a run are the entries of the furnace block. -/
theorem emitted_furnaces_eq (sv : services) (b : building_t) (rgen : rand_gen_t)
    (st : attic_pass) (h : add_attic_objects sv b rgen = some st) :
    ∃ room part avoid st_c st_p, get_room b (attic_door_room_id sv b) = some room ∧
      get_part_for_room b room = some part ∧
      get_attic_access_door_avoid sv b = some avoid ∧
      add_attic_chimney sv b (attic_door_box b).z2 avoid (attic_door_room_id sv b) 1.0
        (attic_pass_lights sv b rgen room part avoid) = some st_c ∧
      add_attic_posts sv b (attic_door_room_id sv b) b.roof_tquads st_c = some st_p ∧
      st_p.rgen = rgen ∧
      st.emitted.filter (fun e => decide (e.1.type = room_object.TYPE_FURNACE))
        = attic_furnace_entries sv b part st_p := by
  obtain ⟨room, avoid, part, ch, ps, st_p, -, hroom, havoid, hpart, hrg, hem, hch, hps, st_c,
    hc1, hc2⟩ := add_attic_objects_emitted sv b rgen st h
  refine ⟨room, part, avoid, st_c, st_p, hroom, hpart, havoid, hc1, hc2, hrg, ?_⟩
  rw [hem]
  simp only [List.filter_cons, List.filter_append]
  have hd : decide ((attic_door_object sv b room).type = room_object.TYPE_FURNACE) = false := by
    simp [attic_door_object]
  have hl : ((attic_light_positions sv b part (attic_door_box b).z2).2.map
      (fun pos => (attic_light_object sv b
        (attic_light_positions sv b part (attic_door_box b).z2).1 pos, [avoid]))).filter
      (fun e => decide (e.1.type = room_object.TYPE_FURNACE)) = [] := by
    rw [List.filter_eq_nil_iff]
    intro e he
    obtain ⟨p, -, rfl⟩ := List.mem_map.mp he
    simp [attic_light_object]
  have hch2 : ch.filter (fun e => decide (e.1.type = room_object.TYPE_FURNACE)) = [] := by
    rcases hch with hch | ⟨-, -, -, hch⟩
    · rw [hch]; rfl
    · rw [hch]; simp [attic_chimney_object]
  have hps2 : ps.filter (fun e => decide (e.1.type = room_object.TYPE_FURNACE)) = [] := by
    rw [List.filter_eq_nil_iff]
    intro e he
    simp [(hps e he).1]
  rw [hd, hl, hch2, hps2]
  simp only [List.append_nil, Bool.false_eq_true, if_false, List.nil_append]
  rw [List.filter_eq_self.mpr]
  intro e he
  simp [attic_furnace_entries_type sv b part st_p e he]
/-- At most `n` furnace candidates come out of `n` draws. -/
theorem furnace_draws_length (sv : services) (place_area : cube_t) (floor_spacing : ℚ)
    (n : Nat) (rgen : rand_gen_t) :
    (furnace_draws sv place_area floor_spacing n rgen).length ≤ n := by
  induction n generalizing rgen with
  | zero => simp [furnace_draws]
  | succ n ih =>
    rw [furnace_draws]
    split_ifs
    · simp only [List.length_cons]
      exact Nat.succ_le_succ (ih _)
    · simp

/-- The centre of a light object's box is the light position. -/
theorem attic_light_object_center (sv : services) (b : building_t) (r : ℚ) (pos : point)
    (dim : Nat) :
    (attic_light_object sv b r pos).cube.get_center_dim dim = pos.get dim := by
  rcases dim with _ | _ | n <;>
    simp only [attic_light_object, cube_t.set_from_sphere, cube_t.get_center_dim, cube_t.d,
      point.get] <;> norm_num <;> ring

/-- The lights of a run in the claims' vocabulary: the two shifted centres when the
separation test and both probes succeed, else the centre alone. -/
theorem emitted_lights_cases (sv : services) (b : building_t) (rgen : rand_gen_t)
    (st : attic_pass) (h : add_attic_objects sv b rgen = some st) :
    ∃ room part, get_room b (attic_door_room_id sv b) = some room ∧
      get_part_for_room b room = some part ∧
      ((attic_sep_dist part > 0.25 * attic_height b
          ∧ point_in_attic sv b (attic_light_probe sv b part false) = true
          ∧ point_in_attic sv b (attic_light_probe sv b part true) = true) →
        emitted_lights st =
          [attic_light_object sv b (attic_light_radius b)
            ((attic_light_center sv b part).set (decide (part.dx < part.dy)).toNat
              ((attic_light_center sv b part).get (decide (part.dx < part.dy)).toNat
                - attic_move_dist sv b part)),
           attic_light_object sv b (attic_light_radius b)
            ((attic_light_center sv b part).set (decide (part.dx < part.dy)).toNat
              ((attic_light_center sv b part).get (decide (part.dx < part.dy)).toNat
                + attic_move_dist sv b part))]) ∧
      (¬ (attic_sep_dist part > 0.25 * attic_height b
          ∧ point_in_attic sv b (attic_light_probe sv b part false) = true
          ∧ point_in_attic sv b (attic_light_probe sv b part true) = true) →
        emitted_lights st
          = [attic_light_object sv b (attic_light_radius b) (attic_light_center sv b part)]) := by
  obtain ⟨room, part, hroom, hpart, hl⟩ := emitted_lights_eq sv b rgen st h
  refine ⟨room, part, hroom, hpart, ?_, ?_⟩
  · intro hc
    rw [hl, attic_light_positions_eq]
    simp only
    rw [if_pos hc]
    rfl
  · intro hc
    rw [hl, attic_light_positions_eq]
    simp only
    rw [if_neg hc]
    rfl

/-- The coordinates of a point after one coordinate has been overwritten. -/
theorem point_get_set (p : point) (a c : Bool) (v : ℚ) :
    (p.set a.toNat v).get c.toNat = if c = a then v else p.get c.toNat := by
  cases a <;> cases c <;> rfl

/-- Overwriting the x or y coordinate leaves z alone. -/
theorem point_set_z (p : point) (a : Bool) (v : ℚ) : (p.set a.toNat v).z = p.z := by
  cases a <;> rfl

/-- The x and y coordinates of the light centre are those of the part centre. -/
theorem attic_light_center_get (sv : services) (b : building_t) (part : cube_t) (a : Bool) :
    (attic_light_center sv b part).get a.toNat = part.get_center_dim a.toNat := by
  cases a <;> rfl

/-- C14: when a run of `add_attic_objects` emits two lights, the centres of their boxes lie
at the part centre shifted by `-move_dist` and `+move_dist` along the long axis of the part,
with `move_dist = 0.5*sep_dist - light_radius - beam_depth`; on the short axis both are at
the part centre, they share the same z (that of `light_center`), and so they are symmetric
about the part centre along the long axis. -/
theorem C14_two_lights_symmetric (sv : services) (b : building_t) (rgen : rand_gen_t)
    (st : attic_pass) (h : add_attic_objects sv b rgen = some st)
    (h2 : (emitted_lights st).length = 2) :
    ∃ room part l0 l1, get_room b (attic_door_room_id sv b) = some room ∧
      get_part_for_room b room = some part ∧
      emitted_lights st = [l0, l1] ∧
      attic_move_dist sv b part
        = 0.5 * attic_sep_dist part - attic_light_radius b - sv.get_attic_beam_depth b ∧
      l0.cube.get_center_dim (decide (part.dx < part.dy)).toNat
        = part.get_center_dim (decide (part.dx < part.dy)).toNat - attic_move_dist sv b part ∧
      l1.cube.get_center_dim (decide (part.dx < part.dy)).toNat
        = part.get_center_dim (decide (part.dx < part.dy)).toNat + attic_move_dist sv b part ∧
      l0.cube.get_center_dim (!decide (part.dx < part.dy)).toNat
        = part.get_center_dim (!decide (part.dx < part.dy)).toNat ∧
      l1.cube.get_center_dim (!decide (part.dx < part.dy)).toNat
        = part.get_center_dim (!decide (part.dx < part.dy)).toNat ∧
      l0.cube.zc = (attic_light_center sv b part).z ∧
      l1.cube.zc = (attic_light_center sv b part).z ∧
      part.get_center_dim (decide (part.dx < part.dy)).toNat
          - l0.cube.get_center_dim (decide (part.dx < part.dy)).toNat
        = l1.cube.get_center_dim (decide (part.dx < part.dy)).toNat
          - part.get_center_dim (decide (part.dx < part.dy)).toNat := by
  obtain ⟨room, part, hroom, hpart, htwo, hone⟩ := emitted_lights_cases sv b rgen st h
  have hc : attic_sep_dist part > 0.25 * attic_height b
      ∧ point_in_attic sv b (attic_light_probe sv b part false) = true
      ∧ point_in_attic sv b (attic_light_probe sv b part true) = true := by
    by_contra hc
    rw [hone hc] at h2
    simp at h2
  have hz : ∀ (r : ℚ) (p : point), (attic_light_object sv b r p).cube.zc = p.z := by
    intro r p
    simp only [attic_light_object, cube_t.set_from_sphere, cube_t.zc]
    norm_num
    ring
  have hne : ∀ a : Bool, ¬ ((!a) = a) := by
    intro a
    cases a <;> simp
  refine ⟨room, part, _, _, hroom, hpart, htwo hc, rfl, ?_, ?_, ?_, ?_, ?_, ?_, ?_⟩
  · rw [attic_light_object_center, point_get_set, if_pos rfl, attic_light_center_get]
  · rw [attic_light_object_center, point_get_set, if_pos rfl, attic_light_center_get]
  · rw [attic_light_object_center, point_get_set, if_neg (hne _),
      attic_light_center_get]
  · rw [attic_light_object_center, point_get_set, if_neg (hne _),
      attic_light_center_get]
  · rw [hz, point_set_z]
  · rw [hz, point_set_z]
  · rw [attic_light_object_center, attic_light_object_center, point_get_set, point_get_set,
      if_pos rfl, if_pos rfl, attic_light_center_get]
    ring

/-- C14 at a concrete input: the two lights of `ex_gable_house` are centred at x = 4.1706 and
x = 5.8294, on either side of the part centre x = 5, with y = 4 and the same z. -/
theorem C14_witness :
    ∃ st, add_attic_objects (ex_services 1) ex_gable_house ex_rgen = some st ∧
      (emitted_lights st).map (fun l => l.cube.get_cube_center)
        = [⟨4.1706, 4, 5.81128⟩, ⟨5.8294, 4, 5.81128⟩] ∧
      ∃ room part l0 l1, get_room ex_gable_house
          (attic_door_room_id (ex_services 1) ex_gable_house) = some room ∧
        get_part_for_room ex_gable_house room = some part ∧
        emitted_lights st = [l0, l1] ∧
        part.get_center_dim (decide (part.dx < part.dy)).toNat
            - l0.cube.get_center_dim (decide (part.dx < part.dy)).toNat
          = l1.cube.get_center_dim (decide (part.dx < part.dy)).toNat
            - part.get_center_dim (decide (part.dx < part.dy)).toNat := by
  have hs : (add_attic_objects (ex_services 1) ex_gable_house ex_rgen).isSome = true := by
    decide!
  obtain ⟨st, hst⟩ := Option.isSome_iff_exists.mp hs
  have hl : (add_attic_objects (ex_services 1) ex_gable_house ex_rgen).map
      (fun st => (emitted_lights st).length) = some 2 := by decide!
  have hp : (add_attic_objects (ex_services 1) ex_gable_house ex_rgen).map
      (fun st => (emitted_lights st).map (fun l => l.cube.get_cube_center))
      = some [⟨4.1706, 4, 5.81128⟩, ⟨5.8294, 4, 5.81128⟩] := by decide!
  rw [hst] at hl hp
  obtain ⟨room, part, l0, l1, h1, h2, h3, -, -, -, -, -, -, -, h4⟩ :=
    C14_two_lights_symmetric _ _ _ st hst (Option.some.inj hl)
  exact ⟨st, hst, Option.some.inj hp, room, part, l0, l1, h1, h2, h3, h4⟩

/-! ## Chimney: the claim -/

/-- The chimney object of a run of `add_attic_objects`: its z1 is the larger of the chimney's
z1 and the top of the shrunk door box (the hatch top lowered by 0.2 times the hatch
thickness), its z2 is the smaller of the chimney's z2 and `interior_z2`, each horizontal
side is moved inward by 0.05 times the smaller horizontal extent of the chimney box, and it
does not intersect the hatch avoid zone. -/
theorem chimney_object_box (sv : services) (b : building_t) (rgen : rand_gen_t)
    (st : attic_pass) (h : add_attic_objects sv b rgen = some st) :
    ∃ avoid, get_attic_access_door_avoid sv b = some avoid ∧
      ∀ e ∈ st.emitted, e.1.type = room_object.TYPE_CHIMNEY →
        b.has_chimney = 1 ∧
        e.1.cube.z1 = max (sv.get_chimney b).z1
          (b.interior.attic_access.cube.z2 - 0.2 * b.interior.attic_access.cube.dz) ∧
        e.1.cube.z1 ≥ b.interior.attic_access.cube.z2
          - 0.2 * b.interior.attic_access.cube.dz ∧
        e.1.cube.z2 = min (sv.get_chimney b).z2 b.interior_z2 ∧
        e.1.cube.z2 ≤ b.interior_z2 ∧
        e.1.cube.z1 < e.1.cube.z2 ∧
        e.1.cube.x1 = (sv.get_chimney b).x1
          + 0.05 * min (sv.get_chimney b).dx (sv.get_chimney b).dy ∧
        e.1.cube.x2 = (sv.get_chimney b).x2
          - 0.05 * min (sv.get_chimney b).dx (sv.get_chimney b).dy ∧
        e.1.cube.y1 = (sv.get_chimney b).y1
          + 0.05 * min (sv.get_chimney b).dx (sv.get_chimney b).dy ∧
        e.1.cube.y2 = (sv.get_chimney b).y2
          - 0.05 * min (sv.get_chimney b).dx (sv.get_chimney b).dy ∧
        (0 ≤ (sv.get_chimney b).dx → 0 ≤ (sv.get_chimney b).dy →
          (sv.get_chimney b).x1 ≤ e.1.cube.x1 ∧ e.1.cube.x2 ≤ (sv.get_chimney b).x2 ∧
          (sv.get_chimney b).y1 ≤ e.1.cube.y1 ∧ e.1.cube.y2 ≤ (sv.get_chimney b).y2) ∧
        e.1.cube.intersects avoid = false := by
  obtain ⟨room, avoid, part, ch, ps, st_p, -, -, havoid, -, -, hem, hch, hps, -⟩ :=
    add_attic_objects_emitted sv b rgen st h
  refine ⟨avoid, havoid, ?_⟩
  intro e he ht
  have hech : e ∈ ch := by
    rw [hem] at he
    simp only [List.mem_cons, List.mem_append, List.cons_append, List.mem_map] at he
    rcases he with he | (((⟨p, -, he⟩ | he) | he) | he)
    · rw [he] at ht
      exact absurd ht (by simp [attic_door_object])
    · rw [← he] at ht
      exact absurd ht (by simp [attic_light_object])
    · exact he
    · rw [(hps e he).1] at ht
      exact absurd ht (by simp)
    · rw [attic_furnace_entries_type sv b part st_p e he] at ht
      exact absurd ht (by simp)
  rcases hch with hch | ⟨c1, c2, c3, c4⟩
  · rw [hch] at hech
    exact absurd hech (List.not_mem_nil _)
  · rw [c4, List.mem_singleton] at hech
    subst hech
    have hz2 : (attic_door_box b).z2 = b.interior.attic_access.cube.z2
        - 0.2 * b.interior.attic_access.cube.dz := by
      simp only [attic_door_box, cube_t.expand_in_dim, cube_t.set_d, cube_t.d]
      ring
    refine ⟨c1, ?_, ?_, rfl, min_le_right _ _, c2, ?_, ?_, ?_, ?_, ?_, c3⟩
    · simp only [attic_chimney_object, shrink_chimney, clip_chimney, cube_t.expand_by_xy]
      rw [hz2]
    · simp only [attic_chimney_object, shrink_chimney, clip_chimney, cube_t.expand_by_xy]
      rw [hz2]
      exact le_max_right _ _
    · simp only [attic_chimney_object, shrink_chimney, clip_chimney, cube_t.expand_by_xy,
        cube_t.dx, cube_t.dy]
      ring
    · simp only [attic_chimney_object, shrink_chimney, clip_chimney, cube_t.expand_by_xy,
        cube_t.dx, cube_t.dy]
      ring
    · simp only [attic_chimney_object, shrink_chimney, clip_chimney, cube_t.expand_by_xy,
        cube_t.dx, cube_t.dy]
      ring
    · simp only [attic_chimney_object, shrink_chimney, clip_chimney, cube_t.expand_by_xy,
        cube_t.dx, cube_t.dy]
      ring
    · intro hx hy
      have hm : 0 ≤ min (sv.get_chimney b).dx (sv.get_chimney b).dy := le_min hx hy
      simp only [attic_chimney_object, shrink_chimney, clip_chimney, cube_t.expand_by_xy]
      simp only [cube_t.dx, cube_t.dy] at hm ⊢
      refine ⟨?_, ?_, ?_, ?_⟩ <;> linarith

/-! ## Attic woodwork: the emitted boxes -/

/-- Every vertical beam that is added passed `assert(beam.is_strictly_normalized())`. -/
theorem wood_vert_beams_ok (v : wood_vars) (ns : List Nat) (beam : cube_t)
    (out : List (wood_kind × cube_t)) (h : wood_vert_beams v ns beam = some out) :
    ∀ e ∈ out, e.1 = wood_kind.VERT_BEAM ∧ e.2.is_strictly_normalized = true := by
  induction ns generalizing beam out with
  | nil =>
    rw [wood_vert_beams] at h
    cases h
    exact fun e he => absurd he (List.not_mem_nil _)
  | cons n rest ih =>
    rw [wood_vert_beams] at h
    split at h
    · exact absurd h (by simp)
    · rename_i r hr
      split at h
      · exact absurd h (by simp)
      · split at h
        · exact ih _ _ h
        · split at h
          · exact absurd h (by simp)
          · rename_i hn
            split at h
            · exact absurd h (by simp)
            · rename_i out1 hout1
              cases h
              intro e he
              rcases List.mem_cons.mp he with he | he
              · subst he
                exact ⟨rfl, by simpa using hn⟩
              · exact ih _ _ hout1 e he

/-- Every cross brace is strictly normalized when the beam it is cut from is so along the
facing dimension and in z. -/
theorem wood_cross_braces_ok (v : wood_vars) (hw : 0 < v.beam_hwidth) (ns : List Nat)
    (beam : cube_t) (hz : beam.z1 < beam.z2)
    (hd : beam.d v.dim.toNat false < beam.d v.dim.toNat true) :
    ∀ e ∈ wood_cross_braces v ns beam,
      e.1 = wood_kind.CROSS_BRACE ∧ e.2.is_strictly_normalized = true := by
  induction ns generalizing beam with
  | nil =>
    rw [wood_cross_braces]
    exact fun e he => absurd he (List.not_mem_nil _)
  | cons n rest ih =>
    rw [wood_cross_braces]
    have key : ∀ pos : ℚ,
        (set_wall_width beam pos (0.9 * v.beam_hwidth) (!v.dim).toNat).z1
          < (set_wall_width beam pos (0.9 * v.beam_hwidth) (!v.dim).toNat).z2 ∧
        (set_wall_width beam pos (0.9 * v.beam_hwidth) (!v.dim).toNat).d v.dim.toNat false
          < (set_wall_width beam pos (0.9 * v.beam_hwidth) (!v.dim).toNat).d v.dim.toNat true ∧
        (set_wall_width beam pos (0.9 * v.beam_hwidth) (!v.dim).toNat).is_strictly_normalized
          = true := by
      intro pos
      revert hd
      generalize v.dim = dm
      cases dm <;>
        simp only [set_wall_width, cube_t.set_d, cube_t.d, Bool.toNat_false, Bool.toNat_true,
          Bool.not_false, Bool.not_true, cube_t.is_strictly_normalized, decide_eq_true_eq] <;>
        intro hd <;> refine ⟨hz, ?_, ?_⟩ <;> first | exact hd | skip
      · refine ⟨hd, ?_, hz⟩
        linarith
      · refine ⟨?_, hd, hz⟩
        linarith
    intro e he
    rcases List.mem_cons.mp he with he | he
    · subst he
      exact ⟨rfl, (key _).2.2⟩
    · exact ih _ (key _).1 (key _).2.1 e he

/-- Every diagonal beam that is added is the box of `wood_diag_beam` for an angled edge. -/
theorem wood_diag_beams_ok (sv : services) (v : wood_vars) (es : List edge_t)
    (out : List (wood_kind × cube_t)) (h : wood_diag_beams sv v es = some out) :
    ∀ e ∈ out, e.1 = wood_kind.DIAG_BEAM ∧
      ∃ E ∈ es, ∃ s, fdiv (v.beam_depth * v.run_len) v.height = some s ∧
        e.2 = wood_diag_beam sv v s E := by
  induction es generalizing out with
  | nil =>
    rw [wood_diag_beams] at h
    cases h
    exact fun e he => absurd he (List.not_mem_nil _)
  | cons E rest ih =>
    rw [wood_diag_beams] at h
    split at h
    · intro e he
      obtain ⟨h1, E1, hE1, s, hs, h2⟩ := ih _ h e he
      exact ⟨h1, E1, List.mem_cons_of_mem _ hE1, s, hs, h2⟩
    · split at h
      · rename_i s out1 hs hout1
        cases h
        intro e he
        rcases List.mem_cons.mp he with he | he
        · subst he
          exact ⟨rfl, E, List.mem_cons_self _ _, s, hs, rfl⟩
        · obtain ⟨h1, E1, hE1, s1, hs1, h2⟩ := ih _ hout1 e he
          exact ⟨h1, E1, List.mem_cons_of_mem _ hE1, s1, hs1, h2⟩
      · exact absurd h (by simp)

/-- The box of a diagonal beam: positive extents in x and y, and in z it runs from the low
end point raised by `z1_shift` to the low end point raised by the edge length. -/
theorem wood_diag_beam_box (sv : services) (v : wood_vars) (s : ℚ) (E : edge_t)
    (hw : 0 < v.beam_hwidth) (hd : 0 < v.beam_depth) :
    (wood_diag_beam sv v s E).x1 < (wood_diag_beam sv v s E).x2 ∧
    (wood_diag_beam sv v s E).y1 < (wood_diag_beam sv v s E).y2 ∧
    (wood_diag_beam sv v s E).z1 = (wood_edge_lo v.bcube.z1 E).z + s ∧
    (wood_diag_beam sv v s E).z2 = (wood_edge_lo v.bcube.z1 E).z
      + sv.mag ((wood_edge_hi v.bcube.z1 E).sub (wood_edge_lo v.bcube.z1 E)) := by
  unfold wood_diag_beam wood_vars.dir_sign
  simp only
  generalize v.dim = dm
  generalize v.dir = dr
  cases dm <;> cases dr <;>
    simp only [cube_t.set_d, cube_t.d, cube_t.expand_in_dim, cube_t.set_from_point,
      Bool.toNat_false, Bool.toNat_true, Bool.not_false, Bool.not_true, Bool.false_eq_true,
      if_false, if_true] <;>
    norm_num <;> constructor <;> linarith

/-- The bounding box of a surface has non-negative extents. -/
theorem get_bcube_normalized (tq : tquad_with_ix_t) :
    tq.get_bcube.x1 ≤ tq.get_bcube.x2 ∧ tq.get_bcube.y1 ≤ tq.get_bcube.y2 ∧
    tq.get_bcube.z1 ≤ tq.get_bcube.z2 := by
  unfold tquad_with_ix_t.get_bcube
  have key : ∀ (l : List point) (c : cube_t), c.x1 ≤ c.x2 ∧ c.y1 ≤ c.y2 ∧ c.z1 ≤ c.z2 →
      (l.foldl (fun c p => (⟨min c.x1 p.x, max c.x2 p.x, min c.y1 p.y, max c.y2 p.y,
        min c.z1 p.z, max c.z2 p.z⟩ : cube_t)) c).x1
        ≤ (l.foldl (fun c p => (⟨min c.x1 p.x, max c.x2 p.x, min c.y1 p.y, max c.y2 p.y,
          min c.z1 p.z, max c.z2 p.z⟩ : cube_t)) c).x2 ∧
      (l.foldl (fun c p => (⟨min c.x1 p.x, max c.x2 p.x, min c.y1 p.y, max c.y2 p.y,
        min c.z1 p.z, max c.z2 p.z⟩ : cube_t)) c).y1
        ≤ (l.foldl (fun c p => (⟨min c.x1 p.x, max c.x2 p.x, min c.y1 p.y, max c.y2 p.y,
          min c.z1 p.z, max c.z2 p.z⟩ : cube_t)) c).y2 ∧
      (l.foldl (fun c p => (⟨min c.x1 p.x, max c.x2 p.x, min c.y1 p.y, max c.y2 p.y,
        min c.z1 p.z, max c.z2 p.z⟩ : cube_t)) c).z1
        ≤ (l.foldl (fun c p => (⟨min c.x1 p.x, max c.x2 p.x, min c.y1 p.y, max c.y2 p.y,
          min c.z1 p.z, max c.z2 p.z⟩ : cube_t)) c).z2 := by
    intro l
    induction l with
    | nil => exact fun c hc => hc
    | cons p rest ih =>
      intro c hc
      rw [List.foldl_cons]
      apply ih
      exact ⟨le_trans (min_le_left _ _) (le_trans hc.1 (le_max_left _ _)),
        le_trans (min_le_left _ _) (le_trans hc.2.1 (le_max_left _ _)),
        le_trans (min_le_left _ _) (le_trans hc.2.2 (le_max_left _ _))⟩
  exact key _ _ ⟨le_refl _, le_refl _, le_refl _⟩
/-- A float division with a result has a non-zero divisor. -/
theorem fdiv_some (a b q : ℚ) (h : fdiv a b = some q) : b ≠ 0 ∧ q = a / b := by
  unfold fdiv at h
  split_ifs at h with hb
  cases h
  exact ⟨hb, rfl⟩

/-- Moving the two sides of a horizontal dimension keeps a strictly normalized box strictly
normalized as long as its extent in that dimension stays positive. -/
theorem expand_in_dim_normalized (c : cube_t) (dm : Bool) (val : ℚ)
    (hc : c.is_strictly_normalized = true)
    (hs : 0 < (c.expand_in_dim (!dm).toNat val).get_sz_dim (!dm).toNat) :
    (c.expand_in_dim (!dm).toNat val).is_strictly_normalized = true := by
  revert hs
  simp only [cube_t.is_strictly_normalized, decide_eq_true_eq] at hc ⊢
  cases dm <;>
    simp only [cube_t.expand_in_dim, cube_t.set_d, cube_t.d, cube_t.get_sz_dim,
      Bool.toNat_false, Bool.toNat_true, Bool.not_false, Bool.not_true] <;>
    intro hs
  · exact ⟨hc.1, by linarith, hc.2.2⟩
  · exact ⟨by linarith, hc.2.1, hc.2.2⟩

/-- The cross brace beam: positive extents in z and along the facing dimension. -/
theorem wood_brace_beam_ok (beam : cube_t) (dm : Bool) (centerline hlen z2 depth : ℚ)
    (hd : 0 < depth) (hl : 0 < hlen) :
    (set_wall_width { beam with z2 := z2, z1 := z2 - 0.8 * depth } centerline hlen dm.toNat).z1
      < (set_wall_width { beam with z2 := z2, z1 := z2 - 0.8 * depth } centerline hlen
          dm.toNat).z2 ∧
    (set_wall_width { beam with z2 := z2, z1 := z2 - 0.8 * depth } centerline hlen dm.toNat).d
        dm.toNat false
      < (set_wall_width { beam with z2 := z2, z1 := z2 - 0.8 * depth } centerline hlen
          dm.toNat).d dm.toNat true := by
  cases dm <;>
    simp only [set_wall_width, cube_t.set_d, cube_t.d, Bool.toNat_false, Bool.toNat_true] <;>
    constructor <;> norm_num <;> linarith

/-- The extent of a box with ordered bounds along a horizontal dimension is not negative. -/
theorem get_sz_dim_nonneg (c : cube_t) (dm : Bool) (hx : c.x1 ≤ c.x2) (hy : c.y1 ≤ c.y2) :
    0 ≤ c.get_sz_dim dm.toNat := by
  cases dm <;>
    simp only [cube_t.get_sz_dim, cube_t.d, Bool.toNat_false, Bool.toNat_true] <;> linarith

/-- The boxes of the roofline block are strictly normalized when the beam it starts from is
so and does not reach above the surface. -/
theorem wood_roofline_boxes_ok (sv : services) (b : building_t) (v : wood_vars)
    (centerline : ℚ) (beam : cube_t) (out : List (wood_kind × cube_t))
    (h : wood_roofline_boxes sv b v centerline beam = some out)
    (hw : 0 < v.beam_hwidth) (hd : 0 < v.beam_depth)
    (hb : v.bcube.x1 ≤ v.bcube.x2 ∧ v.bcube.y1 ≤ v.bcube.y2 ∧ v.bcube.z1 ≤ v.bcube.z2)
    (hrun : 0 < v.run_len) (hnorm : beam.is_strictly_normalized = true)
    (hz2 : beam.z2 ≤ v.bcube.z2) :
    ∀ e ∈ out, e.1 ≠ wood_kind.DIAG_BEAM ∧ e.2.is_strictly_normalized = true := by
  unfold wood_roofline_boxes at h
  simp only at h
  split at h
  · exact absurd h (by simp)
  rename_i out1 hridge
  have hout1 : ∀ e ∈ out1, e.1 ≠ wood_kind.DIAG_BEAM ∧ e.2.is_strictly_normalized = true := by
    split at hridge
    · rename_i hlong
      have hbeam := expand_in_dim_normalized _ v.dim (-v.epsilon) hnorm (lt_trans hd hlong)
      split at hridge
      · split at hridge
        · exact absurd hridge (by simp)
        · rename_i posts hposts
          cases hridge
          obtain ⟨n0, n1⟩ := create_attic_posts_normalized sv b _ _ posts hposts
          intro e he
          rcases List.mem_cons.mp he with he | he
          · subst he
            exact ⟨by simp, hbeam⟩
          · obtain ⟨p, hp, rfl⟩ := List.mem_map.mp he
            obtain ⟨hp1, hp2⟩ := List.mem_filter.mp hp
            refine ⟨by simp, ?_⟩
            simp only [List.mem_cons, List.mem_singleton, List.not_mem_nil, or_false] at hp1
            rcases hp1 with hp1 | hp1
            · subst hp1
              rcases n0 with n0 | n0
              · simp [n0] at hp2
              · exact n0
            · subst hp1
              rcases n1 with n1 | n1
              · simp [n1] at hp2
              · exact n1
      · cases hridge
        intro e he
        rw [List.mem_singleton] at he
        subst he
        exact ⟨by simp, hbeam⟩
    · cases hridge
      exact fun e he => absurd he (List.not_mem_nil _)
  split at h
  · split at h
    · exact absurd h (by simp)
    · rename_i fr hfr
      cases h
      obtain ⟨hdz, hfrv⟩ := fdiv_some _ _ _ hfr
      have hh0 : 0 < v.bcube.dz := by
        have : 0 ≤ v.bcube.dz := by
          unfold cube_t.dz
          linarith [hb.2.2]
        exact lt_of_le_of_ne this (Ne.symm hdz)
      have hz2b : (beam.expand_in_dim (!v.dim).toNat (-v.epsilon)).z2 = beam.z2 := by
        generalize v.dim = dm
        cases dm <;> rfl
      rw [hz2b] at hfrv
      have hfr0 : 0 < fr := by
        rw [hfrv]
        apply div_pos _ hh0
        norm_num
        linarith
      intro e he
      rcases List.mem_append.mp he with he | he
      · exact hout1 e he
      · obtain ⟨k1, k2⟩ := wood_brace_beam_ok
          (beam.expand_in_dim (!v.dim).toNat (-v.epsilon))
          v.dim centerline (fr * v.run_len)
          ((beam.expand_in_dim (!v.dim).toNat (-v.epsilon)).z2 - 3.0 * v.beam_depth)
          v.beam_depth hd (mul_pos hfr0 hrun)
        obtain ⟨q1, q2⟩ := wood_cross_braces_ok v hw _ _ k1 k2 e he
        exact ⟨by simp [q1], q2⟩
  · cases h
    exact hout1

/-- The span search of the roofline beam leaves its z range alone. -/
theorem find_roofline_beam_span_z (beam : cube_t) (roof_z2 : ℚ) (tq : tquad_with_ix_t)
    (dim : Bool) :
    (find_roofline_beam_span beam roof_z2 tq dim).z2 = beam.z2 := by
  unfold find_roofline_beam_span
  simp only
  have key : ∀ (l : List Nat) (c : cube_t),
      (l.foldl (fun bm n =>
        if (tq.pts n).z ≠ roof_z2 then bm
        else (bm.set_d (!dim).toNat false (min (bm.d (!dim).toNat false)
            ((tq.pts n).get (!dim).toNat))).set_d (!dim).toNat true
          (max ((bm.set_d (!dim).toNat false (min (bm.d (!dim).toNat false)
            ((tq.pts n).get (!dim).toNat))).d (!dim).toNat true)
              ((tq.pts n).get (!dim).toNat))) c).z2 = c.z2 := by
    intro l
    induction l with
    | nil => exact fun c => rfl
    | cons n rest ih =>
      intro c
      rw [List.foldl_cons, ih]
      split_ifs
      · rfl
      · cases dim <;> rfl
  rw [key]
  cases dim <;> rfl

/-- The roofline block adds only strictly normalized boxes: the roofline beam, its end posts
and the cross braces. -/
theorem wood_roofline_ok (sv : services) (b : building_t) (v : wood_vars)
    (out : List (wood_kind × cube_t)) (h : wood_roofline sv b v = some out)
    (hw : 0 < v.beam_hwidth) (hd : 0 < v.beam_depth)
    (hb : v.bcube.x1 ≤ v.bcube.x2 ∧ v.bcube.y1 ≤ v.bcube.y2 ∧ v.bcube.z1 ≤ v.bcube.z2) :
    ∀ e ∈ out, e.1 ≠ wood_kind.DIAG_BEAM ∧ e.2.is_strictly_normalized = true := by
  unfold wood_roofline at h
  simp only at h
  split at h
  · exact absurd h (by simp)
  rename_i sh hsh
  obtain ⟨hrun, hshv⟩ := fdiv_some _ _ _ hsh
  have hrun0 : 0 < v.run_len :=
    lt_of_le_of_ne (get_sz_dim_nonneg v.bcube v.dim hb.1 hb.2.1) (Ne.symm hrun)
  have hh0 : 0 ≤ v.height := by
    unfold wood_vars.height cube_t.dz
    linarith [hb.2.2]
  have hsh0 : 0 ≤ sh := by
    rw [hshv]
    exact div_nonneg (mul_nonneg (le_of_lt hw) hh0) (le_of_lt hrun0)
  generalize hB : (if v.edges.length = 3 then
      find_roofline_beam_span (set_wall_width ⟨v.bcube.x1, v.bcube.x2, v.bcube.y1, v.bcube.y2,
        v.bcube.z2 - sh - v.beam_depth, v.bcube.z2 - sh⟩ (v.bcube.d v.dim.toNat (!v.dir))
          v.beam_hwidth v.dim.toNat) v.bcube.z2 v.tq v.dim
    else set_wall_width ⟨v.bcube.x1, v.bcube.x2, v.bcube.y1, v.bcube.y2,
        v.bcube.z2 - sh - v.beam_depth, v.bcube.z2 - sh⟩ (v.bcube.d v.dim.toNat (!v.dir))
          v.beam_hwidth v.dim.toNat) = B at h
  have hBz : B.z2 = v.bcube.z2 - sh := by
    rw [← hB]
    have hsw : (set_wall_width ⟨v.bcube.x1, v.bcube.x2, v.bcube.y1, v.bcube.y2,
        v.bcube.z2 - sh - v.beam_depth, v.bcube.z2 - sh⟩ (v.bcube.d v.dim.toNat (!v.dir))
          v.beam_hwidth v.dim.toNat).z2 = v.bcube.z2 - sh := by
      generalize v.dim = dm
      cases dm <;> rfl
    split_ifs
    · rw [find_roofline_beam_span_z, hsw]
    · exact hsw
  split at h
  · exact absurd h (by simp)
  rename_i hnorm
  rw [Bool.not_eq_true, Bool.not_eq_false_eq_eq_true] at hnorm
  exact wood_roofline_boxes_ok sv b v _ B out h hw hd hb hrun0 hnorm (by rw [hBz]; linarith)
/-- The boxes added for sloped roof surfaces only: diagonal beams with positive x and y
extents, and strictly normalized boxes otherwise. -/
theorem wood_roof_boxes_ok (sv : services) (b : building_t) (v : wood_vars)
    (out : List (wood_kind × cube_t)) (h : wood_roof_boxes sv b v = some out)
    (hw : 0 < v.beam_hwidth) (hd : 0 < v.beam_depth)
    (hb : v.bcube.x1 ≤ v.bcube.x2 ∧ v.bcube.y1 ≤ v.bcube.y2 ∧ v.bcube.z1 ≤ v.bcube.z2) :
    ∀ e ∈ out, (e.1 ≠ wood_kind.DIAG_BEAM → e.2.is_strictly_normalized = true) ∧
      (e.1 = wood_kind.DIAG_BEAM → e.2.x1 < e.2.x2 ∧ e.2.y1 < e.2.y2 ∧ ∃ E ∈ v.edges, ∃ s,
        fdiv (v.beam_depth * v.run_len) v.height = some s ∧
        e.2.z1 = (wood_edge_lo v.bcube.z1 E).z + s ∧
        e.2.z2 = (wood_edge_lo v.bcube.z1 E).z
          + sv.mag ((wood_edge_hi v.bcube.z1 E).sub (wood_edge_lo v.bcube.z1 E))) := by
  unfold wood_roof_boxes at h
  split at h
  · rename_i diags roof hdiags hroof
    cases h
    have h1 : ∀ e ∈ diags, e.1 = wood_kind.DIAG_BEAM ∧ ∃ E ∈ v.edges, ∃ s,
        fdiv (v.beam_depth * v.run_len) v.height = some s ∧
        e.2 = wood_diag_beam sv v s E := by
      split at hdiags
      · exact wood_diag_beams_ok sv v _ _ hdiags
      · cases hdiags
        exact fun e he => absurd he (List.not_mem_nil _)
    have h2 : ∀ e ∈ roof, e.1 ≠ wood_kind.DIAG_BEAM ∧ e.2.is_strictly_normalized = true := by
      split at hroof
      · exact wood_roofline_ok sv b v _ hroof hw hd hb
      · cases hroof
        exact fun e he => absurd he (List.not_mem_nil _)
    intro e he
    rcases List.mem_append.mp he with he | he
    · refine ⟨fun hne => absurd (h1 e he).1 hne, fun _ => ?_⟩
      obtain ⟨E, hE, s, hs, hbox⟩ := (h1 e he).2
      rw [hbox]
      obtain ⟨b1, b2, b3, b4⟩ := wood_diag_beam_box sv v s E hw hd
      exact ⟨b1, b2, E, hE, s, hs, b3, b4⟩
    · exact ⟨fun _ => (h2 e he).2, fun heq => absurd heq (h2 e he).1⟩
  · exact absurd h (by simp)

/-- The boxes added for one roof surface, for positive floor spacing: every box other than
a diagonal beam is strictly normalized; a diagonal beam has positive x and y extents and
the z range of `wood_diag_z_range`. -/
theorem add_attic_woodwork_tquad_ok (sv : services) (b : building_t) (tq0 : tquad_with_ix_t)
    (out : List (wood_kind × cube_t)) (h : add_attic_woodwork_tquad sv b tq0 = some out)
    (hfs : 0 < sv.get_window_vspace b) :
    ∀ e ∈ out, (e.1 ≠ wood_kind.DIAG_BEAM → e.2.is_strictly_normalized = true) ∧
      (e.1 = wood_kind.DIAG_BEAM →
        e.2.x1 < e.2.x2 ∧ e.2.y1 < e.2.y2 ∧ wood_diag_z_range sv b tq0 e.2) := by
  have hnil : ∀ e ∈ ([] : List (wood_kind × cube_t)),
      (e.1 ≠ wood_kind.DIAG_BEAM → e.2.is_strictly_normalized = true) ∧
      (e.1 = wood_kind.DIAG_BEAM →
        e.2.x1 < e.2.x2 ∧ e.2.y1 < e.2.y2 ∧ wood_diag_z_range sv b tq0 e.2) :=
    fun e he => absurd he (List.not_mem_nil _)
  have hw : (0 : ℚ) < 0.5 * (0.04 * sv.get_window_vspace b) := by
    norm_num
    exact hfs
  have hd : (0 : ℚ) < 2.0 * (0.04 * sv.get_window_vspace b) := by
    norm_num
    exact hfs
  unfold add_attic_woodwork_tquad at h
  simp only at h
  split at h
  · cases h
    exact hnil
  split at h
  · rename_i height_scale nb hhs hnb
    split at h
    · exact absurd h (by simp)
    split at h
    · rename_i beam beam_shorten hbeam hshorten
      split at h
      · exact absurd h (by simp)
      rename_i verts hverts
      have hv := wood_vert_beams_ok _ _ _ _ hverts
      have hverts_ok : ∀ e ∈ verts,
          (e.1 ≠ wood_kind.DIAG_BEAM → e.2.is_strictly_normalized = true) ∧
          (e.1 = wood_kind.DIAG_BEAM →
            e.2.x1 < e.2.x2 ∧ e.2.y1 < e.2.y2 ∧ wood_diag_z_range sv b tq0 e.2) := by
        intro e he
        refine ⟨fun _ => (hv e he).2, fun heq => ?_⟩
        rw [(hv e he).1] at heq
        exact absurd heq (by simp)
      split at h
      · cases h
        exact hverts_ok
      · split at h
        · exact absurd h (by simp)
        · rename_i roof hroof
          cases h
          have hr := wood_roof_boxes_ok sv b _ _ hroof hw hd
            (get_bcube_normalized (wood_tq sv b tq0))
          intro e he
          rcases List.mem_append.mp he with he | he
          · exact hverts_ok e he
          · refine ⟨(hr e he).1, fun heq => ?_⟩
            obtain ⟨b1, b2, E, hE, s, hs, b3, b4⟩ := (hr e he).2 heq
            exact ⟨b1, b2, E, hE, s, hs, b3, b4⟩
    · exact absurd h (by simp)
  · exact absurd h (by simp)

/-- The boxes added by the loop over the roof surfaces, for positive floor spacing. -/
theorem add_attic_woodwork_loop_ok (sv : services) (b : building_t)
    (hfs : 0 < sv.get_window_vspace b) (tqs : List tquad_with_ix_t)
    (out : List (wood_kind × cube_t)) (h : add_attic_woodwork_loop sv b tqs = some out) :
    ∀ e ∈ out, (e.1 ≠ wood_kind.DIAG_BEAM → e.2.is_strictly_normalized = true) ∧
      (e.1 = wood_kind.DIAG_BEAM →
        e.2.x1 < e.2.x2 ∧ e.2.y1 < e.2.y2 ∧ ∃ tq ∈ tqs, wood_diag_z_range sv b tq e.2) := by
  induction tqs generalizing out with
  | nil =>
    rw [add_attic_woodwork_loop] at h
    cases h
    exact fun e he => absurd he (List.not_mem_nil _)
  | cons tq rest ih =>
    rw [add_attic_woodwork_loop] at h
    split at h
    · rename_i out1 outs hout1 houts
      cases h
      intro e he
      rcases List.mem_append.mp he with he | he
      · obtain ⟨h1, h2⟩ := add_attic_woodwork_tquad_ok sv b tq out1 hout1 hfs e he
        refine ⟨h1, fun heq => ?_⟩
        obtain ⟨c1, c2, c3⟩ := h2 heq
        exact ⟨c1, c2, tq, List.mem_cons_self _ _, c3⟩
      · obtain ⟨h1, h2⟩ := ih outs houts e he
        refine ⟨h1, fun heq => ?_⟩
        obtain ⟨c1, c2, tq1, htq1, c3⟩ := h2 heq
        exact ⟨c1, c2, tq1, List.mem_cons_of_mem _ htq1, c3⟩
    · exact absurd h (by simp)
/-- For positive floor spacing, in a run that completes, every vertical beam, roofline beam,
end post and cross brace that `add_attic_woodwork` adds and every post that
`add_attic_objects` adds as a collider is strictly normalized; a diagonal beam has positive
x and y extents and the z range of `wood_diag_z_range`. -/
theorem woodwork_boxes_normalized (sv : services) (b : building_t)
    (hfs : 0 < sv.get_window_vspace b) :
    (∀ out, add_attic_woodwork sv b = some out → ∀ e ∈ out,
      (e.1 ≠ wood_kind.DIAG_BEAM → e.2.is_strictly_normalized = true) ∧
      (e.1 = wood_kind.DIAG_BEAM →
        e.2.x1 < e.2.x2 ∧ e.2.y1 < e.2.y2 ∧
        ∃ tq ∈ b.roof_tquads, wood_diag_z_range sv b tq e.2)) ∧
    (∀ rgen st, add_attic_objects sv b rgen = some st →
      ∀ e ∈ st.emitted, e.1.type = room_object.TYPE_COLLIDER →
        e.1.cube.is_strictly_normalized = true) := by
  constructor
  · intro out h
    unfold add_attic_woodwork at h
    split_ifs at h
    · cases h
      exact fun e he => absurd he (List.not_mem_nil _)
    · exact add_attic_woodwork_loop_ok sv b hfs _ out h
  · intro rgen st h e he ht
    obtain ⟨room, avoid, part, ch, ps, st_p, -, -, -, -, -, hem, hch, hps, -⟩ :=
      add_attic_objects_emitted sv b rgen st h
    rw [hem] at he
    simp only [List.mem_cons, List.mem_append, List.cons_append, List.mem_map] at he
    rcases he with he | (((⟨p, -, he⟩ | he) | he) | he)
    · rw [he] at ht
      exact absurd ht (by simp [attic_door_object])
    · rw [← he] at ht
      exact absurd ht (by simp [attic_light_object])
    · rcases hch with hch | ⟨-, -, -, hch⟩
      · rw [hch] at he
        exact absurd he (List.not_mem_nil _)
      · rw [hch, List.mem_singleton] at he
        rw [he] at ht
        exact absurd ht (by simp [attic_chimney_object])
    · exact (hps e he).2
    · rw [attic_furnace_entries_type sv b part st_p e he] at ht
      exact absurd ht (by simp)

/-! ## Roof surface classifier: type filter and first match -/

/-- C21: `is_attic_roof(q, roofOnly)` is false for a building without an attic, for a quad
whose type is neither ROOF nor WALL, and for a WALL quad when `roofOnly` is true; so
`is_attic_roof(q, true)` implies `is_attic_roof(q, false)`, and `get_attic_roof_tquads`
returns the sub-list of `roof_tquads`, in order, of the quads with `is_attic_roof(q, true)`. -/
theorem C21_is_attic_roof_types (sv : services) (b : building_t) (q : tquad_with_ix_t)
    (roofOnly : Bool) :
    (sv.has_attic b = false → is_attic_roof sv b q roofOnly = false) ∧
    (q.type ≠ tquad_type.TYPE_ROOF → q.type ≠ tquad_type.TYPE_WALL →
      is_attic_roof sv b q roofOnly = false) ∧
    (q.type = tquad_type.TYPE_WALL → is_attic_roof sv b q true = false) ∧
    (is_attic_roof sv b q true = true → is_attic_roof sv b q false = true) ∧
    get_attic_roof_tquads sv b = b.roof_tquads.filter (fun tq => is_attic_roof sv b tq true) ∧
    (get_attic_roof_tquads sv b).Sublist b.roof_tquads := by
  have hfilter : get_attic_roof_tquads sv b
      = b.roof_tquads.filter (fun tq => is_attic_roof sv b tq true) := by
    unfold get_attic_roof_tquads
    by_cases ha : sv.has_attic b = true
    · rw [if_neg (by simp [ha])]
    · rw [if_pos (by simpa using ha)]
      symm
      rw [List.filter_eq_nil_iff]
      intro tq _
      unfold is_attic_roof
      rw [if_pos (by simpa using ha)]
      simp
  refine ⟨?_, ?_, ?_, ?_, hfilter, ?_⟩
  · intro ha
    unfold is_attic_roof
    rw [if_pos (by simp [ha])]
  · intro h1 h2
    unfold is_attic_roof
    split_ifs with c1 c2
    · rfl
    · rfl
    · exact absurd ⟨h1, Or.inr h2⟩ c2
  · intro hw
    unfold is_attic_roof
    split_ifs with c1 c2
    · rfl
    · rfl
    · exact absurd ⟨by rw [hw]; decide, Or.inl rfl⟩ c2
  · intro h
    unfold is_attic_roof at h ⊢
    split_ifs at h with c1 c2
    rw [if_neg c1]
    have c2b : ¬ (q.type ≠ tquad_type.TYPE_ROOF
        ∧ (false = true ∨ q.type ≠ tquad_type.TYPE_WALL)) := by
      rintro ⟨k1, k2⟩
      exact c2 ⟨k1, Or.inl rfl⟩
    rw [if_neg c2b]
    exact h
  · rw [hfilter]
    exact List.filter_sublist _

/-- C21 at a concrete input: of the four surfaces of `ex_gable_house` the two roof faces
are returned, in order; the two gable wall triangles are not. -/
theorem C21_witness :
    get_attic_roof_tquads (ex_services 1) ex_gable_house = [ex_roof_south, ex_roof_north] ∧
    is_attic_roof (ex_services 1) ex_gable_house ex_wall_west false = true ∧
    is_attic_roof (ex_services 1) ex_gable_house ex_wall_west true = false ∧
    get_attic_roof_tquads (ex_services 1) ex_gable_house
      = ex_gable_house.roof_tquads.filter
        (fun tq => is_attic_roof (ex_services 1) ex_gable_house tq true) :=
  ⟨by decide!, by decide!,
    (C21_is_attic_roof_types (ex_services 1) ex_gable_house ex_wall_west true).2.2.1 rfl,
    (C21_is_attic_roof_types (ex_services 1) ex_gable_house ex_wall_west true).2.2.2.2.1⟩

/-- The loop of `point_under_attic_roof` skips a surface that does not qualify, up to the
value behind `cnorm`. -/
theorem point_under_attic_roof_loop_skip (sv : services) (b : building_t) (P : point)
    (tq : tquad_with_ix_t) (rest : List tquad_with_ix_t) (n0 : point)
    (hq : roof_qualifies sv b P tq = false) :
    ∃ n1, point_under_attic_roof_loop sv b P (tq :: rest) n0
      = point_under_attic_roof_loop sv b P rest n1 := by
  have z0 : (0.0 : ℚ) = 0 := by norm_num
  rw [point_under_attic_roof_loop]
  simp only [z0]
  by_cases c1 : is_attic_roof sv b tq true = true
  · rw [if_neg (by simp [c1])]
    by_cases c2 : sv.point_in_polygon_2d P.x P.y tq = true
    · rw [if_neg (by simp [c2])]
      by_cases c3 : (sv.get_norm tq).z = 0
      · rw [if_pos c3]
        exact ⟨n0, rfl⟩
      · rw [if_neg c3]
        by_cases c4 : dot_product_ptv (sv.get_norm tq) P (tq.pts 0) < 0
        · exfalso
          simp [roof_qualifies, c1, c2, c3, c4] at hq
        · rw [if_neg c4]
          exact ⟨_, rfl⟩
    · rw [if_pos (by simp [c2])]
      exact ⟨n0, rfl⟩
  · rw [if_pos (by simp [c1])]
    exact ⟨n0, rfl⟩

/-- The loop of `point_under_attic_roof` returns at a surface that qualifies, with its
negated normal. -/
theorem point_under_attic_roof_loop_hit (sv : services) (b : building_t) (P : point)
    (tq : tquad_with_ix_t) (rest : List tquad_with_ix_t) (n0 : point)
    (hq : roof_qualifies sv b P tq = true) :
    point_under_attic_roof_loop sv b P (tq :: rest) n0 = (true, (sv.get_norm tq).neg) := by
  have z0 : (0.0 : ℚ) = 0 := by norm_num
  simp only [roof_qualifies, Bool.and_eq_true, decide_eq_true_eq] at hq
  obtain ⟨⟨⟨c1, c2⟩, c3⟩, c4⟩ := hq
  rw [point_under_attic_roof_loop]
  simp only [z0]
  rw [if_neg (by simp [c1]), if_neg (by simp [c2]), if_neg c3, if_pos c4]

/-- A true result of the loop of `point_under_attic_roof` comes from the first surface of
the list that qualifies. -/
theorem point_under_attic_roof_loop_first (sv : services) (b : building_t) (P : point)
    (tqs : List tquad_with_ix_t) (n0 n : point)
    (h : point_under_attic_roof_loop sv b P tqs n0 = (true, n)) :
    ∃ pre S post, tqs = pre ++ S :: post ∧ roof_qualifies sv b P S = true ∧
      (∀ T ∈ pre, roof_qualifies sv b P T = false) ∧ n = (sv.get_norm S).neg := by
  induction tqs generalizing n0 with
  | nil =>
    rw [point_under_attic_roof_loop] at h
    exact absurd (congrArg Prod.fst h) (by simp)
  | cons tq rest ih =>
    by_cases hq : roof_qualifies sv b P tq = true
    · rw [point_under_attic_roof_loop_hit sv b P tq rest n0 hq] at h
      exact ⟨[], tq, rest, rfl, hq, fun T hT => absurd hT (List.not_mem_nil _),
        (congrArg Prod.snd h).symm⟩
    · rw [Bool.not_eq_true] at hq
      obtain ⟨n1, hn1⟩ := point_under_attic_roof_loop_skip sv b P tq rest n0 hq
      rw [hn1] at h
      obtain ⟨pre, S, post, h1, h2, h3, h4⟩ := ih n1 h
      refine ⟨tq :: pre, S, post, by rw [h1]; rfl, h2, ?_, h4⟩
      intro T hT
      rcases List.mem_cons.mp hT with rfl | hT
      · exact hq
      · exact h3 T hT

/-- The loop of `point_under_attic_roof` over surfaces that do not qualify followed by one
that does: the result is that surface's negated normal, whatever follows in the list. -/
theorem point_under_attic_roof_loop_prefix (sv : services) (b : building_t) (P : point)
    (pre : List tquad_with_ix_t) (S : tquad_with_ix_t) (post : List tquad_with_ix_t)
    (n0 : point) (hpre : ∀ T ∈ pre, roof_qualifies sv b P T = false)
    (hS : roof_qualifies sv b P S = true) :
    point_under_attic_roof_loop sv b P (pre ++ S :: post) n0
      = (true, (sv.get_norm S).neg) := by
  induction pre generalizing n0 with
  | nil => exact point_under_attic_roof_loop_hit sv b P S post n0 hS
  | cons tq rest ih =>
    obtain ⟨n1, hn1⟩ := point_under_attic_roof_loop_skip sv b P tq (rest ++ S :: post) n0
      (hpre tq (List.mem_cons_self _ _))
    rw [List.cons_append, hn1]
    exact ih n1 (fun T hT => hpre T (List.mem_cons_of_mem _ hT))

/-- C23: whenever `point_under_attic_roof(P, &n)` returns true, `n` is the negated normal of
the first surface in `roof_tquads` order that is an attic roof surface (`roofOnly = true`),
contains `P` in its 2D polygon, has a non-zero normal z component and has `P` at negative
signed distance; the surfaces after it have no influence on the flag or on `n`. -/
theorem C23_first_surface_wins (sv : services) (b : building_t) (P n0 n : point)
    (h : point_under_attic_roof sv b P n0 = (true, n)) :
    ∃ pre S post, b.roof_tquads = pre ++ S :: post ∧
      is_attic_roof sv b S true = true ∧ sv.point_in_polygon_2d P.x P.y S = true ∧
      (sv.get_norm S).z ≠ 0 ∧ dot_product_ptv (sv.get_norm S) P (S.pts 0) < 0 ∧
      (∀ T ∈ pre, roof_qualifies sv b P T = false) ∧
      n = (sv.get_norm S).neg ∧
      ∀ (post2 : List tquad_with_ix_t) (m : point),
        point_under_attic_roof_loop sv b P (pre ++ S :: post2) m
          = (true, (sv.get_norm S).neg) := by
  unfold point_under_attic_roof at h
  split_ifs at h with hc
  · exact absurd (congrArg Prod.fst h) (by simp)
  · obtain ⟨pre, S, post, h1, h2, h3, h4⟩ :=
      point_under_attic_roof_loop_first sv b P b.roof_tquads n0 n h
    have h2b := h2
    simp only [roof_qualifies, Bool.and_eq_true, decide_eq_true_eq] at h2b
    obtain ⟨⟨⟨c1, c2⟩, c3⟩, c4⟩ := h2b
    exact ⟨pre, S, post, h1, c1, c2, c3, c4, h3, h4,
      fun post2 m => point_under_attic_roof_loop_prefix sv b P pre S post2 m h3 h2⟩

/-- C23 at a concrete input: the point (5, 6, 4) of `ex_gable_house` is under the north
face, the second surface of the list; the south face before it does not qualify. -/
theorem C23_witness :
    point_under_attic_roof (ex_services 1) ex_gable_house ⟨5, 6, 4⟩ point.zero
      = (true, ⟨0, -0.6, -0.8⟩) ∧
    ∃ pre S post, ex_gable_house.roof_tquads = pre ++ S :: post ∧
      (∀ T ∈ pre, roof_qualifies (ex_services 1) ex_gable_house ⟨5, 6, 4⟩ T = false) ∧
      (⟨0, -0.6, -0.8⟩ : point) = ((ex_services 1).get_norm S).neg := by
  have h : point_under_attic_roof (ex_services 1) ex_gable_house ⟨5, 6, 4⟩ point.zero
      = (true, ⟨0, -0.6, -0.8⟩) := by decide!
  obtain ⟨pre, S, post, h1, -, -, -, -, h2, h3, -⟩ :=
    C23_first_surface_wins (ex_services 1) ex_gable_house ⟨5, 6, 4⟩ point.zero _ h
  exact ⟨h, pre, S, post, h1, h2, h3⟩

/-! ## Access hatch placement: determinism and position -/

/-- The result of `add_attic_access_door` on a building with the same parts, rooms and floor
spacing: the same flag and generator, and the same hatch when one is created. -/
theorem add_attic_access_door_congr (sv : services) (b b2 : building_t) (ceiling : cube_t)
    (part_ix num_floors rooms_start : Nat) (rgen : rand_gen_t)
    (hparts : b2.parts = b.parts) (hrooms : b2.interior.rooms = b.interior.rooms)
    (hfs : sv.get_window_vspace b2 = sv.get_window_vspace b) :
    add_attic_access_door sv b2 ceiling part_ix num_floors rooms_start rgen
      = (add_attic_access_door sv b ceiling part_ix num_floors rooms_start rgen).map
        (fun r => ⟨r.ret,
          if r.ret then { b2 with interior := { b2.interior with
            attic_access := r.bldg.interior.attic_access } } else b2, r.rgen⟩) := by
  unfold add_attic_access_door select_room get_part_for_room
  simp only
  rw [hparts, hrooms, hfs]
  cases b.parts[part_ix]? with
  | none => rfl
  | some part =>
    simp only
    split_ifs with h1 h2 h3 h4
    · rfl
    · rfl
    · rfl
    · rfl
    · cases b.parts[(scan_rooms sv part_ix (top_floor_ix num_floors)
          (0.24 * sv.get_window_vspace b) (0.16 * sv.get_window_vspace b)
          (List.drop rooms_start b.interior.rooms) ⟨room_t.zero, 0.0, false⟩).best_room.part_id]?
        with
      | none => rfl
      | some p2 => rfl

/-- A call of `add_attic_access_door` leaves the parts and the rooms of the building alone. -/
theorem add_attic_access_door_frame (sv : services) (b : building_t) (ceiling : cube_t)
    (part_ix num_floors rooms_start : Nat) (rgen : rand_gen_t) (r : door_result)
    (h : add_attic_access_door sv b ceiling part_ix num_floors rooms_start rgen = some r) :
    r.bldg.parts = b.parts ∧ r.bldg.interior.rooms = b.interior.rooms := by
  cases hret : r.ret with
  | false =>
    rw [add_attic_access_door_false sv b ceiling part_ix num_floors rooms_start rgen r h hret]
    exact ⟨rfl, rfl⟩
  | true =>
    obtain ⟨part, pos, -, -, -, -, -, -, hb⟩ :=
      add_attic_access_door_true sv b ceiling part_ix num_floors rooms_start rgen r h hret
    rw [hb]
    exact ⟨rfl, rfl⟩

/-- C22: hatch placement is deterministic and idempotent. A call of `add_attic_access_door`
on any building with the same parts, rooms and floor spacing (and the same ceiling, part
index, floor count, `rooms_start` and generator state) returns the same flag, leaves the
generator in the same state and creates the same hatch box and orientation index, whatever
`interior->attic_access` was before; and a second call on the building left by the first
returns exactly the result of the first. The floor spacing is the value of
`get_window_vspace()`, which is assumed not to read the hatch. -/
theorem C22_hatch_deterministic (sv : services) (b : building_t) (ceiling : cube_t)
    (part_ix num_floors rooms_start : Nat) (rgen : rand_gen_t) (r : door_result)
    (h : add_attic_access_door sv b ceiling part_ix num_floors rooms_start rgen = some r) :
    (∀ b2 : building_t, b2.parts = b.parts → b2.interior.rooms = b.interior.rooms →
      sv.get_window_vspace b2 = sv.get_window_vspace b →
      ∃ r2, add_attic_access_door sv b2 ceiling part_ix num_floors rooms_start rgen = some r2 ∧
        r2.ret = r.ret ∧ r2.rgen = r.rgen ∧
        (r.ret = true → r2.bldg.interior.attic_access = r.bldg.interior.attic_access) ∧
        (r.ret = false → r2.bldg = b2)) ∧
    (sv.get_window_vspace r.bldg = sv.get_window_vspace b →
      add_attic_access_door sv r.bldg ceiling part_ix num_floors rooms_start rgen = some r) := by
  constructor
  · intro b2 hparts hrooms hfs
    rw [add_attic_access_door_congr sv b b2 ceiling part_ix num_floors rooms_start rgen hparts
      hrooms hfs, h]
    refine ⟨_, rfl, rfl, rfl, ?_, ?_⟩
    · intro hret
      simp only
      rw [if_pos hret]
    · intro hret
      simp only
      rw [if_neg (by simp [hret])]
  · intro hfs
    obtain ⟨hparts, hrooms⟩ :=
      add_attic_access_door_frame sv b ceiling part_ix num_floors rooms_start rgen r h
    rw [add_attic_access_door_congr sv b r.bldg ceiling part_ix num_floors rooms_start rgen
      hparts hrooms hfs, h]
    simp only [Option.map_some']
    congr 1
    clear h hfs hparts hrooms
    rcases r with ⟨ret, ⟨parts, rnp, rd, rt, ⟨rooms, aa, objs⟩, iz2, hc, ih⟩, rg⟩
    cases ret <;> rfl

/-- C22 at a concrete input: the call on `ex_house` places the hatch `ex_house_hatch`; the
call on `ex_house_with_hatch`, which already has it, returns the same result. -/
theorem C22_witness :
    ∃ r, add_attic_access_door (ex_services 1) ex_house ex_ceiling 0 1 0 ex_rgen = some r ∧
      r.ret = true ∧ r.bldg = ex_house_with_hatch ∧
      add_attic_access_door (ex_services 1) ex_house_with_hatch ex_ceiling 0 1 0 ex_rgen
        = some r := by
  have h : add_attic_access_door (ex_services 1) ex_house ex_ceiling 0 1 0 ex_rgen
      = some ⟨true, ex_house_with_hatch, ex_rgen⟩ := by decide!
  exact ⟨_, h, rfl, rfl,
    (C22_hatch_deterministic (ex_services 1) ex_house ex_ceiling 0 1 0 ex_rgen _ h).2 rfl⟩

/-- A call of `add_attic_access_door` returns true when the part is wide enough, the floor
spacing is positive, there is an eligible room and the eligible rooms have positive
height. -/
theorem add_attic_access_door_succeeds (sv : services) (b : building_t) (ceiling : cube_t)
    (part_ix num_floors rooms_start : Nat) (rgen : rand_gen_t) (part : cube_t)
    (hpart : b.parts[part_ix]? = some part)
    (hsz : 2.75 * sv.get_window_vspace b ≤ min part.dx part.dy)
    (hfs : 0 < sv.get_window_vspace b)
    (hne : eligible_rooms sv b part_ix num_floors rooms_start ≠ [])
    (hz : ∀ room ∈ eligible_rooms sv b part_ix num_floors rooms_start,
      room.cube.z1 < room.cube.z2) :
    ∃ r, add_attic_access_door sv b ceiling part_ix num_floors rooms_start rgen = some r ∧
      r.ret = true := by
  have hlen : part_ix < b.parts.length := by
    by_contra hc
    rw [List.getElem?_eq_none (not_lt.mp hc)] at hpart
    exact Option.noConfusion hpart
  obtain ⟨r, hr⟩ := add_attic_access_door_returns sv b ceiling part_ix num_floors rooms_start
    rgen hlen
  refine ⟨r, hr, ?_⟩
  have hbest := select_room_of_eligible sv b part_ix num_floors rooms_start hfs hne
  obtain ⟨hx, hy, _, hmax, hmin⟩ := room_eligible_pos sv part_ix _ _ _ hfs
    (List.mem_filter.mp hbest).2
  have hnz : (select_room sv b part_ix num_floors rooms_start).best_room.cube.is_all_zeros
      = false := by
    simp only [cube_t.is_all_zeros, decide_eq_false_iff_not]
    rintro ⟨h1, h2, _⟩
    simp only [cube_t.dx, h1, h2, sub_zero] at hx
    exact lt_irrefl _ hx
  have hva := hatch_valid_area_normalized _ _ hfs hmax hmin (hz _ hbest)
  unfold add_attic_access_door at hr
  simp only at hr
  rw [hpart] at hr
  simp only at hr
  rw [if_neg (not_lt.mpr hsz), if_neg (by simp [hnz]), if_neg (by simp [hva])] at hr
  split at hr
  · exact absurd hr (by simp)
  · cases hr; rfl

/-! ## Attic door geometry: the ladder -/

/-- The opened door box has the lateral range of the door object, with or without the
ladder. -/
theorem get_attic_access_door_cube_lateral (sv : services) (c : room_object_t)
    (inc_ladder : Bool) (hpos : c.cube.is_strictly_normalized = true) :
    (get_attic_access_door_cube sv c inc_ladder).d (!c.dim).toNat false
      = c.cube.d (!c.dim).toNat false ∧
    (get_attic_access_door_cube sv c inc_ladder).d (!c.dim).toNat true
      = c.cube.d (!c.dim).toNat true := by
  simp only [cube_t.is_strictly_normalized, decide_eq_true_eq] at hpos
  obtain ⟨hx, hy, hz⟩ := hpos
  unfold get_attic_access_door_cube
  by_cases ho : sv.is_open c = true
  · rw [if_neg (by simp [ho])]
    cases inc_ladder
    · cases c.dim <;> cases c.dir <;> exact ⟨rfl, rfl⟩
    · simp only [get_ladder_bcube_from_open_attic_door, cube_t.union_with_cube, if_true]
      cases c.dim <;> cases c.dir <;>
        simp only [cube_t.set_d, cube_t.d, cube_t.expand_in_dim, cube_t.get_sz_dim,
          Bool.toNat_false, Bool.toNat_true, Bool.not_false, Bool.not_true,
          Bool.false_eq_true, if_false, if_true] <;>
        constructor <;>
        first
          | (apply min_eq_left; norm_num; linarith)
          | (apply max_eq_left; norm_num; linarith)
  · rw [if_pos (by simpa using ho)]
    exact ⟨rfl, rfl⟩

/-- The ladder box of an open door with positive extents is strictly normalized whenever
the door box it is computed from has the lateral range of the door object. -/
theorem ladder_bcube_normalized (c : room_object_t) (door : cube_t)
    (hpos : c.cube.is_strictly_normalized = true)
    (h1 : door.d (!c.dim).toNat false = c.cube.d (!c.dim).toNat false)
    (h2 : door.d (!c.dim).toNat true = c.cube.d (!c.dim).toNat true) :
    (get_ladder_bcube_from_open_attic_door c door).is_strictly_normalized = true := by
  simp only [cube_t.is_strictly_normalized, decide_eq_true_eq] at hpos ⊢
  obtain ⟨hx, hy, hz⟩ := hpos
  revert h1 h2
  unfold get_ladder_bcube_from_open_attic_door
  cases c.dim <;> cases c.dir <;>
    simp only [cube_t.set_d, cube_t.d, cube_t.expand_in_dim, cube_t.get_sz_dim, cube_t.dz,
      Bool.toNat_false, Bool.toNat_true, Bool.not_false, Bool.not_true, Bool.false_eq_true,
      if_false, if_true] <;>
    intro h1 h2 <;>
    refine ⟨?_, ?_, ?_⟩ <;> norm_num <;> linarith

/-- The step loop of `add_attic_door` adds, for each step number `n`, the box it started
from with `z1 = ladder.z1 + (n+1)*step_spacing` and `z2 = z1 + step_thickness`. -/
theorem ladder_steps_eq (ladder : cube_t) (sp th : ℚ) (ns : List Nat) (step : cube_t) :
    ladder_steps ladder sp th ns step
      = ns.map (fun n => (⟨step.x1, step.x2, step.y1, step.y2,
          ladder.z1 + ((n + 1 : Nat) : ℚ) * sp,
          ladder.z1 + ((n + 1 : Nat) : ℚ) * sp + th⟩ : cube_t)) := by
  induction ns generalizing step with
  | nil => rfl
  | cons n rest ih =>
    rw [ladder_steps, List.map_cons, ih]

/-- The two sides of the ladder: the ladder box cut down to the outer 5% of its width at
the low and at the high lateral edge. -/
theorem ladder_side_eq (c : room_object_t) (ladder : cube_t) :
    ladder_side c ladder (ladder.get_sz_dim (!c.dim).toNat) 0.05 false
      = ladder.set_d (!c.dim).toNat true
        (ladder.d (!c.dim).toNat false + 0.05 * ladder.get_sz_dim (!c.dim).toNat) ∧
    ladder_side c ladder (ladder.get_sz_dim (!c.dim).toNat) 0.05 true
      = ladder.set_d (!c.dim).toNat false
        (ladder.d (!c.dim).toNat true - 0.05 * ladder.get_sz_dim (!c.dim).toNat) := by
  unfold ladder_side
  simp only [Bool.not_false, Bool.not_true, Bool.false_eq_true, if_false, if_true,
    cube_t.get_sz_dim]
  constructor
  · congr 1
    norm_num
    ring
  · congr 1
    norm_num
    ring

/-- The boxes of the step loop of `add_attic_door` are the boxes of `ladder_step_box` for
the step numbers 1 to 10. -/
theorem ladder_steps_boxes (c : room_object_t) (ladder : cube_t) :
    ladder_steps ladder (ladder.dz / ((10 + 1 : Nat) : ℚ))
        (0.1 * (ladder.dz / ((10 + 1 : Nat) : ℚ))) (List.range 10)
        (ladder.expand_in_dim (!c.dim).toNat (-0.05 * ladder.get_sz_dim (!c.dim).toNat))
      = (List.range 10).map (fun n => ladder_step_box ladder c.dim (n + 1)) := by
  rw [ladder_steps_eq]
  apply List.map_congr_left
  intro n _
  cases c.dim <;>
    simp only [ladder_step_box, cube_t.expand_in_dim, cube_t.set_d, cube_t.d,
      cube_t.get_sz_dim, Bool.toNat_false, Bool.toNat_true, Bool.not_false, Bool.not_true,
      cube_t.mk.injEq] <;>
    refine ⟨?_, ?_, ?_, ?_, ?_, ?_⟩ <;> push_cast <;> ring

/-- The box of step `k` of a strictly normalized ladder: lateral range, long axis range,
z range, and its position relative to the ladder and to the next step. -/
theorem ladder_step_box_facts (ladder : cube_t) (dim : Bool) (k : Nat)
    (hn : ladder.is_strictly_normalized = true) (h1 : 1 ≤ k) (h10 : k ≤ 10) :
    (ladder_step_box ladder dim k).d (!dim).toNat false
      = ladder.d (!dim).toNat false + 0.05 * ladder.get_sz_dim (!dim).toNat ∧
    (ladder_step_box ladder dim k).d (!dim).toNat true
      = ladder.d (!dim).toNat true - 0.05 * ladder.get_sz_dim (!dim).toNat ∧
    (ladder_step_box ladder dim k).d dim.toNat false = ladder.d dim.toNat false ∧
    (ladder_step_box ladder dim k).d dim.toNat true = ladder.d dim.toNat true ∧
    (ladder_step_box ladder dim k).z1 = ladder.z1 + k * (ladder.dz / 11) ∧
    (ladder_step_box ladder dim k).z2
      = (ladder_step_box ladder dim k).z1 + 0.1 * (ladder.dz / 11) ∧
    ladder.z1 < (ladder_step_box ladder dim k).z1 ∧
    (ladder_step_box ladder dim k).z2 < ladder.z2 ∧
    (ladder_step_box ladder dim k).z2 < (ladder_step_box ladder dim (k + 1)).z1 ∧
    (ladder_step_box ladder dim (k + 1)).z1 - (ladder_step_box ladder dim k).z1
      = ladder.dz / 11 := by
  simp only [cube_t.is_strictly_normalized, decide_eq_true_eq] at hn
  obtain ⟨-, -, hz⟩ := hn
  have hk1 : (1 : ℚ) ≤ k := by exact_mod_cast h1
  have hk10 : (k : ℚ) ≤ 10 := by exact_mod_cast h10
  have hdz : 0 < ladder.dz / 11 := by
    unfold cube_t.dz
    apply div_pos _ (by norm_num)
    linarith
  have hdz11 : 11 * (ladder.dz / 11) = ladder.z2 - ladder.z1 := by
    unfold cube_t.dz
    ring
  have hks : ladder.dz / 11 ≤ k * (ladder.dz / 11) := by nlinarith
  have hks2 : k * (ladder.dz / 11) ≤ 10 * (ladder.dz / 11) := by nlinarith
  have hz1 : ∀ j : Nat,
      (ladder_step_box ladder dim j).z1 = ladder.z1 + j * (ladder.dz / 11) := by
    intro j
    cases dim <;> rfl
  have hz2 : ∀ j : Nat, (ladder_step_box ladder dim j).z2
      = ladder.z1 + j * (ladder.dz / 11) + 0.1 * (ladder.dz / 11) := by
    intro j
    cases dim <;> rfl
  refine ⟨?_, ?_, ?_, ?_, hz1 k, ?_, ?_, ?_, ?_, ?_⟩
  · cases dim <;> rfl
  · cases dim <;> rfl
  · cases dim <;> rfl
  · cases dim <;> rfl
  · rw [hz2, hz1]
  · rw [hz1]
    linarith
  · rw [hz2]
    norm_num
    linarith
  · rw [hz2, hz1]
    push_cast
    norm_num
    linarith
  · rw [hz1, hz1]
    push_cast
    ring

/-- C29: for every open door object with strictly positive extents (and either value of
the default argument `inc_ladder`), the ladder box of
`get_ladder_bcube_from_open_attic_door` is strictly normalized, and `add_attic_door` adds,
before the rotation, the door, two ladder sides that are the ladder box cut down to the
outer 5% of its width at the low and at the high lateral edge, and 10 steps that span
exactly the gap between the sides; step `k` (1 to 10) has `z1 = ladder.z1 + k*dz/11` and
thickness `0.1*dz/11`, so consecutive steps are `dz/11` apart, disjoint, and lie strictly
inside the z range of the ladder. -/
theorem C29_ladder_geometry (sv : services) (c : room_object_t) (inc_ladder : Bool)
    (hopen : sv.is_open c = true) (hpos : c.cube.is_strictly_normalized = true) :
    ∃ door ladder rail0 rail1,
      door = get_attic_access_door_cube sv c inc_ladder ∧
      ladder = get_ladder_bcube_from_open_attic_door c door ∧
      ladder.is_strictly_normalized = true ∧
      add_attic_door sv c inc_ladder
        = (door_part.DOOR, door) :: (door_part.LADDER_SIDE, rail0)
          :: (door_part.LADDER_SIDE, rail1)
          :: (List.range 10).map
            (fun n => (door_part.LADDER_STEP, ladder_step_box ladder c.dim (n + 1))) ∧
      rail0 = ladder.set_d (!c.dim).toNat true
        (ladder.d (!c.dim).toNat false + 0.05 * ladder.get_sz_dim (!c.dim).toNat) ∧
      rail1 = ladder.set_d (!c.dim).toNat false
        (ladder.d (!c.dim).toNat true - 0.05 * ladder.get_sz_dim (!c.dim).toNat) ∧
      ∀ k, 1 ≤ k → k ≤ 10 →
        (ladder_step_box ladder c.dim k).d (!c.dim).toNat false = rail0.d (!c.dim).toNat true ∧
        (ladder_step_box ladder c.dim k).d (!c.dim).toNat true = rail1.d (!c.dim).toNat false ∧
        (ladder_step_box ladder c.dim k).d c.dim.toNat false = ladder.d c.dim.toNat false ∧
        (ladder_step_box ladder c.dim k).d c.dim.toNat true = ladder.d c.dim.toNat true ∧
        (ladder_step_box ladder c.dim k).z1 = ladder.z1 + k * (ladder.dz / 11) ∧
        (ladder_step_box ladder c.dim k).z2
          = (ladder_step_box ladder c.dim k).z1 + 0.1 * (ladder.dz / 11) ∧
        ladder.z1 < (ladder_step_box ladder c.dim k).z1 ∧
        (ladder_step_box ladder c.dim k).z2 < ladder.z2 ∧
        (ladder_step_box ladder c.dim k).z2 < (ladder_step_box ladder c.dim (k + 1)).z1 ∧
        (ladder_step_box ladder c.dim (k + 1)).z1 - (ladder_step_box ladder c.dim k).z1
          = ladder.dz / 11 := by
  obtain ⟨l1, l2⟩ := get_attic_access_door_cube_lateral sv c inc_ladder hpos
  have hlad := ladder_bcube_normalized c (get_attic_access_door_cube sv c inc_ladder) hpos l1 l2
  obtain ⟨s0, s1⟩ := ladder_side_eq c
    (get_ladder_bcube_from_open_attic_door c (get_attic_access_door_cube sv c inc_ladder))
  refine ⟨_, _, _, _, rfl, rfl, hlad, ?_, rfl, rfl, ?_⟩
  · unfold add_attic_door
    rw [if_pos hopen]
    simp only [List.map_cons, List.map_nil, List.cons_append, List.nil_append]
    rw [ladder_steps_boxes, s0, s1, List.map_map]
    rfl
  · intro k h1 h10
    obtain ⟨f1, f2, f3, f4, f5, f6, f7, f8, f9, f10⟩ :=
      ladder_step_box_facts _ c.dim k hlad h1 h10
    refine ⟨?_, ?_, f3, f4, f5, f6, f7, f8, f9, f10⟩
    · rw [f1]
      cases c.dim <;> rfl
    · rw [f2]
      cases c.dim <;> rfl

/-- C29 at a concrete input: the open door `ex_open_door` (0.32 x 0.48 x 0.06) gets a ladder
box from z = 1069/550 to z = 2.98, and 13 boxes are added: the door, two sides, ten
steps. -/
theorem C29_witness :
    (ex_services 1).is_open ex_open_door = true ∧
    ex_open_door.cube.is_strictly_normalized = true ∧
    (add_attic_door (ex_services 1) ex_open_door false).length = 13 ∧
    ∃ door ladder, door = get_attic_access_door_cube (ex_services 1) ex_open_door false ∧
      ladder = get_ladder_bcube_from_open_attic_door ex_open_door door ∧
      ladder = ⟨6.906, 7.194, 3.02, 3.14, 1069 / 550, 2.98⟩ ∧
      ladder.is_strictly_normalized = true := by
  obtain ⟨door, ladder, r0, r1, h1, h2, h3, -⟩ :=
    C29_ladder_geometry (ex_services 1) ex_open_door false (by decide!) (by decide!)
  refine ⟨by decide!, by decide!, by decide!, door, ladder, h1, h2, ?_, h3⟩
  rw [h2, h1]
  decide!

/-! ## Attic woodwork: beam positions and edge spans -/

/-- The loop over the edges changes `z2` of the beam only. -/
theorem wood_beam_top_frame (v : wood_vars) (roof_pos : ℚ) (es : List edge_t) (beam : cube_t)
    (found : Bool) (r : cube_t × Bool) (h : wood_beam_top v roof_pos es beam found = some r) :
    r.1.x1 = beam.x1 ∧ r.1.x2 = beam.x2 ∧ r.1.y1 = beam.y1 ∧ r.1.y2 = beam.y2 ∧
    r.1.z1 = beam.z1 := by
  induction es generalizing beam found with
  | nil =>
    rw [wood_beam_top] at h
    cases h
    exact ⟨rfl, rfl, rfl, rfl, rfl⟩
  | cons E rest ih =>
    rw [wood_beam_top] at h
    split at h
    · exact ih _ _ h
    · cases found
      · simp only [Bool.false_eq_true, if_false] at h
        obtain ⟨h1, h2, h3, h4, h5⟩ := ih _ _ h
        rw [h1, h2, h3, h4, h5]
        simp only
        split_ifs <;> exact ⟨rfl, rfl, rfl, rfl, rfl⟩
      · simp at h

/-- Every vertical beam that is added spans `roof_pos ± beam_hwidth` along the beam-spacing
axis, for the position `roof_pos` of one of the beam numbers. -/
theorem wood_vert_beams_pos (v : wood_vars) (ns : List Nat) (beam : cube_t)
    (out : List (wood_kind × cube_t)) (h : wood_vert_beams v ns beam = some out) :
    ∀ e ∈ out, ∃ n ∈ ns,
      e.2.d (!v.dim).toNat false = v.beam_pos_start + n * v.beam_spacing - v.beam_hwidth ∧
      e.2.d (!v.dim).toNat true = v.beam_pos_start + n * v.beam_spacing + v.beam_hwidth := by
  induction ns generalizing beam out with
  | nil =>
    rw [wood_vert_beams] at h
    cases h
    exact fun e he => absurd he (List.not_mem_nil _)
  | cons n rest ih =>
    have lift : ∀ bm o, wood_vert_beams v rest bm = some o → ∀ e ∈ o, ∃ m ∈ n :: rest,
        e.2.d (!v.dim).toNat false = v.beam_pos_start + m * v.beam_spacing - v.beam_hwidth ∧
        e.2.d (!v.dim).toNat true
          = v.beam_pos_start + m * v.beam_spacing + v.beam_hwidth := by
      intro bm o ho e he
      obtain ⟨m, hm, hm2⟩ := ih bm o ho e he
      exact ⟨m, List.mem_cons_of_mem _ hm, hm2⟩
    rw [wood_vert_beams] at h
    split at h
    · exact absurd h (by simp)
    · rename_i r hr
      split at h
      · exact absurd h (by simp)
      · split at h
        · exact lift _ _ h
        · split at h
          · exact absurd h (by simp)
          · split at h
            · exact absurd h (by simp)
            · rename_i out1 hout1
              cases h
              intro e he
              rcases List.mem_cons.mp he with he | he
              · subst he
                refine ⟨n, List.mem_cons_self _ _, ?_⟩
                obtain ⟨f1, f2, f3, f4, -⟩ := wood_beam_top_frame v _ _ _ _ r hr
                revert f1 f2 f3 f4
                generalize v.dim = dm
                generalize v.dir = dr
                cases dm <;> cases dr <;>
                  simp only [set_wall_width, cube_t.set_d, cube_t.d, Bool.toNat_false,
                    Bool.toNat_true, Bool.not_false, Bool.not_true] <;>
                  intro f1 f2 f3 f4 <;>
                  first
                    | exact ⟨f1, f2⟩
                    | exact ⟨f3, f4⟩
              · exact lift _ _ hout1 e he

/-- The cross braces are cross braces. -/
theorem wood_cross_braces_kind (v : wood_vars) (ns : List Nat) (beam : cube_t) :
    ∀ e ∈ wood_cross_braces v ns beam, e.1 = wood_kind.CROSS_BRACE := by
  induction ns generalizing beam with
  | nil =>
    rw [wood_cross_braces]
    exact fun e he => absurd he (List.not_mem_nil _)
  | cons n rest ih =>
    rw [wood_cross_braces]
    intro e he
    rcases List.mem_cons.mp he with he | he
    · subst he
      rfl
    · exact ih _ e he

/-- The roofline block adds no vertical beam. -/
theorem wood_roofline_boxes_kind (sv : services) (b : building_t) (v : wood_vars)
    (centerline : ℚ) (beam : cube_t) (out : List (wood_kind × cube_t))
    (h : wood_roofline_boxes sv b v centerline beam = some out) :
    ∀ e ∈ out, e.1 ≠ wood_kind.VERT_BEAM := by
  unfold wood_roofline_boxes at h
  simp only at h
  split at h
  · exact absurd h (by simp)
  rename_i out1 hridge
  have hout1 : ∀ e ∈ out1, e.1 ≠ wood_kind.VERT_BEAM := by
    split at hridge
    · split at hridge
      · split at hridge
        · exact absurd hridge (by simp)
        · cases hridge
          intro e he
          rcases List.mem_cons.mp he with he | he
          · subst he
            simp
          · obtain ⟨p, -, rfl⟩ := List.mem_map.mp he
            simp
      · cases hridge
        intro e he
        rw [List.mem_singleton] at he
        subst he
        simp
    · cases hridge
      exact fun e he => absurd he (List.not_mem_nil _)
  split at h
  · split at h
    · exact absurd h (by simp)
    · cases h
      intro e he
      rcases List.mem_append.mp he with he | he
      · exact hout1 e he
      · rw [wood_cross_braces_kind v _ _ e he]
        simp
  · cases h
    exact hout1

/-- The boxes added for sloped roof surfaces only include no vertical beam. -/
theorem wood_roof_boxes_kind (sv : services) (b : building_t) (v : wood_vars)
    (out : List (wood_kind × cube_t)) (h : wood_roof_boxes sv b v = some out) :
    ∀ e ∈ out, e.1 ≠ wood_kind.VERT_BEAM := by
  unfold wood_roof_boxes at h
  split at h
  · rename_i diags roof hdiags hroof
    cases h
    have h1 : ∀ e ∈ diags, e.1 ≠ wood_kind.VERT_BEAM := by
      split at hdiags
      · intro e he
        rw [(wood_diag_beams_ok sv v _ _ hdiags e he).1]
        simp
      · cases hdiags
        exact fun e he => absurd he (List.not_mem_nil _)
    have h2 : ∀ e ∈ roof, e.1 ≠ wood_kind.VERT_BEAM := by
      split at hroof
      · unfold wood_roofline at hroof
        simp only at hroof
        split at hroof
        · exact absurd hroof (by simp)
        · rename_i sh hsh
          generalize (if v.edges.length = 3 then
              find_roofline_beam_span (set_wall_width ⟨v.bcube.x1, v.bcube.x2, v.bcube.y1,
                v.bcube.y2, v.bcube.z2 - sh - v.beam_depth, v.bcube.z2 - sh⟩
                  (v.bcube.d v.dim.toNat (!v.dir)) v.beam_hwidth v.dim.toNat)
                v.bcube.z2 v.tq v.dim
            else set_wall_width ⟨v.bcube.x1, v.bcube.x2, v.bcube.y1, v.bcube.y2,
                v.bcube.z2 - sh - v.beam_depth, v.bcube.z2 - sh⟩
                  (v.bcube.d v.dim.toNat (!v.dir)) v.beam_hwidth v.dim.toNat) = B at hroof
          split at hroof
          · exact absurd hroof (by simp)
          · exact wood_roofline_boxes_kind sv b v _ _ _ hroof
      · cases hroof
        exact fun e he => absurd he (List.not_mem_nil _)
    intro e he
    rcases List.mem_append.mp he with he | he
    · exact h1 e he
    · exact h2 e he
  · exact absurd h (by simp)
/-- The boxes of an attic roof surface start with the output of the vertical beam loop, run
on the local variables `wood_vars_of`; the boxes after it are no vertical beams. -/
theorem add_attic_woodwork_tquad_verts (sv : services) (b : building_t)
    (tq0 : tquad_with_ix_t) (out : List (wood_kind × cube_t))
    (h : add_attic_woodwork_tquad sv b tq0 = some out)
    (hattic : is_attic_roof sv b tq0 false = true) :
    ∃ hs nb sh beam verts rest,
      fdiv (3.0 * wood_base_width sv b tq0) (sv.get_window_vspace b) = some nb ∧
      wood_vert_beams (wood_vars_of sv b tq0 hs nb sh) (List.range (wood_num_beams sv nb)) beam
        = some verts ∧
      out = verts ++ rest ∧ ∀ e ∈ rest, e.1 ≠ wood_kind.VERT_BEAM := by
  unfold add_attic_woodwork_tquad at h
  simp only at h
  split at h
  · rename_i hna
    rw [hattic] at hna
    exact absurd hna (by simp)
  split at h
  · rename_i height_scale nb hhs hnb
    split at h
    · exact absurd h (by simp)
    split at h
    · rename_i beam beam_shorten hbeam hshorten
      split at h
      · exact absurd h (by simp)
      rename_i verts hverts
      split at h
      · cases h
        exact ⟨height_scale, nb, beam_shorten, beam, out, [], hnb, hverts,
          (List.append_nil _).symm, fun e he => absurd he (List.not_mem_nil _)⟩
      · split at h
        · exact absurd h (by simp)
        · rename_i roof hroof
          cases h
          exact ⟨height_scale, nb, beam_shorten, beam, verts, roof, hnb, hverts, rfl,
            wood_roof_boxes_kind sv b _ _ hroof⟩
    · exact absurd h (by simp)
  · exact absurd h (by simp)

/-- The number of beams is at least 2, so `num_beams - 1` is not zero. -/
theorem wood_num_beams_ge (sv : services) (nb : ℚ) :
    2 ≤ wood_num_beams sv nb ∧ (((wood_num_beams sv nb - 1 : Nat) : ℚ)) ≠ 0 ∧
    ((wood_num_beams sv nb : Nat) : Int) = max 2 (sv.round_fp nb) := by
  have h0 : (0 : Int) ≤ max 2 (sv.round_fp nb) := le_trans (by decide) (le_max_left _ _)
  have h1 : ((wood_num_beams sv nb : Nat) : Int) = max 2 (sv.round_fp nb) :=
    Int.toNat_of_nonneg h0
  have h2 : (2 : Int) ≤ ((wood_num_beams sv nb : Nat) : Int) := by
    rw [h1]
    exact le_max_left _ _
  have h3 : 2 ≤ wood_num_beams sv nb := by exact_mod_cast h2
  refine ⟨h3, ?_, h1⟩
  have h4 : 0 < wood_num_beams sv nb - 1 := by omega
  exact_mod_cast (Nat.pos_iff_ne_zero.mp h4)

/-- The extent of a box along a horizontal axis is the difference of its two sides. -/
theorem get_sz_dim_eq (c : cube_t) (dm : Bool) :
    c.get_sz_dim dm.toNat = c.d dm.toNat true - c.d dm.toNat false := by
  cases dm <;> rfl

/-- With positive floor spacing and a surface wider than twice the edge clearance, every beam
box `pos ± beam_hwidth` of the beam numbers below `num_beams` lies strictly inside the
extent of the bounding box along the beam-spacing axis. -/
theorem wood_beam_pos_inside (sv : services) (b : building_t) (tq : tquad_with_ix_t)
    (N n : Nat) (hfs : 0 < sv.get_window_vspace b)
    (hw : 2 * wood_beam_edge_gap sv b < wood_base_width sv b tq) (hN : 2 ≤ N) (hn : n < N) :
    (wood_bcube sv b tq).d (!wood_dim sv b tq).toNat false
      < wood_beam_pos sv b tq N n - wood_beam_hwidth sv b ∧
    wood_beam_pos sv b tq N n + wood_beam_hwidth sv b
      < (wood_bcube sv b tq).d (!wood_dim sv b tq).toNat true := by
  have hwd : wood_base_width sv b tq = (wood_bcube sv b tq).d (!wood_dim sv b tq).toNat true
      - (wood_bcube sv b tq).d (!wood_dim sv b tq).toNat false := get_sz_dim_eq _ _
  have hh : wood_beam_hwidth sv b = 0.02 * sv.get_window_vspace b := by
    unfold wood_beam_hwidth
    norm_num
    ring
  have he : wood_epsilon sv b = 0.0004 * sv.get_window_vspace b := by
    unfold wood_epsilon
    rw [hh]
    norm_num
    ring
  have hg : wood_beam_edge_gap sv b = 0.0204 * sv.get_window_vspace b := by
    unfold wood_beam_edge_gap
    rw [hh, he]
    norm_num
    ring
  have hN1 : (0 : ℚ) < ((N - 1 : Nat) : ℚ) := by
    have : 0 < N - 1 := by omega
    exact_mod_cast this
  have hnN : (n : ℚ) ≤ ((N - 1 : Nat) : ℚ) := by
    have : n ≤ N - 1 := by omega
    exact_mod_cast this
  have hn0 : (0 : ℚ) ≤ (n : ℚ) := Nat.cast_nonneg n
  have hsp : 0 < (wood_base_width sv b tq - 2.0 * wood_beam_edge_gap sv b)
      / ((N - 1 : Nat) : ℚ) := by
    apply div_pos _ hN1
    norm_num
    linarith
  have hmul : (n : ℚ) * ((wood_base_width sv b tq - 2.0 * wood_beam_edge_gap sv b)
      / ((N - 1 : Nat) : ℚ)) ≤ wood_base_width sv b tq - 2.0 * wood_beam_edge_gap sv b := by
    have h1 := mul_le_mul_of_nonneg_right hnN (le_of_lt hsp)
    rw [mul_div_cancel₀ _ (ne_of_gt hN1)] at h1
    exact h1
  have hmul0 : 0 ≤ (n : ℚ) * ((wood_base_width sv b tq - 2.0 * wood_beam_edge_gap sv b)
      / ((N - 1 : Nat) : ℚ)) := mul_nonneg hn0 (le_of_lt hsp)
  unfold wood_beam_pos
  generalize (n : ℚ) * ((wood_base_width sv b tq - 2.0 * wood_beam_edge_gap sv b)
      / ((N - 1 : Nat) : ℚ)) = t at hmul hmul0
  rw [hg] at hmul ⊢
  rw [hh, he]
  rw [hwd] at hmul
  norm_num at hmul ⊢
  constructor <;> split_ifs <;> linarith

/-- An edge spans a position exactly when the loop over the edges does not skip it. -/
theorem wood_edge_spans_iff (E : edge_t) (nd : Nat) (x : ℚ) :
    wood_edge_spans E nd x = true ↔ ¬ (x < E.p0.get nd ∨ x ≥ E.p1.get nd) := by
  unfold wood_edge_spans
  rw [decide_eq_true_iff, not_or, not_lt, ge_iff_le, not_le]

/-- When no edge spans the position, the loop over the edges changes nothing. -/
theorem wood_beam_top_no_span (v : wood_vars) (x : ℚ) (es : List edge_t) (beam : cube_t)
    (found : Bool)
    (h : es.filter (fun E => wood_edge_spans E (!v.dim).toNat x) = []) :
    wood_beam_top v x es beam found = some (beam, found) := by
  induction es generalizing beam found with
  | nil => rw [wood_beam_top]
  | cons E rest ih =>
    by_cases hsp : wood_edge_spans E (!v.dim).toNat x = true
    · simp only [List.filter_cons, hsp, if_true] at h
      exact absurd h (by simp)
    · simp only [List.filter_cons, hsp, Bool.false_eq_true, if_false] at h
      have hskip : x < E.p0.get (!v.dim).toNat ∨ x ≥ E.p1.get (!v.dim).toNat := by
        by_contra hc
        exact hsp ((wood_edge_spans_iff E _ x).mpr hc)
      rw [wood_beam_top, if_pos hskip]
      exact ih beam found h

/-- When exactly one edge spans the position, the loop over the edges finds it once and sets
the top of the beam from the interpolated z value of that edge. -/
theorem wood_beam_top_one_span (v : wood_vars) (x : ℚ) (es : List edge_t) (beam : cube_t)
    (E : edge_t) (h : es.filter (fun E => wood_edge_spans E (!v.dim).toNat x) = [E]) :
    wood_beam_top v x es beam false = some (⟨beam.x1, beam.x2, beam.y1, beam.y2, beam.z1,
      wood_edge_top E (!v.dim).toNat x
        + (v.height_scale - 1.0) * (wood_edge_top E (!v.dim).toNat x - v.bcube.z1)
        - v.beam_shorten⟩, true) := by
  induction es generalizing beam with
  | nil => exact absurd h (by simp)
  | cons E1 rest ih =>
    by_cases hsp : wood_edge_spans E1 (!v.dim).toNat x = true
    · simp only [List.filter_cons, hsp, if_true] at h
      obtain ⟨hE, hrest⟩ := List.cons_eq_cons.mp h
      subst hE
      have hskip := (wood_edge_spans_iff E1 _ x).mp hsp
      rw [wood_beam_top, if_neg hskip]
      simp only [Bool.false_eq_true, if_false]
      rw [wood_beam_top_no_span v x rest _ true hrest]
      by_cases hz : E1.p0.z = E1.p1.z
      · rw [if_pos hz]
        have ht : wood_edge_top E1 (!v.dim).toNat x = E1.p0.z := by
          unfold wood_edge_top
          rw [hz]
          ring
        rw [ht]
      · rw [if_neg hz]
        rfl
    · simp only [List.filter_cons, hsp, Bool.false_eq_true, if_false] at h
      have hskip : x < E1.p0.get (!v.dim).toNat ∨ x ≥ E1.p1.get (!v.dim).toNat := by
        by_contra hc
        exact hsp ((wood_edge_spans_iff E1 _ x).mpr hc)
      rw [wood_beam_top, if_pos hskip]
      exact ih beam h

/-- The interpolated z value of an edge at a position it spans lies between the z values of
its end points. -/
theorem wood_edge_top_between (E : edge_t) (nd : Nat) (x : ℚ)
    (h : wood_edge_spans E nd x = true) :
    min E.p0.z E.p1.z ≤ wood_edge_top E nd x ∧ wood_edge_top E nd x ≤ max E.p0.z E.p1.z := by
  unfold wood_edge_spans at h
  obtain ⟨h0, h1⟩ := of_decide_eq_true h
  have hd : 0 < E.p1.get nd - E.p0.get nd := by linarith
  have ht0 : 0 ≤ (x - E.p0.get nd) / (E.p1.get nd - E.p0.get nd) :=
    div_nonneg (by linarith) (le_of_lt hd)
  have ht1 : (x - E.p0.get nd) / (E.p1.get nd - E.p0.get nd) ≤ 1 := by
    rw [div_le_one hd]
    linarith
  unfold wood_edge_top
  generalize (x - E.p0.get nd) / (E.p1.get nd - E.p0.get nd) = t at ht0 ht1
  rcases le_total E.p0.z E.p1.z with hz | hz
  · rw [min_eq_left hz, max_eq_right hz]
    constructor <;> nlinarith
  · rw [min_eq_right hz, max_eq_left hz]
    constructor <;> nlinarith

/-- Claim C25 (amended): for floor spacing greater than 0 and a surface wider than twice the
edge clearance whose non-base angled edges have half-open spans that partition the extent
`[lo, hi)` of the bounding box along the beam-spacing axis (every position in it is spanned
by exactly one edge of the list), every beam position `roof_pos` of the vertical beam loop is
spanned by exactly one edge `E`; the loop over the edges returns with `found` set (neither
`assert(!found)` nor `assert(found)` fails), whatever the incoming beam; and the top of the
beam is the rescaled and shortened value of the linear interpolation of the z values of the
end points of `E` at the position, which lies between these two z values. -/
theorem C25_beam_in_one_edge_span (sv : services) (b : building_t) (tq : tquad_with_ix_t)
    (hs sh : ℚ) (hfs : 0 < sv.get_window_vspace b)
    (hw : 2 * wood_beam_edge_gap sv b < wood_base_width sv b tq)
    (hpart : ∀ y : ℚ, (wood_bcube sv b tq).d (!wood_dim sv b tq).toNat false ≤ y →
      y < (wood_bcube sv b tq).d (!wood_dim sv b tq).toNat true →
      ((wood_edges (wood_tq sv b tq) (wood_bcube sv b tq).z1 (wood_dim sv b tq)).filter
        (fun E => wood_edge_spans E (!wood_dim sv b tq).toNat y)).length = 1) :
    ∀ n : Nat,
      n < wood_num_beams sv (3.0 * wood_base_width sv b tq / sv.get_window_vspace b) →
      ∃ E roof_pos,
        roof_pos = (wood_vars_of sv b tq hs
            (3.0 * wood_base_width sv b tq / sv.get_window_vspace b) sh).beam_pos_start
          + n * (wood_vars_of sv b tq hs
            (3.0 * wood_base_width sv b tq / sv.get_window_vspace b) sh).beam_spacing ∧
        (wood_edges (wood_tq sv b tq) (wood_bcube sv b tq).z1 (wood_dim sv b tq)).filter
          (fun E => wood_edge_spans E (!wood_dim sv b tq).toNat roof_pos) = [E] ∧
        (∀ beam : cube_t,
          wood_beam_top (wood_vars_of sv b tq hs
              (3.0 * wood_base_width sv b tq / sv.get_window_vspace b) sh) roof_pos
            (wood_edges (wood_tq sv b tq) (wood_bcube sv b tq).z1 (wood_dim sv b tq))
            beam false
          = some (⟨beam.x1, beam.x2, beam.y1, beam.y2, beam.z1,
              wood_edge_top E (!wood_dim sv b tq).toNat roof_pos
                + (hs - 1.0) * (wood_edge_top E (!wood_dim sv b tq).toNat roof_pos
                  - (wood_bcube sv b tq).z1)
                - sh⟩, true)) ∧
        min E.p0.z E.p1.z ≤ wood_edge_top E (!wood_dim sv b tq).toNat roof_pos ∧
        wood_edge_top E (!wood_dim sv b tq).toNat roof_pos ≤ max E.p0.z E.p1.z := by
  intro n hn
  obtain ⟨hN2, -, -⟩ :=
    wood_num_beams_ge sv (3.0 * wood_base_width sv b tq / sv.get_window_vspace b)
  have hpos : wood_beam_pos sv b tq
      (wood_num_beams sv (3.0 * wood_base_width sv b tq / sv.get_window_vspace b)) n
      = (wood_vars_of sv b tq hs
          (3.0 * wood_base_width sv b tq / sv.get_window_vspace b) sh).beam_pos_start
        + n * (wood_vars_of sv b tq hs
          (3.0 * wood_base_width sv b tq / sv.get_window_vspace b) sh).beam_spacing := by
    simp only [wood_vars_of, wood_beam_pos, wood_beam_hwidth, wood_epsilon,
      wood_beam_edge_gap, wood_base_width, wood_num_beams]
  obtain ⟨hlo, hhi⟩ := wood_beam_pos_inside sv b tq _ n hfs hw hN2 hn
  have hh : 0 < wood_beam_hwidth sv b := by
    unfold wood_beam_hwidth
    norm_num
    exact hfs
  rw [hpos] at hlo hhi
  obtain ⟨E, hE⟩ := List.length_eq_one.mp (hpart
    ((wood_vars_of sv b tq hs
        (3.0 * wood_base_width sv b tq / sv.get_window_vspace b) sh).beam_pos_start
      + n * (wood_vars_of sv b tq hs
        (3.0 * wood_base_width sv b tq / sv.get_window_vspace b) sh).beam_spacing)
    (by linarith) (by linarith))
  have hmem : E ∈ (wood_edges (wood_tq sv b tq) (wood_bcube sv b tq).z1
      (wood_dim sv b tq)).filter (fun E => wood_edge_spans E (!wood_dim sv b tq).toNat
        ((wood_vars_of sv b tq hs
          (3.0 * wood_base_width sv b tq / sv.get_window_vspace b) sh).beam_pos_start
        + n * (wood_vars_of sv b tq hs
          (3.0 * wood_base_width sv b tq / sv.get_window_vspace b) sh).beam_spacing)) := by
    rw [hE]
    exact List.mem_singleton_self E
  have hspan := (List.mem_filter.mp hmem).2
  obtain ⟨hb1, hb2⟩ := wood_edge_top_between E _ _ hspan
  exact ⟨E, _, rfl, hE, fun beam => wood_beam_top_one_span
    (wood_vars_of sv b tq hs (3.0 * wood_base_width sv b tq / sv.get_window_vspace b) sh)
    _ _ beam E hE, hb1, hb2⟩
/-- Witness for C25: the south trapezoid of the low hip roof of `ex_low_hip_shed` with floor
spacing 1 has three non-base angled edges with the spans [1.847, 2), [0.153, 1.847) and
[0, 0.153), which partition [0, 2); beam 0 stands at 0.0206 on the edge from (0, 0, 1.59) to
(0.153, 0.672, 1.694), the loop over the edges finds it, and the interpolated top lies
between 1.59 and 1.694. -/
theorem C25_witness :
    0 < (ex_services 1).get_window_vspace ex_low_hip_shed ∧
    2 * wood_beam_edge_gap (ex_services 1) ex_low_hip_shed
      < wood_base_width (ex_services 1) ex_low_hip_shed ex_low_south ∧
    (wood_edges (wood_tq (ex_services 1) ex_low_hip_shed ex_low_south)
        (wood_bcube (ex_services 1) ex_low_hip_shed ex_low_south).z1
        (wood_dim (ex_services 1) ex_low_hip_shed ex_low_south)).length = 3 ∧
    ∃ E roof_pos, roof_pos = 0.0206 ∧
      E = ⟨⟨0, 0, 1.59⟩, ⟨0.153, 0.672, 1.694⟩⟩ ∧
      (wood_beam_top (wood_vars_of (ex_services 1) ex_low_hip_shed ex_low_south (85 / 13)
          (3.0 * wood_base_width (ex_services 1) ex_low_hip_shed ex_low_south
            / (ex_services 1).get_window_vspace ex_low_hip_shed) 0.00416) roof_pos
        (wood_edges (wood_tq (ex_services 1) ex_low_hip_shed ex_low_south)
          (wood_bcube (ex_services 1) ex_low_hip_shed ex_low_south).z1
          (wood_dim (ex_services 1) ex_low_hip_shed ex_low_south))
        (wood_bcube (ex_services 1) ex_low_hip_shed ex_low_south) false).map Prod.snd
        = some true ∧
      1.59 ≤ wood_edge_top E 0 roof_pos ∧ wood_edge_top E 0 roof_pos ≤ 1.694 := by
  have hfs : 0 < (ex_services 1).get_window_vspace ex_low_hip_shed := by decide!
  have hw : 2 * wood_beam_edge_gap (ex_services 1) ex_low_hip_shed
      < wood_base_width (ex_services 1) ex_low_hip_shed ex_low_south := by decide!
  have hdim : wood_dim (ex_services 1) ex_low_hip_shed ex_low_south = true := by decide!
  have hedges : wood_edges (wood_tq (ex_services 1) ex_low_hip_shed ex_low_south)
      (wood_bcube (ex_services 1) ex_low_hip_shed ex_low_south).z1 true
      = [⟨⟨1.847, 0.672, 1.694⟩, ⟨2, 0, 1.59⟩⟩,
         ⟨⟨0.153, 0.672, 1.694⟩, ⟨1.847, 0.672, 1.694⟩⟩,
         ⟨⟨0, 0, 1.59⟩, ⟨0.153, 0.672, 1.694⟩⟩] := by decide!
  have hlo : (wood_bcube (ex_services 1) ex_low_hip_shed ex_low_south).d 0 false = 0 := by
    decide!
  have hhi : (wood_bcube (ex_services 1) ex_low_hip_shed ex_low_south).d 0 true = 2 := by
    decide!
  have hpart : ∀ y : ℚ,
      (wood_bcube (ex_services 1) ex_low_hip_shed ex_low_south).d
        (!wood_dim (ex_services 1) ex_low_hip_shed ex_low_south).toNat false ≤ y →
      y < (wood_bcube (ex_services 1) ex_low_hip_shed ex_low_south).d
        (!wood_dim (ex_services 1) ex_low_hip_shed ex_low_south).toNat true →
      ((wood_edges (wood_tq (ex_services 1) ex_low_hip_shed ex_low_south)
        (wood_bcube (ex_services 1) ex_low_hip_shed ex_low_south).z1
        (wood_dim (ex_services 1) ex_low_hip_shed ex_low_south)).filter
        (fun E => wood_edge_spans E
          (!wood_dim (ex_services 1) ex_low_hip_shed ex_low_south).toNat y)).length = 1 := by
    intro y
    rw [hdim, hedges]
    simp only [Bool.not_true, Bool.toNat_false]
    rw [hlo, hhi]
    intro h0 h2
    simp only [List.filter_cons, List.filter_nil, wood_edge_spans, point.get]
    by_cases ha : y < 0.153
    · have e1 : ¬ ((1.847 : ℚ) ≤ y ∧ y < 2) := fun h => by linarith [h.1]
      have e2 : ¬ ((0.153 : ℚ) ≤ y ∧ y < 1.847) := fun h => by linarith [h.1]
      have e3 : (0 : ℚ) ≤ y ∧ y < 0.153 := ⟨h0, ha⟩
      simp only [e1, e2, e3, and_self, decide_True, decide_False, Bool.false_eq_true, if_true,
        if_false, List.length_singleton]
    · by_cases hb : y < 1.847
      · have e1 : ¬ ((1.847 : ℚ) ≤ y ∧ y < 2) := fun h => by linarith [h.1]
        have e2 : (0.153 : ℚ) ≤ y ∧ y < 1.847 := ⟨not_lt.mp ha, hb⟩
        have e3 : ¬ ((0 : ℚ) ≤ y ∧ y < 0.153) := fun h => ha h.2
        simp only [e1, e2, e3, and_self, decide_True, decide_False, Bool.false_eq_true, if_true,
          if_false, List.length_singleton]
      · have e1 : (1.847 : ℚ) ≤ y ∧ y < 2 := ⟨not_lt.mp hb, h2⟩
        have e2 : ¬ ((0.153 : ℚ) ≤ y ∧ y < 1.847) := fun h => hb h.2
        have e3 : ¬ ((0 : ℚ) ≤ y ∧ y < 0.153) := fun h => ha h.2
        simp only [e1, e2, e3, and_self, decide_True, decide_False, Bool.false_eq_true, if_true,
          if_false, List.length_singleton]
  obtain ⟨E, rp, h1, h2, h3, h4, h5⟩ :=
    C25_beam_in_one_edge_span (ex_services 1) ex_low_hip_shed ex_low_south (85 / 13) 0.00416
      hfs hw hpart 0 (by decide!)
  have hrp : rp = 0.0206 := by
    rw [h1]
    decide!
  subst hrp
  have hE2 : (wood_edges (wood_tq (ex_services 1) ex_low_hip_shed ex_low_south)
      (wood_bcube (ex_services 1) ex_low_hip_shed ex_low_south).z1
      (wood_dim (ex_services 1) ex_low_hip_shed ex_low_south)).filter
      (fun E => wood_edge_spans E
        (!wood_dim (ex_services 1) ex_low_hip_shed ex_low_south).toNat 0.0206)
      = [⟨⟨0, 0, 1.59⟩, ⟨0.153, 0.672, 1.694⟩⟩] := by decide!
  rw [h2] at hE2
  have hE : E = ⟨⟨0, 0, 1.59⟩, ⟨0.153, 0.672, 1.694⟩⟩ := (List.cons_eq_cons.mp hE2).1
  subst hE
  rw [hdim] at h4 h5
  refine ⟨hfs, hw, by decide!, _, _, rfl, rfl, ?_, ?_, ?_⟩
  · rw [h3]
    rfl
  · refine le_trans ?_ h4
    decide!
  · refine le_trans h5 ?_
    decide!

/-- C25 as stated fails: `ex_roof_strip` is an attic roof surface of `ex_strip_house` (floor
spacing 1) that is 0.02 wide, less than the edge clearance 0.0204. Its only non-base angled
edge is the top edge, whose span [5, 5.02) is the whole extent of the bounding box, so the
spans partition it. Beam 0 stands at 5.0206, in no edge span, so the loop over the edges
returns with `found` unset, `assert(found)` fails, and `add_attic_woodwork` does not
return. -/
theorem C25_counterexample :
    is_attic_roof (ex_services 1) ex_strip_house ex_roof_strip false = true ∧
    (∀ y : ℚ,
      (wood_bcube (ex_services 1) ex_strip_house ex_roof_strip).d
        (!wood_dim (ex_services 1) ex_strip_house ex_roof_strip).toNat false ≤ y →
      y < (wood_bcube (ex_services 1) ex_strip_house ex_roof_strip).d
        (!wood_dim (ex_services 1) ex_strip_house ex_roof_strip).toNat true →
      ((wood_edges (wood_tq (ex_services 1) ex_strip_house ex_roof_strip)
        (wood_bcube (ex_services 1) ex_strip_house ex_roof_strip).z1
        (wood_dim (ex_services 1) ex_strip_house ex_roof_strip)).filter
        (fun E => wood_edge_spans E
          (!wood_dim (ex_services 1) ex_strip_house ex_roof_strip).toNat y)).length = 1) ∧
    wood_num_beams (ex_services 1) (3.0 * wood_base_width (ex_services 1) ex_strip_house
      ex_roof_strip / (ex_services 1).get_window_vspace ex_strip_house) = 2 ∧
    wood_beam_pos (ex_services 1) ex_strip_house ex_roof_strip 2 0 = 5.0206 ∧
    (wood_edges (wood_tq (ex_services 1) ex_strip_house ex_roof_strip)
        (wood_bcube (ex_services 1) ex_strip_house ex_roof_strip).z1
        (wood_dim (ex_services 1) ex_strip_house ex_roof_strip)).filter
      (fun E => wood_edge_spans E
        (!wood_dim (ex_services 1) ex_strip_house ex_roof_strip).toNat 5.0206) = [] ∧
    (∀ (hs sh : ℚ) (beam : cube_t),
      wood_beam_top (wood_vars_of (ex_services 1) ex_strip_house ex_roof_strip hs
          (3.0 * wood_base_width (ex_services 1) ex_strip_house ex_roof_strip
            / (ex_services 1).get_window_vspace ex_strip_house) sh) 5.0206
        (wood_edges (wood_tq (ex_services 1) ex_strip_house ex_roof_strip)
          (wood_bcube (ex_services 1) ex_strip_house ex_roof_strip).z1
          (wood_dim (ex_services 1) ex_strip_house ex_roof_strip)) beam false
        = some (beam, false)) ∧
    add_attic_woodwork_tquad (ex_services 1) ex_strip_house ex_roof_strip = none ∧
    add_attic_woodwork (ex_services 1) ex_strip_house = none := by
  have hdim : wood_dim (ex_services 1) ex_strip_house ex_roof_strip = true := by decide!
  have hedges : wood_edges (wood_tq (ex_services 1) ex_strip_house ex_roof_strip)
      (wood_bcube (ex_services 1) ex_strip_house ex_roof_strip).z1 true
      = [⟨⟨5, 4, 5.99⟩, ⟨5.02, 4, 5.99⟩⟩] := by decide!
  have hlo : (wood_bcube (ex_services 1) ex_strip_house ex_roof_strip).d 0 false = 5 := by
    decide!
  have hhi : (wood_bcube (ex_services 1) ex_strip_house ex_roof_strip).d 0 true = 5.02 := by
    decide!
  have hnone : (wood_edges (wood_tq (ex_services 1) ex_strip_house ex_roof_strip)
        (wood_bcube (ex_services 1) ex_strip_house ex_roof_strip).z1
        (wood_dim (ex_services 1) ex_strip_house ex_roof_strip)).filter
      (fun E => wood_edge_spans E
        (!wood_dim (ex_services 1) ex_strip_house ex_roof_strip).toNat 5.0206) = [] := by
    decide!
  refine ⟨by decide!, ?_, by decide!, by decide!, hnone, ?_, by decide!, by decide!⟩
  · intro y
    rw [hdim, hedges]
    simp only [Bool.not_true, Bool.toNat_false]
    rw [hlo, hhi]
    intro h0 h2
    have e1 : (5 : ℚ) ≤ y ∧ y < 5.02 := ⟨h0, h2⟩
    simp only [List.filter_cons, List.filter_nil, wood_edge_spans, point.get, e1,
      and_self, decide_True, if_true, List.length_singleton]
  · intro hs sh beam
    exact wood_beam_top_no_span _ _ _ beam false hnone

/-! ## The scene reader: bone names and indices -/

/-- The distinct names of a list that is extended by one name. -/
theorem first_appearances_concat (names : List String) (name : String) :
    first_appearances (names ++ [name])
      = if name ∈ first_appearances names then first_appearances names
        else first_appearances names ++ [name] := by
  unfold first_appearances
  rw [List.foldl_append]
  rfl

/-- The distinct names of a list are those of a prefix followed by further names. -/
theorem first_appearances_append (a b : List String) :
    ∃ t, first_appearances (a ++ b) = first_appearances a ++ t := by
  induction b using List.reverseRecOn with
  | nil => exact ⟨[], by rw [List.append_nil, List.append_nil]⟩
  | append_singleton b name ih =>
    obtain ⟨t, ht⟩ := ih
    rw [← List.append_assoc, first_appearances_concat, ht]
    split_ifs
    · exact ⟨t, rfl⟩
    · exact ⟨t ++ [name], by rw [List.append_assoc]⟩

/-- The list of distinct names has no name twice. -/
theorem first_appearances_nodup (names : List String) : (first_appearances names).Nodup := by
  induction names using List.reverseRecOn with
  | nil => exact List.nodup_nil
  | append_singleton names name ih =>
    rw [first_appearances_concat]
    split_ifs with h
    · exact ih
    · exact List.Nodup.append ih (List.nodup_singleton name)
        (List.disjoint_singleton.mpr h)

/-- The list of distinct names has the names of the list. -/
theorem first_appearances_mem (names : List String) (name : String) :
    name ∈ first_appearances names ↔ name ∈ names := by
  induction names using List.reverseRecOn with
  | nil => exact Iff.rfl
  | append_singleton names n ih =>
    rw [first_appearances_concat, List.mem_append, List.mem_singleton]
    split_ifs with h
    · constructor
      · exact fun hm => Or.inl (ih.mp hm)
      · rintro (hm | rfl)
        · exact ih.mpr hm
        · exact h
    · rw [List.mem_append, List.mem_singleton, ih]

/-- A list without repetition is its own list of distinct names. -/
theorem first_appearances_of_nodup (names : List String) (h : names.Nodup) :
    first_appearances names = names := by
  induction names using List.reverseRecOn with
  | nil => rfl
  | append_singleton names n ih =>
    have h1 : names.Nodup := (List.nodup_append.mp h).1
    have h2 : n ∉ names := fun hm =>
      (List.nodup_append.mp h).2.2 hm (List.mem_singleton_self n)
    rw [first_appearances_concat, ih h1, if_neg h2]

/-- The pairs for a list of names extended by one name. -/
theorem bone_map_from_concat (s : Nat) (ds : List String) (name : String) :
    bone_map_from s (ds ++ [name])
      = bone_map_from s ds ++ [(name, (s + ds.length) % unsigned_mod)] := by
  induction ds generalizing s with
  | nil => rfl
  | cons d rest ih =>
    rw [List.cons_append, bone_map_from, bone_map_from, ih, List.cons_append,
      List.length_cons]
    have : s + 1 + rest.length = s + (rest.length + 1) := by omega
    rw [this]

/-- The number of pairs. -/
theorem bone_map_from_length (s : Nat) (ds : List String) :
    (bone_map_from s ds).length = ds.length := by
  induction ds generalizing s with
  | nil => rfl
  | cons d rest ih => rw [bone_map_from, List.length_cons, List.length_cons, ih]

/-- The names of the pairs. -/
theorem bone_map_from_keys (s : Nat) (ds : List String) :
    (bone_map_from s ds).map Prod.fst = ds := by
  induction ds generalizing s with
  | nil => rfl
  | cons d rest ih => rw [bone_map_from, List.map_cons, ih]

/-- The indices of the pairs while the counter does not wrap around. -/
theorem bone_map_from_values (s : Nat) (ds : List String)
    (h : s + ds.length ≤ unsigned_mod) :
    (bone_map_from s ds).map Prod.snd = List.range' s ds.length := by
  induction ds generalizing s with
  | nil => rfl
  | cons d rest ih =>
    rw [List.length_cons] at h
    rw [bone_map_from, List.map_cons, List.length_cons, List.range'_succ,
      ih (s + 1) (by omega), Nat.mod_eq_of_lt (by omega)]

/-- Looking up a name among the pairs: the position of the name in the list, as an
`unsigned` value. -/
theorem bone_map_from_lookup (s : Nat) (ds : List String) (name : String) :
    (bone_map_from s ds).lookup name
      = if name ∈ ds then some ((s + ds.indexOf name) % unsigned_mod) else none := by
  induction ds generalizing s with
  | nil => rfl
  | cons d rest ih =>
    rw [bone_map_from]
    by_cases hd : name = d
    · subst hd
      simp only [List.lookup_cons, beq_self_eq_true, List.mem_cons_self, if_true,
        List.indexOf_cons_self, Nat.add_zero]
    · have hb : (name == d) = false := beq_false_of_ne hd
      simp only [List.lookup_cons, hb]
      rw [ih, List.indexOf_cons_ne _ (Ne.symm hd)]
      have hs : s + 1 + List.indexOf name rest = s + (List.indexOf name rest).succ := by
        omega
      rw [hs]
      by_cases hm : name ∈ rest
      · rw [if_pos hm, if_pos (List.mem_cons_of_mem _ hm)]
      · rw [if_neg hm, if_neg (fun h => (List.mem_cons.mp h).elim hd hm)]

/-- One call of `parse_single_bone` on a state whose map holds the pairs of the names `ds`
and which has `min(|ds|, 2^32)` bones: afterwards the same holds for `ds` extended by the
name of the bone, when it is new. -/
theorem parse_single_bone_inv {V : Type} (sv : bone_services V) (r : file_reader_assimp)
    (bone_index : Int) (pBone : aiBone) (bone_data : mesh_bone_data_t V)
    (first_vertex_offset : Nat) (res : file_reader_assimp × mesh_bone_data_t V)
    (ds : List String)
    (h : parse_single_bone sv r bone_index pBone bone_data first_vertex_offset = some res)
    (hmap : r.bone_name_to_index_map = bone_map_from 0 ds)
    (hinfo : r.bone_info.length = min ds.length unsigned_mod) :
    res.1.bone_name_to_index_map
      = bone_map_from 0 (if pBone.mName ∈ ds then ds else ds ++ [pBone.mName]) ∧
    res.1.bone_info.length
      = min (if pBone.mName ∈ ds then ds else ds ++ [pBone.mName]).length unsigned_mod := by
  have hM : 0 < unsigned_mod := by
    unfold unsigned_mod
    norm_num
  have hlook := bone_map_from_lookup 0 ds pBone.mName
  rw [← hmap, Nat.zero_add] at hlook
  unfold parse_single_bone at h
  simp only at h
  split at h
  · exact absurd h (by simp)
  rename_i wres hw
  cases h
  by_cases hmem : pBone.mName ∈ ds
  · rw [if_pos hmem] at hlook ⊢
    have hg : get_bone_id r pBone = (ds.indexOf pBone.mName % unsigned_mod, r) := by
      unfold get_bone_id
      rw [hlook]
    have hlt : ds.indexOf pBone.mName % unsigned_mod < r.bone_info.length := by
      rw [hinfo]
      have h1 : ds.indexOf pBone.mName < ds.length := List.indexOf_lt_length.mpr hmem
      have h2 := Nat.mod_le (ds.indexOf pBone.mName) unsigned_mod
      have h3 := Nat.mod_lt (ds.indexOf pBone.mName) hM
      exact lt_min (by omega) h3
    simp only [hg]
    rw [if_neg (Nat.ne_of_lt hlt)]
    exact ⟨hmap, hinfo⟩
  · rw [if_neg hmem] at hlook ⊢
    have hlen : r.bone_name_to_index_map.length = ds.length := by
      rw [hmap, bone_map_from_length]
    have hg : get_bone_id r pBone = (ds.length % unsigned_mod,
        ⟨r.had_vertex_error, bone_map_from 0 (ds ++ [pBone.mName]), r.bone_info⟩) := by
      unfold get_bone_id
      rw [hlook]
      simp only
      rw [hlen]
      unfold map_assign
      rw [hlook, bone_map_from_concat, Nat.zero_add, hmap]
      rfl
    simp only [hg]
    rw [List.length_append, List.length_singleton]
    by_cases hsmall : ds.length < unsigned_mod
    · have e1 : ds.length % unsigned_mod = r.bone_info.length := by
        rw [Nat.mod_eq_of_lt hsmall, hinfo, min_eq_left (le_of_lt hsmall)]
      rw [if_pos e1]
      refine ⟨rfl, ?_⟩
      simp only [List.length_append, List.length_singleton]
      rw [hinfo, min_eq_left (le_of_lt hsmall), min_eq_left hsmall]
    · have hge : unsigned_mod ≤ ds.length := not_lt.mp hsmall
      have e1 : ¬ ds.length % unsigned_mod = r.bone_info.length := by
        rw [hinfo, min_eq_right hge]
        exact Nat.ne_of_lt (Nat.mod_lt _ hM)
      rw [if_neg e1]
      refine ⟨rfl, ?_⟩
      simp only
      rw [hinfo, min_eq_right hge, min_eq_right (by omega)]

/-- A sequence of calls of `parse_single_bone` from a state whose map holds the pairs of the
distinct names seen so far and which has `min(n, 2^32)` bones for these `n` names: the same
holds afterwards. -/
theorem parse_bone_calls_inv {V : Type} (sv : bone_services V)
    (calls : List (bone_call V)) (r r2 : file_reader_assimp) (names : List String)
    (h : parse_bone_calls sv r calls = some r2)
    (hmap : r.bone_name_to_index_map = bone_map_from 0 (first_appearances names))
    (hinfo : r.bone_info.length = min (first_appearances names).length unsigned_mod) :
    r2.bone_name_to_index_map
      = bone_map_from 0 (first_appearances (names ++ bone_call_names calls)) ∧
    r2.bone_info.length
      = min (first_appearances (names ++ bone_call_names calls)).length unsigned_mod := by
  induction calls generalizing r names with
  | nil =>
    rw [parse_bone_calls] at h
    cases h
    unfold bone_call_names
    rw [List.map_nil, List.append_nil]
    exact ⟨hmap, hinfo⟩
  | cons c rest ih =>
    rw [parse_bone_calls] at h
    split at h
    · exact absurd h (by simp)
    rename_i res hres
    obtain ⟨h1, h2⟩ := parse_single_bone_inv sv r _ _ _ _ res _ hres hmap hinfo
    rw [← first_appearances_concat] at h1 h2
    have := ih res.1 (names ++ [c.pBone.mName]) h h1 h2
    unfold bone_call_names at this ⊢
    rw [List.append_assoc, List.singleton_append] at this
    rw [List.map_cons]
    exact this

/-- A sequence of calls from an empty reader. -/
theorem parse_bone_calls_state {V : Type} (sv : bone_services V)
    (calls : List (bone_call V)) (r : file_reader_assimp)
    (h : parse_bone_calls sv file_reader_assimp.empty calls = some r) :
    r.bone_name_to_index_map
      = bone_map_from 0 (first_appearances (bone_call_names calls)) ∧
    r.bone_info.length
      = min (first_appearances (bone_call_names calls)).length unsigned_mod := by
  have := parse_bone_calls_inv sv calls file_reader_assimp.empty r [] h rfl rfl
  rw [List.nil_append] at this
  exact this

/-- A sequence of calls that is split in two. -/
theorem parse_bone_calls_append {V : Type} (sv : bone_services V)
    (pre post : List (bone_call V)) (r : file_reader_assimp) :
    parse_bone_calls sv r (pre ++ post)
      = (parse_bone_calls sv r pre).bind (fun r1 => parse_bone_calls sv r1 post) := by
  induction pre generalizing r with
  | nil => rfl
  | cons c rest ih =>
    rw [List.cons_append, parse_bone_calls, parse_bone_calls]
    split
    · rfl
    · exact ih _

mutual
/-- When every index of the map is less than the number of bones, the traversal of a node
returns and keeps the number of bones. -/
theorem read_node_hierarchy_recur_ok (m : List (String × Nat)) (n : Nat)
    (hm : ∀ name i, m.lookup name = some i → i < n) :
    ∀ (node : aiNode) (parent : xform_matrix) (info : List bone_info_t), info.length = n →
      ∃ info2, read_node_hierarchy_recur m node parent info = some info2 ∧ info2.length = n
  | aiNode.mk name tr ch, parent, info, hlen => by
    rw [read_node_hierarchy_recur]
    split
    · rename_i i hi
      have hlt : i < info.length := by
        rw [hlen]
        exact hm name i hi
      rw [dif_pos hlt]
      exact read_node_hierarchy_children_ok m n hm ch _ _ (by rw [List.length_set, hlen])
    · exact read_node_hierarchy_children_ok m n hm ch _ _ hlen
/-- When every index of the map is less than the number of bones, the traversal of a list of
children returns and keeps the number of bones. -/
theorem read_node_hierarchy_children_ok (m : List (String × Nat)) (n : Nat)
    (hm : ∀ name i, m.lookup name = some i → i < n) :
    ∀ (ch : List aiNode) (g : xform_matrix) (info : List bone_info_t), info.length = n →
      ∃ info2, read_node_hierarchy_children m ch g info = some info2 ∧ info2.length = n
  | [], g, info, hlen => by
    rw [read_node_hierarchy_children]
    exact ⟨info, rfl, hlen⟩
  | c :: rest, g, info, hlen => by
    rw [read_node_hierarchy_children]
    obtain ⟨info1, h1, hl1⟩ := read_node_hierarchy_recur_ok m n hm c g info hlen
    rw [h1]
    exact read_node_hierarchy_children_ok m n hm rest g info1 hl1
end
/-- The example names are distinct: the number is read back from the name. -/
theorem ex_bone_number_name (n : Nat) : ex_bone_number (ex_bone_name n) = n := by
  unfold ex_bone_number ex_bone_name
  simp only [List.tail_cons, List.map_map]
  have hid : ∀ d ∈ Nat.digits 2 n,
      ((fun c : Char => if c = '0' then 0 else 1) ∘ (fun d : Nat => if d = 0 then '0' else '1')) d
        = id d := by
    intro d hd
    have hlt : d < 2 := Nat.digits_lt_base (by decide) hd
    rcases Nat.lt_succ_iff_lt_or_eq.mp hlt with h0 | h1
    · have : d = 0 := by omega
      subst this
      rfl
    · subst h1
      rfl
  rw [List.map_congr_left hid, List.map_id, Nat.ofDigits_digits]

/-- The names of the example calls have no repetition. -/
theorem ex_numbered_calls_names (n : Nat) :
    bone_call_names (ex_numbered_calls n) = (List.range n).map ex_bone_name ∧
    ((List.range n).map ex_bone_name).Nodup := by
  constructor
  · unfold bone_call_names ex_numbered_calls
    rw [List.map_map]
    rfl
  · exact List.Nodup.map (Function.LeftInverse.injective ex_bone_number_name)
      (List.nodup_range n)

/-- A sequence of calls for bones without weights returns. -/
theorem parse_bone_calls_no_weights {V : Type} (sv : bone_services V)
    (calls : List (bone_call V)) (r : file_reader_assimp)
    (h : ∀ c ∈ calls, c.pBone.mWeights = []) :
    ∃ r2, parse_bone_calls sv r calls = some r2 := by
  induction calls generalizing r with
  | nil => exact ⟨r, rfl⟩
  | cons c rest ih =>
    rw [parse_bone_calls]
    have hc : c.pBone.mWeights = [] := h c (List.mem_cons_self _ _)
    have hsome : ∃ res, parse_single_bone sv r c.bone_index c.pBone c.bone_data
        c.first_vertex_offset = some res := by
      unfold parse_single_bone
      simp only [hc, parse_bone_weights]
      exact ⟨_, rfl⟩
    obtain ⟨res, hres⟩ := hsome
    rw [hres]
    exact ih res.1 (fun c2 hc2 => h c2 (List.mem_cons_of_mem _ hc2))

/-- Claim C31 (amended): after a sequence of `parse_single_bone` calls from an empty reader,
the names of the map are the distinct bone names in order of first appearance. When there
are at most `2^32` distinct names, `bone_info.size()` equals the size of the map, the
indices are `0..n-1` in this order, and every bone name of the calls is mapped to its
position among the distinct names. In every case an entry of the map is never changed by
later calls (the same name always gets the same index), every index of the map is less
than `bone_info.size()`, and `read_node_hierarchy_recur` returns for every node without
changing the number of bones (its assertion does not fail). -/
theorem C31_bone_indices {V : Type} (sv : bone_services V) (calls : List (bone_call V))
    (r : file_reader_assimp)
    (h : parse_bone_calls sv file_reader_assimp.empty calls = some r) :
    r.bone_name_to_index_map.map Prod.fst = first_appearances (bone_call_names calls) ∧
    ((first_appearances (bone_call_names calls)).length ≤ unsigned_mod →
      r.bone_info.length = r.bone_name_to_index_map.length ∧
      r.bone_name_to_index_map.map Prod.snd
        = List.range (first_appearances (bone_call_names calls)).length ∧
      ∀ name ∈ bone_call_names calls,
        r.bone_name_to_index_map.lookup name
          = some ((first_appearances (bone_call_names calls)).indexOf name)) ∧
    (∀ (pre post : List (bone_call V)) (r1 : file_reader_assimp), calls = pre ++ post →
      parse_bone_calls sv file_reader_assimp.empty pre = some r1 →
      ∀ name i, r1.bone_name_to_index_map.lookup name = some i →
        r.bone_name_to_index_map.lookup name = some i) ∧
    (∀ name i, r.bone_name_to_index_map.lookup name = some i → i < r.bone_info.length) ∧
    (∀ (node : aiNode) (parent : xform_matrix),
      ∃ info2, read_node_hierarchy_recur r.bone_name_to_index_map node parent r.bone_info
          = some info2 ∧ info2.length = r.bone_info.length) := by
  have hM : 0 < unsigned_mod := by
    unfold unsigned_mod
    norm_num
  obtain ⟨hmap, hinfo⟩ := parse_bone_calls_state sv calls r h
  have hidx : ∀ name i, r.bone_name_to_index_map.lookup name = some i →
      i < r.bone_info.length := by
    intro name i hi
    rw [hmap, bone_map_from_lookup, Nat.zero_add] at hi
    split_ifs at hi with hmem
    cases hi
    rw [hinfo]
    have h1 : (first_appearances (bone_call_names calls)).indexOf name
        < (first_appearances (bone_call_names calls)).length :=
      List.indexOf_lt_length.mpr hmem
    have h2 := Nat.mod_le ((first_appearances (bone_call_names calls)).indexOf name)
      unsigned_mod
    exact lt_min (by omega) (Nat.mod_lt _ hM)
  refine ⟨?_, ?_, ?_, hidx, ?_⟩
  · rw [hmap, bone_map_from_keys]
  · intro hle
    refine ⟨?_, ?_, ?_⟩
    · rw [hinfo, hmap, bone_map_from_length, min_eq_left hle]
    · rw [hmap, bone_map_from_values 0 _ (by omega), List.range_eq_range']
    · intro name hname
      have hmem : name ∈ first_appearances (bone_call_names calls) :=
        (first_appearances_mem _ name).mpr hname
      rw [hmap, bone_map_from_lookup, if_pos hmem, Nat.zero_add]
      have h1 : (first_appearances (bone_call_names calls)).indexOf name
          < (first_appearances (bone_call_names calls)).length :=
        List.indexOf_lt_length.mpr hmem
      rw [Nat.mod_eq_of_lt (by omega)]
  · intro pre post r1 hsplit hpre name i hi
    obtain ⟨hmap1, -⟩ := parse_bone_calls_state sv pre r1 hpre
    obtain ⟨t, ht⟩ := first_appearances_append (bone_call_names pre) (bone_call_names post)
    have hnames : bone_call_names calls = bone_call_names pre ++ bone_call_names post := by
      rw [hsplit]
      exact List.map_append _ _ _
    rw [hmap1, bone_map_from_lookup] at hi
    split_ifs at hi with hmem
    rw [hmap, hnames, ht, bone_map_from_lookup, if_pos (List.mem_append_left _ hmem),
      List.indexOf_append_of_mem hmem]
    exact hi
  · intro node parent
    exact read_node_hierarchy_recur_ok _ _ hidx node parent r.bone_info rfl

/-- Witness for C31: the calls for the bones "hip", "knee", "hip", "foot", "knee" give the map
hip 0, knee 1, foot 2 and three bones, and the traversal of `ex_scene_root` returns. -/
theorem C31_witness :
    ∃ r, parse_bone_calls ex_bone_services file_reader_assimp.empty ex_bone_calls = some r ∧
      r.bone_name_to_index_map = [("hip", 0), ("knee", 1), ("foot", 2)] ∧
      r.bone_info.length = 3 ∧
      (read_node_hierarchy_recur r.bone_name_to_index_map ex_scene_root 1
        r.bone_info).isSome = true := by
  have hs : (parse_bone_calls ex_bone_services file_reader_assimp.empty ex_bone_calls).isSome
      = true := by decide!
  obtain ⟨r, hr⟩ := Option.isSome_iff_exists.mp hs
  have hm : (parse_bone_calls ex_bone_services file_reader_assimp.empty ex_bone_calls).map
      (fun r => r.bone_name_to_index_map) = some [("hip", 0), ("knee", 1), ("foot", 2)] := by
    decide!
  rw [hr] at hm
  have hmap : r.bone_name_to_index_map = [("hip", 0), ("knee", 1), ("foot", 2)] :=
    Option.some.inj hm
  obtain ⟨-, hbound, -, -, hread⟩ := C31_bone_indices ex_bone_services ex_bone_calls r hr
  have hfa : (first_appearances (bone_call_names ex_bone_calls)).length ≤ unsigned_mod := by
    decide!
  obtain ⟨hlen, -, -⟩ := hbound hfa
  obtain ⟨info2, hinfo2, -⟩ := hread ex_scene_root 1
  refine ⟨r, hr, hmap, ?_, ?_⟩
  · rw [hlen, hmap]
    rfl
  · rw [hinfo2]
    rfl

/-- C31 as stated fails: the local `bone_id` of `get_bone_id` is an `unsigned`, so after
`2^32 + 1` calls for bones with distinct names (each name has at most 34 letters) the map
has `2^32 + 1` names, the last name got the index `2^32 mod 2^32 = 0` of the first name,
no bone was added for it, and `bone_info.size()` is `2^32`. -/
theorem C31_counterexample :
    ∃ r, parse_bone_calls ex_bone_services file_reader_assimp.empty
        (ex_numbered_calls (unsigned_mod + 1)) = some r ∧
      (first_appearances (bone_call_names (ex_numbered_calls (unsigned_mod + 1)))).length
        = unsigned_mod + 1 ∧
      r.bone_name_to_index_map.length = unsigned_mod + 1 ∧
      r.bone_info.length = unsigned_mod ∧
      r.bone_name_to_index_map.lookup (ex_bone_name 0) = some 0 ∧
      r.bone_name_to_index_map.lookup (ex_bone_name unsigned_mod) = some 0 ∧
      ex_bone_name 0 ≠ ex_bone_name unsigned_mod := by
  have hM : 0 < unsigned_mod := by
    unfold unsigned_mod
    norm_num
  obtain ⟨r, hr⟩ := parse_bone_calls_no_weights ex_bone_services
    (ex_numbered_calls (unsigned_mod + 1)) file_reader_assimp.empty (by
      intro c hc
      unfold ex_numbered_calls at hc
      obtain ⟨k, -, rfl⟩ := List.mem_map.mp hc
      rfl)
  obtain ⟨hmap, hinfo⟩ := parse_bone_calls_state ex_bone_services _ r hr
  obtain ⟨hnames, hnodup⟩ := ex_numbered_calls_names (unsigned_mod + 1)
  rw [hnames, first_appearances_of_nodup _ hnodup] at hmap hinfo ⊢
  have hlen : ((List.range (unsigned_mod + 1)).map ex_bone_name).length = unsigned_mod + 1 := by
    rw [List.length_map, List.length_range]
  have hlook : ∀ k, k < unsigned_mod + 1 →
      r.bone_name_to_index_map.lookup (ex_bone_name k) = some (k % unsigned_mod) := by
    intro k hk
    have hk2 : k < ((List.range (unsigned_mod + 1)).map ex_bone_name).length := by
      rw [hlen]
      exact hk
    have hget : ((List.range (unsigned_mod + 1)).map ex_bone_name)[k] = ex_bone_name k := by
      rw [List.getElem_map, List.getElem_range]
    have hix := List.indexOf_getElem hnodup k hk2
    rw [hget] at hix
    have hmem : ex_bone_name k ∈ (List.range (unsigned_mod + 1)).map ex_bone_name :=
      List.mem_map.mpr ⟨k, List.mem_range.mpr hk, rfl⟩
    rw [hmap, bone_map_from_lookup, if_pos hmem, hix, Nat.zero_add]
  refine ⟨r, hr, hlen, ?_, ?_, ?_, ?_, ?_⟩
  · rw [hmap, bone_map_from_length, hlen]
  · rw [hinfo, hlen]
    exact min_eq_right (Nat.le_succ _)
  · rw [hlook 0 (by omega), Nat.zero_mod]
  · rw [hlook unsigned_mod (by omega), Nat.mod_self]
  · intro heq
    have h1 := congrArg ex_bone_number heq
    rw [ex_bone_number_name, ex_bone_number_name] at h1
    omega

/-! ## Object population: the object list -/

/-- An `emplace_back` keeps the object list in step with the record of emissions. -/
theorem emit_in_step (objs0 : List room_object_t) (st : attic_pass) (o : room_object_t)
    (h : st.objs = objs0 ++ st.emitted.map Prod.fst) :
    (st.emit o).objs = objs0 ++ (st.emit o).emitted.map Prod.fst := by
  unfold attic_pass.emit
  simp only [List.map_append, List.map_cons, List.map_nil]
  rw [h, List.append_assoc]

/-- The light loop keeps the object list in step. -/
theorem foldl_emit_in_step (objs0 : List room_object_t) (mk : point → room_object_t)
    (ps : List point) (st : attic_pass) (h : st.objs = objs0 ++ st.emitted.map Prod.fst) :
    (ps.foldl (fun st pos => st.emit (mk pos)) st).objs
      = objs0 ++ (ps.foldl (fun st pos => st.emit (mk pos)) st).emitted.map Prod.fst := by
  induction ps generalizing st with
  | nil => exact h
  | cons p rest ih =>
    rw [List.foldl_cons]
    exact ih _ (emit_in_step objs0 st (mk p) h)

/-- The state after the door and the lights has the object list in step. -/
theorem attic_pass_lights_in_step (sv : services) (b : building_t) (rgen : rand_gen_t)
    (room : room_t) (part avoid : cube_t) :
    (attic_pass_lights sv b rgen room part avoid).objs
      = b.interior.objs
        ++ (attic_pass_lights sv b rgen room part avoid).emitted.map Prod.fst := by
  unfold attic_pass_lights
  apply foldl_emit_in_step
  exact emit_in_step b.interior.objs ⟨b.interior.objs, [], rgen, []⟩ _
    (List.append_nil _).symm

/-- The chimney block keeps the object list in step. -/
theorem add_attic_chimney_in_step (objs0 : List room_object_t) (sv : services)
    (b : building_t) (adoor_z2 : ℚ) (avoid : cube_t) (room_id : Int) (light_amt : ℚ)
    (st st1 : attic_pass)
    (h : add_attic_chimney sv b adoor_z2 avoid room_id light_amt st = some st1)
    (hs : st.objs = objs0 ++ st.emitted.map Prod.fst) :
    st1.objs = objs0 ++ st1.emitted.map Prod.fst := by
  unfold add_attic_chimney at h
  split_ifs at h
  · cases h
    exact emit_in_step objs0 st _ hs
  · cases h
    exact hs
  · cases h
    exact hs

/-- Adding one post keeps the object list in step. -/
theorem add_attic_post_in_step (objs0 : List room_object_t) (post : cube_t) (room_id : Int)
    (dim : Bool) (beam_width : ℚ) (st : attic_pass)
    (hs : st.objs = objs0 ++ st.emitted.map Prod.fst) :
    (add_attic_post post room_id dim beam_width st).objs
      = objs0 ++ (add_attic_post post room_id dim beam_width st).emitted.map Prod.fst := by
  unfold add_attic_post
  split_ifs
  · exact hs
  · exact emit_in_step objs0 st _ hs

/-- The posts of one roof surface keep the object list in step. -/
theorem add_attic_posts_tquad_in_step (objs0 : List room_object_t) (sv : services)
    (b : building_t) (room_id : Int) (tq : tquad_with_ix_t) (st st1 : attic_pass)
    (h : add_attic_posts_tquad sv b room_id tq st = some st1)
    (hs : st.objs = objs0 ++ st.emitted.map Prod.fst) :
    st1.objs = objs0 ++ st1.emitted.map Prod.fst := by
  unfold add_attic_posts_tquad at h
  simp only at h
  split_ifs at h
  · cases h; exact hs
  · cases h; exact hs
  · cases h; exact hs
  · cases h; exact hs
  · split at h
    · exact absurd h (by simp)
    · cases h
      exact add_attic_post_in_step objs0 _ _ _ _ _
        (add_attic_post_in_step objs0 _ _ _ _ st hs)

/-- The loop over the roof surfaces keeps the object list in step. -/
theorem add_attic_posts_in_step (objs0 : List room_object_t) (sv : services)
    (b : building_t) (room_id : Int) (tqs : List tquad_with_ix_t) (st st1 : attic_pass)
    (h : add_attic_posts sv b room_id tqs st = some st1)
    (hs : st.objs = objs0 ++ st.emitted.map Prod.fst) :
    st1.objs = objs0 ++ st1.emitted.map Prod.fst := by
  induction tqs generalizing st with
  | nil =>
    rw [add_attic_posts] at h
    cases h
    exact hs
  | cons tq rest ih =>
    rw [add_attic_posts] at h
    split at h
    · exact absurd h (by simp)
    · rename_i st2 hst2
      exact ih st2 h (add_attic_posts_tquad_in_step objs0 sv b room_id tq st st2 hst2 hs)

/-- The furnace loop keeps the object list in step. -/
theorem add_attic_furnace_in_step (objs0 : List room_object_t) (sv : services)
    (b : building_t) (place_area : cube_t) (floor_spacing : ℚ) (room_id : Int)
    (light_amt : ℚ) (n : Nat) (st : attic_pass)
    (hs : st.objs = objs0 ++ st.emitted.map Prod.fst) :
    (add_attic_furnace sv b place_area floor_spacing room_id light_amt n st).objs
      = objs0 ++ (add_attic_furnace sv b place_area floor_spacing room_id light_amt n
        st).emitted.map Prod.fst := by
  induction n generalizing st with
  | zero =>
    rw [add_attic_furnace]
    exact hs
  | succ n ih =>
    rw [add_attic_furnace]
    simp only
    split_ifs <;>
      first
        | exact hs
        | exact ih _ hs
        | exact emit_in_step objs0 _ _ hs

/-- A run of `add_attic_objects` up to the furnace block: the object list of the state
after the furnace block is the list the building had, followed by the emitted objects in
order, and the final state is what the external box and lamp routines make of it. -/
theorem add_attic_objects_placed (sv : services) (b : building_t) (rgen : rand_gen_t)
    (st : attic_pass) (h : add_attic_objects sv b rgen = some st) :
    ∃ (room : room_t) (avoid part : cube_t) (st_c st_p : attic_pass),
      get_room b (attic_door_room_id sv b) = some room ∧
      get_attic_access_door_avoid sv b = some avoid ∧
      get_part_for_room b room = some part ∧
      add_attic_chimney sv b (attic_door_box b).z2 avoid (attic_door_room_id sv b) 1.0
        (attic_pass_lights sv b rgen room part avoid) = some st_c ∧
      add_attic_posts sv b (attic_door_room_id sv b) b.roof_tquads st_c = some st_p ∧
      (attic_pass_furnace sv b part st_p).objs
        = b.interior.objs ++ st.emitted.map Prod.fst ∧
      add_attic_objects_fill sv b part (attic_door_room_id sv b) b.interior.objs.length
        (attic_pass_furnace sv b part st_p) = some st := by
  unfold add_attic_objects at h
  simp only at h
  split at h
  · exact absurd h (by simp)
  split at h
  · exact absurd h (by simp)
  split at h
  · exact absurd h (by simp)
  · rename_i room hroom
    split at h
    · exact absurd h (by simp)
    · rename_i avoid havoid
      split at h
      · exact absurd h (by simp)
      · rename_i part hpart
        split at h
        · exact absurd h (by simp)
        · rename_i st1 hst1
          split at h
          · exact absurd h (by simp)
          · rename_i st2 hst2
            split at h
            · exact absurd h (by simp)
            · rename_i door_obj hdoor
              have hst1b : add_attic_chimney sv b (attic_door_box b).z2 avoid
                  (attic_door_room_id sv b) 1.0 (attic_pass_lights sv b rgen room part avoid)
                  = some st1 := hst1
              have hs1 := add_attic_chimney_in_step b.interior.objs sv b _ avoid _ _ _ st1
                hst1b (attic_pass_lights_in_step sv b rgen room part avoid)
              have hs2 := add_attic_posts_in_step b.interior.objs sv b _ _ st1 st2 hst2 hs1
              have hs3 : (attic_pass_furnace sv b part st2).objs = b.interior.objs
                  ++ (attic_pass_furnace sv b part st2).emitted.map Prod.fst := by
                unfold attic_pass_furnace
                split_ifs
                · exact add_attic_furnace_in_step b.interior.objs sv b _ _ _ _ 100 st2 hs2
                · exact hs2
              have hdoor2 : (attic_pass_furnace sv b part st2).objs[b.interior.objs.length]?
                  = some door_obj := hdoor
              have hfill : add_attic_objects_fill sv b part (attic_door_room_id sv b)
                  b.interior.objs.length (attic_pass_furnace sv b part st2) = some st := by
                unfold add_attic_objects_fill
                simp only
                rw [hdoor2]
                exact h
              refine ⟨room, avoid, part, st1, st2, hroom, havoid, hpart, hst1b, hst2, ?_,
                hfill⟩
              rw [hs3]
              cases h
              rw [add_attic_lamps_emitted]
              rfl
/-- The objects a run has placed when the furnace block ends are the emitted objects, in
order; the object list starts with the objects the building had, and the final state is
what the external box and lamp routines make of this state. -/
theorem placed_objects_eq (sv : services) (b : building_t) (rgen : rand_gen_t)
    (st : attic_pass) (h : add_attic_objects sv b rgen = some st) :
    ∃ (room : room_t) (avoid part : cube_t) (st_c st_p : attic_pass),
      get_room b (attic_door_room_id sv b) = some room ∧
      get_attic_access_door_avoid sv b = some avoid ∧
      get_part_for_room b room = some part ∧
      add_attic_chimney sv b (attic_door_box b).z2 avoid (attic_door_room_id sv b) 1.0
        (attic_pass_lights sv b rgen room part avoid) = some st_c ∧
      add_attic_posts sv b (attic_door_room_id sv b) b.roof_tquads st_c = some st_p ∧
      (attic_pass_furnace sv b part st_p).objs.take b.interior.objs.length
        = b.interior.objs ∧
      placed_objects b (attic_pass_furnace sv b part st_p) = st.emitted.map Prod.fst ∧
      add_attic_objects_fill sv b part (attic_door_room_id sv b) b.interior.objs.length
        (attic_pass_furnace sv b part st_p) = some st := by
  obtain ⟨room, avoid, part, st_c, st_p, hroom, havoid, hpart, hc1, hc2, hobjs, hfill⟩ :=
    add_attic_objects_placed sv b rgen st h
  refine ⟨room, avoid, part, st_c, st_p, hroom, havoid, hpart, hc1, hc2, ?_, ?_, hfill⟩
  · rw [hobjs, List.take_left]
  · unfold placed_objects
    rw [hobjs, List.drop_left]

/-- The furnaces placed by a run are the objects of the entries of the furnace block. -/
theorem placed_furnaces_eq (sv : services) (b : building_t) (rgen : rand_gen_t)
    (st : attic_pass) (h : add_attic_objects sv b rgen = some st) :
    ∃ (room : room_t) (avoid part : cube_t) (st_c st_p : attic_pass),
      get_room b (attic_door_room_id sv b) = some room ∧
      get_attic_access_door_avoid sv b = some avoid ∧
      get_part_for_room b room = some part ∧
      add_attic_chimney sv b (attic_door_box b).z2 avoid (attic_door_room_id sv b) 1.0
        (attic_pass_lights sv b rgen room part avoid) = some st_c ∧
      add_attic_posts sv b (attic_door_room_id sv b) b.roof_tquads st_c = some st_p ∧
      st_p.rgen = rgen ∧
      (attic_pass_furnace sv b part st_p).objs.take b.interior.objs.length
        = b.interior.objs ∧
      placed_furnaces b (attic_pass_furnace sv b part st_p)
        = (attic_furnace_entries sv b part st_p).map Prod.fst ∧
      add_attic_objects_fill sv b part (attic_door_room_id sv b) b.interior.objs.length
        (attic_pass_furnace sv b part st_p) = some st := by
  obtain ⟨room, avoid, part, st_c, st_p, hroom, havoid, hpart, hc1, hc2, htake, hplaced,
    hfill⟩ := placed_objects_eq sv b rgen st h
  obtain ⟨room2, part2, avoid2, st_c2, st_p2, hroom2, hpart2, havoid2, hc12, hc22, hrg, hf⟩ :=
    emitted_furnaces_eq sv b rgen st h
  have e1 : room2 = room := Option.some.inj (hroom2.symm.trans hroom)
  subst e1
  have e2 : part2 = part := Option.some.inj (hpart2.symm.trans hpart)
  subst e2
  have e3 : avoid2 = avoid := Option.some.inj (havoid2.symm.trans havoid)
  subst e3
  have e4 : st_c2 = st_c := Option.some.inj (hc12.symm.trans hc1)
  subst e4
  have e5 : st_p2 = st_p := Option.some.inj (hc22.symm.trans hc2)
  subst e5
  refine ⟨room2, avoid2, part2, st_c2, st_p2, hroom, havoid, hpart, hc1, hc2, hrg, htake, ?_,
    hfill⟩
  unfold placed_furnaces
  rw [hplaced, ← hf, List.filter_map]
  rfl

/-- C12: in a run of `add_attic_objects` the object list `objs` after the furnace block
(the list handed to `add_boxes_to_space`) keeps the objects the building had and holds at
most one furnace among the objects placed by the run. The candidates are the draws of
`gen_furnace_cand` from the unchanged initial generator, at most 100 of them (the furnace
loop advances the generator by `k <= 100` draws). With a basement no furnace is placed;
otherwise the furnace placed is the first drawn candidate that intersects no box of the
exclusion set, as it is after the chimney and post blocks, and satisfies `cube_in_attic`,
and when every drawn candidate is rejected no furnace is placed. -/
theorem C12_furnace_first_accepted (sv : services) (b : building_t) (rgen : rand_gen_t)
    (st : attic_pass) (h : add_attic_objects sv b rgen = some st) :
    ∃ (room : room_t) (part avoid : cube_t) (st_c st_p : attic_pass),
      get_room b (attic_door_room_id sv b) = some room ∧
      get_part_for_room b room = some part ∧
      get_attic_access_door_avoid sv b = some avoid ∧
      add_attic_chimney sv b (attic_door_box b).z2 avoid (attic_door_room_id sv b) 1.0
        (attic_pass_lights sv b rgen room part avoid) = some st_c ∧
      add_attic_posts sv b (attic_door_room_id sv b) b.roof_tquads st_c = some st_p ∧
      add_attic_objects_fill sv b part (attic_door_room_id sv b) b.interior.objs.length
        (attic_pass_furnace sv b part st_p) = some st ∧
      (attic_pass_furnace sv b part st_p).objs.take b.interior.objs.length
        = b.interior.objs ∧
      (placed_furnaces b (attic_pass_furnace sv b part st_p)).length ≤ 1 ∧
      (sv.has_basement b = true →
        placed_furnaces b (attic_pass_furnace sv b part st_p) = []) ∧
      (sv.has_basement b = false →
        (∀ (rejected : List furnace_cand) (cand : furnace_cand) (rest : List furnace_cand),
          furnace_draws sv (attic_place_area sv b part) (sv.get_window_vspace b) 100 rgen
            = rejected ++ cand :: rest →
          (∀ c ∈ rejected, furnace_accepted sv b st_p.avoid_cubes c = false) →
          furnace_accepted sv b st_p.avoid_cubes cand = true →
          placed_furnaces b (attic_pass_furnace sv b part st_p)
            = [attic_furnace_object sv b cand]) ∧
        ((∀ c ∈ furnace_draws sv (attic_place_area sv b part) (sv.get_window_vspace b) 100 rgen,
            furnace_accepted sv b st_p.avoid_cubes c = false) →
          placed_furnaces b (attic_pass_furnace sv b part st_p) = [])) ∧
      (furnace_draws sv (attic_place_area sv b part) (sv.get_window_vspace b) 100 rgen).length
        ≤ 100 ∧
      (∀ st0 : attic_pass, ∃ k, k ≤ 100 ∧
        (add_attic_furnace sv b (attic_place_area sv b part) (sv.get_window_vspace b)
          (attic_door_room_id sv b) 1.0 100 st0).rgen
          = furnace_rgen_after sv (attic_place_area sv b part) (sv.get_window_vspace b) k
              st0.rgen) := by
  obtain ⟨room, avoid, part, st_c, st_p, hroom, havoid, hpart, hc1, hc2, hrg, htake, hf,
    hfill⟩ := placed_furnaces_eq sv b rgen st h
  refine ⟨room, part, avoid, st_c, st_p, hroom, hpart, havoid, hc1, hc2, hfill, htake,
    ?_, ?_, ?_, furnace_draws_length _ _ _ _ _,
    fun st0 => (add_attic_furnace_emitted sv b _ _ _ _ 100 st0).2⟩
  · rw [hf]
    unfold attic_furnace_entries
    split_ifs
    · simp
    · split <;> simp
  · intro hb
    rw [hf]
    unfold attic_furnace_entries
    rw [if_pos hb]
    rfl
  · intro hb
    rw [hf]
    unfold attic_furnace_entries
    rw [if_neg (by simp [hb]), hrg]
    constructor
    · intro rejected cand rest hd hrej hacc
      have hfind : (furnace_draws sv (attic_place_area sv b part) (sv.get_window_vspace b) 100
          rgen).find? (furnace_accepted sv b st_p.avoid_cubes) = some cand := by
        rw [List.find?_eq_some]
        exact ⟨hacc, rejected, rest, hd, fun a ha => by simp [hrej a ha]⟩
      rw [hfind]
      rfl
    · intro hall
      have hfind : (furnace_draws sv (attic_place_area sv b part) (sv.get_window_vspace b) 100
          rgen).find? (furnace_accepted sv b st_p.avoid_cubes) = none := by
        rw [List.find?_eq_none]
        intro c hc
        simp [hall c hc]
      rw [hfind]
      rfl

/-- C12 at a concrete input: in `ex_hip_house_chimney` (no basement) the first candidate
overlaps the chimney and the furnace in the final object list is the second one (the
external routines of the example add nothing). -/
theorem C12_witness :
    ∃ st, add_attic_objects (ex_services_full 1 ex_chimney ex_furnace_cands)
        ex_hip_house_chimney ⟨0, 0⟩ = some st ∧
      (st.objs.filter (fun o => decide (o.type = room_object.TYPE_FURNACE))).map
        (fun o => o.cube) = [⟨5.8, 6.3, 7, 7.5, 3, 3.7⟩] ∧
      ∃ (room : room_t) (part : cube_t) (st_p : attic_pass),
        get_room ex_hip_house_chimney (attic_door_room_id
          (ex_services_full 1 ex_chimney ex_furnace_cands) ex_hip_house_chimney) = some room ∧
        get_part_for_room ex_hip_house_chimney room = some part ∧
        (placed_furnaces ex_hip_house_chimney
          (attic_pass_furnace (ex_services_full 1 ex_chimney ex_furnace_cands)
            ex_hip_house_chimney part st_p)).length ≤ 1 := by
  have hs : (add_attic_objects (ex_services_full 1 ex_chimney ex_furnace_cands)
      ex_hip_house_chimney ⟨0, 0⟩).isSome = true := by decide!
  obtain ⟨st, hst⟩ := Option.isSome_iff_exists.mp hs
  have ht : (add_attic_objects (ex_services_full 1 ex_chimney ex_furnace_cands)
      ex_hip_house_chimney ⟨0, 0⟩).map (fun st =>
        (st.objs.filter (fun o => decide (o.type = room_object.TYPE_FURNACE))).map
          (fun o => o.cube)) = some [⟨5.8, 6.3, 7, 7.5, 3, 3.7⟩] := by
    decide!
  rw [hst] at ht
  obtain ⟨room, part, -, -, st_p, h1, h2, -, -, -, -, -, h3, -⟩ :=
    C12_furnace_first_accepted _ _ _ st hst
  exact ⟨st, hst, Option.some.inj ht, room, part, st_p, h1, h2, h3⟩
/-- C19, the run at `ex_hip_house_chimney` (floor spacing 1, hatch from z = 2.9 to z = 3,
chimney box from z = 1 to z = 9 with positive extents): the chimney object in the final
object list spans z from 2.98 to 7.5, so it starts below the hatch top z = 3, because the
clip level is the top of the door box after its shrink (2.98); `point_in_attic`, which
uses the hatch top, rejects a point of the chimney object at z = 2.99 and accepts the
point above it at z = 3. Horizontally the object lies inside the chimney box. -/
theorem C19_chimney_below_hatch_top :
    ex_hip_house_chimney.interior.attic_access.cube.z2 = 3 ∧
    (attic_door_box ex_hip_house_chimney).z2 = 2.98 ∧
    (ex_services_full 1 ex_chimney ex_furnace_cands).get_chimney ex_hip_house_chimney
      = ⟨11, 11.8, 5.6, 6.4, 1, 9⟩ ∧
    (add_attic_objects (ex_services_full 1 ex_chimney ex_furnace_cands)
        ex_hip_house_chimney ⟨0, 0⟩).map (fun st =>
      (st.objs.filter (fun o => decide (o.type = room_object.TYPE_CHIMNEY))).map
        (fun o => o.cube)) = some [⟨11.04, 11.76, 5.64, 6.36, 2.98, 7.5⟩] ∧
    point_in_attic (ex_services_full 1 ex_chimney ex_furnace_cands) ex_hip_house_chimney
      ⟨11.4, 6, 2.99⟩ = false ∧
    point_in_attic (ex_services_full 1 ex_chimney ex_furnace_cands) ex_hip_house_chimney
      ⟨11.4, 6, 3⟩ = true := by
  decide!

/-- C11, the run at `ex_flat_hip_house` (floor spacing 3, beam depth 0.24, hip roof 0.146
high with a ridge 0.2 long): the part passes the size test of `add_attic_access_door`, which
places the hatch of the example; `add_attic_objects` completes; and `add_attic_woodwork`
completes and adds four diagonal beams, each from z1 = 2.97 + 0.24*5.328/0.146 to
z2 = 2.97 + 6.82445, so with z2 below z1: none of them is strictly normalized. -/
theorem C11_diag_beam_not_normalized :
    ¬ (min (cube_t.dx ⟨0, 8.7239, 0, 10.656, 0, 3⟩) (cube_t.dy ⟨0, 8.7239, 0, 10.656, 0, 3⟩)
      < 2.75 * (ex_services 3).get_window_vspace ex_flat_hip_house0) ∧
    add_attic_access_door (ex_services 3) ex_flat_hip_house0 ex_flat_ceiling 0 1 0 ex_rgen
      = some ⟨true, ex_flat_hip_house, ex_rgen⟩ ∧
    (add_attic_objects (ex_services 3) ex_flat_hip_house ex_rgen).isSome = true ∧
    (ex_flat_hip_house.roof_tquads.map
      (fun tq => is_attic_roof (ex_services 3) ex_flat_hip_house tq false))
      = [true, true, true, true] ∧
    add_attic_woodwork (ex_services 3) ex_flat_hip_house
      = some [(wood_kind.DIAG_BEAM, ⟨8.6639, 8.7839, 0, 0.24, 85617 / 7300, 9.79445⟩),
        (wood_kind.DIAG_BEAM, ⟨-0.06, 0.06, 0, 0.24, 85617 / 7300, 9.79445⟩),
        (wood_kind.DIAG_BEAM, ⟨-0.06, 0.06, 10.416, 10.656, 85617 / 7300, 9.79445⟩),
        (wood_kind.DIAG_BEAM, ⟨8.6639, 8.7839, 10.416, 10.656, 85617 / 7300, 9.79445⟩)] ∧
    (9.79445 : ℚ) < 85617 / 7300 ∧
    cube_t.is_strictly_normalized ⟨8.6639, 8.7839, 0, 0.24, 85617 / 7300, 9.79445⟩ = false := by
  decide!

/-! ## Single precision rounding: accuracy -/

/-- The function `pow2` is the power of two of Mathlib. -/
theorem pow2_eq (k : ℤ) : pow2 k = (2 : ℚ) ^ k := by
  unfold pow2
  split_ifs with h
  · have hk : k = (k.toNat : ℤ) := (Int.toNat_of_nonneg h).symm
    conv_rhs => rw [hk]
    rw [zpow_natCast]
    push_cast
    rfl
  · have hk0 : 0 ≤ -k := by omega
    have hk : k = -((-k).toNat : ℤ) := by rw [Int.toNat_of_nonneg hk0]; ring
    conv_rhs => rw [hk]
    rw [zpow_neg, zpow_natCast]
    push_cast
    rw [one_div]

/-- Powers of two are positive. -/
theorem pow2_pos (k : ℤ) : 0 < pow2 k := by
  rw [pow2_eq]
  positivity

/-- Rounding to the nearest integer moves a number by at most one half. -/
theorem round_half_even_err (x : ℚ) : |(round_half_even x : ℚ) - x| ≤ 1 / 2 := by
  unfold round_half_even
  have h1 := Int.floor_le x
  have h2 := Int.lt_floor_add_one x
  split_ifs <;> push_cast <;> rw [abs_le] <;> constructor <;> linarith

/-- The halving loop finds the leading bit when it has enough fuel. -/
theorem nat_log2_loop_spec (fuel n : Nat) (hn : n ≠ 0) (hf : n ≤ fuel) :
    2 ^ nat_log2_loop fuel n ≤ n ∧ n < 2 ^ (nat_log2_loop fuel n + 1) := by
  induction fuel generalizing n with
  | zero => omega
  | succ fuel ih =>
    rw [nat_log2_loop]
    split_ifs with h
    · constructor <;> simp <;> omega
    · obtain ⟨h1, h2⟩ := ih (n / 2) (by omega) (by omega)
      constructor
      · rw [pow_succ]
        omega
      · rw [pow_succ]
        omega

/-- The leading bit: `2^k ≤ n < 2^(k+1)` for `k = nat_log2 n` and `n > 0`. -/
theorem nat_log2_spec (n : Nat) (hn : n ≠ 0) :
    2 ^ nat_log2 n ≤ n ∧ n < 2 ^ (nat_log2 n + 1) :=
  nat_log2_loop_spec n n hn le_rfl

/-- The binary exponent of a nonzero number is not too large: `2^e ≤ |x|`. -/
theorem float_exponent_le (x : ℚ) (hx : x ≠ 0) : pow2 (float_exponent x) ≤ |x| := by
  unfold float_exponent
  simp only
  split_ifs with h
  · exact h
  · have hn : x.num.natAbs ≠ 0 := by
      rw [Ne, Int.natAbs_eq_zero, Rat.num_eq_zero]
      exact hx
    have h1 : ((2 : ℚ) ^ (nat_log2 x.num.natAbs)) ≤ (x.num.natAbs : ℚ) := by
      exact_mod_cast (nat_log2_spec _ hn).1
    have h2 : (x.den : ℚ) ≤ (2 : ℚ) ^ (nat_log2 x.den + 1) := by
      exact_mod_cast (nat_log2_spec _ x.den_nz).2.le
    have hd : (0 : ℚ) < x.den := by exact_mod_cast x.den_pos
    have habs : |x| = (x.num.natAbs : ℚ) / x.den := by
      conv_lhs => rw [← Rat.num_div_den x]
      rw [abs_div, abs_of_pos hd, Nat.cast_natAbs, Int.cast_abs]
    rw [habs, pow2_eq]
    have he : ((nat_log2 x.num.natAbs : ℤ) - (nat_log2 x.den : ℤ) - 1)
        = (nat_log2 x.num.natAbs : ℤ) - ((nat_log2 x.den + 1 : ℕ) : ℤ) := by
      push_cast
      ring
    rw [he, zpow_sub₀ (by norm_num), zpow_natCast, zpow_natCast]
    exact div_le_div₀ (by positivity) h1 hd h2

/-- Binary32 rounding has relative error at most `2^-24`. -/
theorem round_float_accurate : float_accurate round_float := by
  intro x
  unfold round_float
  split_ifs with hx
  · simp [hx]
  · have hup : 0 < pow2 (float_exponent x - 23) := pow2_pos _
    have herr := round_half_even_err (x / pow2 (float_exponent x - 23))
    have hsplit : (round_half_even (x / pow2 (float_exponent x - 23)) : ℚ)
          * pow2 (float_exponent x - 23) - x
        = ((round_half_even (x / pow2 (float_exponent x - 23)) : ℚ)
          - x / pow2 (float_exponent x - 23)) * pow2 (float_exponent x - 23) := by
      field_simp
    have hu2 : pow2 (float_exponent x - 23) = pow2 (float_exponent x) / 8388608 := by
      rw [pow2_eq, pow2_eq, zpow_sub₀ (by norm_num)]
      norm_num
    have hle := float_exponent_le x hx
    rw [hsplit, abs_mul, abs_of_pos hup]
    calc |(round_half_even (x / pow2 (float_exponent x - 23)) : ℚ)
            - x / pow2 (float_exponent x - 23)| * pow2 (float_exponent x - 23)
        ≤ 1 / 2 * pow2 (float_exponent x - 23) := mul_le_mul_of_nonneg_right herr hup.le
      _ = pow2 (float_exponent x) / 16777216 := by rw [hu2]; ring
      _ ≤ |x| / 16777216 := div_le_div_of_nonneg_right hle (by norm_num)

/-! ## Lemmas on the room loop in single precision -/

section scan_flt
variable (rnd : ℚ → ℚ) (sv : services) (part_ix floor : Nat) (hl hw : ℚ)

/-- A room that is not eligible is skipped by the loop (single precision). -/
theorem scan_rooms_flt_skip (room : room_t) (rest : List room_t) (st : room_scan)
    (h : room_eligible_flt rnd sv part_ix floor hl hw room = false) :
    scan_rooms_flt rnd sv part_ix floor hl hw (room :: rest) st
      = scan_rooms_flt rnd sv part_ix floor hl hw rest st := by
  rw [scan_rooms_flt]
  simp only [room_eligible_flt, Bool.and_eq_false_iff, decide_eq_false_iff_not, Bool.not_eq_false',
    ge_iff_le, not_le] at h
  split_ifs <;> first | rfl | (exfalso; tauto)

/-- An eligible hallway ends the loop and becomes the chosen room (single precision). -/
theorem scan_rooms_flt_hallway (room : room_t) (rest : List room_t) (st : room_scan)
    (h : room_eligible_flt rnd sv part_ix floor hl hw room = true) (hh : room.is_hallway = true) :
    scan_rooms_flt rnd sv part_ix floor hl hw (room :: rest) st = ⟨room, st.best_area, true⟩ := by
  rw [scan_rooms_flt]
  simp only [room_eligible_flt, Bool.and_eq_true, decide_eq_true_eq, Bool.not_eq_true',
    ge_iff_le] at h
  obtain ⟨⟨⟨h1, h2⟩, h3⟩, h4⟩ := h
  rw [if_neg (by simpa using h1), if_neg (by simp [h2]),
    if_neg (by rw [not_or, not_lt, not_lt]; exact ⟨h3, h4⟩), if_pos hh]

/-- An eligible room that is not a hallway replaces the best room exactly when its area
is larger than the best area so far (single precision). -/
theorem scan_rooms_flt_room (room : room_t) (rest : List room_t) (st : room_scan)
    (h : room_eligible_flt rnd sv part_ix floor hl hw room = true) (hh : room.is_hallway = false) :
    scan_rooms_flt rnd sv part_ix floor hl hw (room :: rest) st
      = if room_area_flt rnd room > st.best_area then
          scan_rooms_flt rnd sv part_ix floor hl hw rest ⟨room, room_area_flt rnd room, st.in_hallway⟩
        else scan_rooms_flt rnd sv part_ix floor hl hw rest st := by
  rw [scan_rooms_flt]
  simp only [room_eligible_flt, Bool.and_eq_true, decide_eq_true_eq, Bool.not_eq_true',
    ge_iff_le] at h
  obtain ⟨⟨⟨h1, h2⟩, h3⟩, h4⟩ := h
  rw [if_neg (by simpa using h1), if_neg (by simp [h2]),
    if_neg (by rw [not_or, not_lt, not_lt]; exact ⟨h3, h4⟩), if_neg (by simp [hh])]
  rfl

/-- Without eligible rooms the loop leaves its state unchanged (single precision). -/
theorem scan_rooms_flt_none (rooms : List room_t) (st : room_scan)
    (h : rooms.filter (room_eligible_flt rnd sv part_ix floor hl hw) = []) :
    scan_rooms_flt rnd sv part_ix floor hl hw rooms st = st := by
  induction rooms with
  | nil => rfl
  | cons room rest ih =>
    have hr : room_eligible_flt rnd sv part_ix floor hl hw room = false := by
      by_contra hc
      rw [List.filter_cons_of_pos (by simpa using hc)] at h
      exact List.cons_ne_nil _ _ h
    rw [List.filter_cons_of_neg (by simp [hr])] at h
    rw [scan_rooms_flt_skip rnd sv part_ix floor hl hw room rest st hr, ih h]

/-- If the eligible rooms hold a hallway, the loop ends with the first one of them
(single precision). -/
theorem scan_rooms_flt_first_hallway (rooms : List room_t) (st : room_scan) (hall : room_t)
    (h : (rooms.filter (room_eligible_flt rnd sv part_ix floor hl hw)).find? (fun r => r.is_hallway)
      = some hall) :
    (scan_rooms_flt rnd sv part_ix floor hl hw rooms st).best_room = hall ∧
    (scan_rooms_flt rnd sv part_ix floor hl hw rooms st).in_hallway = true := by
  induction rooms generalizing st with
  | nil => simp at h
  | cons room rest ih =>
    cases hr : room_eligible_flt rnd sv part_ix floor hl hw room with
    | false =>
      rw [List.filter_cons_of_neg (by simp [hr])] at h
      rw [scan_rooms_flt_skip rnd sv part_ix floor hl hw room rest st hr]
      exact ih st h
    | true =>
      rw [List.filter_cons_of_pos hr] at h
      cases hh : room.is_hallway with
      | true =>
        rw [List.find?_cons_of_pos _ hh] at h
        rw [scan_rooms_flt_hallway rnd sv part_ix floor hl hw room rest st hr hh]
        exact ⟨Option.some.inj h, rfl⟩
      | false =>
        rw [List.find?_cons_of_neg _ (by simp [hh])] at h
        rw [scan_rooms_flt_room rnd sv part_ix floor hl hw room rest st hr hh]
        split_ifs
        · exact ih _ h
        · exact ih _ h

/-- Without an eligible hallway the loop either keeps its state (no eligible room is larger
than the best area it started with) or ends with the first eligible room of maximum rounded area. -/
theorem scan_rooms_flt_largest (rooms : List room_t) (st : room_scan)
    (hno : (rooms.filter (room_eligible_flt rnd sv part_ix floor hl hw)).find? (fun r => r.is_hallway)
      = none) :
    (scan_rooms_flt rnd sv part_ix floor hl hw rooms st).in_hallway = st.in_hallway ∧
    ((scan_rooms_flt rnd sv part_ix floor hl hw rooms st = st ∧
        ∀ r ∈ rooms.filter (room_eligible_flt rnd sv part_ix floor hl hw), room_area_flt rnd r ≤ st.best_area) ∨
      ∃ pre post, rooms.filter (room_eligible_flt rnd sv part_ix floor hl hw)
          = pre ++ (scan_rooms_flt rnd sv part_ix floor hl hw rooms st).best_room :: post ∧
        (∀ r ∈ pre, room_area_flt rnd r < room_area_flt rnd (scan_rooms_flt rnd sv part_ix floor hl hw rooms st).best_room) ∧
        (∀ r ∈ post, room_area_flt rnd r ≤ room_area_flt rnd (scan_rooms_flt rnd sv part_ix floor hl hw rooms st).best_room) ∧
        st.best_area < room_area_flt rnd (scan_rooms_flt rnd sv part_ix floor hl hw rooms st).best_room ∧
        (scan_rooms_flt rnd sv part_ix floor hl hw rooms st).best_area
          = room_area_flt rnd (scan_rooms_flt rnd sv part_ix floor hl hw rooms st).best_room) := by
  induction rooms generalizing st with
  | nil => exact ⟨rfl, Or.inl ⟨rfl, by simp⟩⟩
  | cons room rest ih =>
    cases hr : room_eligible_flt rnd sv part_ix floor hl hw room with
    | false =>
      rw [List.filter_cons_of_neg (by simp [hr])] at hno ⊢
      rw [scan_rooms_flt_skip rnd sv part_ix floor hl hw room rest st hr]
      exact ih st hno
    | true =>
      rw [List.filter_cons_of_pos hr] at hno ⊢
      have hh : room.is_hallway = false := by
        by_contra hc
        rw [List.find?_cons_of_pos _ (by simpa using hc)] at hno
        exact Option.some_ne_none _ hno
      rw [List.find?_cons_of_neg _ (by simp [hh])] at hno
      rw [scan_rooms_flt_room rnd sv part_ix floor hl hw room rest st hr hh]
      by_cases hgt : room_area_flt rnd room > st.best_area
      · rw [if_pos hgt]
        obtain ⟨h1, h2⟩ := ih ⟨room, room_area_flt rnd room, st.in_hallway⟩ hno
        refine ⟨h1, Or.inr ?_⟩
        rcases h2 with ⟨heq, hle⟩ | ⟨pre, post, hsplit, hpre, hpost, hlt, hbest⟩
        · rw [heq]
          exact ⟨[], _, rfl, by simp, hle, hgt, rfl⟩
        · refine ⟨room :: pre, post, by rw [hsplit]; rfl, ?_, hpost, lt_trans hgt hlt, hbest⟩
          intro r hrm
          rcases List.mem_cons.mp hrm with rfl | hrm
          · exact hlt
          · exact hpre r hrm
      · rw [if_neg hgt]
        obtain ⟨h1, h2⟩ := ih st hno
        refine ⟨h1, ?_⟩
        rcases h2 with ⟨heq, hle⟩ | ⟨pre, post, hsplit, hpre, hpost, hlt, hbest⟩
        · left
          refine ⟨heq, ?_⟩
          intro r hrm
          rcases List.mem_cons.mp hrm with rfl | hrm
          · exact not_lt.mp hgt
          · exact hle r hrm
        · right
          refine ⟨room :: pre, post, by rw [hsplit]; rfl, ?_, hpost, hlt, hbest⟩
          intro r hrm
          rcases List.mem_cons.mp hrm with rfl | hrm
          · exact lt_of_le_of_lt (not_lt.mp hgt) hlt
          · exact hpre r hrm

/-- The chosen room is the initial one or an eligible room of the list (single
precision). -/
theorem scan_rooms_flt_best_mem (rooms : List room_t) (st : room_scan) :
    (scan_rooms_flt rnd sv part_ix floor hl hw rooms st).best_room = st.best_room ∨
    (scan_rooms_flt rnd sv part_ix floor hl hw rooms st).best_room
      ∈ rooms.filter (room_eligible_flt rnd sv part_ix floor hl hw) := by
  induction rooms generalizing st with
  | nil => exact Or.inl rfl
  | cons room rest ih =>
    cases hr : room_eligible_flt rnd sv part_ix floor hl hw room with
    | false =>
      rw [List.filter_cons_of_neg (by simp [hr]),
        scan_rooms_flt_skip rnd sv part_ix floor hl hw room rest st hr]
      exact ih st
    | true =>
      rw [List.filter_cons_of_pos hr]
      cases hh : room.is_hallway with
      | true =>
        rw [scan_rooms_flt_hallway rnd sv part_ix floor hl hw room rest st hr hh]
        exact Or.inr (List.mem_cons_self _ _)
      | false =>
        rw [scan_rooms_flt_room rnd sv part_ix floor hl hw room rest st hr hh]
        split_ifs
        · rcases ih ⟨room, room_area_flt rnd room, st.in_hallway⟩ with h | h
          · exact Or.inr (by rw [h]; exact List.mem_cons_self _ _)
          · exact Or.inr (List.mem_cons_of_mem _ h)
        · rcases ih st with h | h
          · exact Or.inl h
          · exact Or.inr (List.mem_cons_of_mem _ h)

end scan_flt

/-! ## Access hatch placement in single precision: rounding bounds -/

/-- No rounding at all is accurate. -/
theorem float_accurate_id : float_accurate id := by
  intro x
  simp only [id, sub_self, abs_zero]
  positivity

/-- An accurate rounding moves a number of magnitude at most `B` by at most `B/2^24`. -/
theorem float_accurate_bounds (rnd : ℚ → ℚ) (hacc : float_accurate rnd) (x B : ℚ)
    (hB : |x| ≤ B) : x - B / 16777216 ≤ rnd x ∧ rnd x ≤ x + B / 16777216 := by
  have h1 := abs_le.mp (hacc x)
  constructor <;> linarith [h1.1, h1.2]

/-- An accurate rounding keeps positive numbers positive. -/
theorem float_accurate_pos (rnd : ℚ → ℚ) (hacc : float_accurate rnd) (x : ℚ) (hx : 0 < x) :
    0 < rnd x := by
  have h1 := abs_le.mp (hacc x)
  rw [abs_of_pos hx] at h1
  linarith [h1.1]

/-- An accurate rounding keeps numbers that are not positive not positive. -/
theorem float_accurate_nonpos (rnd : ℚ → ℚ) (hacc : float_accurate rnd) (x : ℚ) (hx : x ≤ 0) :
    rnd x ≤ 0 := by
  have h1 := abs_le.mp (hacc x)
  rw [abs_of_nonpos hx] at h1
  linarith [h1.2]

/-- The `float`s `half_len` and `half_wid` lie between 0.15 and 0.25 floor spacings. -/
theorem half_size_flt_bounds (rnd : ℚ → ℚ) (hacc : float_accurate rnd) (fs : ℚ) (hfs : 0 < fs) :
    (0.15 * fs ≤ rnd (0.24 * fs) ∧ rnd (0.24 * fs) ≤ 0.25 * fs) ∧
    (0.15 * fs ≤ rnd (0.16 * fs) ∧ rnd (0.16 * fs) ≤ 0.25 * fs) := by
  obtain ⟨a1, a2⟩ := float_accurate_bounds rnd hacc (0.24 * fs) (0.24 * fs)
    (by rw [abs_of_pos (by linarith)])
  obtain ⟨b1, b2⟩ := float_accurate_bounds rnd hacc (0.16 * fs) (0.16 * fs)
    (by rw [abs_of_pos (by linarith)])
  refine ⟨⟨?_, ?_⟩, ?_, ?_⟩ <;> norm_num at a1 a2 b1 b2 ⊢ <;> linarith

/-- One side of the valid area in `float` arithmetic: a range `[lo, hi]` within 10000 floor
spacings of the origin whose rounded length is at least `2.5*h` stays non-empty when both
ends are moved inward by the rounded `1.2*h`, and the rounded centre of the range lies
between the moved ends. -/
theorem shrink_side_flt (rnd : ℚ → ℚ) (hacc : float_accurate rnd) (fs lo hi h : ℚ)
    (hfs : 0 < fs) (hlo : |lo| ≤ 10000 * fs) (hhi : |hi| ≤ 10000 * fs)
    (hh1 : 0.15 * fs ≤ h) (hh2 : h ≤ 0.25 * fs) (hsz : 2.5 * h ≤ rnd (hi - lo)) :
    rnd (lo - rnd (-1.2 * h)) < rnd (hi + rnd (-1.2 * h)) ∧
    rnd (lo - rnd (-1.2 * h)) ≤ rnd (0.5 * rnd (lo + hi)) ∧
    rnd (0.5 * rnd (lo + hi)) ≤ rnd (hi + rnd (-1.2 * h)) := by
  obtain ⟨l1, l2⟩ := abs_le.mp hlo
  obtain ⟨u1, u2⟩ := abs_le.mp hhi
  have hh : 0 < h := by linarith
  obtain ⟨a1, a2⟩ := float_accurate_bounds rnd hacc (-1.2 * h) (1.2 * h)
    (by rw [abs_le]; constructor <;> linarith)
  obtain ⟨-, t2⟩ := float_accurate_bounds rnd hacc (hi - lo) (20000 * fs)
    (by rw [abs_le]; constructor <;> linarith)
  obtain ⟨-, p2⟩ := float_accurate_bounds rnd hacc (lo - rnd (-1.2 * h)) (10001 * fs)
    (by rw [abs_le]; constructor <;> linarith)
  obtain ⟨q1, -⟩ := float_accurate_bounds rnd hacc (hi + rnd (-1.2 * h)) (10001 * fs)
    (by rw [abs_le]; constructor <;> linarith)
  obtain ⟨s1, s2⟩ := float_accurate_bounds rnd hacc (lo + hi) (20000 * fs)
    (by rw [abs_le]; constructor <;> linarith)
  obtain ⟨c1, c2⟩ := float_accurate_bounds rnd hacc (0.5 * rnd (lo + hi)) (10001 * fs)
    (by rw [abs_le]; constructor <;> linarith)
  refine ⟨?_, ?_, ?_⟩ <;> linarith

/-! ## Access hatch placement in single precision: lemmas -/

/-- An eligible room has positive extent in x and y (as `float` sizes and exactly) when the
floor spacing is positive. -/
theorem room_eligible_flt_pos (rnd : ℚ → ℚ) (hacc : float_accurate rnd) (sv : services)
    (part_ix floor : Nat) (fs : ℚ) (room : room_t) (hfs : 0 < fs)
    (h : room_eligible_flt rnd sv part_ix floor (rnd (0.24 * fs)) (rnd (0.16 * fs)) room = true) :
    0 < dx_flt rnd room.cube ∧ 0 < dy_flt rnd room.cube ∧
    room.cube.x1 < room.cube.x2 ∧ room.cube.y1 < room.cube.y2 ∧ room.part_id = part_ix ∧
    2.5 * rnd (0.24 * fs) ≤ max (dx_flt rnd room.cube) (dy_flt rnd room.cube) ∧
    2.5 * rnd (0.16 * fs) ≤ min (dx_flt rnd room.cube) (dy_flt rnd room.cube) := by
  simp only [room_eligible_flt, Bool.and_eq_true, decide_eq_true_eq, ge_iff_le] at h
  obtain ⟨⟨⟨h1, _⟩, h3⟩, h4⟩ := h
  obtain ⟨-, w1, -⟩ := half_size_flt_bounds rnd hacc fs hfs
  have hw : 0 < 2.5 * rnd (0.16 * fs) := by linarith
  have hx := lt_of_lt_of_le hw (le_trans h4 (min_le_left _ _))
  have hy := lt_of_lt_of_le hw (le_trans h4 (min_le_right _ _))
  refine ⟨hx, hy, ?_, ?_, h1, h3, h4⟩
  · by_contra hc
    have := float_accurate_nonpos rnd hacc (room.cube.x2 - room.cube.x1) (by linarith)
    unfold dx_flt at hx
    linarith
  · by_contra hc
    have := float_accurate_nonpos rnd hacc (room.cube.y2 - room.cube.y1) (by linarith)
    unfold dy_flt at hy
    linarith

/-- An eligible room has positive rounded floor area when the floor spacing is positive. -/
theorem room_area_flt_pos (rnd : ℚ → ℚ) (hacc : float_accurate rnd) (sv : services)
    (part_ix floor : Nat) (fs : ℚ) (room : room_t) (hfs : 0 < fs)
    (h : room_eligible_flt rnd sv part_ix floor (rnd (0.24 * fs)) (rnd (0.16 * fs)) room = true) :
    0 < room_area_flt rnd room := by
  obtain ⟨hx, hy, -⟩ := room_eligible_flt_pos rnd hacc sv part_ix floor fs room hfs h
  exact float_accurate_pos rnd hacc _ (mul_pos hx hy)

/-- The room chosen by the loop is the default room or an eligible room. -/
theorem select_room_flt_mem (rnd : ℚ → ℚ) (sv : services) (b : building_t)
    (part_ix num_floors rooms_start : Nat)
    (hz : (select_room_flt rnd sv b part_ix num_floors rooms_start).best_room.cube.is_all_zeros
      = false) :
    (select_room_flt rnd sv b part_ix num_floors rooms_start).best_room
      ∈ eligible_rooms_flt rnd sv b part_ix num_floors rooms_start := by
  rcases scan_rooms_flt_best_mem rnd sv part_ix (top_floor_ix num_floors)
    (rnd (0.24 * sv.get_window_vspace b)) (rnd (0.16 * sv.get_window_vspace b))
    (b.interior.rooms.drop rooms_start) ⟨room_t.zero, 0.0, false⟩ with h | h
  · exfalso
    have : (select_room_flt rnd sv b part_ix num_floors rooms_start).best_room.cube.is_all_zeros
        = true := by
      unfold select_room_flt
      simp only
      rw [h]
      decide
    rw [hz] at this
    exact Bool.false_ne_true this
  · exact h

/-- What a successful call of `add_attic_access_door` in `float` arithmetic has
established. -/
theorem add_attic_access_door_flt_true (rnd : ℚ → ℚ) (sv : services) (b : building_t)
    (ceiling : cube_t) (part_ix num_floors rooms_start : Nat) (rgen : rand_gen_t)
    (r : door_result)
    (h : add_attic_access_door_flt rnd sv b ceiling part_ix num_floors rooms_start rgen = some r)
    (hret : r.ret = true) :
    ∃ part pos,
      b.parts[part_ix]? = some part ∧
      ¬ (min (dx_flt rnd part) (dy_flt rnd part) < 2.75 * sv.get_window_vspace b) ∧
      (select_room_flt rnd sv b part_ix num_floors rooms_start).best_room.cube.is_all_zeros
        = false ∧
      (door_valid_area_flt rnd sv b part_ix num_floors rooms_start).is_strictly_normalized
        = true ∧
      ((select_room_flt rnd sv b part_ix num_floors rooms_start).in_hallway = true →
        pos = (hallway_access_pos_flt rnd sv
          (select_room_flt rnd sv b part_ix num_floors rooms_start).best_room.cube
          (door_long_dim_flt rnd sv b part_ix num_floors rooms_start) rgen).1) ∧
      ((select_room_flt rnd sv b part_ix num_floors rooms_start).in_hallway = false →
        ∃ part2, get_part_for_room b
            (select_room_flt rnd sv b part_ix num_floors rooms_start).best_room = some part2 ∧
          pos = room_access_pos_flt rnd
            (select_room_flt rnd sv b part_ix num_floors rooms_start).best_room.cube part2) ∧
      r.bldg = { b with interior := { b.interior with
        attic_access := make_attic_access_flt rnd
          (select_room_flt rnd sv b part_ix num_floors rooms_start).best_room.cube
          (door_valid_area_flt rnd sv b part_ix num_floors rooms_start) ceiling
          (door_long_dim_flt rnd sv b part_ix num_floors rooms_start)
          (rnd (0.24 * sv.get_window_vspace b)) (rnd (0.16 * sv.get_window_vspace b)) pos } } := by
  unfold add_attic_access_door_flt at h
  simp only at h
  split at h
  · exact absurd h (by simp)
  · rename_i part hpart
    split at h
    · cases h; exact absurd hret (by simp)
    · rename_i hsz
      split at h
      · cases h; exact absurd hret (by simp)
      · rename_i hz
        split at h
        · cases h; exact absurd hret (by simp)
        · rename_i hva
          split at h
          · exact absurd h (by simp)
          · rename_i pos hpos
            cases h
            refine ⟨part, pos, hpart, hsz, by simpa using hz, by simpa using hva, ?_, ?_, rfl⟩
            · intro hh
              rw [if_pos hh] at hpos
              exact (Option.some.inj hpos).symm
            · intro hh
              rw [if_neg (by simp [hh])] at hpos
              rcases Option.map_eq_some'.mp hpos with ⟨p2, hp2, hp3⟩
              exact ⟨p2, hp2, hp3.symm⟩

/-- A call of `add_attic_access_door` in `float` arithmetic returns (no out-of-range
access) whenever `parts[part_ix]` exists. -/
theorem add_attic_access_door_flt_returns (rnd : ℚ → ℚ) (sv : services) (b : building_t)
    (ceiling : cube_t) (part_ix num_floors rooms_start : Nat) (rgen : rand_gen_t)
    (hpart : part_ix < b.parts.length) :
    ∃ r, add_attic_access_door_flt rnd sv b ceiling part_ix num_floors rooms_start rgen
      = some r := by
  unfold add_attic_access_door_flt
  simp only
  rw [List.getElem?_eq_getElem hpart]
  simp only
  split_ifs with h1 h2 h3 h4
  · exact ⟨_, rfl⟩
  · exact ⟨_, rfl⟩
  · exact ⟨_, rfl⟩
  · exact ⟨_, rfl⟩
  · have hp : ∃ part2, get_part_for_room b
        (select_room_flt rnd sv b part_ix num_floors rooms_start).best_room = some part2 := by
      have hm := select_room_flt_mem rnd sv b part_ix num_floors rooms_start (by simpa using h2)
      have hel := (List.mem_filter.mp hm).2
      simp only [room_eligible_flt, Bool.and_eq_true, decide_eq_true_eq] at hel
      have hid := hel.1.1.1
      unfold get_part_for_room
      rw [hid, List.getElem?_eq_getElem hpart]
      exact ⟨_, rfl⟩
    obtain ⟨part2, hp2⟩ := hp
    rw [hp2]
    exact ⟨_, rfl⟩

/-- Without rounding the room loop in `float` arithmetic is the room loop of the exact
model. -/
theorem scan_rooms_flt_id (sv : services) (part_ix floor : Nat) (hl hw : ℚ)
    (rooms : List room_t) (st : room_scan) :
    scan_rooms_flt id sv part_ix floor hl hw rooms st
      = scan_rooms sv part_ix floor hl hw rooms st := by
  induction rooms generalizing st with
  | nil => rfl
  | cons room rest ih =>
    rw [scan_rooms_flt, scan_rooms]
    simp only [ih]
    rfl

/-- Without rounding the chosen room is the one of the exact model. -/
theorem select_room_flt_id (sv : services) (b : building_t)
    (part_ix num_floors rooms_start : Nat) :
    select_room_flt id sv b part_ix num_floors rooms_start
      = select_room sv b part_ix num_floors rooms_start :=
  scan_rooms_flt_id sv part_ix _ _ _ _ _

/-- Without rounding (`rnd := id`) the model of `add_attic_access_door` in `float`
arithmetic is the exact model. -/
theorem add_attic_access_door_flt_id (sv : services) (b : building_t) (ceiling : cube_t)
    (part_ix num_floors rooms_start : Nat) (rgen : rand_gen_t) :
    add_attic_access_door_flt id sv b ceiling part_ix num_floors rooms_start rgen
      = add_attic_access_door sv b ceiling part_ix num_floors rooms_start rgen := by
  unfold add_attic_access_door_flt add_attic_access_door
  simp only [select_room_flt_id]
  rfl

/-! ## Access hatch placement in single precision: the claims -/

/-- The size filter in binary32 at the boundary: at floor spacing 5 the `float` `half_len`
is 5033165/4194304 (1.20000005), so a room of side exactly 3 fails the test
`2.5*half_len` although 3 = 2.5 x 0.24 x 5, and the call returns false; in exact arithmetic
the same room is eligible and the call returns true. -/
theorem add_attic_access_door_flt_boundary_room :
    round_float (0.24 * 5) = 5033165 / 4194304 ∧
    eligible_rooms_flt round_float (ex_services 5) (ex_boundary_house 3) 0 1 0 = [] ∧
    add_attic_access_door_flt round_float (ex_services 5) (ex_boundary_house 3)
      ex_boundary_ceiling 0 1 0 ex_rgen = some ⟨false, ex_boundary_house 3, ex_rgen⟩ ∧
    eligible_rooms (ex_services 5) (ex_boundary_house 3) 0 1 0
      = [⟨⟨0, 3, 0, 3, 5, 10⟩, 0, false, 0⟩] ∧
    (add_attic_access_door (ex_services 5) (ex_boundary_house 3)
      ex_boundary_ceiling 0 1 0 ex_rgen).map (fun r => r.ret) = some true := by
  decide!

/-- C4: in `add_attic_access_door`, with the `float` arithmetic of the source, positive floor
spacing and roundings accurate to `2^-24`, and with the eligible rooms as in
`eligible_rooms_flt`: if any eligible room is a hallway, the room chosen for the hatch is the
first eligible hallway in list order, whatever the areas of the other rooms; otherwise it is
the eligible room of maximum floor area `dx*dy` (the `float` product the loop compares), the
earliest one on ties; a successful call builds the hatch in the chosen room; and if there is
no eligible room the function returns false. -/
theorem C4_room_choice (rnd : ℚ → ℚ) (sv : services) (b : building_t) (ceiling : cube_t)
    (part_ix num_floors rooms_start : Nat) (rgen : rand_gen_t)
    (hfs : 0 < sv.get_window_vspace b) (hacc : float_accurate rnd) :
    (∀ hall, (eligible_rooms_flt rnd sv b part_ix num_floors rooms_start).find?
        (fun r => r.is_hallway) = some hall →
      (select_room_flt rnd sv b part_ix num_floors rooms_start).best_room = hall ∧
      (select_room_flt rnd sv b part_ix num_floors rooms_start).in_hallway = true) ∧
    ((eligible_rooms_flt rnd sv b part_ix num_floors rooms_start).find?
        (fun r => r.is_hallway) = none →
      eligible_rooms_flt rnd sv b part_ix num_floors rooms_start ≠ [] →
      (select_room_flt rnd sv b part_ix num_floors rooms_start).in_hallway = false ∧
      ∃ pre post, eligible_rooms_flt rnd sv b part_ix num_floors rooms_start
          = pre ++ (select_room_flt rnd sv b part_ix num_floors rooms_start).best_room :: post ∧
        (∀ r ∈ pre, room_area_flt rnd r
          < room_area_flt rnd (select_room_flt rnd sv b part_ix num_floors rooms_start).best_room) ∧
        (∀ r ∈ post, room_area_flt rnd r
          ≤ room_area_flt rnd
            (select_room_flt rnd sv b part_ix num_floors rooms_start).best_room)) ∧
    (∀ r, add_attic_access_door_flt rnd sv b ceiling part_ix num_floors rooms_start rgen
        = some r → r.ret = true →
      (select_room_flt rnd sv b part_ix num_floors rooms_start).best_room
        ∈ eligible_rooms_flt rnd sv b part_ix num_floors rooms_start ∧
      ∃ pos, r.bldg.interior.attic_access = make_attic_access_flt rnd
        (select_room_flt rnd sv b part_ix num_floors rooms_start).best_room.cube
        (door_valid_area_flt rnd sv b part_ix num_floors rooms_start) ceiling
        (door_long_dim_flt rnd sv b part_ix num_floors rooms_start)
        (rnd (0.24 * sv.get_window_vspace b)) (rnd (0.16 * sv.get_window_vspace b)) pos) ∧
    (eligible_rooms_flt rnd sv b part_ix num_floors rooms_start = [] →
      part_ix < b.parts.length →
      ∃ r, add_attic_access_door_flt rnd sv b ceiling part_ix num_floors rooms_start rgen
        = some r ∧ r.ret = false) := by
  refine ⟨?_, ?_, ?_, ?_⟩
  · intro hall hf
    exact scan_rooms_flt_first_hallway rnd sv part_ix _ _ _ _ _ hall hf
  · intro hf hne
    obtain ⟨h1, h2⟩ := scan_rooms_flt_largest rnd sv part_ix (top_floor_ix num_floors)
      (rnd (0.24 * sv.get_window_vspace b)) (rnd (0.16 * sv.get_window_vspace b))
      (b.interior.rooms.drop rooms_start) ⟨room_t.zero, 0.0, false⟩ hf
    refine ⟨h1, ?_⟩
    rcases h2 with ⟨_, hle⟩ | ⟨pre, post, hsplit, hpre, hpost, _, _⟩
    · exfalso
      obtain ⟨r0, hr0⟩ := List.exists_mem_of_ne_nil _ hne
      have h3 := hle r0 hr0
      have h4 := room_area_flt_pos rnd hacc sv part_ix _ _ r0 hfs (List.mem_filter.mp hr0).2
      norm_num at h3
      linarith
    · exact ⟨pre, post, hsplit, hpre, hpost⟩
  · intro r hr hret
    obtain ⟨part, pos, -, -, hz, -, -, -, hb⟩ :=
      add_attic_access_door_flt_true rnd sv b ceiling part_ix num_floors rooms_start rgen r
        hr hret
    refine ⟨select_room_flt_mem rnd sv b part_ix num_floors rooms_start hz, pos, ?_⟩
    rw [hb]
  · intro hnil hlen
    obtain ⟨r, hr⟩ := add_attic_access_door_flt_returns rnd sv b ceiling part_ix num_floors
      rooms_start rgen hlen
    refine ⟨r, hr, ?_⟩
    have hsel : select_room_flt rnd sv b part_ix num_floors rooms_start
        = ⟨room_t.zero, 0.0, false⟩ :=
      scan_rooms_flt_none rnd sv part_ix _ _ _ _ _ hnil
    unfold add_attic_access_door_flt at hr
    simp only at hr
    rw [hsel] at hr
    split at hr
    · exact absurd hr (by simp)
    · split at hr
      · cases hr; rfl
      · rw [if_pos (by decide)] at hr
        cases hr; rfl

/-- C4 at a concrete input in binary32: the two rooms of `ex_tie_house` are eligible at floor
spacing 1 and their `float` areas are both 3, so the loop keeps the first one, although the
exact area of the second one is larger. -/
theorem C4_witness :
    0 < (ex_services 1).get_window_vspace ex_tie_house ∧
    eligible_rooms_flt round_float (ex_services 1) ex_tie_house 0 1 0
      = [⟨⟨2, 3, 0, 3, 1, 2⟩, 0, false, 0⟩,
        ⟨⟨0, 8388609 / 8388608, 0, 12582911 / 4194304, 1, 2⟩, 0, false, 0⟩] ∧
    (eligible_rooms_flt round_float (ex_services 1) ex_tie_house 0 1 0).map
      (room_area_flt round_float) = [3, 3] ∧
    (select_room_flt round_float (ex_services 1) ex_tie_house 0 1 0).best_room
      = ⟨⟨2, 3, 0, 3, 1, 2⟩, 0, false, 0⟩ ∧
    room_area ⟨⟨2, 3, 0, 3, 1, 2⟩, 0, false, 0⟩
      < room_area ⟨⟨0, 8388609 / 8388608, 0, 12582911 / 4194304, 1, 2⟩, 0, false, 0⟩ ∧
    ((select_room_flt round_float (ex_services 1) ex_tie_house 0 1 0).in_hallway = false ∧
      ∃ pre post, eligible_rooms_flt round_float (ex_services 1) ex_tie_house 0 1 0
          = pre ++ (select_room_flt round_float (ex_services 1) ex_tie_house 0 1 0).best_room
            :: post ∧
        (∀ r ∈ pre, room_area_flt round_float r < room_area_flt round_float
          (select_room_flt round_float (ex_services 1) ex_tie_house 0 1 0).best_room) ∧
        (∀ r ∈ post, room_area_flt round_float r ≤ room_area_flt round_float
          (select_room_flt round_float (ex_services 1) ex_tie_house 0 1 0).best_room)) :=
  ⟨by decide!, by decide!, by decide!, by decide!, by decide!,
    (C4_room_choice round_float (ex_services 1) ex_tie_house ex_tie_ceiling 0 1 0 ex_rgen
      (by decide!) round_float_accurate).2.1 (by decide!) (by decide!)⟩

/-- The `float` centre of a room within range that passes the size filter lies inside its
valid area in x and in y, so clamping into the valid area does not move it. -/
theorem hatch_valid_area_flt_center (rnd : ℚ → ℚ) (hacc : float_accurate rnd) (room : cube_t)
    (ld : Bool) (fs : ℚ) (hfs : 0 < fs) (hrange : cube_in_range fs room = true)
    (hld : ld = decide (dx_flt rnd room < dy_flt rnd room))
    (hmax : 2.5 * rnd (0.24 * fs) ≤ max (dx_flt rnd room) (dy_flt rnd room))
    (hmin : 2.5 * rnd (0.16 * fs) ≤ min (dx_flt rnd room) (dy_flt rnd room)) (pos : point) :
    (pos.x = xc_flt rnd room →
      ((hatch_valid_area_flt rnd room ld (rnd (0.24 * fs)) (rnd (0.16 * fs))).clamp_pt_xy pos).x
        = xc_flt rnd room) ∧
    (pos.y = yc_flt rnd room →
      ((hatch_valid_area_flt rnd room ld (rnd (0.24 * fs)) (rnd (0.16 * fs))).clamp_pt_xy pos).y
        = yc_flt rnd room) := by
  simp only [cube_in_range, decide_eq_true_eq] at hrange
  obtain ⟨r1, r2, r3, r4⟩ := hrange
  obtain ⟨⟨l1, l2⟩, w1, w2⟩ := half_size_flt_bounds rnd hacc fs hfs
  by_cases hlt : dx_flt rnd room < dy_flt rnd room
  · rw [decide_eq_true hlt] at hld
    rw [max_eq_right hlt.le] at hmax
    rw [min_eq_left hlt.le] at hmin
    obtain ⟨-, x2, x3⟩ := shrink_side_flt rnd hacc fs room.x1 room.x2 _ hfs r1 r2 w1 w2 hmin
    obtain ⟨-, y2, y3⟩ := shrink_side_flt rnd hacc fs room.y1 room.y2 _ hfs r3 r4 l1 l2 hmax
    subst hld
    simp only [hatch_valid_area_flt, expand_in_dim_flt, cube_t.clamp_pt_xy, cube_t.set_d,
      cube_t.d, Bool.toNat_false, Bool.toNat_true, Bool.not_true, xc_flt, yc_flt]
    constructor
    · intro hp
      rw [hp, min_eq_right x3, max_eq_right x2]
    · intro hp
      rw [hp, min_eq_right y3, max_eq_right y2]
  · rw [decide_eq_false hlt] at hld
    rw [max_eq_left (not_lt.mp hlt)] at hmax
    rw [min_eq_right (not_lt.mp hlt)] at hmin
    obtain ⟨-, x2, x3⟩ := shrink_side_flt rnd hacc fs room.x1 room.x2 _ hfs r1 r2 l1 l2 hmax
    obtain ⟨-, y2, y3⟩ := shrink_side_flt rnd hacc fs room.y1 room.y2 _ hfs r3 r4 w1 w2 hmin
    subst hld
    simp only [hatch_valid_area_flt, expand_in_dim_flt, cube_t.clamp_pt_xy, cube_t.set_d,
      cube_t.d, Bool.toNat_false, Bool.toNat_true, Bool.not_false, xc_flt, yc_flt]
    constructor
    · intro hp
      rw [hp, min_eq_right x3, max_eq_right x2]
    · intro hp
      rw [hp, min_eq_right y3, max_eq_right y2]

/-- The sides of the hatch built by `make_attic_access` in `float` arithmetic: the clamped
position minus and plus the half size of the axis, each rounded. -/
theorem make_attic_access_flt_sides (rnd : ℚ → ℚ) (room va ceiling : cube_t) (ld : Bool)
    (hl hw : ℚ) (pos : point) :
    (make_attic_access_flt rnd room va ceiling ld hl hw pos).cube.x1
      = rnd ((va.clamp_pt_xy pos).x - (if ld then hw else hl)) ∧
    (make_attic_access_flt rnd room va ceiling ld hl hw pos).cube.x2
      = rnd ((va.clamp_pt_xy pos).x + (if ld then hw else hl)) ∧
    (make_attic_access_flt rnd room va ceiling ld hl hw pos).cube.y1
      = rnd ((va.clamp_pt_xy pos).y - (if ld then hl else hw)) ∧
    (make_attic_access_flt rnd room va ceiling ld hl hw pos).cube.y2
      = rnd ((va.clamp_pt_xy pos).y + (if ld then hl else hw)) := by
  cases ld <;>
  simp only [make_attic_access_flt, expand_in_dim_flt, cube_t.set_from_point, set_cube_zvals,
    cube_t.set_d, cube_t.d, Bool.toNat_false, Bool.toNat_true, Bool.not_false, Bool.not_true,
    if_true, if_false, Bool.false_eq_true, and_self]

/-- Two sides rounded from `c - h` and `c + h` have their midpoint within
`(|c| + h)/2^24` of `c`. -/
theorem hatch_side_flt_centre (rnd : ℚ → ℚ) (hacc : float_accurate rnd) (c h : ℚ)
    (hh : 0 ≤ h) : |(rnd (c - h) + rnd (c + h)) / 2 - c| ≤ (|c| + h) / 16777216 := by
  obtain ⟨a1, a2⟩ := float_accurate_bounds rnd hacc (c - h) (|c| + h)
    (by rw [abs_le]; constructor <;> linarith [neg_abs_le c, le_abs_self c])
  obtain ⟨b1, b2⟩ := float_accurate_bounds rnd hacc (c + h) (|c| + h)
    (by rw [abs_le]; constructor <;> linarith [neg_abs_le c, le_abs_self c])
  rw [abs_le]
  constructor <;> linarith

/-- C26 (amended): for a hatch placed in a room that is not a hallway by
`add_attic_access_door`, with the `float` arithmetic of the source (floor spacing > 0,
roundings accurate to `2^-24`, room within 10000 floor spacings of the origin): along each
horizontal axis in which the room spans the full part, the position the hatch is built
around is the `float` centre of the room (the clamp into the valid area does not move it),
the hatch sides are that centre minus and plus the half size of the axis, each rounded to
`float`, and so the midpoint of the hatch is within `(|centre| + half size)/2^24` of the room
centre; it need not be equal to it. -/
theorem C26_spanning_room_centred (rnd : ℚ → ℚ) (sv : services) (b : building_t)
    (ceiling : cube_t) (part_ix num_floors rooms_start : Nat) (rgen : rand_gen_t)
    (r : door_result)
    (h : add_attic_access_door_flt rnd sv b ceiling part_ix num_floors rooms_start rgen = some r)
    (hret : r.ret = true) (hfs : 0 < sv.get_window_vspace b) (hacc : float_accurate rnd)
    (hnh : (select_room_flt rnd sv b part_ix num_floors rooms_start).in_hallway = false)
    (hrange : cube_in_range (sv.get_window_vspace b)
      (select_room_flt rnd sv b part_ix num_floors rooms_start).best_room.cube = true) :
    ∃ part, get_part_for_room b (select_room_flt rnd sv b part_ix num_floors rooms_start).best_room
        = some part ∧
      (((select_room_flt rnd sv b part_ix num_floors rooms_start).best_room.cube.x1 = part.x1 ∧
          (select_room_flt rnd sv b part_ix num_floors rooms_start).best_room.cube.x2 = part.x2) →
        ((door_valid_area_flt rnd sv b part_ix num_floors rooms_start).clamp_pt_xy
            (room_access_pos_flt rnd
              (select_room_flt rnd sv b part_ix num_floors rooms_start).best_room.cube part)).x
          = xc_flt rnd (select_room_flt rnd sv b part_ix num_floors rooms_start).best_room.cube ∧
        r.bldg.interior.attic_access.cube.x1
          = rnd (xc_flt rnd (select_room_flt rnd sv b part_ix num_floors rooms_start).best_room.cube
            - (if door_long_dim_flt rnd sv b part_ix num_floors rooms_start
              then rnd (0.16 * sv.get_window_vspace b)
              else rnd (0.24 * sv.get_window_vspace b))) ∧
        r.bldg.interior.attic_access.cube.x2
          = rnd (xc_flt rnd (select_room_flt rnd sv b part_ix num_floors rooms_start).best_room.cube
            + (if door_long_dim_flt rnd sv b part_ix num_floors rooms_start
              then rnd (0.16 * sv.get_window_vspace b)
              else rnd (0.24 * sv.get_window_vspace b))) ∧
        |(r.bldg.interior.attic_access.cube.x1 + r.bldg.interior.attic_access.cube.x2) / 2
            - xc_flt rnd (select_room_flt rnd sv b part_ix num_floors rooms_start).best_room.cube|
          ≤ (|xc_flt rnd (select_room_flt rnd sv b part_ix num_floors rooms_start).best_room.cube|
            + (if door_long_dim_flt rnd sv b part_ix num_floors rooms_start
              then rnd (0.16 * sv.get_window_vspace b)
              else rnd (0.24 * sv.get_window_vspace b))) / 16777216) ∧
      (((select_room_flt rnd sv b part_ix num_floors rooms_start).best_room.cube.y1 = part.y1 ∧
          (select_room_flt rnd sv b part_ix num_floors rooms_start).best_room.cube.y2 = part.y2) →
        ((door_valid_area_flt rnd sv b part_ix num_floors rooms_start).clamp_pt_xy
            (room_access_pos_flt rnd
              (select_room_flt rnd sv b part_ix num_floors rooms_start).best_room.cube part)).y
          = yc_flt rnd (select_room_flt rnd sv b part_ix num_floors rooms_start).best_room.cube ∧
        r.bldg.interior.attic_access.cube.y1
          = rnd (yc_flt rnd (select_room_flt rnd sv b part_ix num_floors rooms_start).best_room.cube
            - (if door_long_dim_flt rnd sv b part_ix num_floors rooms_start
              then rnd (0.24 * sv.get_window_vspace b)
              else rnd (0.16 * sv.get_window_vspace b))) ∧
        r.bldg.interior.attic_access.cube.y2
          = rnd (yc_flt rnd (select_room_flt rnd sv b part_ix num_floors rooms_start).best_room.cube
            + (if door_long_dim_flt rnd sv b part_ix num_floors rooms_start
              then rnd (0.24 * sv.get_window_vspace b)
              else rnd (0.16 * sv.get_window_vspace b))) ∧
        |(r.bldg.interior.attic_access.cube.y1 + r.bldg.interior.attic_access.cube.y2) / 2
            - yc_flt rnd (select_room_flt rnd sv b part_ix num_floors rooms_start).best_room.cube|
          ≤ (|yc_flt rnd (select_room_flt rnd sv b part_ix num_floors rooms_start).best_room.cube|
            + (if door_long_dim_flt rnd sv b part_ix num_floors rooms_start
              then rnd (0.24 * sv.get_window_vspace b)
              else rnd (0.16 * sv.get_window_vspace b))) / 16777216) := by
  obtain ⟨part0, pos, -, -, hz, -, -, hroom, hb⟩ :=
    add_attic_access_door_flt_true rnd sv b ceiling part_ix num_floors rooms_start rgen r h hret
  obtain ⟨part, hpart, hpos⟩ := hroom hnh
  have hm := select_room_flt_mem rnd sv b part_ix num_floors rooms_start hz
  obtain ⟨-, -, -, -, -, hmax, hmin⟩ := room_eligible_flt_pos rnd hacc sv part_ix _ _ _ hfs
    (List.mem_filter.mp hm).2
  obtain ⟨cx, cy⟩ := hatch_valid_area_flt_center rnd hacc
    (select_room_flt rnd sv b part_ix num_floors rooms_start).best_room.cube
    (door_long_dim_flt rnd sv b part_ix num_floors rooms_start) _ hfs hrange rfl hmax hmin pos
  obtain ⟨⟨l1, -⟩, w1, -⟩ := half_size_flt_bounds rnd hacc _ hfs
  have hhx : 0 ≤ (if door_long_dim_flt rnd sv b part_ix num_floors rooms_start
      then rnd (0.16 * sv.get_window_vspace b) else rnd (0.24 * sv.get_window_vspace b)) := by
    split_ifs <;> linarith
  have hhy : 0 ≤ (if door_long_dim_flt rnd sv b part_ix num_floors rooms_start
      then rnd (0.24 * sv.get_window_vspace b) else rnd (0.16 * sv.get_window_vspace b)) := by
    split_ifs <;> linarith
  obtain ⟨s1, s2, s3, s4⟩ := make_attic_access_flt_sides rnd
    (select_room_flt rnd sv b part_ix num_floors rooms_start).best_room.cube
    (door_valid_area_flt rnd sv b part_ix num_floors rooms_start) ceiling
    (door_long_dim_flt rnd sv b part_ix num_floors rooms_start)
    (rnd (0.24 * sv.get_window_vspace b)) (rnd (0.16 * sv.get_window_vspace b)) pos
  refine ⟨part, hpart, ?_, ?_⟩
  · intro hs
    have hpx : pos.x
        = xc_flt rnd (select_room_flt rnd sv b part_ix num_floors rooms_start).best_room.cube := by
      rw [hpos]
      simp only [room_access_pos_flt, hs, and_self, decide_True, if_true]
    have hc := cx hpx
    rw [hb]
    simp only
    rw [s1, s2, ← hpos]
    change ((door_valid_area_flt rnd sv b part_ix num_floors rooms_start).clamp_pt_xy pos).x
      = _ at hc
    rw [hc]
    exact ⟨rfl, rfl, rfl, hatch_side_flt_centre rnd hacc _ _ hhx⟩
  · intro hs
    have hpy : pos.y
        = yc_flt rnd (select_room_flt rnd sv b part_ix num_floors rooms_start).best_room.cube := by
      rw [hpos]
      simp only [room_access_pos_flt, hs, and_self, decide_True, if_true]
    have hc := cy hpy
    rw [hb]
    simp only
    rw [s3, s4, ← hpos]
    change ((door_valid_area_flt rnd sv b part_ix num_floors rooms_start).clamp_pt_xy pos).y
      = _ at hc
    rw [hc]
    exact ⟨rfl, rfl, rfl, hatch_side_flt_centre rnd hacc _ _ hhy⟩

/-- C26 (amended) at a concrete input in binary32: the room of `ex_wide_house` spans the
part in x and in y; at floor spacing 2 the hatch sides in x are the `float` room centre
15.5500002 minus and plus the `float` half length 0.48, rounded. -/
theorem C26_witness :
    0 < (ex_services 2).get_window_vspace ex_wide_house ∧
    (select_room_flt round_float (ex_services 2) ex_wide_house 0 1 0).in_hallway = false ∧
    ∃ r, add_attic_access_door_flt round_float (ex_services 2) ex_wide_house ex_wide_ceiling
        0 1 0 ex_rgen = some r ∧ r.ret = true ∧
      ∃ part, get_part_for_room ex_wide_house (select_room_flt round_float (ex_services 2) ex_wide_house 0 1 0).best_room
          = some part ∧
        (((select_room_flt round_float (ex_services 2) ex_wide_house 0 1 0).best_room.cube.x1 = part.x1 ∧
            (select_room_flt round_float (ex_services 2) ex_wide_house 0 1 0).best_room.cube.x2 = part.x2) →
          ((door_valid_area_flt round_float (ex_services 2) ex_wide_house 0 1 0).clamp_pt_xy
              (room_access_pos_flt round_float
                (select_room_flt round_float (ex_services 2) ex_wide_house 0 1 0).best_room.cube part)).x
            = xc_flt round_float (select_room_flt round_float (ex_services 2) ex_wide_house 0 1 0).best_room.cube ∧
          r.bldg.interior.attic_access.cube.x1
            = round_float (xc_flt round_float (select_room_flt round_float (ex_services 2) ex_wide_house 0 1 0).best_room.cube
              - (if door_long_dim_flt round_float (ex_services 2) ex_wide_house 0 1 0
                then round_float (0.16 * (ex_services 2).get_window_vspace ex_wide_house)
                else round_float (0.24 * (ex_services 2).get_window_vspace ex_wide_house))) ∧
          r.bldg.interior.attic_access.cube.x2
            = round_float (xc_flt round_float (select_room_flt round_float (ex_services 2) ex_wide_house 0 1 0).best_room.cube
              + (if door_long_dim_flt round_float (ex_services 2) ex_wide_house 0 1 0
                then round_float (0.16 * (ex_services 2).get_window_vspace ex_wide_house)
                else round_float (0.24 * (ex_services 2).get_window_vspace ex_wide_house))) ∧
          |(r.bldg.interior.attic_access.cube.x1 + r.bldg.interior.attic_access.cube.x2) / 2
              - xc_flt round_float (select_room_flt round_float (ex_services 2) ex_wide_house 0 1 0).best_room.cube|
            ≤ (|xc_flt round_float (select_room_flt round_float (ex_services 2) ex_wide_house 0 1 0).best_room.cube|
              + (if door_long_dim_flt round_float (ex_services 2) ex_wide_house 0 1 0
                then round_float (0.16 * (ex_services 2).get_window_vspace ex_wide_house)
                else round_float (0.24 * (ex_services 2).get_window_vspace ex_wide_house))) / 16777216) ∧
        (((select_room_flt round_float (ex_services 2) ex_wide_house 0 1 0).best_room.cube.y1 = part.y1 ∧
            (select_room_flt round_float (ex_services 2) ex_wide_house 0 1 0).best_room.cube.y2 = part.y2) →
          ((door_valid_area_flt round_float (ex_services 2) ex_wide_house 0 1 0).clamp_pt_xy
              (room_access_pos_flt round_float
                (select_room_flt round_float (ex_services 2) ex_wide_house 0 1 0).best_room.cube part)).y
            = yc_flt round_float (select_room_flt round_float (ex_services 2) ex_wide_house 0 1 0).best_room.cube ∧
          r.bldg.interior.attic_access.cube.y1
            = round_float (yc_flt round_float (select_room_flt round_float (ex_services 2) ex_wide_house 0 1 0).best_room.cube
              - (if door_long_dim_flt round_float (ex_services 2) ex_wide_house 0 1 0
                then round_float (0.24 * (ex_services 2).get_window_vspace ex_wide_house)
                else round_float (0.16 * (ex_services 2).get_window_vspace ex_wide_house))) ∧
          r.bldg.interior.attic_access.cube.y2
            = round_float (yc_flt round_float (select_room_flt round_float (ex_services 2) ex_wide_house 0 1 0).best_room.cube
              + (if door_long_dim_flt round_float (ex_services 2) ex_wide_house 0 1 0
                then round_float (0.24 * (ex_services 2).get_window_vspace ex_wide_house)
                else round_float (0.16 * (ex_services 2).get_window_vspace ex_wide_house))) ∧
          |(r.bldg.interior.attic_access.cube.y1 + r.bldg.interior.attic_access.cube.y2) / 2
              - yc_flt round_float (select_room_flt round_float (ex_services 2) ex_wide_house 0 1 0).best_room.cube|
            ≤ (|yc_flt round_float (select_room_flt round_float (ex_services 2) ex_wide_house 0 1 0).best_room.cube|
              + (if door_long_dim_flt round_float (ex_services 2) ex_wide_house 0 1 0
                then round_float (0.24 * (ex_services 2).get_window_vspace ex_wide_house)
                else round_float (0.16 * (ex_services 2).get_window_vspace ex_wide_house))) / 16777216) := by
  have hs : (add_attic_access_door_flt round_float (ex_services 2) ex_wide_house
      ex_wide_ceiling 0 1 0 ex_rgen).isSome = true := by decide!
  obtain ⟨r, hr⟩ := Option.isSome_iff_exists.mp hs
  have hm : (add_attic_access_door_flt round_float (ex_services 2) ex_wide_house
      ex_wide_ceiling 0 1 0 ex_rgen).map (fun r => r.ret) = some true := by decide!
  rw [hr] at hm
  exact ⟨by decide!, by decide!, r, hr, Option.some.inj hm,
    C26_spanning_room_centred round_float (ex_services 2) ex_wide_house ex_wide_ceiling 0 1 0
      ex_rgen r hr (Option.some.inj hm) (by decide!) round_float_accurate (by decide!)
      (by decide!)⟩

/-- C26 as stated fails in binary32: the room of `ex_wide_house` is not a hallway and spans
the part in x (from 5 to the `float` 26.1), its centre in x is 16305357/1048576
(15.5500002) both exactly and as `float`; at floor spacing 2 the call returns true with the
hatch sides 15802041/1048576 (15.0700006) and 8404337/524288 (16.0300007) in x, whose
midpoint 32610715/2097152 and whose `float` centre 8152679/524288 (15.5500011) both differ
from the room centre, so that the orientation bit `dir` is set (index 1). -/
theorem C26_counterexample :
    (select_room_flt round_float (ex_services 2) ex_wide_house 0 1 0).best_room
      = ⟨⟨5, 13683917 / 524288, 0, 10, 2, 4⟩, 0, false, 0⟩ ∧
    (select_room_flt round_float (ex_services 2) ex_wide_house 0 1 0).in_hallway = false ∧
    get_part_for_room ex_wide_house ⟨⟨5, 13683917 / 524288, 0, 10, 2, 4⟩, 0, false, 0⟩
      = some ⟨5, 13683917 / 524288, 0, 10, 0, 4⟩ ∧
    round_float 5 = 5 ∧ round_float (13683917 / 524288) = 13683917 / 524288 ∧
    round_float 2 = 2 ∧
    xc_flt round_float ⟨5, 13683917 / 524288, 0, 10, 2, 4⟩ = 16305357 / 1048576 ∧
    cube_t.xc ⟨5, 13683917 / 524288, 0, 10, 2, 4⟩ = 16305357 / 1048576 ∧
    (add_attic_access_door_flt round_float (ex_services 2) ex_wide_house ex_wide_ceiling 0 1 0
        ex_rgen).map (fun r => (r.ret, r.bldg.interior.attic_access))
      = some (true, ⟨⟨15802041 / 1048576, 8404337 / 524288, 9814671 / 2097152,
        11156849 / 2097152, 3.8, 4⟩, 1⟩) ∧
    cube_t.xc ⟨15802041 / 1048576, 8404337 / 524288, 9814671 / 2097152,
        11156849 / 2097152, 3.8, 4⟩ = 32610715 / 2097152 ∧
    get_center_dim_flt round_float ⟨15802041 / 1048576, 8404337 / 524288, 9814671 / 2097152,
        11156849 / 2097152, 3.8, 4⟩ 0 = 8152679 / 524288 ∧
    cube_t.xc ⟨15802041 / 1048576, 8404337 / 524288, 9814671 / 2097152,
        11156849 / 2097152, 3.8, 4⟩ ≠ cube_t.xc ⟨5, 13683917 / 524288, 0, 10, 2, 4⟩ ∧
    get_center_dim_flt round_float ⟨15802041 / 1048576, 8404337 / 524288, 9814671 / 2097152,
        11156849 / 2097152, 3.8, 4⟩ 0 ≠ xc_flt round_float ⟨5, 13683917 / 524288, 0, 10, 2, 4⟩ := by
  decide!

end Attic
